import Mathlib

/-!
Flappy-Utkarsh: the simulation core of `src/js/game.js`.

A shallow embedding of the game's entity classes (`Bird`, `Pipe`, `Coin`,
`Background`), of `GameLogic`, and of `gameLoop`.

Conventions of the embedding.

* JavaScript numbers are rationals (`ℚ`).  In the game loop arithmetic is
  the exact arithmetic the source formulas denote, without IEEE rounding, and
  decimal literals (`0.4`, `16.67`, ...) are the rationals they spell.  The
  score counters, which the code only ever increments by integers, are
  integers.
* The functions whose results turn on rounding (`Bird.update`, the `Pipe`
  constructor, `checkPipeCollision`, `Coin.checkCollision`) are given a
  second time in double precision (`Bird.updateF64`, `Pipe.newF64`,
  `checkPipeCollisionF64`, `Coin.checkCollisionF64`): every sum, difference,
  product, quotient and square root is rounded to the nearest binary64 number,
  ties to even (`F64`); the doubles are the rationals they denote; overflow
  and NaN are not modelled.
* The global object `gameState`, the module variables `lastTime` and
  `animationFrameId`, the browser window size and the frame scheduler make
  up one record, `World`.  A function of the source that mutates them is a
  function `World → World`.
* A dereference of an absent object (`gameState.bird` being `null`, an
  array slot being `undefined`) raises an uncaught `TypeError`; a function
  that can do so returns `Option`, and `none` is that fault.
* `Math.random()` results are explicit arguments (`r`, a draw in `[0, 1)`).
* Sounds, music, storage writes and the game-over screen are recorded in
  `World.effects`, newest first.  Pure presentation writes to the DOM
  (text contents, menu visibility, button states, canvas drawing, console
  output) are not part of the model.
* Two history variables, `World.pipesScored` and `World.coinsCollected`,
  count the scoring events; they are written where the events happen and
  never read by the code.
* A loop `for (let i = n - 1; i >= 0; i--)` over an array is a recursion on
  `i + 1` that reads, overwrites and splices the list by index, as the
  source does.
* Reading an object literal by a computed key, `DIFFICULTY_SETTINGS[key]`,
  finds its own properties and those inherited from `Object.prototype`
  (`lookupSettings`).
* The frame scheduler runs the pending callbacks oldest first; a callback
  that runs is no longer pending (`runFrame`).
-/

-- Compiled evaluation of the nested record updates below needs the in-place
-- reuse of constructor cells switched off.
set_option compiler.reuse false

namespace Flappy

/-! ## Data model -/

/-- The value of `Math.PI`: the double nearest to π, which is the dyadic
rational `884279719003555 / 2^48`. -/
def Math_PI : ℚ := 884279719003555 / 281474976710656

/-- The sprite shown for the bird: `gameState.birdState`. -/
inductive BirdState where
  | normal
  | jump
  | cry
  deriving DecidableEq, Repr

/-- An axis-aligned rectangle, as returned by the `getBounds` methods. -/
structure Rect where
  x : ℚ
  y : ℚ
  width : ℚ
  height : ℚ
  deriving DecidableEq, Repr

/-- Fields of `class Bird`. -/
structure Bird where
  x : ℚ
  y : ℚ
  width : ℚ
  height : ℚ
  velocity : ℚ
  gravity : ℚ
  flapStrength : ℚ
  rotation : ℚ
  deriving DecidableEq, Repr

/-- Fields of `class Pipe`. -/
structure Pipe where
  x : ℚ
  topHeight : ℚ
  gap : ℚ
  width : ℚ
  scored : Bool
  speed : ℚ
  bottomY : ℚ
  bottomHeight : ℚ
  deriving DecidableEq, Repr

/-- Fields of `class Coin`. -/
structure Coin where
  x : ℚ
  y : ℚ
  radius : ℚ
  collected : Bool
  speed : ℚ
  angle : ℚ
  deriving DecidableEq, Repr

/-- Fields of `class Background` (the image itself is not modelled). -/
structure Background where
  speed : ℚ
  x : ℚ
  deriving DecidableEq, Repr

/-- The record `gameState.physics`. -/
structure Physics where
  gravity : ℚ
  flapStrength : ℚ
  pipeSpeed : ℚ
  deriving DecidableEq, Repr

/-- The record `gameState.scores`. -/
structure Scores where
  overall : ℤ
  pipes : ℤ
  coins : ℤ
  session : ℤ
  allTime : ℤ
  deriving DecidableEq, Repr

/-- The record `gameState.config`. -/
structure Config where
  pipeWidth : ℚ
  gap : ℚ
  spawnDistance : ℚ
  groundHeight : ℚ
  birdBaseSize : ℚ
  birdWidth : ℚ
  birdHeight : ℚ
  coinRadius : ℚ
  deriving DecidableEq, Repr

/-- The record `gameState.timers`. -/
structure Timers where
  pipeSpawn : ℚ
  coinSpawn : ℚ
  pipeInterval : ℚ
  coinInterval : ℚ
  deriving DecidableEq, Repr

/-- The global object `gameState`, without its asset and rendering caches. -/
structure GameState where
  running : Bool
  paused : Bool
  gameOver : Bool
  assetsLoaded : Bool
  bird : Option Bird
  background : Option Background
  pipes : List Pipe
  coins : List Coin
  physics : Physics
  scores : Scores
  config : Config
  timers : Timers
  difficulty : String
  birdState : BirdState
  grassOffset : ℚ
  isDying : Bool
  deathAnimationTimer : ℚ
  deriving DecidableEq, Repr

/-- The audio elements handed to `AudioManager.play`. -/
inductive Sound where
  | flapSound
  | coinSound
  | gameOverSound
  deriving DecidableEq, Repr

/-- Calls to the external collaborators (audio, storage, game-over screen). -/
inductive Effect where
  | play (sound : Sound)
  | playMusic
  | pauseMusic
  | storeHighScore (value : ℤ)
  | storeDifficulty (value : String)
  | showGameOver (isNewHighScore isNewAllTimeHighScore : Bool)
  deriving DecidableEq, Repr

/-- The browser window: `window.innerWidth` and `window.innerHeight`. -/
structure Window where
  innerWidth : ℚ
  innerHeight : ℚ
  deriving DecidableEq, Repr

/-- Everything the game code reads or writes.  `pendingFrames` holds the ids
of the `gameLoop` callbacks registered with `requestAnimationFrame` that have
neither run nor been cancelled; `nextFrameId` is the id the scheduler hands
out next; `wasRunning` is `elements.settingsMenu.dataset.wasRunning`.
`pipesScored` and `coinsCollected` are history variables: they count the
executions of `pipe.scored = true` and of `coin.collect()` since the program
was loaded.  No code reads them and nothing resets them. -/
structure World where
  gameState : GameState
  lastTime : ℚ
  animationFrameId : Option ℕ
  window : Window
  pendingFrames : List ℕ
  nextFrameId : ℕ
  wasRunning : Bool
  effects : List Effect
  pipesScored : ℕ
  coinsCollected : ℕ
  deriving DecidableEq, Repr

/-- The inputs of one `gameLoop` callback: the timestamp passed by the
scheduler and the `Math.random()` draws the tick may consume
(`rPipe` in `spawnPipe`, `rCoin` in `spawnCoinInPipe`, `rSky` in
`spawnSkyCoin`). -/
structure Tick where
  currentTime : ℚ
  rPipe : ℚ
  rCoin : ℚ
  rSky : ℚ
  deriving DecidableEq, Repr

/-! ## Utilities -/

namespace Utils

/-- The function `Utils.clamp`: `Math.min(Math.max(value, min), max)`. -/
def clamp (value lo hi : ℚ) : ℚ := min (max value lo) hi

/-- The function `Utils.random`, `r` being the value of `Math.random()`. -/
def random (r lo hi : ℚ) : ℚ := r * (hi - lo) + lo

/-- The function `Utils.checkCollision`: strict overlap of two rectangles. -/
def checkCollision (rect1 rect2 : Rect) : Bool :=
  decide (rect1.x < rect2.x + rect2.width) &&
  decide (rect1.x + rect1.width > rect2.x) &&
  decide (rect1.y < rect2.y + rect2.height) &&
  decide (rect1.y + rect1.height > rect2.y)

end Utils

/-- The comparison `Math.sqrt(s) < r` for `s ≥ 0`, decided without computing
the root: the root of `s` is below `r` exactly when `r` is positive and
`s < r * r` (see `sqrtLt_iff`). -/
def sqrtLt (s r : ℚ) : Bool := decide (0 < r) && decide (s < r * r)

/-- The external `cancelAnimationFrame`. -/
def cancelAnimationFrame (id : ℕ) (w : World) : World :=
  { w with pendingFrames := w.pendingFrames.filter (fun j => j != id) }

/-- The external `requestAnimationFrame(gameLoop)`: registers a callback and
returns its id (the first component). -/
def requestAnimationFrame (w : World) : ℕ × World :=
  (w.nextFrameId,
   { w with pendingFrames := w.nextFrameId :: w.pendingFrames,
            nextFrameId := w.nextFrameId + 1 })

/-- Appends an entry to the record of external calls. -/
def emit (e : Effect) (w : World) : World :=
  { w with effects := e :: w.effects }

/-! ## Entities -/

/-- The constructor of `Bird`; it reads `gameState.physics`. -/
def Bird.new (w : World) (x y width height : ℚ) : Bird :=
  { x := x, y := y, width := width, height := height, velocity := 0,
    gravity := w.gameState.physics.gravity,
    flapStrength := w.gameState.physics.flapStrength,
    rotation := 0 }

/-- The method `Bird.update(dt)`.  It reads `gameState.isDying` and may
write `gameState.birdState`; both are passed explicitly, and the new
`birdState` is the second component.  Exact arithmetic (`Bird.updateF64` is
the method in double precision). -/
def Bird.update (self : Bird) (dt : ℚ) (isDying : Bool) (birdState : BirdState) :
    Bird × BirdState :=
  let self := { self with velocity := self.velocity + self.gravity * dt }
  let self := { self with y := self.y + self.velocity * dt }
  let r : Bird × BirdState :=
    if isDying then
      let self := { self with rotation := self.rotation + 0.15 * dt }
      (if self.rotation > Math_PI then { self with rotation := Math_PI } else self, birdState)
    else
      let self := { self with
        rotation := Utils.clamp (self.velocity * 0.04) (-Math_PI / 6) (Math_PI / 6) }
      (self,
       if self.velocity < -2 then BirdState.jump
       else if self.velocity > 2 then BirdState.normal
       else birdState)
  if r.1.y < 0 then ({ r.1 with y := 0, velocity := 0 }, r.2) else r

/-- The method `Bird.reset(x, y)`. -/
def Bird.reset (self : Bird) (x y : ℚ) : Bird :=
  { self with x := x, y := y, velocity := 0, rotation := 0 }

/-- The method `Bird.getBounds()`. -/
def Bird.getBounds (self : Bird) : Rect :=
  { x := self.x, y := self.y, width := self.width, height := self.height }

/-- The call `gameState.bird.update(dt)`; a fault when there is no bird. -/
def updateBird (dt : ℚ) (w : World) : Option World :=
  match w.gameState.bird with
  | none => none
  | some b =>
    let r := b.update dt w.gameState.isDying w.gameState.birdState
    some { w with gameState.bird := some r.1, gameState.birdState := r.2 }

/-- The method `Bird.flap()`, called on `gameState.bird` (the only `Bird` the
program ever creates); a fault when there is no bird. -/
def Bird.flap (w : World) : Option World :=
  match w.gameState.bird with
  | none => none
  | some b =>
    if w.gameState.isDying then some w
    else
      some (emit (Effect.play Sound.flapSound)
        { w with gameState.bird := some { b with velocity := b.flapStrength },
                 gameState.birdState := BirdState.jump })

/-- The constructor of `Pipe`; it reads `gameState.physics.pipeSpeed`,
`gameState.config.groundHeight` and `window.innerHeight`.  Exact arithmetic
(`Pipe.newF64` is the constructor in double precision). -/
def Pipe.new (w : World) (x topHeight gap width : ℚ) : Pipe :=
  let groundHeight := w.gameState.config.groundHeight
  let canvasHeight := w.window.innerHeight
  let bottomY := canvasHeight - groundHeight - (canvasHeight - groundHeight - topHeight - gap)
  { x := x, topHeight := topHeight, gap := gap, width := width, scored := false,
    speed := w.gameState.physics.pipeSpeed,
    bottomY := bottomY,
    bottomHeight := canvasHeight - groundHeight - bottomY }

/-- The method `Pipe.update(dt)`. -/
def Pipe.update (self : Pipe) (dt : ℚ) : Pipe :=
  { self with x := self.x - self.speed * dt }

/-- The method `Pipe.isOffScreen()`. -/
def Pipe.isOffScreen (self : Pipe) : Bool := decide (self.x + self.width < 0)

/-- The method `Pipe.getBounds()`: the top and the bottom rectangle. -/
def Pipe.getBounds (self : Pipe) : Rect × Rect :=
  ({ x := self.x, y := 0, width := self.width, height := self.topHeight },
   { x := self.x, y := self.bottomY, width := self.width, height := self.bottomHeight })

/-- The constructor of `Coin`; it reads `gameState.physics.pipeSpeed`. -/
def Coin.new (w : World) (x y radius : ℚ) : Coin :=
  { x := x, y := y, radius := radius, collected := false,
    speed := w.gameState.physics.pipeSpeed, angle := 0 }

/-- The method `Coin.update(dt)`. -/
def Coin.update (self : Coin) (dt : ℚ) : Coin :=
  { self with x := self.x - self.speed * dt, angle := self.angle + 0.05 * dt }

/-- The method `Coin.isOffScreen()`. -/
def Coin.isOffScreen (self : Coin) : Bool := decide (self.x + self.radius < 0)

/-- The method `Coin.checkCollision(bird)`:
`Math.sqrt(dx * dx + dy * dy) < bird.width / 2 + this.radius && !this.collected`,
in exact arithmetic (`Coin.checkCollisionF64` is the method in double
precision). -/
def Coin.checkCollision (self : Coin) (bird : Bird) : Bool :=
  let dx := bird.x + bird.width / 2 - self.x
  let dy := bird.y + bird.height / 2 - self.y
  sqrtLt (dx * dx + dy * dy) (bird.width / 2 + self.radius) && !self.collected

/-- The method `Background.update(dt)`; it reads `window.innerWidth`. -/
def Background.update (self : Background) (dt innerWidth : ℚ) : Background :=
  let self := { self with x := self.x - self.speed * dt }
  if self.x ≤ -innerWidth then { self with x := 0 } else self

/-- The method `Background.reset()`. -/
def Background.reset (self : Background) : Background := { self with x := 0 }

/-- The call `gameState.background.update(dt)` under its guard
`if (gameState.background)`. -/
def updateBackground (dt : ℚ) (w : World) : World :=
  match w.gameState.background with
  | none => w
  | some bg => { w with gameState.background := some (bg.update dt w.window.innerWidth) }

/-- The function `Renderer.updateGrassScroll(dt)`. -/
def updateGrassScroll (dt : ℚ) (w : World) : World :=
  if w.gameState.running && !w.gameState.paused && !w.gameState.gameOver then
    let w := { w with gameState.grassOffset :=
      w.gameState.grassOffset + w.gameState.physics.pipeSpeed / 3 * dt }
    if w.gameState.grassOffset ≥ w.window.innerWidth then
      { w with gameState.grassOffset := w.gameState.grassOffset - w.window.innerWidth }
    else w
  else w

/-! ## Game logic -/

namespace GameLogic

/-- The function `GameLogic.spawnCoinInPipe(pipe)`; `r` is its random draw. -/
def spawnCoinInPipe (r : ℚ) (pipe : Pipe) (w : World) : World :=
  let gapCenter := pipe.topHeight + w.gameState.config.gap / 2
  let randomOffset :=
    Utils.random r (-w.gameState.config.gap * 0.25) (w.gameState.config.gap * 0.25)
  let coinY := gapCenter + randomOffset
  let coin := Coin.new w (pipe.x + w.gameState.config.pipeWidth / 2) coinY
    w.gameState.config.coinRadius
  { w with gameState.coins := w.gameState.coins ++ [coin] }

/-- The function `GameLogic.spawnPipe()`; `rPipe` is the draw for the top
height, `rCoin` the draw used by `spawnCoinInPipe`. -/
def spawnPipe (rPipe rCoin : ℚ) (w : World) : World :=
  let minHeight : ℚ := 50
  let maxHeight :=
    w.window.innerHeight - w.gameState.config.gap - minHeight - w.gameState.config.groundHeight
  let topHeight := Utils.random rPipe minHeight maxHeight
  let pipe := Pipe.new w w.window.innerWidth topHeight w.gameState.config.gap
    w.gameState.config.pipeWidth
  let w := { w with gameState.pipes := w.gameState.pipes ++ [pipe] }
  let w := spawnCoinInPipe rCoin pipe w
  { w with gameState.timers.pipeSpawn := 0 }

/-- The function `GameLogic.spawnSkyCoin()`; `r` is its random draw. -/
def spawnSkyCoin (r : ℚ) (w : World) : World :=
  if w.gameState.coins.length ≥ 10 then w
  else
    let minY : ℚ := 50
    let maxY := w.window.innerHeight - w.gameState.config.groundHeight - 100
    let coinY := Utils.random r minY maxY
    let coin := Coin.new w w.window.innerWidth coinY 15
    { w with gameState.coins := w.gameState.coins ++ [coin],
             gameState.timers.coinSpawn := 0 }

/-- The function `GameLogic.checkPipeCollision(pipe)`; a fault when there is
no bird. -/
def checkPipeCollision (w : World) (pipe : Pipe) : Option Bool :=
  match w.gameState.bird with
  | none => none
  | some b =>
    let bird := b.getBounds
    if bird.x + bird.width > pipe.x ∧ bird.x < pipe.x + pipe.width then
      if bird.y < pipe.topHeight ∨ bird.y + bird.height > pipe.bottomY then
        some true
      else some false
    else some false

/-- The function `GameLogic.updateScore()`. -/
def updateScore (w : World) : World :=
  let w := { w with
    gameState.scores.overall := w.gameState.scores.pipes + w.gameState.scores.coins }
  if w.gameState.scores.overall > w.gameState.scores.session then
    { w with gameState.scores.session := w.gameState.scores.overall }
  else w

/-- The function `GameLogic.startDeathAnimation()`. -/
def startDeathAnimation (w : World) : World :=
  if w.gameState.isDying || w.gameState.gameOver then w
  else
    let w := { w with gameState.isDying := true,
                      gameState.birdState := BirdState.cry,
                      gameState.deathAnimationTimer := 0 }
    let w := emit (Effect.play Sound.gameOverSound) w
    let w :=
      match w.gameState.bird with
      | some b => { w with gameState.bird := some { b with velocity := -3 } }
      | none => w
    emit Effect.pauseMusic w

/-- The function `GameLogic.finishGameOver()`. -/
def finishGameOver (w : World) : World :=
  if w.gameState.gameOver then w
  else
    let w := { w with gameState.running := false,
                      gameState.gameOver := true,
                      gameState.isDying := false }
    let w :=
      match w.animationFrameId with
      | some id => { cancelAnimationFrame id w with animationFrameId := none }
      | none => w
    let r1 : World × Bool :=
      if w.gameState.scores.overall > w.gameState.scores.session then
        ({ w with gameState.scores.session := w.gameState.scores.overall }, true)
      else (w, false)
    let w := r1.1
    let isNewHighScore := r1.2
    let r2 : World × Bool × Bool :=
      if w.gameState.scores.overall > w.gameState.scores.allTime then
        let w := { w with gameState.scores.allTime := w.gameState.scores.overall }
        (emit (Effect.storeHighScore w.gameState.scores.allTime) w, false, true)
      else (w, isNewHighScore, false)
    emit (Effect.showGameOver r2.2.1 r2.2.2) r2.1

/-- The function `GameLogic.reset()`. -/
def reset (w : World) : World :=
  let w := { w with gameState.pipes := [],
                    gameState.coins := [],
                    gameState.scores.overall := 0,
                    gameState.scores.pipes := 0,
                    gameState.scores.coins := 0,
                    gameState.timers.pipeSpawn := 0,
                    gameState.timers.coinSpawn := 0,
                    gameState.birdState := BirdState.normal,
                    gameState.gameOver := false,
                    gameState.isDying := false,
                    gameState.deathAnimationTimer := 0,
                    gameState.grassOffset := 0 }
  let w :=
    match w.gameState.bird with
    | some b =>
      let b := b.reset (w.window.innerWidth / 4) (w.window.innerHeight / 2)
      { w with gameState.bird := some { b with
          gravity := w.gameState.physics.gravity,
          flapStrength := w.gameState.physics.flapStrength } }
    | none => w
  match w.gameState.background with
  | some bg => { w with gameState.background := some bg.reset }
  | none => w

/-- The scoring test of `updatePipes`,
`!pipe.scored && gameState.bird.x > pipe.x + pipe.width`; the bird is only
read when the pipe has not been scored. -/
def passedTest (w : World) (pipe : Pipe) : Option Bool :=
  if pipe.scored then some false
  else
    match w.gameState.bird with
    | none => none
    | some b => some (decide (b.x > pipe.x + pipe.width))

/-- The loop of `GameLogic.updatePipes(dt)`, entered with loop variable
`i = n - 1`: `for (...; i >= 0; i--)`.  The pipe at index `i` is updated in
place; `splice(i, 1)` is `eraseIdx i`.  The result carries the return value
of `updatePipes`. -/
def updatePipesLoop (dt : ℚ) : ℕ → World → Option (World × Bool)
  | 0, w => some (w, true)
  | i + 1, w =>
    match w.gameState.pipes[i]? with
    | none => none
    | some pipe =>
      let pipe := pipe.update dt
      let w := { w with gameState.pipes := w.gameState.pipes.set i pipe }
      if pipe.isOffScreen then
        updatePipesLoop dt i { w with gameState.pipes := w.gameState.pipes.eraseIdx i }
      else
        match checkPipeCollision w pipe with
        | none => none
        | some true => some (startDeathAnimation w, false)
        | some false =>
          match passedTest w pipe with
          | none => none
          | some true =>
            let w := { w with
              gameState.pipes := w.gameState.pipes.set i { pipe with scored := true } }
            let w := { w with pipesScored := w.pipesScored + 1 }
            let w := { w with gameState.scores.pipes := w.gameState.scores.pipes + 1 }
            updatePipesLoop dt i (updateScore w)
          | some false => updatePipesLoop dt i w

/-- The function `GameLogic.updatePipes(dt)`. -/
def updatePipes (dt : ℚ) (w : World) : Option (World × Bool) :=
  updatePipesLoop dt w.gameState.pipes.length w

/-- The method `Coin.collect()`, applied to the coin object; its sound is
emitted, and the call counted, by the caller below. -/
def collect (coin : Coin) : Coin := { coin with collected := true }

/-- The loop of `GameLogic.updateCoins(dt)`, entered with loop variable
`i = n - 1`. -/
def updateCoinsLoop (dt : ℚ) : ℕ → World → Option World
  | 0, w => some w
  | i + 1, w =>
    match w.gameState.coins[i]? with
    | none => none
    | some coin =>
      let coin := coin.update dt
      let w := { w with gameState.coins := w.gameState.coins.set i coin }
      if coin.isOffScreen then
        updateCoinsLoop dt i { w with gameState.coins := w.gameState.coins.eraseIdx i }
      else
        match w.gameState.bird with
        | none => none
        | some bird =>
          if coin.checkCollision bird then
            let w := { w with gameState.coins := w.gameState.coins.set i (collect coin) }
            let w := emit (Effect.play Sound.coinSound) w
            let w := { w with coinsCollected := w.coinsCollected + 1 }
            let w := { w with gameState.scores.coins := w.gameState.scores.coins + 10 }
            let w := updateScore w
            updateCoinsLoop dt i { w with gameState.coins := w.gameState.coins.eraseIdx i }
          else updateCoinsLoop dt i w

/-- The function `GameLogic.updateCoins(dt)`. -/
def updateCoins (dt : ℚ) (w : World) : Option World :=
  updateCoinsLoop dt w.gameState.coins.length w

end GameLogic

/-! ## Game loop -/

/-- The tail of `gameLoop`: `Renderer.render()` (no state change) and
`animationFrameId = requestAnimationFrame(gameLoop)`. -/
def renderAndContinue (w : World) : World :=
  let r := requestAnimationFrame w
  { r.2 with animationFrameId := some r.1 }

/-- The bird block of the death-animation branch of `gameLoop`, under its
guard `if (gameState.bird)`: the bird is updated and, once its bottom edge has
reached the ground line, pinned there with velocity 0. -/
def dyingBirdStep (dt : ℚ) (w : World) : World :=
  match w.gameState.bird with
  | none => w
  | some b =>
    let r := b.update dt w.gameState.isDying w.gameState.birdState
    let w := { w with gameState.bird := some r.1, gameState.birdState := r.2 }
    let groundY := w.window.innerHeight - w.gameState.config.groundHeight
    if r.1.y + r.1.height ≥ groundY then
      { w with gameState.bird := some { r.1 with y := groundY - r.1.height, velocity := 0 } }
    else w

/-- The flag `hasHitGround` of the death-animation branch:
`gameState.bird && bird.y + bird.height >= innerHeight - groundHeight - 1`. -/
def hasHitGround (w : World) : Bool :=
  match w.gameState.bird with
  | none => false
  | some b =>
    decide (b.y + b.height ≥ w.window.innerHeight - w.gameState.config.groundHeight - 1)

/-- The death-animation branch of `gameLoop`, up to its final test.  The
second component tells whether `finishGameOver` was called, in which case
`gameLoop` returns at once. -/
def dyingUpdate (deltaTime dt : ℚ) (w : World) : World × Bool :=
  let w := { w with
    gameState.deathAnimationTimer := w.gameState.deathAnimationTimer + deltaTime }
  let w := dyingBirdStep dt w
  let w := updateBackground dt w
  let w := updateGrassScroll dt w
  if hasHitGround w && decide (w.gameState.deathAnimationTimer ≥ 800) then
    (GameLogic.finishGameOver w, true)
  else (w, false)

/-- The ground test of the normal branch of `gameLoop`:
`if (bird.y + bird.height >= innerHeight - groundHeight) startDeathAnimation()`. -/
def groundCheck (w : World) : Option World :=
  match w.gameState.bird with
  | none => none
  | some b =>
    if b.y + b.height ≥ w.window.innerHeight - w.gameState.config.groundHeight then
      some (GameLogic.startDeathAnimation w)
    else some w

/-- The pipe timer of the normal branch: `timers.pipeSpawn += deltaTime`,
then `spawnPipe()` once the interval is reached. -/
def pipeSpawnStep (t : Tick) (deltaTime : ℚ) (w : World) : World :=
  let w := { w with gameState.timers.pipeSpawn := w.gameState.timers.pipeSpawn + deltaTime }
  if w.gameState.timers.pipeSpawn ≥ w.gameState.timers.pipeInterval then
    GameLogic.spawnPipe t.rPipe t.rCoin w
  else w

/-- The coin timer of the normal branch: `timers.coinSpawn += deltaTime`,
then `spawnSkyCoin()` once 5000 ms are reached. -/
def coinSpawnStep (t : Tick) (deltaTime : ℚ) (w : World) : World :=
  let w := { w with gameState.timers.coinSpawn := w.gameState.timers.coinSpawn + deltaTime }
  if w.gameState.timers.coinSpawn ≥ 5000 then GameLogic.spawnSkyCoin t.rSky w
  else w

/-- The normal branch of `gameLoop`: bird, ground test, background, pipe
timer, `updatePipes` (its return value is not used), coin timer,
`updateCoins`, grass. -/
def normalUpdate (t : Tick) (deltaTime dt : ℚ) (w : World) : Option World :=
  match updateBird dt w with
  | none => none
  | some w =>
    match groundCheck w with
    | none => none
    | some w =>
      let w := updateBackground dt w
      let w := pipeSpawnStep t deltaTime w
      match GameLogic.updatePipes dt w with
      | none => none
      | some r =>
        let w := coinSpawnStep t deltaTime r.1
        match GameLogic.updateCoins dt w with
        | none => none
        | some w => some (updateGrassScroll dt w)

/-- The function `gameLoop(currentTime)`, the frame callback. -/
def gameLoop (t : Tick) (w : World) : Option World :=
  if !w.gameState.running && !w.gameState.isDying then
    some { w with animationFrameId := none }
  else
    let deltaTime := t.currentTime - w.lastTime
    let dt := min 32 deltaTime / 16.67
    let w := { w with lastTime := t.currentTime }
    if w.gameState.isDying && !w.gameState.gameOver then
      let r := dyingUpdate deltaTime dt w
      if r.2 then some r.1 else some (renderAndContinue r.1)
    else if !w.gameState.paused && !w.gameState.gameOver then
      match normalUpdate t deltaTime dt w with
      | none => none
      | some w => some (renderAndContinue w)
    else some (renderAndContinue w)

/-- Runs `gameLoop` once per element of `ts`, in order. -/
def runTicks : List Tick → World → Option World
  | [], w => some w
  | t :: ts, w =>
    match gameLoop t w with
    | none => none
    | some w => runTicks ts w

/-! ## Game controls -/

/-- The time factor of `gameLoop`: `Math.min(32, currentTime - lastTime) / 16.67`,
the value of its constant `dt`. -/
def frameDt (currentTime lastTime : ℚ) : ℚ := min 32 (currentTime - lastTime) / 16.67

/-- The function `window.startGame()`; `now` is the value of
`performance.now()`.  The new `Background` takes the current image, which is
not modelled. -/
def startGame (now : ℚ) (w : World) : World :=
  if !w.gameState.assetsLoaded then w
  else
    let w :=
      match w.animationFrameId with
      | some id => { cancelAnimationFrame id w with animationFrameId := none }
      | none => w
    let w := GameLogic.reset w
    let bird := Bird.new w (w.window.innerWidth / 4) (w.window.innerHeight / 2)
      w.gameState.config.birdWidth w.gameState.config.birdHeight
    let w := { w with gameState.bird := some bird }
    let background : Background := { speed := w.gameState.physics.pipeSpeed / 3, x := 0 }
    let w := { w with gameState.background := some background }
    let w := { w with gameState.running := true,
                      gameState.paused := false,
                      gameState.gameOver := false }
    let w := emit Effect.playMusic w
    let w := { w with lastTime := now }
    let r := requestAnimationFrame w
    { r.2 with animationFrameId := some r.1 }

/-- The function `window.restartGame()`. -/
def restartGame (now : ℚ) (w : World) : World := startGame now w

/-- One entry of the table `DIFFICULTY_SETTINGS`. -/
structure DifficultySettings where
  gravity : ℚ
  pipeSpeed : ℚ
  gap : ℚ
  spawnInterval : ℚ
  deriving DecidableEq, Repr

/-- The own properties of the object literal `DIFFICULTY_SETTINGS`. -/
def DIFFICULTY_SETTINGS : List (String × DifficultySettings) :=
  [("easy", { gravity := 0.3, pipeSpeed := 2, gap := 250, spawnInterval := 2000 }),
   ("normal", { gravity := 0.4, pipeSpeed := 3, gap := 200, spawnInterval := 1500 }),
   ("hard", { gravity := 0.5, pipeSpeed := 4, gap := 180, spawnInterval := 1000 })]

/-- The entry `DIFFICULTY_SETTINGS.normal`. -/
def normalSettings : DifficultySettings :=
  { gravity := 0.4, pipeSpeed := 3, gap := 200, spawnInterval := 1500 }

/-- The property names every object literal inherits from `Object.prototype`.
Reading one of them from `DIFFICULTY_SETTINGS` gives a function (for
`__proto__`, the prototype object): a truthy value that has none of the four
settings. -/
def objectPrototypeKeys : List String :=
  ["constructor", "hasOwnProperty", "isPrototypeOf", "propertyIsEnumerable",
   "toLocaleString", "toString", "valueOf", "__proto__", "__defineGetter__",
   "__defineSetter__", "__lookupGetter__", "__lookupSetter__"]

/-- The value of `DIFFICULTY_SETTINGS[difficulty] || DIFFICULTY_SETTINGS.normal`:
the own entry if there is one; for an inherited property name the inherited
value, which is truthy, so that `||` keeps it, and whose settings are all
`undefined` (`none`); the normal entry for every other key. -/
def lookupSettings (difficulty : String) : Option DifficultySettings :=
  match DIFFICULTY_SETTINGS.lookup difficulty with
  | some settings => some settings
  | none => if difficulty ∈ objectPrototypeKeys then none else some normalSettings

/-- The function `window.changeDifficulty(difficulty)`.  The result is `none`
when the settings read are `undefined`: the assignments then put `undefined`
into the physics, the gap and the pipe interval, which the numeric fields of
the model do not hold. -/
def changeDifficulty (difficulty : String) (w : World) : Option World :=
  let w := { w with gameState.difficulty := difficulty }
  let w := emit (Effect.storeDifficulty difficulty) w
  match lookupSettings difficulty with
  | none => none
  | some settings =>
    let w := { w with gameState.physics.gravity := settings.gravity,
                      gameState.physics.pipeSpeed := settings.pipeSpeed,
                      gameState.config.gap := settings.gap,
                      gameState.timers.pipeInterval := settings.spawnInterval }
    let w :=
      match w.gameState.bird with
      | some b => { w with gameState.bird := some { b with gravity := settings.gravity } }
      | none => w
    let w := { w with gameState.pipes :=
      w.gameState.pipes.map (fun pipe : Pipe => { pipe with speed := settings.pipeSpeed }) }
    let w := { w with gameState.coins :=
      w.gameState.coins.map (fun coin : Coin => { coin with speed := settings.pipeSpeed }) }
    match w.gameState.background with
    | some bg =>
      some { w with gameState.background := some { bg with speed := settings.pipeSpeed / 3 } }
    | none => some w

/-- The function `window.showStartMenu()`. -/
def showStartMenu (w : World) : World :=
  let w := { w with gameState.running := false,
                    gameState.paused := false,
                    gameState.gameOver := false }
  let w :=
    match w.animationFrameId with
    | some id => { cancelAnimationFrame id w with animationFrameId := none }
    | none => w
  emit Effect.pauseMusic w

/-- The function `window.togglePause()`; `now` is the value of
`performance.now()`. -/
def togglePause (now : ℚ) (w : World) : World :=
  if w.gameState.gameOver || (!w.gameState.running && !w.gameState.paused) then w
  else
    let w := { w with gameState.paused := !w.gameState.paused }
    if w.gameState.paused then
      let w := { w with gameState.running := false }
      emit Effect.pauseMusic w
    else
      let w := { w with gameState.running := true }
      let w := emit Effect.playMusic w
      let w := { w with lastTime := now }
      match w.animationFrameId with
      | none =>
        let r := requestAnimationFrame w
        { r.2 with animationFrameId := some r.1 }
      | some _ => w

/-- The function `window.showSettingsMenu()`, the settings menu element
being present. -/
def showSettingsMenu (w : World) : World :=
  let wasRunning := w.gameState.running
  let w := { w with gameState.running := false }
  let w := emit Effect.pauseMusic w
  { w with wasRunning := wasRunning }

/-- The function `window.hideSettingsMenu()`; `now` is the value of
`performance.now()`.  Showing a menu is not modelled. -/
def hideSettingsMenu (now : ℚ) (w : World) : World :=
  if w.wasRunning && !w.gameState.gameOver then
    let w := { w with gameState.running := true }
    let w := emit Effect.playMusic w
    let w := { w with lastTime := now }
    match w.animationFrameId with
    | none =>
      let r := requestAnimationFrame w
      { r.2 with animationFrameId := some r.1 }
    | some _ => w
  else w

/-- The scheduler runs a frame: the oldest pending callback leaves the list
of pending callbacks and `gameLoop` is called with the inputs `t`.  Nothing
happens when no callback is pending. -/
def runFrame (t : Tick) (w : World) : Option World :=
  match w.pendingFrames.getLast? with
  | none => some w
  | some _ => gameLoop t { w with pendingFrames := w.pendingFrames.dropLast }

/-- The function `window.resetAllTimeHighScore()`; `confirmed` is the answer
to its `confirm` dialog. -/
def resetAllTimeHighScore (confirmed : Bool) (w : World) : World :=
  if confirmed then
    let w := { w with gameState.scores.allTime := 0 }
    let w := { w with gameState.scores.session := 0 }
    emit (Effect.storeHighScore 0) w
  else w

/-- The function `handleFlap(e)`, the handler of mouse, touch and space-bar
input: it calls `gameState.bird.flap()` when the game is running, not paused,
not over and not dying and there is a bird. -/
def handleFlap (w : World) : Option World :=
  if w.gameState.running && !w.gameState.paused && !w.gameState.gameOver &&
      !w.gameState.isDying && w.gameState.bird.isSome then Bird.flap w
  else some w

/-- The function `CanvasManager.resize()`, the handler of the window's
`resize` event; `window` is the new size of the browser window.  It sets the
gap from the window height and moves the bird, if there is one, to a quarter
of the window width.  The canvas calls and the grass are not modelled. -/
def CanvasManager.resize (window : Window) (w : World) : World :=
  let w := { w with window := window }
  let w := { w with gameState.config.gap := Utils.clamp (w.window.innerHeight * 0.35) 150 250 }
  match w.gameState.bird with
  | some b => { w with gameState.bird := some { b with x := w.window.innerWidth / 4 } }
  | none => w

/-! ## Double precision -/

namespace F64

/-- The integer nearest to `q`; of two equally near, the even one. -/
def roundHalfEven (q : ℚ) : ℤ :=
  if q - ⌊q⌋ < 1 / 2 then ⌊q⌋
  else if 1 / 2 < q - ⌊q⌋ then ⌊q⌋ + 1
  else if ⌊q⌋ % 2 = 0 then ⌊q⌋ else ⌊q⌋ + 1

/-- The binary exponent of the double nearest to `q`: the `e` with
`2 ^ e ≤ |q| < 2 ^ (e + 1)`, and `-1022` for the subnormal numbers. -/
def exponent (q : ℚ) : ℤ := max (Int.log 2 |q|) (-1022)

/-- The double nearest to the rational `q`, as a rational: a multiple of
`2 ^ (e - 52)` with `e` the exponent, ties going to the even mantissa, as in
IEEE 754 binary64 arithmetic.  Overflow to `Infinity` is not modelled. -/
def round (q : ℚ) : ℚ :=
  roundHalfEven (q / 2 ^ (exponent q - 52)) * 2 ^ (exponent q - 52)

/-- The sum `a + b` of two doubles, as JavaScript computes it. -/
def add (a b : ℚ) : ℚ := round (a + b)

/-- The difference `a - b` of two doubles. -/
def sub (a b : ℚ) : ℚ := round (a - b)

/-- The product `a * b` of two doubles. -/
def mul (a b : ℚ) : ℚ := round (a * b)

/-- The quotient `a / b` of two doubles, `b` not 0. -/
def div (a b : ℚ) : ℚ := round (a / b)

/-- The value of `Math.sqrt(q)` for a double `q ≥ 0`: the double nearest to
the square root.  With `4 ^ e ≤ q < 4 ^ (e + 1)` the root lies in
`[2 ^ e, 2 ^ (e + 1))`, where the doubles are the multiples of
`ulp = 2 ^ (e - 52)`; `n` is the integer part of the root of `q / ulp ^ 2`. -/
def sqrt (q : ℚ) : ℚ :=
  if q ≤ 0 then 0
  else
    let ulp : ℚ := 2 ^ (Int.log 4 q - 52)
    let m : ℚ := q / (ulp * ulp)
    let n : ℕ := Nat.sqrt ⌊m⌋₊
    let r : ℕ :=
      if m < (n + 1 / 2) * (n + 1 / 2) then n
      else if (n + 1 / 2) * (n + 1 / 2) < m then n + 1
      else if n % 2 = 0 then n else n + 1
    r * ulp

end F64

/-- The method `Bird.update(dt)` in double precision: every sum and product
is rounded to the nearest double; the literals `0.15` and `0.04` are the
doubles nearest to them; comparisons, `Math.min` and `Math.max` are exact. -/
def Bird.updateF64 (self : Bird) (dt : ℚ) (isDying : Bool) (birdState : BirdState) :
    Bird × BirdState :=
  let self := { self with velocity := F64.add self.velocity (F64.mul self.gravity dt) }
  let self := { self with y := F64.add self.y (F64.mul self.velocity dt) }
  let r : Bird × BirdState :=
    if isDying then
      let self := { self with
        rotation := F64.add self.rotation (F64.mul (F64.round 0.15) dt) }
      (if self.rotation > Math_PI then { self with rotation := Math_PI } else self, birdState)
    else
      let self := { self with
        rotation := Utils.clamp (F64.mul self.velocity (F64.round 0.04))
          (F64.div (-Math_PI) 6) (F64.div Math_PI 6) }
      (self,
       if self.velocity < -2 then BirdState.jump
       else if self.velocity > 2 then BirdState.normal
       else birdState)
  if r.1.y < 0 then ({ r.1 with y := 0, velocity := 0 }, r.2) else r

/-- Runs `n` consecutive calls `bird.update(dt)` in double precision, nothing
else touching the bird in between (no flap). -/
def Bird.updateF64N (dt : ℚ) (isDying : Bool) : ℕ → Bird × BirdState → Bird × BirdState
  | 0, r => r
  | n + 1, r => Bird.updateF64N dt isDying n (r.1.updateF64 dt isDying r.2)

/-- The constructor of `Pipe` in double precision: each of the subtractions
of `canvasHeight - groundHeight - (canvasHeight - groundHeight - topHeight - gap)`
and of `canvasHeight - groundHeight - this.bottomY` is rounded. -/
def Pipe.newF64 (w : World) (x topHeight gap width : ℚ) : Pipe :=
  let groundHeight := w.gameState.config.groundHeight
  let canvasHeight := w.window.innerHeight
  let bottomY := F64.sub (F64.sub canvasHeight groundHeight)
    (F64.sub (F64.sub (F64.sub canvasHeight groundHeight) topHeight) gap)
  { x := x, topHeight := topHeight, gap := gap, width := width, scored := false,
    speed := w.gameState.physics.pipeSpeed,
    bottomY := bottomY,
    bottomHeight := F64.sub (F64.sub canvasHeight groundHeight) bottomY }

/-- The function `GameLogic.checkPipeCollision(pipe)` in double precision:
the three sums are rounded, the comparisons are exact. -/
def GameLogic.checkPipeCollisionF64 (w : World) (pipe : Pipe) : Option Bool :=
  match w.gameState.bird with
  | none => none
  | some b =>
    let bird := b.getBounds
    if F64.add bird.x bird.width > pipe.x ∧ bird.x < F64.add pipe.x pipe.width then
      if bird.y < pipe.topHeight ∨ F64.add bird.y bird.height > pipe.bottomY then
        some true
      else some false
    else some false

/-- The method `Coin.checkCollision(bird)` in double precision:
`dx = bird.x + bird.width / 2 - this.x`, `dy` likewise,
`distance = Math.sqrt(dx * dx + dy * dy)`, every operation rounded, and the
result `distance < bird.width / 2 + this.radius && !this.collected`. -/
def Coin.checkCollisionF64 (self : Coin) (bird : Bird) : Bool :=
  let dx := F64.sub (F64.add bird.x (F64.div bird.width 2)) self.x
  let dy := F64.sub (F64.add bird.y (F64.div bird.height 2)) self.y
  let distance := F64.sqrt (F64.add (F64.mul dx dx) (F64.mul dy dy))
  decide (distance < F64.add (F64.div bird.width 2) self.radius) && !self.collected

/-! ## Auxiliary runs and sample states -/

/-- The object literal that initialises `gameState`. -/
def initialGameState : GameState :=
  { running := false, paused := false, gameOver := false, assetsLoaded := false,
    bird := none, background := none, pipes := [], coins := [],
    physics := { gravity := 0.4, flapStrength := -6, pipeSpeed := 3 },
    scores := { overall := 0, pipes := 0, coins := 0, session := 0, allTime := 0 },
    config := { pipeWidth := 80, gap := 200, spawnDistance := 300, groundHeight := 100,
                birdBaseSize := 70, birdWidth := 70, birdHeight := 70, coinRadius := 18 },
    timers := { pipeSpawn := 0, coinSpawn := 0, pipeInterval := 1500, coinInterval := 3000 },
    difficulty := "normal", birdState := BirdState.normal, grassOffset := 0,
    isDying := false, deathAnimationTimer := 0 }

/-- The program state when the script has been loaded: `gameState` as
initialised, `lastTime = 0`, `animationFrameId = null`, nothing scheduled. -/
def initialWorld (window : Window) : World :=
  { gameState := initialGameState, lastTime := 0, animationFrameId := none,
    window := window, pendingFrames := [], nextFrameId := 0, wasRunning := false,
    effects := [], pipesScored := 0, coinsCollected := 0 }

/-- Runs `updatePipes` once per element of `steps`, in order, its return
value ignored as `gameLoop` does.  Each step carries the `dt` of its tick and
the bird as it is when `updatePipes` is called on that tick: whatever
happened to the bird between two calls (physics, flaps, a window resize) ends
in some bird. -/
def runUpdatePipes : List (ℚ × Bird) → World → Option World
  | [], w => some w
  | step :: rest, w =>
    match GameLogic.updatePipes step.1 { w with gameState.bird := some step.2 } with
    | none => none
    | some r => runUpdatePipes rest r.1

/-- A sample state: a running session in an 800 by 600 window, the bird in
mid-air at `x = 200`, one pipe the bird has just passed and one ahead, one
coin on the bird, one ahead and one about to leave the screen. -/
def sampleWorld : World :=
  { gameState :=
      { initialGameState with
        running := true, assetsLoaded := true,
        bird := some
          { x := 200, y := 250, width := 70, height := 70, velocity := 0, gravity := 0.4,
            flapStrength := -6, rotation := 0 },
        background := some { speed := 1, x := 0 },
        pipes :=
          [{ x := 100, topHeight := 150, gap := 200, width := 80, scored := false, speed := 3,
             bottomY := 350, bottomHeight := 150 },
           { x := 500, topHeight := 200, gap := 200, width := 80, scored := false, speed := 3,
             bottomY := 400, bottomHeight := 100 }],
        coins :=
          [{ x := -30, y := 100, radius := 18, collected := false, speed := 3, angle := 0 },
           { x := 238, y := 285, radius := 18, collected := false, speed := 3, angle := 0 },
           { x := 540, y := 300, radius := 18, collected := false, speed := 3, angle := 0 }] },
    lastTime := 1000, animationFrameId := some 7,
    window := { innerWidth := 800, innerHeight := 600 },
    pendingFrames := [], nextFrameId := 8, wasRunning := false, effects := [],
    pipesScored := 0, coinsCollected := 0 }

/-- A sample state of the death animation: the bird, hit in mid-air 1000 ms
ago, is falling at velocity 12 with its bottom edge 10 pixels above the
ground line `600 - 100 = 500`. -/
def fallingWorld : World :=
  { sampleWorld with
    gameState.isDying := true,
    gameState.birdState := BirdState.cry,
    gameState.deathAnimationTimer := 1000,
    gameState.bird := some
      { x := 200, y := 420, width := 70, height := 70, velocity := 12, gravity := 0.4,
        flapStrength := -6, rotation := 1 } }

/-- A sample state of the death animation: the bird, hit in mid-air 1000 ms
ago, is falling at velocity 4 with its bottom edge 5 pixels above the ground
line 500. -/
def grazingWorld : World :=
  { sampleWorld with
    gameState.isDying := true,
    gameState.birdState := BirdState.cry,
    gameState.deathAnimationTimer := 1000,
    gameState.bird := some
      { x := 200, y := 425, width := 70, height := 70, velocity := 4, gravity := 0.4,
        flapStrength := -6, rotation := 1 } }

/-- A sample running state in which the bird overlaps a pipe above its gap
(the pipe's top part reaches down to 300, the bird's top is at 250) while a
coin lies on the bird. -/
def collisionWorld : World :=
  { sampleWorld with
    gameState.pipes :=
      [{ x := 250, topHeight := 300, gap := 200, width := 80, scored := false, speed := 3,
         bottomY := 500, bottomHeight := 0 }] }

/-- Runs `n` consecutive calls `pipe.update(dt)`. -/
def Pipe.updateN (dt : ℚ) : ℕ → Pipe → Pipe
  | 0, p => p
  | n + 1, p => Pipe.updateN dt n (p.update dt)

/-- The sample state in a window only 300 pixels wide. -/
def narrowWorld : World :=
  { sampleWorld with window := { innerWidth := 300, innerHeight := 600 } }

/-- The sample state in a window only 300 pixels high: with the ground 100
high and the gap 200, no gap fits between the two margins of 50. -/
def lowWorld : World :=
  { sampleWorld with window := { innerWidth := 800, innerHeight := 300 } }

/-- A sample running state with ten live coins, all far from the bird, and
the coin timer 10 ms short of 5000. -/
def crowdedWorld : World :=
  { sampleWorld with
    gameState.coins := List.replicate 10
      { x := 700, y := 100, radius := 18, collected := false, speed := 3, angle := 0 },
    gameState.timers.coinSpawn := 4990 }

/-- The sample state with the bird wholly above the screen: its bottom edge
is at `-30`. -/
def aboveScreenWorld : World :=
  { sampleWorld with
    gameState.bird := some
      { x := 200, y := -100, width := 70, height := 70, velocity := 0, gravity := 0.4,
        flapStrength := -6, rotation := 0 } }

/-- The sample state with the bird's top edge on the ground line 500. -/
def belowGroundWorld : World :=
  { sampleWorld with
    gameState.bird := some
      { x := 200, y := 500, width := 70, height := 70, velocity := 0, gravity := 0.4,
        flapStrength := -6, rotation := 0 } }

/-- What can happen to the loop driver: a call of one of the five control
functions, or a frame of the scheduler. -/
inductive Control where
  | startGame (now : ℚ)
  | showStartMenu
  | togglePause (now : ℚ)
  | showSettingsMenu
  | hideSettingsMenu (now : ℚ)
  | frame (t : Tick)
  deriving DecidableEq, Repr

/-- The effect of one control event. -/
def Control.apply : Control → World → Option World
  | Control.startGame now, w => some (Flappy.startGame now w)
  | Control.showStartMenu, w => some (Flappy.showStartMenu w)
  | Control.togglePause now, w => some (Flappy.togglePause now w)
  | Control.showSettingsMenu, w => some (Flappy.showSettingsMenu w)
  | Control.hideSettingsMenu now, w => some (Flappy.hideSettingsMenu now w)
  | Control.frame t, w => runFrame t w

/-- Runs the control events of a list, in order. -/
def runControls : List Control → World → Option World
  | [], w => some w
  | c :: cs, w =>
    match c.apply w with
    | none => none
    | some w => runControls cs w

/-- The state when the assets have been loaded, in an 800 by 600 window: the
start menu is shown, nothing is running or scheduled. -/
def loadedWorld : World :=
  { (initialWorld { innerWidth := 800, innerHeight := 600 }) with
    gameState.assetsLoaded := true }

/-- What can happen to the scores: a tick of `gameLoop`, a call of one of the
functions that write them, a start of the game, a flap. -/
inductive ScoreOp where
  | tick (t : Tick)
  | updateScore
  | reset
  | finishGameOver
  | resetAllTimeHighScore (confirmed : Bool)
  | startGame (now : ℚ)
  | flap
  deriving DecidableEq, Repr

/-- The effect of one score operation. -/
def ScoreOp.apply : ScoreOp → World → Option World
  | ScoreOp.tick t, w => gameLoop t w
  | ScoreOp.updateScore, w => some (GameLogic.updateScore w)
  | ScoreOp.reset, w => some (GameLogic.reset w)
  | ScoreOp.finishGameOver, w => some (GameLogic.finishGameOver w)
  | ScoreOp.resetAllTimeHighScore confirmed, w =>
    some (Flappy.resetAllTimeHighScore confirmed w)
  | ScoreOp.startGame now, w => some (Flappy.startGame now w)
  | ScoreOp.flap, w => Bird.flap w

/-- Runs the score operations of a list, in order. -/
def runScoreOps : List ScoreOp → World → Option World
  | [], w => some w
  | op :: ops, w =>
    match op.apply w with
    | none => none
    | some w => runScoreOps ops w

/-- The bird of Scenario A: at rest at `y = 300`, its gravity the double
written `0.4`. -/
def scenarioBird : Bird :=
  { x := 100, y := 300, width := 70, height := 70, velocity := 0,
    gravity := F64.round 0.4, flapStrength := -6, rotation := 0 }

/-- A pipe built in the sample window (height 600, ground height 100) with
top height the double written `51.1` and gap 180. -/
def roundedPipe : Pipe := Pipe.newF64 sampleWorld 800 (F64.round 51.1) 180 80

/-- A bird under `roundedPipe` whose bottom edge `y + height` is the double
231.10000000000002. -/
def edgeBird : Bird :=
  { x := 780, y := 1417050585877709 / 8796093022208, width := 70, height := 70,
    velocity := 0, gravity := 0.4, flapStrength := -6, rotation := 0 }

/-- The sample bird (70 by 70 at `x = 200`) at height `y`. -/
def birdAt (y : ℚ) : Bird :=
  { x := 200, y := y, width := 70, height := 70, velocity := 0, gravity := 0.4,
    flapStrength := -6, rotation := 0 }

/-- The bird of the rounding example for coins: 70 by 70, at the doubles
written `4.1` and `8.2`. -/
def touchBird : Bird :=
  { x := F64.round 4.1, y := F64.round 8.2, width := 70, height := 70, velocity := 0,
    gravity := 0.4, flapStrength := -6, rotation := 0 }

/-- The coin of the rounding example: radius 18, at the doubles written
`67.1` and `88.2`, which is 28 to the right of and 45 below the centre of
`touchBird` in decimal arithmetic. -/
def touchCoin : Coin :=
  { x := F64.round 67.1, y := F64.round 88.2, radius := 18, collected := false, speed := 3,
    angle := 0 }

/-- A bird of width and height 70 in the top left corner, centred at
`(35, 35)`. -/
def birdAtOrigin : Bird :=
  { x := 0, y := 0, width := 70, height := 70, velocity := 0, gravity := 0.4,
    flapStrength := -6, rotation := 0 }

/-- A sample running state just before a landing, at time 1000: no pipes and
no coins, the bird falling at velocity 5.6 with its bottom edge 5 pixels above
the ground line `600 - 100 = 500`, which a tick 16 ms later brings about 0.74
pixels below the line. -/
def landingWorld : World :=
  { sampleWorld with
    gameState.pipes := [],
    gameState.coins := [],
    gameState.bird := some
      { x := 200, y := 425, width := 70, height := 70, velocity := 5.6, gravity := 0.4,
        flapStrength := -6, rotation := 0 } }

/-- The state at ground contact: `landingWorld` after the tick at time 1016,
in which the ground test of the normal branch starts the death animation. -/
def contactWorld : World :=
  (gameLoop { currentTime := 1016, rPipe := 0.5, rCoin := 0.5, rSky := 0.5 }
    landingWorld).getD landingWorld

/-- The frames of the sample landing after the contact at time 1016: seven
ticks 32 ms apart, over which the bird hops and comes to rest, and a tick
799 ms after the contact. -/
def hopTicks : List Tick :=
  [{ currentTime := 1048, rPipe := 0.5, rCoin := 0.5, rSky := 0.5 },
   { currentTime := 1080, rPipe := 0.5, rCoin := 0.5, rSky := 0.5 },
   { currentTime := 1112, rPipe := 0.5, rCoin := 0.5, rSky := 0.5 },
   { currentTime := 1144, rPipe := 0.5, rCoin := 0.5, rSky := 0.5 },
   { currentTime := 1176, rPipe := 0.5, rCoin := 0.5, rSky := 0.5 },
   { currentTime := 1208, rPipe := 0.5, rCoin := 0.5, rSky := 0.5 },
   { currentTime := 1240, rPipe := 0.5, rCoin := 0.5, rSky := 0.5 },
   { currentTime := 1815, rPipe := 0.5, rCoin := 0.5, rSky := 0.5 }]

/-- What the player and the browser can do to the game: a control event (a
call of one of the five control functions or a frame of the scheduler), a
flap input, a restart, a change of difficulty, a reset of the records, a
resize of the window. -/
inductive Event where
  | control (c : Control)
  | flap
  | restartGame (now : ℚ)
  | changeDifficulty (difficulty : String)
  | resetAllTimeHighScore (confirmed : Bool)
  | resize (window : Window)
  deriving DecidableEq, Repr

/-- The effect of one event. -/
def Event.apply : Event → World → Option World
  | Event.control c, w => c.apply w
  | Event.flap, w => handleFlap w
  | Event.restartGame now, w => some (Flappy.restartGame now w)
  | Event.changeDifficulty difficulty, w => Flappy.changeDifficulty difficulty w
  | Event.resetAllTimeHighScore confirmed, w => some (Flappy.resetAllTimeHighScore confirmed w)
  | Event.resize window, w => some (CanvasManager.resize window w)

/-- Runs the events of a list, in order. -/
def runEvents : List Event → World → Option World
  | [], w => some w
  | e :: es, w =>
    match e.apply w with
    | none => none
    | some w => runEvents es w

/-- A sample run before any game is started: the settings menu is opened
and closed, the difficulty is set to hard, the pause key and the flap key are
pressed, the records are reset, the window is resized, and a frame of the
scheduler comes. -/
def menuEvents : List Event :=
  [Event.control Control.showSettingsMenu, Event.changeDifficulty "hard",
   Event.control (Control.hideSettingsMenu 5), Event.control (Control.togglePause 7),
   Event.flap, Event.resetAllTimeHighScore true,
   Event.resize { innerWidth := 1024, innerHeight := 768 },
   Event.control (Control.frame { currentTime := 16, rPipe := 0.5, rCoin := 0.5, rSky := 0.5 })]

/-! ## Vocabulary of the statements -/

/-- The aggregate score agrees with its two parts. -/
def ScoreConsistent (w : World) : Prop :=
  w.gameState.scores.overall = w.gameState.scores.pipes + w.gameState.scores.coins

/-- The number of pipes of a list whose `scored` flag is still false. -/
def unscored (l : List Pipe) : ℕ := l.countP (fun p => !p.scored)

/-- The number of positions at which the flag `scored` is false in the first
list and true in the second. -/
def flips (before after : List Pipe) : ℕ :=
  (before.zip after).countP (fun pq => !pq.1.scored && pq.2.scored)

/-- The aggregate score, its two parts and the two history counters are the
same in both states. -/
def SameScore (w w1 : World) : Prop :=
  w1.gameState.scores.overall = w.gameState.scores.overall ∧
  w1.gameState.scores.pipes = w.gameState.scores.pipes ∧
  w1.gameState.scores.coins = w.gameState.scores.coins ∧
  w1.pipesScored = w.pipesScored ∧
  w1.coinsCollected = w.coinsCollected

/-- From `w` to `w1` the score stays consistent if it was, the pipe counter
has moved in step with the number of pipes scored, the coin counter in step
with ten times the number of coins collected, and neither has decreased. -/
def ScoreStep (w w1 : World) : Prop :=
  (ScoreConsistent w → ScoreConsistent w1) ∧
  w1.gameState.scores.pipes - (w1.pipesScored : ℤ) =
    w.gameState.scores.pipes - (w.pipesScored : ℤ) ∧
  w1.gameState.scores.coins - 10 * (w1.coinsCollected : ℤ) =
    w.gameState.scores.coins - 10 * (w.coinsCollected : ℤ) ∧
  w.gameState.scores.pipes ≤ w1.gameState.scores.pipes ∧
  w.gameState.scores.coins ≤ w1.gameState.scores.coins

/-- The bird, if there was one, is still there. -/
def KeepsBird (w w1 : World) : Prop :=
  ∀ b, w.gameState.bird = some b → ∃ b1, w1.gameState.bird = some b1

/-- How `updatePipes(dt)` may change one pipe that it keeps, `bird` being
the bird: the pipe has moved left by `speed * dt` or (when the sweep stopped
before reaching it) not at all; nothing else but `scored` has changed; a
`scored` flag that was true is still true; and the flag has turned from false
to true only if the bird's left edge is past the pipe's right edge. -/
def PipeStep (dt : ℚ) (bird : Bird) (p q : Pipe) : Prop :=
  (q.x = p.x - p.speed * dt ∨ q.x = p.x) ∧
  q.topHeight = p.topHeight ∧ q.gap = p.gap ∧ q.width = p.width ∧ q.speed = p.speed ∧
  q.bottomY = p.bottomY ∧ q.bottomHeight = p.bottomHeight ∧
  (p.scored = true → q.scored = true) ∧
  (p.scored = false → q.scored = true → bird.x > q.x + q.width)

/-- The state with the background and the grass offset blanked: two states
that agree after this differ in nothing else. -/
def eraseScenery (w : World) : World :=
  { w with gameState.background := none, gameState.grassOffset := 0 }

/-- The state with the bird and its sprite blanked. -/
def eraseBird (w : World) : World :=
  { w with gameState.bird := none, gameState.birdState := BirdState.normal }

/-- Nothing of the play has moved from `w` to `w1`: same pipes, same coins,
same pipe, coin and aggregate scores, same two spawn timers. -/
def Frozen (w w1 : World) : Prop :=
  w1.gameState.pipes = w.gameState.pipes ∧
  w1.gameState.coins = w.gameState.coins ∧
  w1.gameState.scores.pipes = w.gameState.scores.pipes ∧
  w1.gameState.scores.coins = w.gameState.scores.coins ∧
  w1.gameState.scores.overall = w.gameState.scores.overall ∧
  w1.gameState.timers.pipeSpawn = w.gameState.timers.pipeSpawn ∧
  w1.gameState.timers.coinSpawn = w.gameState.timers.coinSpawn

/-- The game is in the Dying state. -/
def Dying (w : World) : Prop :=
  w.gameState.isDying = true ∧ w.gameState.gameOver = false

/-- The bird rests on the ground: its bottom edge is on the ground line
`innerHeight - groundHeight`, its velocity is 0, and gravity pulls down. -/
def RestingOnGround (w : World) : Prop :=
  ∃ b, w.gameState.bird = some b ∧
    b.y + b.height = w.window.innerHeight - w.gameState.config.groundHeight ∧
    b.velocity = 0 ∧ 0 ≤ b.gravity

/-- The number of game-over screens shown so far. -/
def gameOverShown (w : World) : ℕ :=
  w.effects.countP (fun e =>
    match e with
    | Effect.showGameOver _ _ => true
    | _ => false)

/-- The state of the death-animation branch of `gameLoop` just before its
final test: timer advanced, bird block, background and grass done. -/
def dyingStage (deltaTime dt : ℚ) (w : World) : World :=
  updateGrassScroll dt (updateBackground dt (dyingBirdStep dt
    { w with gameState.deathAnimationTimer := w.gameState.deathAnimationTimer + deltaTime }))

/-- The state with the coins, the scores, the record of external calls and
the count of coins collected blanked: what `updateCoins` may change. -/
def eraseCoinPlay (w : World) : World :=
  { w with gameState.coins := [],
           gameState.scores := { overall := 0, pipes := 0, coins := 0, session := 0,
                                 allTime := 0 },
           effects := [], coinsCollected := 0 }

/-- The normal branch of `gameLoop` up to and including its call of
`updatePipes`: the state that call leaves and the value it returned (false
when it found a collision). -/
def pipesStage (t : Tick) (deltaTime dt : ℚ) (w : World) : Option (World × Bool) :=
  match updateBird dt w with
  | none => none
  | some w =>
    match groundCheck w with
    | none => none
    | some w => GameLogic.updatePipes dt (pipeSpawnStep t deltaTime (updateBackground dt w))

/-- The state with the pipes, the scores, the bird, its sprite, the death
flag and timer, the record of external calls and the count of pipes scored
blanked: what `updatePipes` may change. -/
def erasePipePlay (w : World) : World :=
  { w with gameState.pipes := [],
           gameState.scores := { overall := 0, pipes := 0, coins := 0, session := 0,
                                 allTime := 0 },
           gameState.bird := none,
           gameState.birdState := BirdState.normal,
           gameState.isDying := false,
           gameState.deathAnimationTimer := 0,
           effects := [], pipesScored := 0 }

/-- The state with everything blanked that the normal branch of `gameLoop`
may change up to and including `updatePipes`: what `erasePipePlay` blanks,
the background, the coins (a new pipe brings one) and the pipe timer. -/
def eraseStage (w : World) : World :=
  { erasePipePlay w with
    gameState.background := none,
    gameState.coins := [],
    gameState.timers.pipeSpawn := 0 }

/-- The state with everything blanked that the gameplay updates of one tick
may change: what `eraseStage` blanks, the coin timer, the grass offset and
the count of coins collected. -/
def erasePlay (w : World) : World :=
  { eraseStage w with
    gameState.timers.coinSpawn := 0,
    gameState.grassOffset := 0,
    coinsCollected := 0 }

/-- The rectangle test: `Utils.checkCollision` of the bird's bounds against
the top rectangle of `Pipe.getBounds`, or against its bottom rectangle; a
fault when there is no bird. -/
def checkPipeCollisionRects (w : World) (pipe : Pipe) : Option Bool :=
  match w.gameState.bird with
  | none => none
  | some b =>
    some (Utils.checkCollision b.getBounds pipe.getBounds.1 ||
      Utils.checkCollision b.getBounds pipe.getBounds.2)

/-- At most one `gameLoop` callback is pending, and it is the one recorded
in `animationFrameId`. -/
def SinglePending (w : World) : Prop :=
  w.pendingFrames.length ≤ 1 ∧ ∀ id ∈ w.pendingFrames, w.animationFrameId = some id

/-- Without a bird the game is not running, paused, dying or marked as
running behind the settings menu. -/
def LiveHasBird (w : World) : Prop :=
  w.gameState.bird = none →
    w.gameState.running = false ∧ w.gameState.paused = false ∧
    w.gameState.isDying = false ∧ w.wasRunning = false

/-- The session best is not below the score unless the all-time best is
below the score too; and the session best is not negative. -/
def RecordOk (w : World) : Prop :=
  (w.gameState.scores.session ≥ w.gameState.scores.overall ∨
    w.gameState.scores.allTime < w.gameState.scores.overall) ∧
  0 ≤ w.gameState.scores.session

/-- The number `q` is a multiple of `2 ^ (-k)` of magnitude below
`2 ^ 50 / 2 ^ k`, with `k ≤ 1074`: sums and differences of a few such numbers
are doubles. -/
def OnGrid (k : ℕ) (q : ℚ) : Prop :=
  k ≤ 1074 ∧ ∃ z : ℤ, |z| < 2 ^ 50 ∧ q = (z : ℚ) / 2 ^ k

/-- The number `q` is a whole number of magnitude below `2 ^ 24`. -/
def Whole (q : ℚ) : Prop := ∃ z : ℤ, |z| < 2 ^ 24 ∧ q = (z : ℚ)

/-- The flag `hasHitGround` as the tick `t` computes it in the Dying state
`w`: after the bird block of that tick, the bird's bottom edge is within one
pixel of the ground line or below it. -/
def hitsGroundAt (t : Tick) (w : World) : Bool :=
  hasHitGround (dyingStage (t.currentTime - w.lastTime) (frameDt t.currentTime w.lastTime)
    { w with lastTime := t.currentTime })

/-! ## Double precision: rounding -/

/-- A rational within a half of an integer rounds to it. -/
theorem F64.roundHalfEven_eq (q : ℚ) (n : ℤ) (h : |q - n| < 1 / 2) :
    F64.roundHalfEven q = n := by
  rw [abs_lt] at h
  have hfl : ⌊q⌋ = n ∨ ⌊q⌋ = n - 1 := by
    by_cases hq : (n : ℚ) ≤ q
    · left
      rw [Int.floor_eq_iff]
      constructor
      · exact hq
      · linarith
    · right
      rw [Int.floor_eq_iff]
      push_cast
      constructor <;> linarith
  unfold F64.roundHalfEven
  rcases hfl with e | e
  · rw [e]
    rw [if_pos (by linarith)]
  · rw [e]
    push_cast
    rw [if_neg (by linarith), if_pos (by linarith)]
    ring

/-- An integer rounds to itself. -/
theorem F64.roundHalfEven_intCast (n : ℤ) : F64.roundHalfEven (n : ℚ) = n :=
  F64.roundHalfEven_eq _ n (by simp)

/-- The exponent of a number between two consecutive powers of 2. -/
theorem F64.exponent_eq (q : ℚ) (e : ℤ) (he : -1022 ≤ e) (h1 : 2 ^ e ≤ |q|)
    (h2 : |q| < 2 ^ (e + 1)) : F64.exponent q = e := by
  have hpos : 0 < |q| := lt_of_lt_of_le (by positivity) h1
  have a1 : e ≤ Int.log 2 |q| :=
    (Int.zpow_le_iff_le_log (b := 2) (by norm_num) hpos (x := e)).mp (by exact_mod_cast h1)
  have a2 : Int.log 2 |q| < e + 1 :=
    (Int.lt_zpow_iff_log_lt (b := 2) (by norm_num) hpos (x := e + 1)).mp (by exact_mod_cast h2)
  unfold F64.exponent
  rw [max_eq_left (by omega)]
  omega

/-- The double nearest to `q`, from its exponent `e` and the integer `n`
nearest to `q / 2 ^ (e - 52)`. -/
theorem F64.round_eq (q : ℚ) (e n : ℤ) (he : -1022 ≤ e) (h1 : 2 ^ e ≤ |q|)
    (h2 : |q| < 2 ^ (e + 1)) (hn : |q / 2 ^ (e - 52) - n| < 1 / 2) :
    F64.round q = n * 2 ^ (e - 52) := by
  unfold F64.round
  rw [F64.exponent_eq q e he h1 h2, F64.roundHalfEven_eq _ n hn]

/-- Zero is a double. -/
theorem F64.round_zero : F64.round 0 = 0 := by
  unfold F64.round
  rw [zero_div, show ((0 : ℚ)) = ((0 : ℤ) : ℚ) by norm_num, F64.roundHalfEven_intCast]
  simp

/-- A multiple of `2 ^ (-k)` with fewer than 53 bits is a double: it rounds
to itself. -/
theorem F64.round_dyadic (z : ℤ) (k : ℕ) (hz : |z| < 2 ^ 53) (hk : k ≤ 1074) :
    F64.round (z / 2 ^ k) = z / 2 ^ k := by
  by_cases h0 : z = 0
  · rw [h0]
    simp [F64.round_zero]
  have hq : (0 : ℚ) < |(z : ℚ) / 2 ^ k| := by
    rw [abs_pos]
    apply div_ne_zero
    · exact_mod_cast h0
    · positivity
  have hlog : Int.log 2 |(z : ℚ) / 2 ^ k| + (k : ℤ) ≤ 52 := by
    have h1 := Int.zpow_log_le_self (b := 2) (by norm_num) hq
    have h2 : |(z : ℚ) / 2 ^ k| < 2 ^ ((53 : ℤ) - k) := by
      rw [abs_div, abs_of_pos (show (0 : ℚ) < 2 ^ k by positivity), zpow_sub₀ (by norm_num),
        zpow_natCast]
      apply div_lt_div_of_pos_right _ (by positivity)
      have : ((|z| : ℤ) : ℚ) < ((2 ^ 53 : ℤ) : ℚ) := by exact_mod_cast hz
      rw [Int.cast_abs] at this
      norm_num at this ⊢
      exact this
    have h3 : (2 : ℚ) ^ Int.log 2 |(z : ℚ) / 2 ^ k| < 2 ^ ((53 : ℤ) - k) := by
      refine lt_of_le_of_lt ?_ h2
      exact_mod_cast h1
    have h4 := (zpow_lt_zpow_iff_right₀ (show (1 : ℚ) < 2 by norm_num)).mp h3
    omega
  have hexp : F64.exponent ((z : ℚ) / 2 ^ k) + (k : ℤ) ≤ 52 := by
    unfold F64.exponent
    rcases max_cases (Int.log 2 |(z : ℚ) / 2 ^ k|) (-1022) with ⟨e, _⟩ | ⟨e, _⟩
    · rw [e]
      exact hlog
    · rw [e]
      omega
  unfold F64.round
  obtain ⟨j, hj⟩ : ∃ j : ℕ, (j : ℤ) = 52 - F64.exponent ((z : ℚ) / 2 ^ k) - k :=
    ⟨(52 - F64.exponent ((z : ℚ) / 2 ^ k) - k).toNat, Int.toNat_of_nonneg (by omega)⟩
  have he : F64.exponent ((z : ℚ) / 2 ^ k) - 52 = -((j : ℤ) + k) := by omega
  rw [he]
  have e1 : (z : ℚ) / 2 ^ k / 2 ^ (-((j : ℤ) + k)) = ((z * 2 ^ j : ℤ) : ℚ) := by
    rw [zpow_neg, zpow_add₀ (by norm_num), zpow_natCast, zpow_natCast]
    push_cast
    field_simp
    ring
  rw [e1, F64.roundHalfEven_intCast]
  rw [zpow_neg, zpow_add₀ (by norm_num), zpow_natCast, zpow_natCast]
  push_cast
  field_simp
  ring

/-- The exponent of the root: the `e` with `4 ^ e ≤ q < 4 ^ (e + 1)`. -/
theorem F64.log_four_eq (q : ℚ) (e : ℤ) (h1 : 4 ^ e ≤ q) (h2 : q < 4 ^ (e + 1)) :
    Int.log 4 q = e := by
  have hpos : 0 < q := lt_of_lt_of_le (by positivity) h1
  have a1 : e ≤ Int.log 4 q :=
    (Int.zpow_le_iff_le_log (b := 4) (by norm_num) hpos (x := e)).mp (by exact_mod_cast h1)
  have a2 : Int.log 4 q < e + 1 :=
    (Int.lt_zpow_iff_log_lt (b := 4) (by norm_num) hpos (x := e + 1)).mp (by exact_mod_cast h2)
  omega

/-- The rounding step of `sqrt`: if the natural number `r` is within a half
of the root of `m`, it is the one chosen. -/
theorem F64.sqrt_choice (m : ℚ) (r : ℕ) (hr : 1 ≤ r)
    (ha : ((r : ℚ) - 1 / 2) * (r - 1 / 2) < m) (hb : m < ((r : ℚ) + 1 / 2) * (r + 1 / 2)) :
    (if m < ((Nat.sqrt ⌊m⌋₊ : ℚ) + 1 / 2) * (Nat.sqrt ⌊m⌋₊ + 1 / 2) then Nat.sqrt ⌊m⌋₊
      else if ((Nat.sqrt ⌊m⌋₊ : ℚ) + 1 / 2) * (Nat.sqrt ⌊m⌋₊ + 1 / 2) < m then
        Nat.sqrt ⌊m⌋₊ + 1
      else if Nat.sqrt ⌊m⌋₊ % 2 = 0 then Nat.sqrt ⌊m⌋₊ else Nat.sqrt ⌊m⌋₊ + 1) = r := by
  have hr1 : (1 : ℚ) ≤ r := by exact_mod_cast hr
  have hm : 0 ≤ m := by nlinarith
  have f1 : ((⌊m⌋₊ : ℕ) : ℚ) ≤ m := Nat.floor_le hm
  have f2 : m < ((⌊m⌋₊ : ℕ) : ℚ) + 1 := Nat.lt_floor_add_one m
  have s1 : Nat.sqrt ⌊m⌋₊ * Nat.sqrt ⌊m⌋₊ ≤ ⌊m⌋₊ := Nat.sqrt_le _
  have s2 : ⌊m⌋₊ < (Nat.sqrt ⌊m⌋₊ + 1) * (Nat.sqrt ⌊m⌋₊ + 1) := Nat.lt_succ_sqrt _
  have s1q : (Nat.sqrt ⌊m⌋₊ : ℚ) * Nat.sqrt ⌊m⌋₊ ≤ m := by
    refine le_trans ?_ f1
    exact_mod_cast s1
  have s2q : m < ((Nat.sqrt ⌊m⌋₊ : ℚ) + 1) * (Nat.sqrt ⌊m⌋₊ + 1) := by
    refine lt_of_lt_of_le f2 ?_
    have : ⌊m⌋₊ + 1 ≤ (Nat.sqrt ⌊m⌋₊ + 1) * (Nat.sqrt ⌊m⌋₊ + 1) := s2
    exact_mod_cast this
  generalize Nat.sqrt ⌊m⌋₊ = n at s1q s2q ⊢
  have hn0 : (0 : ℚ) ≤ n := Nat.cast_nonneg n
  have c1 : (r : ℚ) < n + 3 / 2 := by nlinarith
  have c2 : (n : ℚ) < r + 1 / 2 := by nlinarith
  have c3 : r ≤ n + 1 := by
    have : (r : ℚ) < ((n + 2 : ℕ) : ℚ) := by push_cast; linarith
    have := Nat.cast_lt.mp this
    omega
  have c4 : n ≤ r := by
    have : (n : ℚ) < ((r + 1 : ℕ) : ℚ) := by push_cast; linarith
    have := Nat.cast_lt.mp this
    omega
  have c5 : r = n ∨ r = n + 1 := by omega
  rcases c5 with e | e
  · subst e
    rw [if_pos hb]
  · subst e
    push_cast at ha
    have ha' : ((n : ℚ) + 1 / 2) * (n + 1 / 2) < m := by
      have : ((n : ℚ) + 1 - 1 / 2) = n + 1 / 2 := by ring
      rw [this] at ha
      exact ha
    rw [if_neg (not_lt.mpr (le_of_lt ha')), if_pos ha']

/-- The value of `sqrt`, from the exponent `e` of the root and the natural
number `r` nearest to the root of `q / ulp ^ 2`. -/
theorem F64.sqrt_eq (q : ℚ) (e : ℤ) (r : ℕ) (h1 : 4 ^ e ≤ q) (h2 : q < 4 ^ (e + 1))
    (hr : 1 ≤ r)
    (ha : ((r : ℚ) - 1 / 2) * (r - 1 / 2) < q / (2 ^ (e - 52) * 2 ^ (e - 52)))
    (hb : q / (2 ^ (e - 52) * 2 ^ (e - 52)) < ((r : ℚ) + 1 / 2) * (r + 1 / 2)) :
    F64.sqrt q = r * 2 ^ (e - 52) := by
  have hpos : 0 < q := lt_of_lt_of_le (by positivity) h1
  unfold F64.sqrt
  rw [if_neg (not_le.mpr hpos), F64.log_four_eq q e h1 h2]
  simp only []
  rw [F64.sqrt_choice _ r hr ha hb]

/-- The root of a whole number below `2 ^ 53`, compared with a whole number
up to `2 ^ 26`: rounding the root does not change the verdict. -/
theorem F64.sqrt_natCast_lt (s R : ℕ) (hs : s < 2 ^ 53) (hR : R ≤ 2 ^ 26) :
    F64.sqrt (s : ℚ) < (R : ℚ) ↔ s < R * R := by
  rcases Nat.eq_zero_or_pos s with h0 | hpos
  · subst h0
    simp only [F64.sqrt, Nat.cast_zero, le_refl, if_true]
    rw [Nat.cast_pos]
    constructor
    · intro h
      exact Nat.mul_pos h h
    · intro h
      exact Nat.pos_of_ne_zero (fun e => by rw [e] at h; exact absurd h (by norm_num))
  have hq : (0 : ℚ) < (s : ℚ) := by exact_mod_cast hpos
  have he0 : 0 ≤ Int.log 4 (s : ℚ) := by
    apply (Int.zpow_le_iff_le_log (b := 4) (by norm_num) hq (x := 0)).mp
    simp only [zpow_zero]
    exact_mod_cast hpos
  have he26 : Int.log 4 (s : ℚ) < 27 := by
    apply (Int.lt_zpow_iff_log_lt (b := 4) (by norm_num) hq (x := 27)).mp
    have : (s : ℚ) < ((2 ^ 53 : ℕ) : ℚ) := by exact_mod_cast hs
    refine lt_trans this ?_
    norm_num
  obtain ⟨j, hj⟩ : ∃ j : ℕ, (j : ℤ) = 52 - Int.log 4 (s : ℚ) :=
    ⟨(52 - Int.log 4 (s : ℚ)).toNat, Int.toNat_of_nonneg (by omega)⟩
  have hj26 : 26 ≤ j := by omega
  have hu : (2 : ℚ) ^ (Int.log 4 (s : ℚ) - 52) = ((2 : ℚ) ^ j)⁻¹ := by
    rw [show Int.log 4 (s : ℚ) - 52 = -(j : ℤ) by omega, zpow_neg, zpow_natCast]
  have hm : (s : ℚ) / (((2 : ℚ) ^ j)⁻¹ * ((2 : ℚ) ^ j)⁻¹) = ((s * (2 ^ j * 2 ^ j) : ℕ) : ℚ) := by
    push_cast
    field_simp
  unfold F64.sqrt
  rw [if_neg (not_le.mpr hq)]
  simp only []
  rw [hu, hm, Nat.floor_natCast]
  have hp : 0 < 2 ^ j := Nat.pos_of_ne_zero (by positivity)
  have hpq : (0 : ℚ) < (2 : ℚ) ^ j := by positivity
  have hpj : 2 ^ 26 ≤ 2 ^ j := Nat.pow_le_pow_right (by norm_num) hj26
  generalize hM : s * (2 ^ j * 2 ^ j) = M
  generalize hn : Nat.sqrt M = n
  have s1 : n * n ≤ M := by rw [← hn]; exact Nat.sqrt_le M
  have s2 : M < (n + 1) * (n + 1) := by rw [← hn]; exact Nat.lt_succ_sqrt M
  have hNN : s < R * R ↔ M < (R * 2 ^ j) * (R * 2 ^ j) := by
    rw [← hM]
    have e : R * 2 ^ j * (R * 2 ^ j) = R * R * (2 ^ j * 2 ^ j) := by ring
    rw [e]
    exact (Nat.mul_lt_mul_right (Nat.mul_pos hp hp)).symm
  have hnN : n < R * 2 ^ j ↔ M < (R * 2 ^ j) * (R * 2 ^ j) := by
    rw [← hn]
    exact Nat.sqrt_lt
  have fin : ∀ r : ℕ, ((r : ℚ) * ((2 : ℚ) ^ j)⁻¹ < (R : ℚ) ↔ r < R * 2 ^ j) := by
    intro r
    rw [← div_eq_mul_inv, div_lt_iff₀ hpq]
    constructor
    · intro h
      have : (r : ℚ) < ((R * 2 ^ j : ℕ) : ℚ) := by push_cast; exact h
      exact_mod_cast this
    · intro h
      have : (r : ℚ) < ((R * 2 ^ j : ℕ) : ℚ) := by exact_mod_cast h
      push_cast at this
      exact this
  by_cases hc : M ≤ n * n + n
  · have hcq : (M : ℚ) < ((n : ℚ) + 1 / 2) * (n + 1 / 2) := by
      have : (M : ℚ) ≤ ((n * n + n : ℕ) : ℚ) := by exact_mod_cast hc
      push_cast at this
      nlinarith
    rw [if_pos hcq, fin n, hnN, hNN]
  · have hc' : n * n + n + 1 ≤ M := by omega
    have hcq : ((n : ℚ) + 1 / 2) * (n + 1 / 2) < (M : ℚ) := by
      have : ((n * n + n + 1 : ℕ) : ℚ) ≤ (M : ℚ) := by exact_mod_cast hc'
      push_cast at this
      nlinarith
    rw [if_neg (not_lt.mpr (le_of_lt hcq)), if_pos hcq, fin (n + 1), hNN]
    constructor
    · intro h
      exact hnN.mp (by omega)
    · intro h
      have h1 : n < R * 2 ^ j := hnN.mpr h
      by_contra hcon
      have h2 : n + 1 = R * 2 ^ j := by omega
      have h3 : s + 1 ≤ R * R := hNN.mpr h
      have h4 : M + 2 ^ j * 2 ^ j ≤ (R * 2 ^ j) * (R * 2 ^ j) := by
        rw [← hM]
        have e : R * 2 ^ j * (R * 2 ^ j) = R * R * (2 ^ j * 2 ^ j) := by ring
        rw [e]
        calc s * (2 ^ j * 2 ^ j) + 2 ^ j * 2 ^ j = (s + 1) * (2 ^ j * 2 ^ j) := by ring
          _ ≤ R * R * (2 ^ j * 2 ^ j) := Nat.mul_le_mul_right _ h3
      rw [← h2] at h4
      have h5 : 2 ^ j * 2 ^ j ≤ n := by nlinarith
      have h6 : R * 2 ^ j ≤ 2 ^ 26 * 2 ^ j := Nat.mul_le_mul_right _ hR
      have h7 : 2 ^ 26 * 2 ^ j ≤ 2 ^ j * 2 ^ j := Nat.mul_le_mul_right _ hpj
      omega

/-- A rational half-way between two integers rounds to the even one. -/
theorem F64.roundHalfEven_tie (q : ℚ) (m : ℤ) (h : |q - m| = 1 / 2) (hm : m % 2 = 0) :
    F64.roundHalfEven q = m := by
  have hcases : q = m + 1 / 2 ∨ q = m - 1 / 2 := by
    rcases abs_eq (by norm_num : (0 : ℚ) ≤ 1 / 2) |>.mp h with e | e
    · left
      linarith
    · right
      linarith
  unfold F64.roundHalfEven
  rcases hcases with e | e
  · have hfl : ⌊q⌋ = m := by
      rw [Int.floor_eq_iff]
      constructor <;> linarith
    rw [hfl, if_neg (by rw [e]; norm_num), if_neg (by rw [e]; norm_num), if_pos hm]
  · have hfl : ⌊q⌋ = m - 1 := by
      rw [Int.floor_eq_iff]
      push_cast
      constructor <;> linarith
    rw [hfl]
    push_cast
    rw [if_neg (by rw [e]; norm_num), if_neg (by rw [e]; norm_num), if_neg (by omega)]
    ring

/-- The double nearest to `q` when `q` lies half-way between two doubles: the
one with the even mantissa `m`. -/
theorem F64.round_eq_tie (q : ℚ) (e m : ℤ) (he : -1022 ≤ e) (h1 : 2 ^ e ≤ |q|)
    (h2 : |q| < 2 ^ (e + 1)) (hn : |q / 2 ^ (e - 52) - m| = 1 / 2) (hm : m % 2 = 0) :
    F64.round q = m * 2 ^ (e - 52) := by
  unfold F64.round
  rw [F64.exponent_eq q e he h1 h2, F64.roundHalfEven_tie _ m hn hm]

/-! ## Collision tests -/

/-- A sum of two multiples of `2 ^ (-k)` with fewer than 53 bits is exact. -/
theorem F64.add_grid (a b : ℤ) (k : ℕ) (hk : k ≤ 1074) (h : |a + b| < 2 ^ 53) :
    F64.add ((a : ℚ) / 2 ^ k) ((b : ℚ) / 2 ^ k) = ((a + b : ℤ) : ℚ) / 2 ^ k := by
  unfold F64.add
  have e : (a : ℚ) / 2 ^ k + (b : ℚ) / 2 ^ k = ((a + b : ℤ) : ℚ) / 2 ^ k := by
    push_cast
    ring
  rw [e, F64.round_dyadic _ k h hk]

/-- A difference of two multiples of `2 ^ (-k)` with fewer than 53 bits is
exact. -/
theorem F64.sub_grid (a b : ℤ) (k : ℕ) (hk : k ≤ 1074) (h : |a - b| < 2 ^ 53) :
    F64.sub ((a : ℚ) / 2 ^ k) ((b : ℚ) / 2 ^ k) = ((a - b : ℤ) : ℚ) / 2 ^ k := by
  unfold F64.sub
  have e : (a : ℚ) / 2 ^ k - (b : ℚ) / 2 ^ k = ((a - b : ℤ) : ℚ) / 2 ^ k := by
    push_cast
    ring
  rw [e, F64.round_dyadic _ k h hk]

/-- The verdict of `checkPipeCollision` in double precision, for any bird and
any pipe: the rounded right edges and the rounded bottom edge are compared
with the pipe's fields. -/
theorem checkPipeCollisionF64_eq (w : World) (bird : Bird) (pipe : Pipe) :
    GameLogic.checkPipeCollisionF64 { w with gameState.bird := some bird } pipe =
      some (decide ((F64.add bird.x bird.width > pipe.x ∧
          bird.x < F64.add pipe.x pipe.width) ∧
        (bird.y < pipe.topHeight ∨ F64.add bird.y bird.height > pipe.bottomY))) := by
  simp only [GameLogic.checkPipeCollisionF64, Bird.getBounds]
  by_cases h1 : F64.add bird.x bird.width > pipe.x ∧ bird.x < F64.add pipe.x pipe.width
  · by_cases h2 : bird.y < pipe.topHeight ∨ F64.add bird.y bird.height > pipe.bottomY
    · simp [h1, h2]
    · simp [h1, h2]
  · simp [h1]

/-- The literal `51.1` is the double `7191685654957261 / 2 ^ 47`. -/
theorem round_fifty_one : F64.round 51.1 = 7191685654957261 / 140737488355328 := by
  rw [F64.round_eq _ 5 7191685654957261 (by norm_num)
    (by rw [abs_of_pos (by norm_num)]; norm_num)
    (by rw [abs_of_pos (by norm_num)]; norm_num)
      (by rw [abs_lt]; constructor <;> norm_num)]
  norm_num

/-- C1 as stated fails: the pipe built in a window of height 600 over a
ground of height 100 with top height the double `51.1` and gap 180 has
`bottomY` 231.10000000000002, which is neither `topHeight + gap` nor that sum
rounded (231.1); and for the bird `edgeBird`, which overlaps the pipe
horizontally and whose bottom edge is 231.10000000000002, below
`topHeight + gap`, `checkPipeCollision` returns false. -/
theorem pipe_bottom_rounds :
    roundedPipe.bottomY = 2032777097432269 / 8796093022208 ∧
    roundedPipe.bottomY ≠ roundedPipe.topHeight + roundedPipe.gap ∧
    roundedPipe.bottomY ≠ F64.add roundedPipe.topHeight roundedPipe.gap ∧
    GameLogic.checkPipeCollisionF64 { sampleWorld with gameState.bird := some edgeBird }
      roundedPipe = some false ∧
    (edgeBird.x + edgeBird.width > roundedPipe.x ∧
      edgeBird.x < roundedPipe.x + roundedPipe.width) ∧
    edgeBird.y + edgeBird.height > roundedPipe.topHeight + roundedPipe.gap ∧
    F64.add edgeBird.y edgeBird.height > F64.add roundedPipe.topHeight roundedPipe.gap := by
  have c1_a : F64.sub (600 : ℚ) 100 = 500 := by
    unfold F64.sub
    rw [F64.round_eq _ 8 8796093022208000 (by norm_num)
      (by rw [abs_of_pos (by norm_num)]; norm_num)
      (by rw [abs_of_pos (by norm_num)]; norm_num)
      (by rw [abs_lt]; constructor <;> norm_num)]
    norm_num
  have c1_b : F64.sub (500 : ℚ) (7191685654957261 / 140737488355328) =
      (3948566157669171 / 8796093022208) := by
    unfold F64.sub
    rw [F64.round_eq _ 8 7897132315338342 (by norm_num)
      (by rw [abs_of_pos (by norm_num)]; norm_num)
      (by rw [abs_of_pos (by norm_num)]; norm_num)
      (by rw [abs_lt]; constructor <;> norm_num)]
    norm_num
  have c1_c : F64.sub ((3948566157669171 / 8796093022208) : ℚ) 180 =
      (2365269413671731 / 8796093022208) := by
    unfold F64.sub
    rw [F64.round_eq _ 8 4730538827343462 (by norm_num)
      (by rw [abs_of_pos (by norm_num)]; norm_num)
      (by rw [abs_of_pos (by norm_num)]; norm_num)
      (by rw [abs_lt]; constructor <;> norm_num)]
    norm_num
  have c1_bottomY : F64.sub (500 : ℚ) (2365269413671731 / 8796093022208) =
      (2032777097432269 / 8796093022208) := by
    unfold F64.sub
    rw [F64.round_eq _ 7 8131108389729076 (by norm_num)
      (by rw [abs_of_pos (by norm_num)]; norm_num)
      (by rw [abs_of_pos (by norm_num)]; norm_num)
      (by rw [abs_lt]; constructor <;> norm_num)]
    norm_num
  have c1_bottomHeight : F64.sub (500 : ℚ) (2032777097432269 / 8796093022208) =
      (2365269413671731 / 8796093022208) := by
    unfold F64.sub
    rw [F64.round_eq _ 8 4730538827343462 (by norm_num)
      (by rw [abs_of_pos (by norm_num)]; norm_num)
      (by rw [abs_of_pos (by norm_num)]; norm_num)
      (by rw [abs_lt]; constructor <;> norm_num)]
    norm_num
  have c1_bird_bottom : F64.add ((1417050585877709 / 8796093022208) : ℚ) 70 =
      (2032777097432269 / 8796093022208) := by
    unfold F64.add
    rw [F64.round_eq _ 7 8131108389729076 (by norm_num)
      (by rw [abs_of_pos (by norm_num)]; norm_num)
      (by rw [abs_of_pos (by norm_num)]; norm_num)
      (by rw [abs_lt]; constructor <;> norm_num)]
    norm_num
  have c1_bird_right : F64.add (780 : ℚ) 70 = 850 := by
    unfold F64.add
    rw [F64.round_eq _ 9 7476679068876800 (by norm_num)
      (by rw [abs_of_pos (by norm_num)]; norm_num)
      (by rw [abs_of_pos (by norm_num)]; norm_num)
      (by rw [abs_lt]; constructor <;> norm_num)]
    norm_num
  have c1_pipe_right : F64.add (800 : ℚ) 80 = 880 := by
    unfold F64.add
    rw [F64.round_eq _ 9 7740561859543040 (by norm_num)
      (by rw [abs_of_pos (by norm_num)]; norm_num)
      (by rw [abs_of_pos (by norm_num)]; norm_num)
      (by rw [abs_lt]; constructor <;> norm_num)]
    norm_num
  have c1_gap_bottom : F64.add ((7191685654957261 / 140737488355328) : ℚ) 180 =
      (8131108389729075 / 35184372088832) := by
    unfold F64.add
    rw [F64.round_eq _ 7 8131108389729075 (by norm_num)
      (by rw [abs_of_pos (by norm_num)]; norm_num)
      (by rw [abs_of_pos (by norm_num)]; norm_num)
      (by rw [abs_lt]; constructor <;> norm_num)]
    norm_num
  have hT : roundedPipe.topHeight = 7191685654957261 / 140737488355328 := round_fifty_one
  have hG : roundedPipe.gap = 180 := rfl
  have hB : roundedPipe.bottomY = 2032777097432269 / 8796093022208 := by
    have e : roundedPipe.bottomY = F64.sub (F64.sub 600 100)
        (F64.sub (F64.sub (F64.sub 600 100) (F64.round 51.1)) 180) := rfl
    rw [e, round_fifty_one, c1_a, c1_b, c1_c, c1_bottomY]
  have hy : edgeBird.y = 1417050585877709 / 8796093022208 := rfl
  have hh : edgeBird.height = 70 := rfl
  have hx : edgeBird.x = 780 := rfl
  have hw : edgeBird.width = 70 := rfl
  have hpx : roundedPipe.x = 800 := rfl
  have hpw : roundedPipe.width = 80 := rfl
  refine ⟨hB, ?_, ?_, ?_, ?_, ?_, ?_⟩
  · rw [hB, hT, hG]; norm_num
  · rw [hB, hT, hG, c1_gap_bottom]; norm_num
  · rw [checkPipeCollisionF64_eq, hx, hw, hy, hh, hpx, hpw, hT, hB, c1_bird_right,
      c1_pipe_right, c1_bird_bottom]
    norm_num
  · rw [hx, hw, hpx, hpw]; norm_num
  · rw [hy, hh, hT, hG]; norm_num
  · rw [hy, hh, hT, hG, c1_bird_bottom, c1_gap_bottom]; norm_num

/-- C1, as the code has it: in double precision, when the window height, the ground
height, the pipe's top height, gap, position and width and the bird's
position and size are all multiples of one `2 ^ (-k)` of magnitude below
`2 ^ 50 / 2 ^ k` (integers below `2 ^ 50`, for one), the `Pipe` constructor's
`bottomY` equals `topHeight + gap`, and `GameLogic.checkPipeCollision` returns
true exactly when the bird's horizontal extent strictly overlaps the pipe's
and the bird's top is above the gap top or its bottom below the gap bottom;
for every bird and pipe, it returns true exactly when
`fl(bird.x + bird.width) > pipe.x`, `bird.x < fl(pipe.x + pipe.width)` and
`bird.y < pipe.topHeight` or `fl(bird.y + bird.height) > pipe.bottomY`, the
sums `fl` rounded to doubles. -/
theorem checkPipeCollision_grid (k : ℕ) (w0 w : World) (bird : Bird)
    (x topHeight gap width x1 speed : ℚ) (scored : Bool)
    (hH : OnGrid k w0.window.innerHeight) (hg : OnGrid k w0.gameState.config.groundHeight)
    (ht : OnGrid k topHeight) (hp : OnGrid k gap) (hx1 : OnGrid k x1) (hw : OnGrid k width)
    (hbx : OnGrid k bird.x) (hbw : OnGrid k bird.width) (hby : OnGrid k bird.y)
    (hbh : OnGrid k bird.height) :
    (Pipe.newF64 w0 x topHeight gap width).bottomY = topHeight + gap ∧
    GameLogic.checkPipeCollisionF64 { w with gameState.bird := some bird }
        { Pipe.newF64 w0 x topHeight gap width with x := x1, speed := speed, scored := scored } =
      some (decide ((bird.x + bird.width > x1 ∧ bird.x < x1 + width) ∧
        (bird.y < topHeight ∨ bird.y + bird.height > topHeight + gap))) ∧
    (∀ pipe : Pipe,
      GameLogic.checkPipeCollisionF64 { w with gameState.bird := some bird } pipe =
        some (decide ((F64.add bird.x bird.width > pipe.x ∧
            bird.x < F64.add pipe.x pipe.width) ∧
          (bird.y < pipe.topHeight ∨ F64.add bird.y bird.height > pipe.bottomY)))) := by
  obtain ⟨hk, H, bH, eH⟩ := hH
  obtain ⟨_, g, bg, eg⟩ := hg
  obtain ⟨_, t, bt, et⟩ := ht
  obtain ⟨_, p, bp, ep⟩ := hp
  obtain ⟨_, px, bpx, epx⟩ := hx1
  obtain ⟨_, pw, bpw, epw⟩ := hw
  obtain ⟨_, bx, bbx, ebx⟩ := hbx
  obtain ⟨_, bw, bbw, ebw⟩ := hbw
  obtain ⟨_, by1, bby, eby⟩ := hby
  obtain ⟨_, bh, bbh, ebh⟩ := hbh
  rw [abs_lt] at bH bg bt bp bpx bpw bbx bbw bby bbh
  have s1 : F64.sub w0.window.innerHeight w0.gameState.config.groundHeight =
      ((H - g : ℤ) : ℚ) / 2 ^ k := by
    rw [eH, eg]
    exact F64.sub_grid H g k hk (by rw [abs_lt]; constructor <;> omega)
  have s2 : F64.sub (((H - g : ℤ) : ℚ) / 2 ^ k) topHeight = ((H - g - t : ℤ) : ℚ) / 2 ^ k := by
    rw [et]
    exact F64.sub_grid (H - g) t k hk (by rw [abs_lt]; constructor <;> omega)
  have s3 : F64.sub (((H - g - t : ℤ) : ℚ) / 2 ^ k) gap = ((H - g - t - p : ℤ) : ℚ) / 2 ^ k := by
    rw [ep]
    exact F64.sub_grid (H - g - t) p k hk (by rw [abs_lt]; constructor <;> omega)
  have s4 : F64.sub (((H - g : ℤ) : ℚ) / 2 ^ k) (((H - g - t - p : ℤ) : ℚ) / 2 ^ k) =
      topHeight + gap := by
    rw [F64.sub_grid (H - g) (H - g - t - p) k hk (by rw [abs_lt]; constructor <;> omega), et, ep]
    push_cast
    ring
  have hb : (Pipe.newF64 w0 x topHeight gap width).bottomY = topHeight + gap := by
    simp only [Pipe.newF64]
    rw [s1, s2, s3, s4]
  have a1 : F64.add bird.x bird.width = bird.x + bird.width := by
    rw [ebx, ebw, F64.add_grid bx bw k hk (by rw [abs_lt]; constructor <;> omega)]
    push_cast
    ring
  have a2 : F64.add x1 width = x1 + width := by
    rw [epx, epw, F64.add_grid px pw k hk (by rw [abs_lt]; constructor <;> omega)]
    push_cast
    ring
  have a3 : F64.add bird.y bird.height = bird.y + bird.height := by
    rw [eby, ebh, F64.add_grid by1 bh k hk (by rw [abs_lt]; constructor <;> omega)]
    push_cast
    ring
  refine ⟨hb, ?_, fun pipe => checkPipeCollisionF64_eq w bird pipe⟩
  rw [checkPipeCollisionF64_eq]
  have e1 : ({ Pipe.newF64 w0 x topHeight gap width with
      x := x1, speed := speed, scored := scored } : Pipe).bottomY = topHeight + gap := hb
  have e2 : ({ Pipe.newF64 w0 x topHeight gap width with
      x := x1, speed := speed, scored := scored } : Pipe).x = x1 := rfl
  have e3 : ({ Pipe.newF64 w0 x topHeight gap width with
      x := x1, speed := speed, scored := scored } : Pipe).width = width := rfl
  have e4 : ({ Pipe.newF64 w0 x topHeight gap width with
      x := x1, speed := speed, scored := scored } : Pipe).topHeight = topHeight := rfl
  rw [e1, e2, e3, e4, a1, a2, a3]

/-- The amended C1 on the sample state: the pipe built with top height 150
and gap 200 has `bottomY = 350`; moved to `x = 100` it is not hit by the
sample bird (top 250, bottom 320), and it is hit by the same bird 40 pixels
lower (bottom 360). -/
theorem checkPipeCollision_grid_witness :
    (Pipe.newF64 sampleWorld 800 150 200 80).bottomY = 350 ∧
    GameLogic.checkPipeCollisionF64 { sampleWorld with gameState.bird := some (birdAt 250) }
        { Pipe.newF64 sampleWorld 800 150 200 80 with x := 150, speed := 3, scored := false } =
      some false ∧
    GameLogic.checkPipeCollisionF64 { sampleWorld with gameState.bird := some (birdAt 290) }
        { Pipe.newF64 sampleWorld 800 150 200 80 with x := 150, speed := 3, scored := false } =
      some true := by
  have g600 : OnGrid 0 (600 : ℚ) := ⟨by norm_num, 600, by norm_num, by norm_num⟩
  have g100 : OnGrid 0 (100 : ℚ) := ⟨by norm_num, 100, by norm_num, by norm_num⟩
  have g150 : OnGrid 0 (150 : ℚ) := ⟨by norm_num, 150, by norm_num, by norm_num⟩
  have g200 : OnGrid 0 (200 : ℚ) := ⟨by norm_num, 200, by norm_num, by norm_num⟩
  have g80 : OnGrid 0 (80 : ℚ) := ⟨by norm_num, 80, by norm_num, by norm_num⟩
  have g70 : OnGrid 0 (70 : ℚ) := ⟨by norm_num, 70, by norm_num, by norm_num⟩
  have g250 : OnGrid 0 (250 : ℚ) := ⟨by norm_num, 250, by norm_num, by norm_num⟩
  have g290 : OnGrid 0 (290 : ℚ) := ⟨by norm_num, 290, by norm_num, by norm_num⟩
  have h1 := checkPipeCollision_grid 0 sampleWorld sampleWorld (birdAt 250) 800 150 200 80 150 3
    false g600 g100 g150 g200 g150 g80 g200 g70 g250 g70
  have h2 := checkPipeCollision_grid 0 sampleWorld sampleWorld (birdAt 290) 800 150 200 80 150 3
    false g600 g100 g150 g200 g150 g80 g200 g70 g290 g70
  refine ⟨?_, ?_, ?_⟩
  · rw [h1.1]; norm_num
  · rw [h1.2.1]; norm_num [birdAt]
  · rw [h2.2.1]; norm_num [birdAt]

/-- The rational test `sqrtLt` decides the comparison of the real square root. -/
theorem sqrtLt_iff (s r : ℚ) : sqrtLt s r = true ↔ Real.sqrt (s : ℝ) < (r : ℝ) := by
  unfold sqrtLt
  rw [Bool.and_eq_true, decide_eq_true_iff, decide_eq_true_iff]
  constructor
  · rintro ⟨hr, hs⟩
    have hr' : (0 : ℝ) < (r : ℝ) := by exact_mod_cast hr
    rw [Real.sqrt_lt' hr']
    have : (s : ℝ) < (r : ℝ) * (r : ℝ) := by exact_mod_cast hs
    nlinarith [this]
  · intro h
    have hr' : (0 : ℝ) < (r : ℝ) := lt_of_le_of_lt (Real.sqrt_nonneg _) h
    have hr : 0 < r := by exact_mod_cast hr'
    refine ⟨hr, ?_⟩
    rw [Real.sqrt_lt' hr'] at h
    have h2 : (s : ℝ) < (r : ℝ) * (r : ℝ) := by nlinarith [h]
    exact_mod_cast h2

/-- A whole number with fewer than 53 bits is a double. -/
theorem F64.round_intCast (z : ℤ) (h : |z| < 2 ^ 53) : F64.round (z : ℚ) = z := by
  have e := F64.round_dyadic z 0 h (by norm_num)
  simpa using e

/-- The rounded square root is not negative. -/
theorem F64.sqrt_nonneg (q : ℚ) : 0 ≤ F64.sqrt q := by
  unfold F64.sqrt
  split_ifs <;> positivity

/-- The rounded root of a whole number below `2 ^ 53`, compared with a whole
number of magnitude up to `2 ^ 26`, gives the verdict of the exact test. -/
theorem F64.sqrt_intCast_lt (s R : ℤ) (h0 : 0 ≤ s) (hs : s < 2 ^ 53) (hR : |R| ≤ 2 ^ 26) :
    decide (F64.sqrt (s : ℚ) < (R : ℚ)) = sqrtLt (s : ℚ) (R : ℚ) := by
  unfold sqrtLt
  by_cases hpos : 0 < R
  · obtain ⟨n, rfl⟩ := Int.eq_ofNat_of_zero_le h0
    obtain ⟨m, rfl⟩ := Int.eq_ofNat_of_zero_le (le_of_lt hpos)
    have hm : m ≤ 2 ^ 26 := by
      rw [abs_of_pos hpos] at hR
      exact_mod_cast hR
    have hn : n < 2 ^ 53 := by exact_mod_cast hs
    have key := F64.sqrt_natCast_lt n m hn hm
    have hposq : (0 : ℚ) < ((m : ℤ) : ℚ) := by exact_mod_cast hpos
    have e1 : (((n : ℤ) : ℚ) < ((m : ℤ) : ℚ) * ((m : ℤ) : ℚ)) ↔ n < m * m := by
      push_cast
      exact_mod_cast Iff.rfl
    simp only [Int.cast_natCast] at hposq e1 ⊢
    rw [decide_eq_true hposq, Bool.true_and]
    exact decide_eq_decide.mpr (key.trans e1.symm)
  · have hR0 : ((R : ℤ) : ℚ) ≤ 0 := by exact_mod_cast not_lt.mp hpos
    have h1 : ¬ (F64.sqrt (s : ℚ) < (R : ℚ)) :=
      not_lt.mpr (le_trans hR0 (F64.sqrt_nonneg _))
    have h2 : ¬ ((0 : ℚ) < (R : ℚ)) := not_lt.mpr hR0
    rw [decide_eq_false h1, decide_eq_false h2, Bool.false_and]

/-- The exact test of `Coin.checkCollision` against the Euclidean distance
between the centres. -/
theorem coin_checkCollision_exact (coin : Coin) (bird : Bird) :
    coin.checkCollision bird = true ↔
      (Real.sqrt ((((bird.x + bird.width / 2 - coin.x : ℚ) : ℝ)) ^ 2 +
          (((bird.y + bird.height / 2 - coin.y : ℚ) : ℝ)) ^ 2) <
        ((bird.width / 2 + coin.radius : ℚ) : ℝ) ∧ coin.collected = false) := by
  unfold Coin.checkCollision
  simp only [Bool.and_eq_true, Bool.not_eq_true', sqrtLt_iff]
  have e : (((bird.x + bird.width / 2 - coin.x) * (bird.x + bird.width / 2 - coin.x) +
      (bird.y + bird.height / 2 - coin.y) * (bird.y + bird.height / 2 - coin.y) : ℚ) : ℝ) =
      (((bird.x + bird.width / 2 - coin.x : ℚ) : ℝ)) ^ 2 +
        (((bird.y + bird.height / 2 - coin.y : ℚ) : ℝ)) ^ 2 := by
    push_cast; ring
  rw [e]

/-- For whole numbers below `2 ^ 24` nothing is rounded in
`Coin.checkCollision`, and the rounded root gives the verdict of the exact
test. -/
theorem coin_checkCollisionF64_whole (coin : Coin) (bird : Bird)
    (hbx : Whole bird.x) (hbw : Whole (bird.width / 2)) (hby : Whole bird.y)
    (hbh : Whole (bird.height / 2)) (hcx : Whole coin.x) (hcy : Whole coin.y)
    (hr : Whole coin.radius) :
    coin.checkCollisionF64 bird = coin.checkCollision bird := by
  obtain ⟨bx, bbx, ebx⟩ := hbx
  obtain ⟨bw, bbw, ebw⟩ := hbw
  obtain ⟨by1, bby, eby⟩ := hby
  obtain ⟨bh, bbh, ebh⟩ := hbh
  obtain ⟨cx, bcx, ecx⟩ := hcx
  obtain ⟨cy, bcy, ecy⟩ := hcy
  obtain ⟨r, br, er⟩ := hr
  rw [abs_lt] at bbx bbw bby bbh bcx bcy br
  have two53 : (2 : ℤ) ^ 53 = 9007199254740992 := by norm_num
  have two24 : (2 : ℤ) ^ 24 = 16777216 := by norm_num
  have two26 : (2 : ℤ) ^ 26 = 67108864 := by norm_num
  rw [two24] at bbx bbw bby bbh bcx bcy br
  have small : ∀ z : ℤ, -100000000 < z → z < 100000000 → |z| < 2 ^ 53 := by
    intro z h1 h2
    rw [abs_lt, two53]
    constructor <;> omega
  have d1 : F64.div bird.width 2 = (bw : ℚ) := by
    unfold F64.div
    rw [ebw, F64.round_intCast bw (small _ (by omega) (by omega))]
  have d2 : F64.div bird.height 2 = (bh : ℚ) := by
    unfold F64.div
    rw [ebh, F64.round_intCast bh (small _ (by omega) (by omega))]
  have m1 : F64.add bird.x (bw : ℚ) = ((bx + bw : ℤ) : ℚ) := by
    unfold F64.add
    rw [ebx, ← Int.cast_add, F64.round_intCast _ (small _ (by omega) (by omega))]
  have m2 : F64.add bird.y (bh : ℚ) = ((by1 + bh : ℤ) : ℚ) := by
    unfold F64.add
    rw [eby, ← Int.cast_add, F64.round_intCast _ (small _ (by omega) (by omega))]
  have x1 : F64.sub ((bx + bw : ℤ) : ℚ) coin.x = ((bx + bw - cx : ℤ) : ℚ) := by
    unfold F64.sub
    rw [ecx, ← Int.cast_sub, F64.round_intCast _ (small _ (by omega) (by omega))]
  have y1 : F64.sub ((by1 + bh : ℤ) : ℚ) coin.y = ((by1 + bh - cy : ℤ) : ℚ) := by
    unfold F64.sub
    rw [ecy, ← Int.cast_sub, F64.round_intCast _ (small _ (by omega) (by omega))]
  have sq : ∀ z : ℤ, -50331648 < z → z < 50331648 → 0 ≤ z * z ∧ z * z < 2533274790395904 := by
    intro z h1 h2
    refine ⟨mul_self_nonneg z, ?_⟩
    nlinarith
  obtain ⟨sx0, sx1⟩ := sq (bx + bw - cx) (by omega) (by omega)
  obtain ⟨sy0, sy1⟩ := sq (by1 + bh - cy) (by omega) (by omega)
  have bnd : ∀ z : ℤ, 0 ≤ z → z < 9007199254740992 → |z| < 2 ^ 53 := by
    intro z h1 h2
    rw [abs_lt, two53]
    constructor <;> omega
  have p1 : F64.mul ((bx + bw - cx : ℤ) : ℚ) ((bx + bw - cx : ℤ) : ℚ) =
      (((bx + bw - cx) * (bx + bw - cx) : ℤ) : ℚ) := by
    unfold F64.mul
    rw [← Int.cast_mul, F64.round_intCast _ (bnd _ sx0 (by omega))]
  have p2 : F64.mul ((by1 + bh - cy : ℤ) : ℚ) ((by1 + bh - cy : ℤ) : ℚ) =
      (((by1 + bh - cy) * (by1 + bh - cy) : ℤ) : ℚ) := by
    unfold F64.mul
    rw [← Int.cast_mul, F64.round_intCast _ (bnd _ sy0 (by omega))]
  have p3 : F64.add (((bx + bw - cx) * (bx + bw - cx) : ℤ) : ℚ)
      (((by1 + bh - cy) * (by1 + bh - cy) : ℤ) : ℚ) =
      (((bx + bw - cx) * (bx + bw - cx) + (by1 + bh - cy) * (by1 + bh - cy) : ℤ) : ℚ) := by
    unfold F64.add
    rw [← Int.cast_add, F64.round_intCast _ (bnd _ (by omega) (by omega))]
  have t1 : F64.add (bw : ℚ) coin.radius = ((bw + r : ℤ) : ℚ) := by
    unfold F64.add
    rw [er, ← Int.cast_add, F64.round_intCast _ (small _ (by omega) (by omega))]
  have key := F64.sqrt_intCast_lt
    ((bx + bw - cx) * (bx + bw - cx) + (by1 + bh - cy) * (by1 + bh - cy)) (bw + r)
    (by omega) (by rw [two53]; omega) (by
      rw [abs_le, two26]
      constructor <;> omega)
  unfold Coin.checkCollisionF64 Coin.checkCollision
  simp only []
  rw [d1, d2, m1, m2, x1, y1, p1, p2, p3, t1, key]
  congr 2
  · rw [ebx, ebw, eby, ebh, ecx, ecy]
    push_cast
    ring
  · rw [ebw, er]
    push_cast
    ring

/-- C2 as stated fails: for the bird `touchBird` and the uncollected coin
`touchCoin`, the distance between the centres exceeds
`bird.width / 2 + radius = 53`, yet `Coin.checkCollision` returns true, the
computed distance being 52.99999999999999. -/
theorem coin_collision_rounds :
    touchCoin.collected = false ∧
    touchCoin.checkCollisionF64 touchBird = true ∧
    ((touchBird.width / 2 + touchCoin.radius : ℚ) : ℝ) <
      Real.sqrt ((((touchBird.x + touchBird.width / 2 - touchCoin.x : ℚ) : ℝ)) ^ 2 +
        (((touchBird.y + touchBird.height / 2 - touchCoin.y : ℚ) : ℝ)) ^ 2) := by
  have round_cy : F64.round (88.2 : ℚ) = (6206523236469965 / 70368744177664) := by
    rw [F64.round_eq _ 6 6206523236469965 (by norm_num)
      (by rw [abs_of_pos (by norm_num)]; norm_num)
      (by rw [abs_of_pos (by norm_num)]; norm_num)
      (by rw [abs_lt]; constructor <;> norm_num)]
    norm_num
  have round_cx : F64.round (67.1 : ℚ) = (2360871367160627 / 35184372088832) := by
    rw [F64.round_eq _ 6 4721742734321254 (by norm_num)
      (by rw [abs_of_pos (by norm_num)]; norm_num)
      (by rw [abs_of_pos (by norm_num)]; norm_num)
      (by rw [abs_lt]; constructor <;> norm_num)]
    norm_num
  have round_by : F64.round (8.2 : ℚ) = (2308094809027379 / 281474976710656) := by
    rw [F64.round_eq _ 3 4616189618054758 (by norm_num)
      (by rw [abs_of_pos (by norm_num)]; norm_num)
      (by rw [abs_of_pos (by norm_num)]; norm_num)
      (by rw [abs_lt]; constructor <;> norm_num)]
    norm_num
  have round_bx : F64.round (4.1 : ℚ) = (2308094809027379 / 562949953421312) := by
    rw [F64.round_eq _ 2 4616189618054758 (by norm_num)
      (by rw [abs_of_pos (by norm_num)]; norm_num)
      (by rw [abs_of_pos (by norm_num)]; norm_num)
      (by rw [abs_lt]; constructor <;> norm_num)]
    norm_num
  have c2_half : F64.div (70 : ℚ) 2 = 35 := by
    unfold F64.div
    rw [F64.round_eq _ 5 4925812092436480 (by norm_num)
      (by rw [abs_of_pos (by norm_num)]; norm_num)
      (by rw [abs_of_pos (by norm_num)]; norm_num)
      (by rw [abs_lt]; constructor <;> norm_num)]
    norm_num
  have c2_mx : F64.add ((2308094809027379 / 562949953421312) : ℚ) 35 =
      (5502835794693325 / 140737488355328) := by
    unfold F64.add
    rw [F64.round_eq _ 5 5502835794693325 (by norm_num)
      (by rw [abs_of_pos (by norm_num)]; norm_num)
      (by rw [abs_of_pos (by norm_num)]; norm_num)
      (by rw [abs_lt]; constructor <;> norm_num)]
    norm_num
  have c2_dx : F64.sub ((5502835794693325 / 140737488355328) : ℚ) (2360871367160627 / 35184372088832) =
      (-3940649673949183 / 140737488355328) := by
    unfold F64.sub
    rw [F64.round_eq _ 4 (-7881299347898366) (by norm_num)
      (by rw [abs_of_neg (by norm_num)]; norm_num)
      (by rw [abs_of_neg (by norm_num)]; norm_num)
      (by rw [abs_lt]; constructor <;> norm_num)]
    norm_num
  have c2_my : F64.add ((2308094809027379 / 281474976710656) : ℚ) 35 =
      (3039929748475085 / 70368744177664) := by
    unfold F64.add
    rw [F64.round_eq_tie _ 5 6079859496950170 (by norm_num)
      (by rw [abs_of_pos (by norm_num)]; norm_num)
      (by rw [abs_of_pos (by norm_num)]; norm_num)
      (by rw [abs_of_neg (by norm_num)]; norm_num) (by norm_num)]
    norm_num
  have c2_dy : F64.sub ((3039929748475085 / 70368744177664) : ℚ) (6206523236469965 / 70368744177664) =
      (-45) := by
    unfold F64.sub
    rw [F64.round_eq _ 5 (-6333186975989760) (by norm_num)
      (by rw [abs_of_neg (by norm_num)]; norm_num)
      (by rw [abs_of_neg (by norm_num)]; norm_num)
      (by rw [abs_lt]; constructor <;> norm_num)]
    norm_num
  have c2_xx : F64.mul ((-3940649673949183 / 140737488355328) : ℚ) (-3940649673949183 / 140737488355328) =
      (6896136929411069 / 8796093022208) := by
    unfold F64.mul
    rw [F64.round_eq _ 9 6896136929411069 (by norm_num)
      (by rw [abs_of_pos (by norm_num)]; norm_num)
      (by rw [abs_of_pos (by norm_num)]; norm_num)
      (by rw [abs_lt]; constructor <;> norm_num)]
    norm_num
  have c2_yy : F64.mul ((-45) : ℚ) (-45) = 2025 := by
    unfold F64.mul
    rw [F64.round_eq _ 10 8906044184985600 (by norm_num)
      (by rw [abs_of_pos (by norm_num)]; norm_num)
      (by rw [abs_of_pos (by norm_num)]; norm_num)
      (by rw [abs_lt]; constructor <;> norm_num)]
    norm_num
  have c2_sum : F64.add ((6896136929411069 / 8796093022208) : ℚ) 2025 =
      (6177056324845567 / 2199023255552) := by
    unfold F64.add
    rw [F64.round_eq _ 11 6177056324845567 (by norm_num)
      (by rw [abs_of_pos (by norm_num)]; norm_num)
      (by rw [abs_of_pos (by norm_num)]; norm_num)
      (by rw [abs_lt]; constructor <;> norm_num)]
    norm_num
  have c2_thr : F64.add (35 : ℚ) 18 = 53 := by
    unfold F64.add
    rw [F64.round_eq _ 5 7459086882832384 (by norm_num)
      (by rw [abs_of_pos (by norm_num)]; norm_num)
      (by rw [abs_of_pos (by norm_num)]; norm_num)
      (by rw [abs_lt]; constructor <;> norm_num)]
    norm_num
  have c2_root : F64.sqrt ((6177056324845567 / 2199023255552) : ℚ) =
      (7459086882832383 / 140737488355328) := by
    rw [F64.sqrt_eq _ 5 7459086882832383 (by norm_num) (by norm_num) (by norm_num) (by norm_num)
      (by norm_num)]
    norm_num
  have hbx : touchBird.x = (2308094809027379 / 562949953421312) := round_bx
  have hby : touchBird.y = (2308094809027379 / 281474976710656) := round_by
  have hcx : touchCoin.x = (2360871367160627 / 35184372088832) := round_cx
  have hcy : touchCoin.y = (6206523236469965 / 70368744177664) := round_cy
  have hbw : touchBird.width = 70 := rfl
  have hbh : touchBird.height = 70 := rfl
  have hr : touchCoin.radius = 18 := rfl
  have hc : touchCoin.collected = false := rfl
  refine ⟨rfl, ?_, ?_⟩
  · unfold Coin.checkCollisionF64
    simp only []
    rw [hbx, hby, hcx, hcy, hbw, hbh, hr, hc, c2_half, c2_mx, c2_dx, c2_my, c2_dy, c2_xx, c2_yy,
      c2_sum, c2_thr, c2_root]
    norm_num
  · rw [hbx, hby, hcx, hcy, hbw, hbh, hr]
    apply Real.lt_sqrt_of_sq_lt
    norm_num

/-- C2, as the code has it: in double precision, when the bird's position and half
sizes and the coin's position and radius are whole numbers below `2 ^ 24` in
magnitude, `Coin.checkCollision` is true exactly when the coin is uncollected
and the Euclidean distance between the bird's centre
`(x + width / 2, y + height / 2)` and the coin's centre is strictly less than
`bird.width / 2 + coin.radius`, and it is false at a distance exactly equal
to that sum; for a collected coin it is false whatever the numbers. -/
theorem coin_checkCollision_whole (coin : Coin) (bird : Bird)
    (hbx : Whole bird.x) (hbw : Whole (bird.width / 2)) (hby : Whole bird.y)
    (hbh : Whole (bird.height / 2)) (hcx : Whole coin.x) (hcy : Whole coin.y)
    (hr : Whole coin.radius) :
    (coin.checkCollisionF64 bird = true ↔
      (Real.sqrt ((((bird.x + bird.width / 2 - coin.x : ℚ) : ℝ)) ^ 2 +
          (((bird.y + bird.height / 2 - coin.y : ℚ) : ℝ)) ^ 2) <
        ((bird.width / 2 + coin.radius : ℚ) : ℝ) ∧ coin.collected = false)) ∧
    (Real.sqrt ((((bird.x + bird.width / 2 - coin.x : ℚ) : ℝ)) ^ 2 +
          (((bird.y + bird.height / 2 - coin.y : ℚ) : ℝ)) ^ 2) =
        ((bird.width / 2 + coin.radius : ℚ) : ℝ) → coin.checkCollisionF64 bird = false) ∧
    (∀ (c : Coin) (b : Bird), c.collected = true → c.checkCollisionF64 b = false) := by
  have key := coin_checkCollision_exact coin bird
  rw [← coin_checkCollisionF64_whole coin bird hbx hbw hby hbh hcx hcy hr] at key
  refine ⟨key, ?_, ?_⟩
  · intro heq
    cases hc : coin.checkCollisionF64 bird with
    | false => rfl
    | true =>
      have := (key.mp hc).1
      rw [heq] at this
      exact absurd this (lt_irrefl _)
  · intro c b hcol
    unfold Coin.checkCollisionF64
    simp [hcol]

/-- Scenario C of C2 in whole numbers: for a bird of width 70 centred at
`(35, 35)` and a coin of radius 18 at the same height, a coin centred at
distance exactly `35 + 18 = 53` does not collide, and one centred a pixel
closer does. -/
theorem coin_checkCollision_whole_witness :
    Coin.checkCollisionF64
      { x := 88, y := 35, radius := 18, collected := false, speed := 3, angle := 0 }
      (birdAtOrigin) = false ∧
    Coin.checkCollisionF64
      { x := 87, y := 35, radius := 18, collected := false, speed := 3, angle := 0 }
      (birdAtOrigin) = true := by
  have w0 : Whole (0 : ℚ) := ⟨0, by norm_num, by norm_num⟩
  have w35 : Whole ((70 : ℚ) / 2) := ⟨35, by norm_num, by norm_num⟩
  have w35b : Whole (35 : ℚ) := ⟨35, by norm_num, by norm_num⟩
  have w88 : Whole (88 : ℚ) := ⟨88, by norm_num, by norm_num⟩
  have w87 : Whole (87 : ℚ) := ⟨87, by norm_num, by norm_num⟩
  have w18 : Whole (18 : ℚ) := ⟨18, by norm_num, by norm_num⟩
  have h1 := coin_checkCollision_whole
    { x := 88, y := 35, radius := 18, collected := false, speed := 3, angle := 0 }
    birdAtOrigin w0 w35 w0 w35 w88 w35b w18
  have h2 := coin_checkCollision_whole
    { x := 87, y := 35, radius := 18, collected := false, speed := 3, angle := 0 }
    birdAtOrigin w0 w35 w0 w35 w87 w35b w18
  refine ⟨h1.2.1 ?_, h2.1.mpr ⟨?_, rfl⟩⟩
  · have h : ((((0 : ℚ) + 70 / 2 - 88 : ℚ) : ℝ)) ^ 2 + ((((0 : ℚ) + 70 / 2 - 35 : ℚ) : ℝ)) ^ 2 =
        (53 : ℝ) ^ 2 := by norm_num
    show Real.sqrt ((((0 : ℚ) + 70 / 2 - 88 : ℚ) : ℝ) ^ 2 +
      (((0 : ℚ) + 70 / 2 - 35 : ℚ) : ℝ) ^ 2) = (((70 : ℚ) / 2 + 18 : ℚ) : ℝ)
    rw [h, Real.sqrt_sq (by norm_num)]
    norm_num
  · have h : ((((0 : ℚ) + 70 / 2 - 87 : ℚ) : ℝ)) ^ 2 + ((((0 : ℚ) + 70 / 2 - 35 : ℚ) : ℝ)) ^ 2 =
        (52 : ℝ) ^ 2 := by norm_num
    show Real.sqrt ((((0 : ℚ) + 70 / 2 - 87 : ℚ) : ℝ) ^ 2 +
      (((0 : ℚ) + 70 / 2 - 35 : ℚ) : ℝ) ^ 2) < (((70 : ℚ) / 2 + 18 : ℚ) : ℝ)
    rw [h, Real.sqrt_sq (by norm_num)]
    norm_num

/-! ## Bird physics -/

/-- C7: `Bird.update(dt)` sets the velocity to `velocity + gravity * dt`, then
`y` to `y + velocity' * dt` with the updated velocity, and, if that `y` is
negative, sets `y = 0` and `velocity = 0`; so `y ≥ 0` after every update, and
a non-negative `y`, however large, is kept as it is (no clamp on the ground
side).  The horizontal position, size, gravity and flap strength are kept. -/
theorem bird_update_spec (b : Bird) (dt : ℚ) (isDying : Bool) (bs : BirdState) :
    (b.update dt isDying bs).1.velocity =
      (if b.y + (b.velocity + b.gravity * dt) * dt < 0 then 0
       else b.velocity + b.gravity * dt) ∧
    (b.update dt isDying bs).1.y =
      (if b.y + (b.velocity + b.gravity * dt) * dt < 0 then 0
       else b.y + (b.velocity + b.gravity * dt) * dt) ∧
    0 ≤ (b.update dt isDying bs).1.y ∧
    (b.update dt isDying bs).1.x = b.x ∧
    (b.update dt isDying bs).1.width = b.width ∧
    (b.update dt isDying bs).1.height = b.height ∧
    (b.update dt isDying bs).1.gravity = b.gravity ∧
    (b.update dt isDying bs).1.flapStrength = b.flapStrength := by
  unfold Bird.update
  by_cases hy : b.y + (b.velocity + b.gravity * dt) * dt < 0
  · cases isDying
    · simp [hy]
    · simp only [if_true]
      split <;> simp [hy]
  · have hy' : 0 ≤ b.y + (b.velocity + b.gravity * dt) * dt := not_lt.mp hy
    cases isDying
    · simp [hy, hy']
    · simp only [if_true]
      split <;> simp [hy, hy']

/-! ## Free fall in double precision -/

/-- One update in double precision that does not reach the top of the screen:
the velocity and the height after it. -/
theorem bird_updateF64_of_nonneg (b : Bird) (dt : ℚ) (isDying : Bool) (bs : BirdState)
    (hy : 0 ≤ F64.add b.y (F64.mul (F64.add b.velocity (F64.mul b.gravity dt)) dt)) :
    (b.updateF64 dt isDying bs).1.velocity = F64.add b.velocity (F64.mul b.gravity dt) ∧
    (b.updateF64 dt isDying bs).1.y =
      F64.add b.y (F64.mul (F64.add b.velocity (F64.mul b.gravity dt)) dt) ∧
    (b.updateF64 dt isDying bs).1.gravity = b.gravity := by
  have hy' : ¬ F64.add b.y (F64.mul (F64.add b.velocity (F64.mul b.gravity dt)) dt) < 0 :=
    not_lt.mpr hy
  unfold Bird.updateF64
  cases isDying
  · simp [hy']
  · simp only [if_true]
    split <;> simp [hy']

/-- One more update of a run in double precision. -/
theorem bird_updateF64N_succ (dt : ℚ) (isDying : Bool) (n : ℕ) (r : Bird × BirdState) :
    Bird.updateF64N dt isDying (n + 1) r =
      Bird.updateF64N dt isDying n (r.1.updateF64 dt isDying r.2) := rfl

/-- A sum of two multiples of `2 ^ (-k)` that has fewer than 53 bits is
exact. -/
theorem F64.add_dyadic (a b : ℕ) (k : ℕ) (hk : k ≤ 1074) (h : a + b < 2 ^ 53) :
    F64.add ((a : ℚ) / 2 ^ k) ((b : ℚ) / 2 ^ k) = ((a + b : ℕ) : ℚ) / 2 ^ k := by
  unfold F64.add
  have e : (a : ℚ) / 2 ^ k + (b : ℚ) / 2 ^ k = (((a + b : ℕ) : ℤ) : ℚ) / 2 ^ k := by
    push_cast
    ring
  rw [e, F64.round_dyadic _ k _ hk]
  · push_cast
    ring
  · rw [abs_of_nonneg (by positivity)]
    exact_mod_cast h

/-- A product by 1 of a multiple of `2 ^ (-k)` with fewer than 53 bits is
exact. -/
theorem F64.mul_one_dyadic (a : ℕ) (k : ℕ) (hk : k ≤ 1074) (h : a < 2 ^ 53) :
    F64.mul ((a : ℚ) / 2 ^ k) 1 = (a : ℚ) / 2 ^ k := by
  unfold F64.mul
  rw [mul_one]
  have e : (a : ℚ) / 2 ^ k = (((a : ℕ) : ℤ) : ℚ) / 2 ^ k := by push_cast; ring
  rw [e, F64.round_dyadic _ k _ hk]
  rw [abs_of_nonneg (by positivity)]
  exact_mod_cast h

/-- Free fall in double precision when nothing is rounded: the velocity, the
gravity and the height are multiples of `2 ^ (-k)` and the height reached has
fewer than 53 bits. -/
theorem bird_updateF64N_fall (k : ℕ) (hk : k ≤ 1074) (isDying : Bool) (n : ℕ) :
    ∀ (b : Bird) (bs : BirdState) (V G Y : ℕ),
      b.velocity = (V : ℚ) / 2 ^ k → b.gravity = (G : ℚ) / 2 ^ k → b.y = (Y : ℚ) / 2 ^ k →
      2 * Y + 2 * n * V + G * (n * (n + 1)) < 2 ^ 54 →
      (Bird.updateF64N 1 isDying n (b, bs)).1.velocity = ((V + n * G : ℕ) : ℚ) / 2 ^ k ∧
      2 * (Bird.updateF64N 1 isDying n (b, bs)).1.y =
        ((2 * Y + 2 * n * V + G * (n * (n + 1)) : ℕ) : ℚ) / 2 ^ k := by
  induction n with
  | zero =>
    intro b bs V G Y hv _ hy _
    simp only [Bird.updateF64N, hv, hy]
    push_cast
    constructor <;> ring
  | succ n ih =>
    intro b bs V G Y hv hg hy hbound
    have q1 : 2 * G ≤ G * ((n + 1) * (n + 1 + 1)) := by
      have : G * ((n + 1) * (n + 1 + 1)) = G * (n * n) + 3 * (G * n) + 2 * G := by ring
      omega
    have q2 : 2 * V ≤ 2 * (n + 1) * V := by
      have : 2 * (n + 1) * V = 2 * (n * V) + 2 * V := by ring
      omega
    have hb1 : G < 2 ^ 53 := by omega
    have hb2 : V + G < 2 ^ 53 := by omega
    have hb3 : Y + (V + G) < 2 ^ 53 := by omega
    have e1 : F64.add b.velocity (F64.mul b.gravity 1) = ((V + G : ℕ) : ℚ) / 2 ^ k := by
      rw [hv, hg, F64.mul_one_dyadic G k hk hb1, F64.add_dyadic V G k hk hb2]
    have e2 : F64.add b.y (F64.mul (F64.add b.velocity (F64.mul b.gravity 1)) 1) =
        ((Y + (V + G) : ℕ) : ℚ) / 2 ^ k := by
      rw [e1, hy, F64.mul_one_dyadic (V + G) k hk hb2, F64.add_dyadic Y (V + G) k hk hb3]
    obtain ⟨u1, u2, u3⟩ := bird_updateF64_of_nonneg b 1 isDying bs (by
      rw [e2]
      positivity)
    rw [e1] at u1
    rw [e2] at u2
    rw [hg] at u3
    obtain ⟨i1, i2⟩ := ih (b.updateF64 1 isDying bs).1 (b.updateF64 1 isDying bs).2
      (V + G) G (Y + (V + G)) u1 u3 u2 (by
        have : 2 * (Y + (V + G)) + 2 * n * (V + G) + G * (n * (n + 1)) =
            2 * Y + 2 * (n + 1) * V + G * ((n + 1) * (n + 1 + 1)) := by ring
        omega)
    rw [bird_updateF64N_succ]
    refine ⟨?_, ?_⟩
    · rw [i1]
      push_cast
      ring
    · rw [i2]
      push_cast
      ring

/-- The literal `0.4` is the double `3602879701896397 / 2 ^ 53`. -/
theorem round_two_fifths : F64.round 0.4 = 3602879701896397 / 9007199254740992 := by
  rw [F64.round_eq _ (-2) 7205759403792794 (by norm_num)
    (by rw [abs_of_pos (by norm_num)]; norm_num)
    (by rw [abs_of_pos (by norm_num)]; norm_num)
      (by rw [abs_lt]; constructor <;> norm_num)]
  norm_num

/-- A run of updates in double precision, the last update apart. -/
theorem bird_updateF64N_last (dt : ℚ) (isDying : Bool) (n : ℕ) :
    ∀ r : Bird × BirdState,
      Bird.updateF64N dt isDying (n + 1) r =
        (Bird.updateF64N dt isDying n r).1.updateF64 dt isDying
          (Bird.updateF64N dt isDying n r).2 := by
  induction n with
  | zero => intro r; rfl
  | succ k ih =>
    intro r
    rw [bird_updateF64N_succ, ih]
    rfl

/-- The bird of Scenario A before its first update. -/
theorem scenario_fall_0 :
    (Bird.updateF64N 1 false 0 (scenarioBird, BirdState.normal)).1.velocity = 0 ∧
    (Bird.updateF64N 1 false 0 (scenarioBird, BirdState.normal)).1.y = 300 ∧
    (Bird.updateF64N 1 false 0 (scenarioBird, BirdState.normal)).1.gravity =
      3602879701896397 / 9007199254740992 :=
  ⟨rfl, rfl, round_two_fifths⟩

/-- The bird of Scenario A after 1 update in double precision. -/
theorem scenario_fall_1 :
    (Bird.updateF64N 1 false 1 (scenarioBird, BirdState.normal)).1.velocity =
      (3602879701896397 / 9007199254740992) ∧
    (Bird.updateF64N 1 false 1 (scenarioBird, BirdState.normal)).1.y =
        (2642346343871283 / 8796093022208) ∧
    (Bird.updateF64N 1 false 1 (scenarioBird, BirdState.normal)).1.gravity =
      (3602879701896397 / 9007199254740992) := by
  obtain ⟨hv, hy, hg⟩ := scenario_fall_0
  have e1 : F64.mul ((3602879701896397 / 9007199254740992) : ℚ) 1 =
      (3602879701896397 / 9007199254740992) := by
    unfold F64.mul
    rw [F64.round_eq _ (-2) 7205759403792794 (by norm_num)
      (by rw [abs_of_pos (by norm_num)]; norm_num)
      (by rw [abs_of_pos (by norm_num)]; norm_num)
      (by rw [abs_lt]; constructor <;> norm_num)]
    norm_num
  have e2 : F64.add (0 : ℚ) (3602879701896397 / 9007199254740992) =
      (3602879701896397 / 9007199254740992) := by
    unfold F64.add
    rw [F64.round_eq _ (-2) 7205759403792794 (by norm_num)
      (by rw [abs_of_pos (by norm_num)]; norm_num)
      (by rw [abs_of_pos (by norm_num)]; norm_num)
      (by rw [abs_lt]; constructor <;> norm_num)]
    norm_num
  have e3 : F64.mul ((3602879701896397 / 9007199254740992) : ℚ) 1 =
      (3602879701896397 / 9007199254740992) := by
    unfold F64.mul
    rw [F64.round_eq _ (-2) 7205759403792794 (by norm_num)
      (by rw [abs_of_pos (by norm_num)]; norm_num)
      (by rw [abs_of_pos (by norm_num)]; norm_num)
      (by rw [abs_lt]; constructor <;> norm_num)]
    norm_num
  have e4 : F64.add (300 : ℚ) (3602879701896397 / 9007199254740992) =
      (2642346343871283 / 8796093022208) := by
    unfold F64.add
    rw [F64.round_eq _ 8 5284692687742566 (by norm_num)
      (by rw [abs_of_pos (by norm_num)]; norm_num)
      (by rw [abs_of_pos (by norm_num)]; norm_num)
      (by rw [abs_lt]; constructor <;> norm_num)]
    norm_num
  have hpos : 0 ≤ F64.add (Bird.updateF64N 1 false 0 (scenarioBird, BirdState.normal)).1.y
      (F64.mul (F64.add
        (Bird.updateF64N 1 false 0 (scenarioBird, BirdState.normal)).1.velocity
        (F64.mul (Bird.updateF64N 1 false 0 (scenarioBird, BirdState.normal)).1.gravity 1))
        1) := by
    rw [hv, hy, hg, e1, e2, e3, e4]
    norm_num
  obtain ⟨u1, u2, u3⟩ := bird_updateF64_of_nonneg _ 1 false
    (Bird.updateF64N 1 false 0 (scenarioBird, BirdState.normal)).2 hpos
  rw [hv, hg, e1, e2] at u1
  rw [hv, hy, hg, e1, e2, e3, e4] at u2
  rw [hg] at u3
  rw [bird_updateF64N_last]
  exact ⟨u1, u2, u3⟩

/-- The bird of Scenario A after 2 updates in double precision. -/
theorem scenario_fall_2 :
    (Bird.updateF64N 1 false 2 (scenarioBird, BirdState.normal)).1.velocity =
      (3602879701896397 / 4503599627370496) ∧
    (Bird.updateF64N 1 false 2 (scenarioBird, BirdState.normal)).1.y =
        (5298766436578099 / 17592186044416) ∧
    (Bird.updateF64N 1 false 2 (scenarioBird, BirdState.normal)).1.gravity =
      (3602879701896397 / 9007199254740992) := by
  obtain ⟨hv, hy, hg⟩ := scenario_fall_1
  have e1 : F64.mul ((3602879701896397 / 9007199254740992) : ℚ) 1 =
      (3602879701896397 / 9007199254740992) := by
    unfold F64.mul
    rw [F64.round_eq _ (-2) 7205759403792794 (by norm_num)
      (by rw [abs_of_pos (by norm_num)]; norm_num)
      (by rw [abs_of_pos (by norm_num)]; norm_num)
      (by rw [abs_lt]; constructor <;> norm_num)]
    norm_num
  have e2 : F64.add ((3602879701896397 / 9007199254740992) : ℚ) (3602879701896397 / 9007199254740992) =
      (3602879701896397 / 4503599627370496) := by
    unfold F64.add
    rw [F64.round_eq _ (-1) 7205759403792794 (by norm_num)
      (by rw [abs_of_pos (by norm_num)]; norm_num)
      (by rw [abs_of_pos (by norm_num)]; norm_num)
      (by rw [abs_lt]; constructor <;> norm_num)]
    norm_num
  have e3 : F64.mul ((3602879701896397 / 4503599627370496) : ℚ) 1 =
      (3602879701896397 / 4503599627370496) := by
    unfold F64.mul
    rw [F64.round_eq _ (-1) 7205759403792794 (by norm_num)
      (by rw [abs_of_pos (by norm_num)]; norm_num)
      (by rw [abs_of_pos (by norm_num)]; norm_num)
      (by rw [abs_lt]; constructor <;> norm_num)]
    norm_num
  have e4 : F64.add ((2642346343871283 / 8796093022208) : ℚ) (3602879701896397 / 4503599627370496) =
      (5298766436578099 / 17592186044416) := by
    unfold F64.add
    rw [F64.round_eq _ 8 5298766436578099 (by norm_num)
      (by rw [abs_of_pos (by norm_num)]; norm_num)
      (by rw [abs_of_pos (by norm_num)]; norm_num)
      (by rw [abs_lt]; constructor <;> norm_num)]
    norm_num
  have hpos : 0 ≤ F64.add (Bird.updateF64N 1 false 1 (scenarioBird, BirdState.normal)).1.y
      (F64.mul (F64.add
        (Bird.updateF64N 1 false 1 (scenarioBird, BirdState.normal)).1.velocity
        (F64.mul (Bird.updateF64N 1 false 1 (scenarioBird, BirdState.normal)).1.gravity 1))
        1) := by
    rw [hv, hy, hg, e1, e2, e3, e4]
    norm_num
  obtain ⟨u1, u2, u3⟩ := bird_updateF64_of_nonneg _ 1 false
    (Bird.updateF64N 1 false 1 (scenarioBird, BirdState.normal)).2 hpos
  rw [hv, hg, e1, e2] at u1
  rw [hv, hy, hg, e1, e2, e3, e4] at u2
  rw [hg] at u3
  rw [bird_updateF64N_last]
  exact ⟨u1, u2, u3⟩

/-- The bird of Scenario A after 3 updates in double precision. -/
theorem scenario_fall_3 :
    (Bird.updateF64N 1 false 3 (scenarioBird, BirdState.normal)).1.velocity =
      (1351079888211149 / 1125899906842624) ∧
    (Bird.updateF64N 1 false 3 (scenarioBird, BirdState.normal)).1.y =
        (2659938529915699 / 8796093022208) ∧
    (Bird.updateF64N 1 false 3 (scenarioBird, BirdState.normal)).1.gravity =
      (3602879701896397 / 9007199254740992) := by
  obtain ⟨hv, hy, hg⟩ := scenario_fall_2
  have e1 : F64.mul ((3602879701896397 / 9007199254740992) : ℚ) 1 =
      (3602879701896397 / 9007199254740992) := by
    unfold F64.mul
    rw [F64.round_eq _ (-2) 7205759403792794 (by norm_num)
      (by rw [abs_of_pos (by norm_num)]; norm_num)
      (by rw [abs_of_pos (by norm_num)]; norm_num)
      (by rw [abs_lt]; constructor <;> norm_num)]
    norm_num
  have e2 : F64.add ((3602879701896397 / 4503599627370496) : ℚ) (3602879701896397 / 9007199254740992) =
      (1351079888211149 / 1125899906842624) := by
    unfold F64.add
    rw [F64.round_eq_tie _ 0 5404319552844596 (by norm_num)
      (by rw [abs_of_pos (by norm_num)]; norm_num)
      (by rw [abs_of_pos (by norm_num)]; norm_num)
      (by rw [abs_of_neg (by norm_num)]; norm_num) (by norm_num)]
    norm_num
  have e3 : F64.mul ((1351079888211149 / 1125899906842624) : ℚ) 1 =
      (1351079888211149 / 1125899906842624) := by
    unfold F64.mul
    rw [F64.round_eq _ 0 5404319552844596 (by norm_num)
      (by rw [abs_of_pos (by norm_num)]; norm_num)
      (by rw [abs_of_pos (by norm_num)]; norm_num)
      (by rw [abs_lt]; constructor <;> norm_num)]
    norm_num
  have e4 : F64.add ((5298766436578099 / 17592186044416) : ℚ) (1351079888211149 / 1125899906842624) =
      (2659938529915699 / 8796093022208) := by
    unfold F64.add
    rw [F64.round_eq _ 8 5319877059831398 (by norm_num)
      (by rw [abs_of_pos (by norm_num)]; norm_num)
      (by rw [abs_of_pos (by norm_num)]; norm_num)
      (by rw [abs_lt]; constructor <;> norm_num)]
    norm_num
  have hpos : 0 ≤ F64.add (Bird.updateF64N 1 false 2 (scenarioBird, BirdState.normal)).1.y
      (F64.mul (F64.add
        (Bird.updateF64N 1 false 2 (scenarioBird, BirdState.normal)).1.velocity
        (F64.mul (Bird.updateF64N 1 false 2 (scenarioBird, BirdState.normal)).1.gravity 1))
        1) := by
    rw [hv, hy, hg, e1, e2, e3, e4]
    norm_num
  obtain ⟨u1, u2, u3⟩ := bird_updateF64_of_nonneg _ 1 false
    (Bird.updateF64N 1 false 2 (scenarioBird, BirdState.normal)).2 hpos
  rw [hv, hg, e1, e2] at u1
  rw [hv, hy, hg, e1, e2, e3, e4] at u2
  rw [hg] at u3
  rw [bird_updateF64N_last]
  exact ⟨u1, u2, u3⟩

/-- The bird of Scenario A after 4 updates in double precision. -/
theorem scenario_fall_4 :
    (Bird.updateF64N 1 false 4 (scenarioBird, BirdState.normal)).1.velocity =
      (3602879701896397 / 2251799813685248) ∧
    (Bird.updateF64N 1 false 4 (scenarioBird, BirdState.normal)).1.y = 304 ∧
    (Bird.updateF64N 1 false 4 (scenarioBird, BirdState.normal)).1.gravity =
      (3602879701896397 / 9007199254740992) := by
  obtain ⟨hv, hy, hg⟩ := scenario_fall_3
  have e1 : F64.mul ((3602879701896397 / 9007199254740992) : ℚ) 1 =
      (3602879701896397 / 9007199254740992) := by
    unfold F64.mul
    rw [F64.round_eq _ (-2) 7205759403792794 (by norm_num)
      (by rw [abs_of_pos (by norm_num)]; norm_num)
      (by rw [abs_of_pos (by norm_num)]; norm_num)
      (by rw [abs_lt]; constructor <;> norm_num)]
    norm_num
  have e2 : F64.add ((1351079888211149 / 1125899906842624) : ℚ) (3602879701896397 / 9007199254740992) =
      (3602879701896397 / 2251799813685248) := by
    unfold F64.add
    rw [F64.round_eq_tie _ 0 7205759403792794 (by norm_num)
      (by rw [abs_of_pos (by norm_num)]; norm_num)
      (by rw [abs_of_pos (by norm_num)]; norm_num)
      (by rw [abs_of_pos (by norm_num)]; norm_num) (by norm_num)]
    norm_num
  have e3 : F64.mul ((3602879701896397 / 2251799813685248) : ℚ) 1 =
      (3602879701896397 / 2251799813685248) := by
    unfold F64.mul
    rw [F64.round_eq _ 0 7205759403792794 (by norm_num)
      (by rw [abs_of_pos (by norm_num)]; norm_num)
      (by rw [abs_of_pos (by norm_num)]; norm_num)
      (by rw [abs_lt]; constructor <;> norm_num)]
    norm_num
  have e4 : F64.add ((2659938529915699 / 8796093022208) : ℚ) (3602879701896397 / 2251799813685248) =
      304 := by
    unfold F64.add
    rw [F64.round_eq _ 8 5348024557502464 (by norm_num)
      (by rw [abs_of_pos (by norm_num)]; norm_num)
      (by rw [abs_of_pos (by norm_num)]; norm_num)
      (by rw [abs_lt]; constructor <;> norm_num)]
    norm_num
  have hpos : 0 ≤ F64.add (Bird.updateF64N 1 false 3 (scenarioBird, BirdState.normal)).1.y
      (F64.mul (F64.add
        (Bird.updateF64N 1 false 3 (scenarioBird, BirdState.normal)).1.velocity
        (F64.mul (Bird.updateF64N 1 false 3 (scenarioBird, BirdState.normal)).1.gravity 1))
        1) := by
    rw [hv, hy, hg, e1, e2, e3, e4]
    norm_num
  obtain ⟨u1, u2, u3⟩ := bird_updateF64_of_nonneg _ 1 false
    (Bird.updateF64N 1 false 3 (scenarioBird, BirdState.normal)).2 hpos
  rw [hv, hg, e1, e2] at u1
  rw [hv, hy, hg, e1, e2, e3, e4] at u2
  rw [hg] at u3
  rw [bird_updateF64N_last]
  exact ⟨u1, u2, u3⟩

/-- The bird of Scenario A after 5 updates in double precision. -/
theorem scenario_fall_5 :
    (Bird.updateF64N 1 false 5 (scenarioBird, BirdState.normal)).1.velocity =
      2 ∧
    (Bird.updateF64N 1 false 5 (scenarioBird, BirdState.normal)).1.y = 306 ∧
    (Bird.updateF64N 1 false 5 (scenarioBird, BirdState.normal)).1.gravity =
      (3602879701896397 / 9007199254740992) := by
  obtain ⟨hv, hy, hg⟩ := scenario_fall_4
  have e1 : F64.mul ((3602879701896397 / 9007199254740992) : ℚ) 1 =
      (3602879701896397 / 9007199254740992) := by
    unfold F64.mul
    rw [F64.round_eq _ (-2) 7205759403792794 (by norm_num)
      (by rw [abs_of_pos (by norm_num)]; norm_num)
      (by rw [abs_of_pos (by norm_num)]; norm_num)
      (by rw [abs_lt]; constructor <;> norm_num)]
    norm_num
  have e2 : F64.add ((3602879701896397 / 2251799813685248) : ℚ) (3602879701896397 / 9007199254740992) =
      2 := by
    unfold F64.add
    rw [F64.round_eq _ 1 4503599627370496 (by norm_num)
      (by rw [abs_of_pos (by norm_num)]; norm_num)
      (by rw [abs_of_pos (by norm_num)]; norm_num)
      (by rw [abs_lt]; constructor <;> norm_num)]
    norm_num
  have e3 : F64.mul (2 : ℚ) 1 = 2 := by
    unfold F64.mul
    rw [F64.round_eq _ 1 4503599627370496 (by norm_num)
      (by rw [abs_of_pos (by norm_num)]; norm_num)
      (by rw [abs_of_pos (by norm_num)]; norm_num)
      (by rw [abs_lt]; constructor <;> norm_num)]
    norm_num
  have e4 : F64.add (304 : ℚ) 2 = 306 := by
    unfold F64.add
    rw [F64.round_eq _ 8 5383208929591296 (by norm_num)
      (by rw [abs_of_pos (by norm_num)]; norm_num)
      (by rw [abs_of_pos (by norm_num)]; norm_num)
      (by rw [abs_lt]; constructor <;> norm_num)]
    norm_num
  have hpos : 0 ≤ F64.add (Bird.updateF64N 1 false 4 (scenarioBird, BirdState.normal)).1.y
      (F64.mul (F64.add
        (Bird.updateF64N 1 false 4 (scenarioBird, BirdState.normal)).1.velocity
        (F64.mul (Bird.updateF64N 1 false 4 (scenarioBird, BirdState.normal)).1.gravity 1))
        1) := by
    rw [hv, hy, hg, e1, e2, e3, e4]
    norm_num
  obtain ⟨u1, u2, u3⟩ := bird_updateF64_of_nonneg _ 1 false
    (Bird.updateF64N 1 false 4 (scenarioBird, BirdState.normal)).2 hpos
  rw [hv, hg, e1, e2] at u1
  rw [hv, hy, hg, e1, e2, e3, e4] at u2
  rw [hg] at u3
  rw [bird_updateF64N_last]
  exact ⟨u1, u2, u3⟩

/-- The bird of Scenario A after 6 updates in double precision. -/
theorem scenario_fall_6 :
    (Bird.updateF64N 1 false 6 (scenarioBird, BirdState.normal)).1.velocity =
      (5404319552844595 / 2251799813685248) ∧
    (Bird.updateF64N 1 false 6 (scenarioBird, BirdState.normal)).1.y =
        (2712715088048947 / 8796093022208) ∧
    (Bird.updateF64N 1 false 6 (scenarioBird, BirdState.normal)).1.gravity =
      (3602879701896397 / 9007199254740992) := by
  obtain ⟨hv, hy, hg⟩ := scenario_fall_5
  have e1 : F64.mul ((3602879701896397 / 9007199254740992) : ℚ) 1 =
      (3602879701896397 / 9007199254740992) := by
    unfold F64.mul
    rw [F64.round_eq _ (-2) 7205759403792794 (by norm_num)
      (by rw [abs_of_pos (by norm_num)]; norm_num)
      (by rw [abs_of_pos (by norm_num)]; norm_num)
      (by rw [abs_lt]; constructor <;> norm_num)]
    norm_num
  have e2 : F64.add (2 : ℚ) (3602879701896397 / 9007199254740992) =
      (5404319552844595 / 2251799813685248) := by
    unfold F64.add
    rw [F64.round_eq _ 1 5404319552844595 (by norm_num)
      (by rw [abs_of_pos (by norm_num)]; norm_num)
      (by rw [abs_of_pos (by norm_num)]; norm_num)
      (by rw [abs_lt]; constructor <;> norm_num)]
    norm_num
  have e3 : F64.mul ((5404319552844595 / 2251799813685248) : ℚ) 1 =
      (5404319552844595 / 2251799813685248) := by
    unfold F64.mul
    rw [F64.round_eq _ 1 5404319552844595 (by norm_num)
      (by rw [abs_of_pos (by norm_num)]; norm_num)
      (by rw [abs_of_pos (by norm_num)]; norm_num)
      (by rw [abs_lt]; constructor <;> norm_num)]
    norm_num
  have e4 : F64.add (306 : ℚ) (5404319552844595 / 2251799813685248) =
      (2712715088048947 / 8796093022208) := by
    unfold F64.add
    rw [F64.round_eq _ 8 5425430176097894 (by norm_num)
      (by rw [abs_of_pos (by norm_num)]; norm_num)
      (by rw [abs_of_pos (by norm_num)]; norm_num)
      (by rw [abs_lt]; constructor <;> norm_num)]
    norm_num
  have hpos : 0 ≤ F64.add (Bird.updateF64N 1 false 5 (scenarioBird, BirdState.normal)).1.y
      (F64.mul (F64.add
        (Bird.updateF64N 1 false 5 (scenarioBird, BirdState.normal)).1.velocity
        (F64.mul (Bird.updateF64N 1 false 5 (scenarioBird, BirdState.normal)).1.gravity 1))
        1) := by
    rw [hv, hy, hg, e1, e2, e3, e4]
    norm_num
  obtain ⟨u1, u2, u3⟩ := bird_updateF64_of_nonneg _ 1 false
    (Bird.updateF64N 1 false 5 (scenarioBird, BirdState.normal)).2 hpos
  rw [hv, hg, e1, e2] at u1
  rw [hv, hy, hg, e1, e2, e3, e4] at u2
  rw [hg] at u3
  rw [bird_updateF64N_last]
  exact ⟨u1, u2, u3⟩

/-- The bird of Scenario A after 7 updates in double precision. -/
theorem scenario_fall_7 :
    (Bird.updateF64N 1 false 7 (scenarioBird, BirdState.normal)).1.velocity =
      (3152519739159347 / 1125899906842624) ∧
    (Bird.updateF64N 1 false 7 (scenarioBird, BirdState.normal)).1.y =
        (5474688297022259 / 17592186044416) ∧
    (Bird.updateF64N 1 false 7 (scenarioBird, BirdState.normal)).1.gravity =
      (3602879701896397 / 9007199254740992) := by
  obtain ⟨hv, hy, hg⟩ := scenario_fall_6
  have e1 : F64.mul ((3602879701896397 / 9007199254740992) : ℚ) 1 =
      (3602879701896397 / 9007199254740992) := by
    unfold F64.mul
    rw [F64.round_eq _ (-2) 7205759403792794 (by norm_num)
      (by rw [abs_of_pos (by norm_num)]; norm_num)
      (by rw [abs_of_pos (by norm_num)]; norm_num)
      (by rw [abs_lt]; constructor <;> norm_num)]
    norm_num
  have e2 : F64.add ((5404319552844595 / 2251799813685248) : ℚ) (3602879701896397 / 9007199254740992) =
      (3152519739159347 / 1125899906842624) := by
    unfold F64.add
    rw [F64.round_eq _ 1 6305039478318694 (by norm_num)
      (by rw [abs_of_pos (by norm_num)]; norm_num)
      (by rw [abs_of_pos (by norm_num)]; norm_num)
      (by rw [abs_lt]; constructor <;> norm_num)]
    norm_num
  have e3 : F64.mul ((3152519739159347 / 1125899906842624) : ℚ) 1 =
      (3152519739159347 / 1125899906842624) := by
    unfold F64.mul
    rw [F64.round_eq _ 1 6305039478318694 (by norm_num)
      (by rw [abs_of_pos (by norm_num)]; norm_num)
      (by rw [abs_of_pos (by norm_num)]; norm_num)
      (by rw [abs_lt]; constructor <;> norm_num)]
    norm_num
  have e4 : F64.add ((2712715088048947 / 8796093022208) : ℚ) (3152519739159347 / 1125899906842624) =
      (5474688297022259 / 17592186044416) := by
    unfold F64.add
    rw [F64.round_eq _ 8 5474688297022259 (by norm_num)
      (by rw [abs_of_pos (by norm_num)]; norm_num)
      (by rw [abs_of_pos (by norm_num)]; norm_num)
      (by rw [abs_lt]; constructor <;> norm_num)]
    norm_num
  have hpos : 0 ≤ F64.add (Bird.updateF64N 1 false 6 (scenarioBird, BirdState.normal)).1.y
      (F64.mul (F64.add
        (Bird.updateF64N 1 false 6 (scenarioBird, BirdState.normal)).1.velocity
        (F64.mul (Bird.updateF64N 1 false 6 (scenarioBird, BirdState.normal)).1.gravity 1))
        1) := by
    rw [hv, hy, hg, e1, e2, e3, e4]
    norm_num
  obtain ⟨u1, u2, u3⟩ := bird_updateF64_of_nonneg _ 1 false
    (Bird.updateF64N 1 false 6 (scenarioBird, BirdState.normal)).2 hpos
  rw [hv, hg, e1, e2] at u1
  rw [hv, hy, hg, e1, e2, e3, e4] at u2
  rw [hg] at u3
  rw [bird_updateF64N_last]
  exact ⟨u1, u2, u3⟩

/-- The bird of Scenario A after 8 updates in double precision. -/
theorem scenario_fall_8 :
    (Bird.updateF64N 1 false 8 (scenarioBird, BirdState.normal)).1.velocity =
      (7205759403792793 / 2251799813685248) ∧
    (Bird.updateF64N 1 false 8 (scenarioBird, BirdState.normal)).1.y =
        (2765491646182195 / 8796093022208) ∧
    (Bird.updateF64N 1 false 8 (scenarioBird, BirdState.normal)).1.gravity =
      (3602879701896397 / 9007199254740992) := by
  obtain ⟨hv, hy, hg⟩ := scenario_fall_7
  have e1 : F64.mul ((3602879701896397 / 9007199254740992) : ℚ) 1 =
      (3602879701896397 / 9007199254740992) := by
    unfold F64.mul
    rw [F64.round_eq _ (-2) 7205759403792794 (by norm_num)
      (by rw [abs_of_pos (by norm_num)]; norm_num)
      (by rw [abs_of_pos (by norm_num)]; norm_num)
      (by rw [abs_lt]; constructor <;> norm_num)]
    norm_num
  have e2 : F64.add ((3152519739159347 / 1125899906842624) : ℚ) (3602879701896397 / 9007199254740992) =
      (7205759403792793 / 2251799813685248) := by
    unfold F64.add
    rw [F64.round_eq _ 1 7205759403792793 (by norm_num)
      (by rw [abs_of_pos (by norm_num)]; norm_num)
      (by rw [abs_of_pos (by norm_num)]; norm_num)
      (by rw [abs_lt]; constructor <;> norm_num)]
    norm_num
  have e3 : F64.mul ((7205759403792793 / 2251799813685248) : ℚ) 1 =
      (7205759403792793 / 2251799813685248) := by
    unfold F64.mul
    rw [F64.round_eq _ 1 7205759403792793 (by norm_num)
      (by rw [abs_of_pos (by norm_num)]; norm_num)
      (by rw [abs_of_pos (by norm_num)]; norm_num)
      (by rw [abs_lt]; constructor <;> norm_num)]
    norm_num
  have e4 : F64.add ((5474688297022259 / 17592186044416) : ℚ) (7205759403792793 / 2251799813685248) =
      (2765491646182195 / 8796093022208) := by
    unfold F64.add
    rw [F64.round_eq _ 8 5530983292364390 (by norm_num)
      (by rw [abs_of_pos (by norm_num)]; norm_num)
      (by rw [abs_of_pos (by norm_num)]; norm_num)
      (by rw [abs_lt]; constructor <;> norm_num)]
    norm_num
  have hpos : 0 ≤ F64.add (Bird.updateF64N 1 false 7 (scenarioBird, BirdState.normal)).1.y
      (F64.mul (F64.add
        (Bird.updateF64N 1 false 7 (scenarioBird, BirdState.normal)).1.velocity
        (F64.mul (Bird.updateF64N 1 false 7 (scenarioBird, BirdState.normal)).1.gravity 1))
        1) := by
    rw [hv, hy, hg, e1, e2, e3, e4]
    norm_num
  obtain ⟨u1, u2, u3⟩ := bird_updateF64_of_nonneg _ 1 false
    (Bird.updateF64N 1 false 7 (scenarioBird, BirdState.normal)).2 hpos
  rw [hv, hg, e1, e2] at u1
  rw [hv, hy, hg, e1, e2, e3, e4] at u2
  rw [hg] at u3
  rw [bird_updateF64N_last]
  exact ⟨u1, u2, u3⟩

/-- The bird of Scenario A after 9 updates in double precision. -/
theorem scenario_fall_9 :
    (Bird.updateF64N 1 false 9 (scenarioBird, BirdState.normal)).1.velocity =
      (2026619832316723 / 562949953421312) ∧
    (Bird.updateF64N 1 false 9 (scenarioBird, BirdState.normal)).1.y = 318 ∧
    (Bird.updateF64N 1 false 9 (scenarioBird, BirdState.normal)).1.gravity =
      (3602879701896397 / 9007199254740992) := by
  obtain ⟨hv, hy, hg⟩ := scenario_fall_8
  have e1 : F64.mul ((3602879701896397 / 9007199254740992) : ℚ) 1 =
      (3602879701896397 / 9007199254740992) := by
    unfold F64.mul
    rw [F64.round_eq _ (-2) 7205759403792794 (by norm_num)
      (by rw [abs_of_pos (by norm_num)]; norm_num)
      (by rw [abs_of_pos (by norm_num)]; norm_num)
      (by rw [abs_lt]; constructor <;> norm_num)]
    norm_num
  have e2 : F64.add ((7205759403792793 / 2251799813685248) : ℚ) (3602879701896397 / 9007199254740992) =
      (2026619832316723 / 562949953421312) := by
    unfold F64.add
    rw [F64.round_eq _ 1 8106479329266892 (by norm_num)
      (by rw [abs_of_pos (by norm_num)]; norm_num)
      (by rw [abs_of_pos (by norm_num)]; norm_num)
      (by rw [abs_lt]; constructor <;> norm_num)]
    norm_num
  have e3 : F64.mul ((2026619832316723 / 562949953421312) : ℚ) 1 =
      (2026619832316723 / 562949953421312) := by
    unfold F64.mul
    rw [F64.round_eq _ 1 8106479329266892 (by norm_num)
      (by rw [abs_of_pos (by norm_num)]; norm_num)
      (by rw [abs_of_pos (by norm_num)]; norm_num)
      (by rw [abs_lt]; constructor <;> norm_num)]
    norm_num
  have e4 : F64.add ((2765491646182195 / 8796093022208) : ℚ) (2026619832316723 / 562949953421312) =
      318 := by
    unfold F64.add
    rw [F64.round_eq _ 8 5594315162124288 (by norm_num)
      (by rw [abs_of_pos (by norm_num)]; norm_num)
      (by rw [abs_of_pos (by norm_num)]; norm_num)
      (by rw [abs_lt]; constructor <;> norm_num)]
    norm_num
  have hpos : 0 ≤ F64.add (Bird.updateF64N 1 false 8 (scenarioBird, BirdState.normal)).1.y
      (F64.mul (F64.add
        (Bird.updateF64N 1 false 8 (scenarioBird, BirdState.normal)).1.velocity
        (F64.mul (Bird.updateF64N 1 false 8 (scenarioBird, BirdState.normal)).1.gravity 1))
        1) := by
    rw [hv, hy, hg, e1, e2, e3, e4]
    norm_num
  obtain ⟨u1, u2, u3⟩ := bird_updateF64_of_nonneg _ 1 false
    (Bird.updateF64N 1 false 8 (scenarioBird, BirdState.normal)).2 hpos
  rw [hv, hg, e1, e2] at u1
  rw [hv, hy, hg, e1, e2, e3, e4] at u2
  rw [hg] at u3
  rw [bird_updateF64N_last]
  exact ⟨u1, u2, u3⟩

/-- The bird of Scenario A after 10 updates in double precision. -/
theorem scenario_fall_10 :
    (Bird.updateF64N 1 false 10 (scenarioBird, BirdState.normal)).1.velocity =
      (9007199254740991 / 2251799813685248) ∧
    (Bird.updateF64N 1 false 10 (scenarioBird, BirdState.normal)).1.y = 322 ∧
    (Bird.updateF64N 1 false 10 (scenarioBird, BirdState.normal)).1.gravity =
      (3602879701896397 / 9007199254740992) := by
  obtain ⟨hv, hy, hg⟩ := scenario_fall_9
  have e1 : F64.mul ((3602879701896397 / 9007199254740992) : ℚ) 1 =
      (3602879701896397 / 9007199254740992) := by
    unfold F64.mul
    rw [F64.round_eq _ (-2) 7205759403792794 (by norm_num)
      (by rw [abs_of_pos (by norm_num)]; norm_num)
      (by rw [abs_of_pos (by norm_num)]; norm_num)
      (by rw [abs_lt]; constructor <;> norm_num)]
    norm_num
  have e2 : F64.add ((2026619832316723 / 562949953421312) : ℚ) (3602879701896397 / 9007199254740992) =
      (9007199254740991 / 2251799813685248) := by
    unfold F64.add
    rw [F64.round_eq _ 1 9007199254740991 (by norm_num)
      (by rw [abs_of_pos (by norm_num)]; norm_num)
      (by rw [abs_of_pos (by norm_num)]; norm_num)
      (by rw [abs_lt]; constructor <;> norm_num)]
    norm_num
  have e3 : F64.mul ((9007199254740991 / 2251799813685248) : ℚ) 1 =
      (9007199254740991 / 2251799813685248) := by
    unfold F64.mul
    rw [F64.round_eq _ 1 9007199254740991 (by norm_num)
      (by rw [abs_of_pos (by norm_num)]; norm_num)
      (by rw [abs_of_pos (by norm_num)]; norm_num)
      (by rw [abs_lt]; constructor <;> norm_num)]
    norm_num
  have e4 : F64.add (318 : ℚ) (9007199254740991 / 2251799813685248) = 322 := by
    unfold F64.add
    rw [F64.round_eq _ 8 5664683906301952 (by norm_num)
      (by rw [abs_of_pos (by norm_num)]; norm_num)
      (by rw [abs_of_pos (by norm_num)]; norm_num)
      (by rw [abs_lt]; constructor <;> norm_num)]
    norm_num
  have hpos : 0 ≤ F64.add (Bird.updateF64N 1 false 9 (scenarioBird, BirdState.normal)).1.y
      (F64.mul (F64.add
        (Bird.updateF64N 1 false 9 (scenarioBird, BirdState.normal)).1.velocity
        (F64.mul (Bird.updateF64N 1 false 9 (scenarioBird, BirdState.normal)).1.gravity 1))
        1) := by
    rw [hv, hy, hg, e1, e2, e3, e4]
    norm_num
  obtain ⟨u1, u2, u3⟩ := bird_updateF64_of_nonneg _ 1 false
    (Bird.updateF64N 1 false 9 (scenarioBird, BirdState.normal)).2 hpos
  rw [hv, hg, e1, e2] at u1
  rw [hv, hy, hg, e1, e2, e3, e4] at u2
  rw [hg] at u3
  rw [bird_updateF64N_last]
  exact ⟨u1, u2, u3⟩

/-- C8 as stated fails in Scenario A itself: with gravity the double written
`0.4`, ten updates with `dt = 1` from `y = 300` and velocity 0 end at
`y = 322` but at velocity `9007199254740991 / 2 ^ 51`
(3.9999999999999996), which is neither 4 nor ten times the gravity. -/
theorem free_fall_scenario_rounds :
    scenarioBird.velocity = 0 ∧ scenarioBird.y = 300 ∧
    scenarioBird.gravity = 3602879701896397 / 9007199254740992 ∧
    (Bird.updateF64N 1 false 10 (scenarioBird, BirdState.normal)).1.y = 322 ∧
    (Bird.updateF64N 1 false 10 (scenarioBird, BirdState.normal)).1.velocity =
      9007199254740991 / 2251799813685248 ∧
    (Bird.updateF64N 1 false 10 (scenarioBird, BirdState.normal)).1.velocity ≠ 4 ∧
    (Bird.updateF64N 1 false 10 (scenarioBird, BirdState.normal)).1.velocity ≠
      10 * scenarioBird.gravity ∧
    (Bird.updateF64N 1 false 10 (scenarioBird, BirdState.normal)).1.velocity ≠
      F64.mul 10 scenarioBird.gravity := by
  obtain ⟨hv, hy, _⟩ := scenario_fall_10
  have hg : scenarioBird.gravity = 3602879701896397 / 9007199254740992 := round_two_fifths
  have hm : F64.mul 10 (3602879701896397 / 9007199254740992 : ℚ) = 4 := by
    unfold F64.mul
    rw [F64.round_eq _ 2 4503599627370496 (by norm_num)
      (by rw [abs_of_pos (by norm_num)]; norm_num) (by rw [abs_of_pos (by norm_num)]; norm_num)
      (by rw [abs_lt]; constructor <;> norm_num)]
    norm_num
  refine ⟨rfl, rfl, hg, hy, hv, ?_, ?_, ?_⟩
  · rw [hv]; norm_num
  · rw [hv, hg]; norm_num
  · rw [hv, hg, hm]; norm_num

/-- C8, as the code has it: in double precision, `n` consecutive `Bird.update(1)` calls
from velocity 0 with no flap give velocity `n * g` and
`y = y0 + g * n * (n + 1) / 2` whenever the gravity `g` and the start height
`y0` are non-negative multiples `G / 2 ^ k` and `Y / 2 ^ k` of one power of
two (`k ≤ 1074`) and `2 * Y + G * n * (n + 1) < 2 ^ 54`, so that no sum of
the run is rounded. -/
theorem bird_free_fall_exact (k : ℕ) (n : ℕ) (b : Bird) (bs : BirdState) (isDying : Bool)
    (G Y : ℕ) (hk : k ≤ 1074) (hv : b.velocity = 0) (hg : b.gravity = (G : ℚ) / 2 ^ k)
    (hy : b.y = (Y : ℚ) / 2 ^ k) (hbits : 2 * Y + G * (n * (n + 1)) < 2 ^ 54) :
    (Bird.updateF64N 1 isDying n (b, bs)).1.velocity = n * b.gravity ∧
    (Bird.updateF64N 1 isDying n (b, bs)).1.y = b.y + b.gravity * n * (n + 1) / 2 := by
  obtain ⟨h1, h2⟩ := bird_updateF64N_fall k hk isDying n b bs 0 G Y
    (by rw [hv]; norm_num) hg hy (by simpa using hbits)
  refine ⟨?_, ?_⟩
  · rw [h1, hg]
    push_cast
    ring
  · have e : (Bird.updateF64N 1 isDying n (b, bs)).1.y =
        (2 * (Bird.updateF64N 1 isDying n (b, bs)).1.y) / 2 := by ring
    rw [e, h2, hg, hy]
    push_cast
    ring

/-- The amended C8 at the hard difficulty: from `y = 300` with gravity `0.5`
and velocity 0, ten updates with `dt = 1` give velocity 5 and
`y = 327.5`. -/
theorem bird_free_fall_exact_witness :
    (Bird.updateF64N 1 false 10
      ({ x := 100, y := 300, width := 70, height := 70, velocity := 0, gravity := 0.5,
         flapStrength := -6, rotation := 0 }, BirdState.normal)).1.velocity = 5 ∧
    (Bird.updateF64N 1 false 10
      ({ x := 100, y := 300, width := 70, height := 70, velocity := 0, gravity := 0.5,
         flapStrength := -6, rotation := 0 }, BirdState.normal)).1.y = 327.5 := by
  have h := bird_free_fall_exact 1 10
    { x := 100, y := 300, width := 70, height := 70, velocity := 0, gravity := 0.5,
      flapStrength := -6, rotation := 0 } BirdState.normal false 1 600 (by norm_num) rfl
    (by norm_num) (by norm_num) (by norm_num)
  refine ⟨?_, ?_⟩
  · rw [h.1]; norm_num
  · rw [h.2]; norm_num

/-! ## Flap and lifecycle transitions -/

/-- C9: with a bird present, `Bird.flap` leaves the whole world (velocity
included) unchanged when `gameState.isDying` is true; otherwise it sets the
velocity to the bird's `flapStrength`, whatever the previous velocity, and a
second flap right after the first changes nothing in the game state (it only
plays the flap sound again).  The flap strength is the constant `-6` of
`gameState.physics`, copied by the `Bird` constructor. -/
theorem bird_flap_spec (w : World) (b : Bird) (hb : w.gameState.bird = some b) :
    (w.gameState.isDying = true → Bird.flap w = some w) ∧
    (w.gameState.isDying = false →
      ∃ w1, Bird.flap w = some w1 ∧
        w1.gameState.bird = some { b with velocity := b.flapStrength } ∧
        Bird.flap w1 = some (emit (Effect.play Sound.flapSound) w1) ∧
        (emit (Effect.play Sound.flapSound) w1).gameState = w1.gameState) ∧
    initialGameState.physics.flapStrength = -6 ∧
    (∀ x y width height, (Bird.new w x y width height).flapStrength =
      w.gameState.physics.flapStrength) := by
  refine ⟨?_, ?_, rfl, fun _ _ _ _ => rfl⟩
  · intro hd
    simp [Bird.flap, hb, hd]
  · intro hd
    refine ⟨_, by simp only [Bird.flap, hb, hd]; rfl, ?_, ?_, ?_⟩
    · simp [emit]
    · simp [Bird.flap, emit, hd]
    · simp [emit]

/-- Scenario D of C9: a flap while dying leaves a bird falling at velocity 5
at velocity 5 (and the world as it was). -/
theorem bird_flap_spec_witness :
    Bird.flap
      { (initialWorld { innerWidth := 800, innerHeight := 600 }) with
        gameState.isDying := true,
        gameState.bird := some
          { x := 200, y := 300, width := 70, height := 70,
            velocity := 5, gravity := 0.4, flapStrength := -6, rotation := 0 } } =
    some
      { (initialWorld { innerWidth := 800, innerHeight := 600 }) with
        gameState.isDying := true,
        gameState.bird := some
          { x := 200, y := 300, width := 70, height := 70,
            velocity := 5, gravity := 0.4, flapStrength := -6, rotation := 0 } } :=
  (bird_flap_spec _ _ rfl).1 rfl

/-- The guard of `startDeathAnimation`: nothing happens once dying or over. -/
theorem startDeathAnimation_of_guard (w : World)
    (h : w.gameState.isDying = true ∨ w.gameState.gameOver = true) :
    GameLogic.startDeathAnimation w = w := by
  have h1 : (w.gameState.isDying || w.gameState.gameOver) = true := by
    rcases h with h | h <;> simp [h]
  simp [GameLogic.startDeathAnimation, h1]

/-- After `startDeathAnimation` the game is dying or over. -/
theorem startDeathAnimation_guard (w : World) :
    (GameLogic.startDeathAnimation w).gameState.isDying = true ∨
    (GameLogic.startDeathAnimation w).gameState.gameOver = true := by
  by_cases h : (w.gameState.isDying || w.gameState.gameOver) = true
  · have e : GameLogic.startDeathAnimation w = w := by
      simp [GameLogic.startDeathAnimation, h]
    rw [e]
    simpa using h
  · left
    simp only [GameLogic.startDeathAnimation, h, emit]
    cases w.gameState.bird <;> rfl

/-- The guard of `finishGameOver`: nothing happens once the game is over. -/
theorem finishGameOver_of_gameOver (w : World) (h : w.gameState.gameOver = true) :
    GameLogic.finishGameOver w = w := by
  simp [GameLogic.finishGameOver, h]

/-- After `finishGameOver` the game is over. -/
theorem finishGameOver_gameOver (w : World) :
    (GameLogic.finishGameOver w).gameState.gameOver = true := by
  by_cases h : w.gameState.gameOver = true
  · rw [finishGameOver_of_gameOver w h]; exact h
  · simp only [GameLogic.finishGameOver, h, emit, cancelAnimationFrame]
    cases w.animationFrameId <;> simp <;> split <;> split <;> rfl

/-- C10: `GameLogic.startDeathAnimation` and `GameLogic.finishGameOver` are
idempotent on the whole world, the record of sounds and other external calls
included; and `startDeathAnimation` changes nothing when the game is already
dying or over. -/
theorem lifecycle_idempotent (w : World) :
    GameLogic.startDeathAnimation (GameLogic.startDeathAnimation w) =
      GameLogic.startDeathAnimation w ∧
    GameLogic.finishGameOver (GameLogic.finishGameOver w) = GameLogic.finishGameOver w ∧
    (w.gameState.isDying = true ∨ w.gameState.gameOver = true →
      GameLogic.startDeathAnimation w = w) := by
  refine ⟨?_, ?_, ?_⟩
  · exact startDeathAnimation_of_guard _ (startDeathAnimation_guard w)
  · exact finishGameOver_of_gameOver _ (finishGameOver_gameOver w)
  · exact startDeathAnimation_of_guard w

/-! ## The sweeps over pipes and coins -/

/-- Reading the element that follows a prefix. -/
theorem getElem?_prefix_length {α : Type} (l post : List α) (a : α) :
    (l ++ a :: post)[l.length]? = some a := by
  rw [List.getElem?_append_right (le_refl _)]
  simp

/-- Overwriting the element that follows a prefix. -/
theorem set_prefix_length {α : Type} (l post : List α) (a c : α) :
    (l ++ a :: post).set l.length c = l ++ c :: post := by
  simp

/-- Removing the element that follows a prefix. -/
theorem eraseIdx_prefix_length {α : Type} (l post : List α) (a : α) :
    (l ++ a :: post).eraseIdx l.length = l ++ post := by
  rw [List.eraseIdx_append_of_length_le (le_refl _)]
  simp

/-- With a bird, the collision test returns. -/
theorem checkPipeCollision_total (w : World) (p : Pipe) (b : Bird)
    (hb : w.gameState.bird = some b) :
    GameLogic.checkPipeCollision w p = some true ∨
    GameLogic.checkPipeCollision w p = some false := by
  simp only [GameLogic.checkPipeCollision, hb]
  split_ifs <;> simp

/-- With a bird, the scoring test returns its condition. -/
theorem passedTest_eq (w : World) (p : Pipe) (b : Bird) (hb : w.gameState.bird = some b) :
    GameLogic.passedTest w p = some (decide (p.scored = false ∧ b.x > p.x + p.width)) := by
  simp only [GameLogic.passedTest, hb]
  cases p.scored <;> simp

/-- The collision test does not read the list of pipes. -/
theorem checkPipeCollision_setPipes (w : World) (ps : List Pipe) (p : Pipe) :
    GameLogic.checkPipeCollision { w with gameState.pipes := ps } p =
      GameLogic.checkPipeCollision w p := rfl

/-- The scoring test does not read the list of pipes. -/
theorem passedTest_setPipes (w : World) (ps : List Pipe) (p : Pipe) :
    GameLogic.passedTest { w with gameState.pipes := ps } p = GameLogic.passedTest w p := rfl

/-- One iteration of the loop of `updatePipes`, at the last index of the part
of the list still to be swept. -/
theorem updatePipesLoop_succ (dt : ℚ) (l post : List Pipe) (p : Pipe) (w : World) (b : Bird)
    (hp : w.gameState.pipes = l ++ p :: post) (hb : w.gameState.bird = some b) :
    GameLogic.updatePipesLoop dt (l.length + 1) w =
      if (p.update dt).isOffScreen then
        GameLogic.updatePipesLoop dt l.length { w with gameState.pipes := l ++ post }
      else if GameLogic.checkPipeCollision w (p.update dt) = some true then
        some (GameLogic.startDeathAnimation
          { w with gameState.pipes := l ++ p.update dt :: post }, false)
      else if (p.update dt).scored = false ∧ b.x > (p.update dt).x + (p.update dt).width then
        GameLogic.updatePipesLoop dt l.length
          (GameLogic.updateScore
            { w with gameState.pipes := l ++ { p.update dt with scored := true } :: post,
                     pipesScored := w.pipesScored + 1,
                     gameState.scores.pipes := w.gameState.scores.pipes + 1 })
      else
        GameLogic.updatePipesLoop dt l.length
          { w with gameState.pipes := l ++ p.update dt :: post } := by
  rw [GameLogic.updatePipesLoop]
  simp only [hp, getElem?_prefix_length, set_prefix_length, eraseIdx_prefix_length]
  by_cases hoff : (p.update dt).isOffScreen = true
  · simp only [hoff, if_true]
  · simp only [hoff, Bool.false_eq_true, if_false]
    rw [checkPipeCollision_setPipes, passedTest_setPipes, passedTest_eq w (p.update dt) b hb]
    rcases checkPipeCollision_total w (p.update dt) b hb with hc | hc
    · simp only [hc, if_true]
    · simp only [hc]
      by_cases hs : (p.update dt).scored = false ∧ b.x > (p.update dt).x + (p.update dt).width
      · simp [hs]
      · simp [hs]

/-- The function `updateScore` as one record update. -/
theorem updateScore_eq (w : World) :
    GameLogic.updateScore w =
      { w with
        gameState.scores.overall := w.gameState.scores.pipes + w.gameState.scores.coins,
        gameState.scores.session :=
          max w.gameState.scores.session
            (w.gameState.scores.pipes + w.gameState.scores.coins) } := by
  unfold GameLogic.updateScore
  by_cases h : w.gameState.scores.pipes + w.gameState.scores.coins > w.gameState.scores.session
  · simp [h, max_eq_right (le_of_lt h)]
  · simp [h, max_eq_left (not_lt.mp h)]

/-- What `startDeathAnimation` leaves alone, and what it does to the bird. -/
theorem startDeathAnimation_frame (w : World) :
    (GameLogic.startDeathAnimation w).gameState.pipes = w.gameState.pipes ∧
    (GameLogic.startDeathAnimation w).gameState.coins = w.gameState.coins ∧
    (GameLogic.startDeathAnimation w).gameState.scores = w.gameState.scores ∧
    (GameLogic.startDeathAnimation w).pipesScored = w.pipesScored ∧
    (GameLogic.startDeathAnimation w).coinsCollected = w.coinsCollected ∧
    (GameLogic.startDeathAnimation w).gameState.timers = w.gameState.timers ∧
    (GameLogic.startDeathAnimation w).window = w.window ∧
    (∀ b, w.gameState.bird = some b →
      ∃ b1, (GameLogic.startDeathAnimation w).gameState.bird = some b1 ∧ b1.x = b.x ∧
        b1.y = b.y ∧ b1.width = b.width ∧ b1.height = b.height) := by
  unfold GameLogic.startDeathAnimation
  by_cases h : (w.gameState.isDying || w.gameState.gameOver) = true
  · simp only [h, if_true, true_and]
    intro b hb
    exact ⟨b, hb, rfl, rfl, rfl, rfl⟩
  · simp only [h, emit]
    cases hb : w.gameState.bird <;> simp

/-- No flag flips between a list and itself. -/
theorem flips_self (l : List Pipe) : flips l l = 0 := by
  unfold flips
  induction l with
  | nil => rfl
  | cons a l ih =>
    simp only [List.zip_cons_cons, List.countP_cons, ih]
    cases a.scored <;> simp

/-- Flag flips of two lists extended by one element each. -/
theorem flips_concat (kept mid : List Pipe) (p q : Pipe) (h : kept.length = mid.length) :
    flips (kept ++ [p]) (mid ++ [q]) =
      flips kept mid + (if p.scored = false ∧ q.scored = true then 1 else 0) := by
  unfold flips
  rw [List.zip_append h, List.countP_append]
  cases hp : p.scored <;> cases hq : q.scored <;> simp [List.countP_cons, hp, hq]

/-- Every flip uses up one unscored pipe. -/
theorem flips_add_unscored (dt : ℚ) (b : Bird) (kept mid : List Pipe)
    (h : List.Forall₂ (PipeStep dt b) kept mid) :
    flips kept mid + unscored mid = unscored kept := by
  induction h with
  | nil => rfl
  | @cons p q kept mid hpq _ ih =>
    have h8 := hpq.2.2.2.2.2.2.2.1
    unfold flips unscored at ih ⊢
    simp only [List.zip_cons_cons, List.countP_cons]
    cases hp : p.scored <;> cases hq : q.scored <;> simp_all <;> omega

/-- A pipe is related to itself. -/
theorem PipeStep.refl (dt : ℚ) (b : Bird) (p : Pipe) : PipeStep dt b p p := by
  refine ⟨Or.inr rfl, rfl, rfl, rfl, rfl, rfl, rfl, id, ?_⟩
  intro h1 h2
  rw [h1] at h2
  cases h2

/-- A pipe is related to the pipe moved by `update`. -/
theorem PipeStep.moved (dt : ℚ) (b : Bird) (p : Pipe) : PipeStep dt b p (p.update dt) := by
  refine ⟨Or.inl rfl, rfl, rfl, rfl, rfl, rfl, rfl, id, ?_⟩
  intro h1 h2
  simp only [Pipe.update] at h2
  rw [h1] at h2
  cases h2

/-- A pipe is related to the pipe moved and scored, once the bird is past. -/
theorem PipeStep.scored (dt : ℚ) (b : Bird) (p : Pipe)
    (h : b.x > (p.update dt).x + (p.update dt).width) :
    PipeStep dt b p { p.update dt with scored := true } :=
  ⟨Or.inl rfl, rfl, rfl, rfl, rfl, rfl, rfl, fun _ => rfl, fun _ _ => h⟩

/-- The loop of `updatePipes`, started below a prefix `pre` of the list of
pipes: it returns; the pipes of `pre` it keeps (`kept`, in order) have become
`mid`, each changed as `PipeStep` allows; the pipe counter and the history
counter have grown by the number of flags flipped; the bird is still there at
the same place; and nothing is changed in the coins and the coin counter. -/
theorem updatePipesLoop_spec (dt : ℚ) (b : Bird) (pre : List Pipe) :
    ∀ (w : World) (post : List Pipe),
      w.gameState.pipes = pre ++ post → w.gameState.bird = some b →
      ∃ w1 ok kept mid b1,
        GameLogic.updatePipesLoop dt pre.length w = some (w1, ok) ∧
        kept.Sublist pre ∧ w1.gameState.pipes = mid ++ post ∧
        List.Forall₂ (PipeStep dt b) kept mid ∧
        w1.gameState.scores.pipes = w.gameState.scores.pipes + (flips kept mid : ℤ) ∧
        w1.pipesScored = w.pipesScored + flips kept mid ∧
        w1.gameState.bird = some b1 ∧ b1.x = b.x ∧
        w1.gameState.scores.coins = w.gameState.scores.coins ∧
        w1.coinsCollected = w.coinsCollected ∧
        w1.gameState.coins = w.gameState.coins ∧
        (ScoreConsistent w → ScoreConsistent w1) ∧
        (flips kept mid = 0 → w1.gameState.scores.overall = w.gameState.scores.overall) := by
  induction pre using List.reverseRecOn with
  | nil =>
    intro w post hp hb
    refine ⟨w, true, [], [], b, rfl, List.Sublist.refl _, by simpa using hp,
      List.Forall₂.nil, by simp [flips], by simp [flips], hb, rfl, rfl, rfl, rfl, id,
      fun _ => rfl⟩
  | append_singleton l p ih =>
    intro w post hp hb
    have hp1 : w.gameState.pipes = l ++ p :: post := by simpa using hp
    rw [List.length_append, List.length_singleton, updatePipesLoop_succ dt l post p w b hp1 hb]
    split_ifs with h1 h2 h3
    · obtain ⟨w1, ok, kept, mid, b1, e, hs, hpipes, hf, hsc, hgh, hb1, hx, hc, hcc, hcl, hcons,
        hov⟩ := ih { w with gameState.pipes := l ++ post } post rfl hb
      exact ⟨w1, ok, kept, mid, b1, e, hs.trans (List.sublist_append_left l [p]), hpipes, hf,
        hsc, hgh, hb1, hx, hc, hcc, hcl, hcons, hov⟩
    · obtain ⟨f1, f2, f3, f4, f5, _, _, f8⟩ := startDeathAnimation_frame
        { w with gameState.pipes := l ++ p.update dt :: post }
      obtain ⟨b1, hb1, hx, _⟩ := f8 b hb
      replace f1 : (GameLogic.startDeathAnimation
          { w with gameState.pipes := l ++ p.update dt :: post }).gameState.pipes =
          l ++ p.update dt :: post := f1
      replace f2 : (GameLogic.startDeathAnimation
          { w with gameState.pipes := l ++ p.update dt :: post }).gameState.coins =
          w.gameState.coins := f2
      replace f3 : (GameLogic.startDeathAnimation
          { w with gameState.pipes := l ++ p.update dt :: post }).gameState.scores =
          w.gameState.scores := f3
      replace f4 : (GameLogic.startDeathAnimation
          { w with gameState.pipes := l ++ p.update dt :: post }).pipesScored =
          w.pipesScored := f4
      replace f5 : (GameLogic.startDeathAnimation
          { w with gameState.pipes := l ++ p.update dt :: post }).coinsCollected =
          w.coinsCollected := f5
      have hfl : flips (l ++ [p]) (l ++ [p.update dt]) = 0 := by
        rw [flips_concat l l p (p.update dt) rfl, flips_self]
        simp [Pipe.update]
      refine ⟨_, false, l ++ [p], l ++ [p.update dt], b1, rfl, List.Sublist.refl _, ?_, ?_,
        ?_, ?_, hb1, hx, ?_, ?_, ?_, ?_, ?_⟩
      · rw [f1]; simp
      · exact List.rel_append (List.forall₂_same.mpr (fun x _ => PipeStep.refl dt b x))
          (List.Forall₂.cons (PipeStep.moved dt b p) List.Forall₂.nil)
      · rw [f3, hfl]; simp
      · rw [f4, hfl]; rfl
      · rw [f3]
      · rw [f5]
      · rw [f2]
      · intro hc; unfold ScoreConsistent at hc ⊢; rw [f3]; exact hc
      · intro _; rw [f3]
    · obtain ⟨w1, ok, kept, mid, b1, e, hs, hpipes, hf, hsc, hgh, hb1, hx, hc, hcc, hcl, hcons,
        _⟩ := ih
          (GameLogic.updateScore
            { w with gameState.pipes := l ++ { p.update dt with scored := true } :: post,
                     pipesScored := w.pipesScored + 1,
                     gameState.scores.pipes := w.gameState.scores.pipes + 1 })
          ({ p.update dt with scored := true } :: post)
          (by rw [updateScore_eq]) (by rw [updateScore_eq]; exact hb)
      have hfl : flips (kept ++ [p]) (mid ++ [{ p.update dt with scored := true }]) =
          flips kept mid + 1 := by
        rw [flips_concat kept mid p _ hf.length_eq]
        have : p.scored = false := h3.1
        simp [this]
      rw [updateScore_eq] at hsc hgh hc hcc hcl hcons
      refine ⟨w1, ok, kept ++ [p], mid ++ [{ p.update dt with scored := true }], b1, e,
        List.Sublist.append hs (List.Sublist.refl _), by rw [hpipes]; simp,
        List.rel_append hf (List.Forall₂.cons (PipeStep.scored dt b p h3.2) List.Forall₂.nil),
        ?_, ?_, hb1, hx, hc, hcc, hcl, ?_, ?_⟩
      · rw [hsc, hfl]; push_cast; ring
      · rw [hgh, hfl]; ring
      · intro _; exact hcons (by simp [ScoreConsistent])
      · intro h0; rw [hfl] at h0; omega
    · obtain ⟨w1, ok, kept, mid, b1, e, hs, hpipes, hf, hsc, hgh, hb1, hx, hc, hcc, hcl, hcons,
        hov⟩ := ih { w with gameState.pipes := l ++ p.update dt :: post } (p.update dt :: post)
          rfl hb
      have hfl : flips (kept ++ [p]) (mid ++ [p.update dt]) = flips kept mid := by
        rw [flips_concat kept mid p _ hf.length_eq]
        simp [Pipe.update]
      refine ⟨w1, ok, kept ++ [p], mid ++ [p.update dt], b1, e,
        List.Sublist.append hs (List.Sublist.refl _), by rw [hpipes]; simp,
        List.rel_append hf (List.Forall₂.cons (PipeStep.moved dt b p) List.Forall₂.nil),
        ?_, ?_, hb1, hx, hc, hcc, hcl, hcons, ?_⟩
      · rw [hsc, hfl]
      · rw [hgh, hfl]
      · intro h0; rw [hfl] at h0; exact hov h0

/-- One iteration of the loop of `updateCoins`, at the last index of the part
of the list still to be swept. -/
theorem updateCoinsLoop_succ (dt : ℚ) (l post : List Coin) (c : Coin) (w : World) (b : Bird)
    (hp : w.gameState.coins = l ++ c :: post) (hb : w.gameState.bird = some b) :
    GameLogic.updateCoinsLoop dt (l.length + 1) w =
      if (c.update dt).isOffScreen then
        GameLogic.updateCoinsLoop dt l.length { w with gameState.coins := l ++ post }
      else if (c.update dt).checkCollision b then
        GameLogic.updateCoinsLoop dt l.length
          { GameLogic.updateScore
              { w with effects := Effect.play Sound.coinSound :: w.effects,
                       coinsCollected := w.coinsCollected + 1,
                       gameState.scores.coins := w.gameState.scores.coins + 10 } with
            gameState.coins := l ++ post }
      else
        GameLogic.updateCoinsLoop dt l.length
          { w with gameState.coins := l ++ c.update dt :: post } := by
  rw [GameLogic.updateCoinsLoop]
  simp only [hp, getElem?_prefix_length, set_prefix_length, eraseIdx_prefix_length, hb]
  by_cases hoff : (c.update dt).isOffScreen = true
  · simp only [hoff, if_true]
  · simp only [hoff, Bool.false_eq_true, if_false]
    by_cases hc : (c.update dt).checkCollision b = true
    · simp only [hc, if_true, emit, updateScore_eq, set_prefix_length, eraseIdx_prefix_length]
    · simp only [hc, Bool.false_eq_true, if_false]

/-- The loop of `updateCoins`, started below a prefix `pre` of the list of
coins: it returns; of the coins of `pre`, each moved by `update`, it keeps
those that are neither off-screen nor colliding, in order; the coin counter
grows by 10, and the history counter by 1, for each coin collected; the bird,
the pipes and the pipe counter are unchanged. -/
theorem updateCoinsLoop_spec (dt : ℚ) (b : Bird) (pre : List Coin) :
    ∀ (w : World) (post : List Coin),
      w.gameState.coins = pre ++ post → w.gameState.bird = some b →
      ∃ w1,
        GameLogic.updateCoinsLoop dt pre.length w = some w1 ∧
        w1.gameState.coins =
          (pre.map (fun c => c.update dt)).filter
            (fun c => !c.isOffScreen && !c.checkCollision b) ++ post ∧
        w1.gameState.scores.coins = w.gameState.scores.coins +
          10 * ((pre.map (fun c => c.update dt)).countP
            (fun c => !c.isOffScreen && c.checkCollision b) : ℤ) ∧
        w1.coinsCollected = w.coinsCollected +
          (pre.map (fun c => c.update dt)).countP
            (fun c => !c.isOffScreen && c.checkCollision b) ∧
        w1.effects =
          List.replicate ((pre.map (fun c => c.update dt)).countP
            (fun c => !c.isOffScreen && c.checkCollision b)) (Effect.play Sound.coinSound) ++
            w.effects ∧
        w1.gameState.bird = some b ∧
        w1.gameState.pipes = w.gameState.pipes ∧
        w1.gameState.scores.pipes = w.gameState.scores.pipes ∧
        w1.pipesScored = w.pipesScored ∧
        (ScoreConsistent w → ScoreConsistent w1) ∧
        ((pre.map (fun c => c.update dt)).countP
            (fun c => !c.isOffScreen && c.checkCollision b) = 0 →
          w1.gameState.scores.overall = w.gameState.scores.overall) := by
  induction pre using List.reverseRecOn with
  | nil =>
    intro w post hp hb
    exact ⟨w, rfl, by simpa using hp, by simp, by simp, by simp, hb, rfl, rfl, rfl, id,
      fun _ => rfl⟩
  | append_singleton l c ih =>
    intro w post hp hb
    have hp1 : w.gameState.coins = l ++ c :: post := by simpa using hp
    rw [List.length_append, List.length_singleton, updateCoinsLoop_succ dt l post c w b hp1 hb]
    by_cases h1 : (c.update dt).isOffScreen = true
    · rw [if_pos h1]
      have hfilter : ((l ++ [c]).map (fun c => c.update dt)).filter
          (fun c => !c.isOffScreen && !c.checkCollision b) =
          (l.map (fun c => c.update dt)).filter
            (fun c => !c.isOffScreen && !c.checkCollision b) := by
        simp [List.filter_append, h1]
      have hcount : ((l ++ [c]).map (fun c => c.update dt)).countP
          (fun c => !c.isOffScreen && c.checkCollision b) =
          (l.map (fun c => c.update dt)).countP
            (fun c => !c.isOffScreen && c.checkCollision b) := by
        simp [List.countP_append, h1]
      rw [hfilter, hcount]
      exact ih { w with gameState.coins := l ++ post } post rfl hb
    · rw [if_neg h1]
      have h1' : (c.update dt).isOffScreen = false := by simpa using h1
      by_cases h2 : (c.update dt).checkCollision b = true
      · rw [if_pos h2]
        have hfilter : ((l ++ [c]).map (fun c => c.update dt)).filter
            (fun c => !c.isOffScreen && !c.checkCollision b) =
            (l.map (fun c => c.update dt)).filter
              (fun c => !c.isOffScreen && !c.checkCollision b) := by
          simp [List.filter_append, h1', h2]
        have hcount : ((l ++ [c]).map (fun c => c.update dt)).countP
            (fun c => !c.isOffScreen && c.checkCollision b) =
            (l.map (fun c => c.update dt)).countP
              (fun c => !c.isOffScreen && c.checkCollision b) + 1 := by
          simp [List.countP_append, h1', h2]
        rw [hfilter, hcount]
        obtain ⟨w1, e, hcoins, hsc, hgh, heff, hb1, hpi, hps, hpg, hcons, _⟩ :=
          ih { GameLogic.updateScore
                { w with effects := Effect.play Sound.coinSound :: w.effects,
                         coinsCollected := w.coinsCollected + 1,
                         gameState.scores.coins := w.gameState.scores.coins + 10 } with
              gameState.coins := l ++ post } post rfl (by rw [updateScore_eq]; exact hb)
        rw [updateScore_eq] at hsc hgh heff hpi hps hpg hcons
        refine ⟨w1, e, hcoins, ?_, ?_, ?_, hb1, hpi, hps, hpg, ?_, ?_⟩
        · rw [hsc]; push_cast; ring
        · rw [hgh]; ring
        · rw [heff, List.replicate_succ']; simp
        · intro _; exact hcons (by simp [ScoreConsistent])
        · intro h0; omega
      · rw [if_neg h2]
        have h2' : (c.update dt).checkCollision b = false := by simpa using h2
        have hfilter : ((l ++ [c]).map (fun c => c.update dt)).filter
            (fun c => !c.isOffScreen && !c.checkCollision b) =
            (l.map (fun c => c.update dt)).filter
              (fun c => !c.isOffScreen && !c.checkCollision b) ++ [c.update dt] := by
          simp [List.filter_append, h1', h2']
        have hcount : ((l ++ [c]).map (fun c => c.update dt)).countP
            (fun c => !c.isOffScreen && c.checkCollision b) =
            (l.map (fun c => c.update dt)).countP
              (fun c => !c.isOffScreen && c.checkCollision b) := by
          simp [List.countP_append, h1', h2']
        rw [hfilter, hcount]
        obtain ⟨w1, e, hcoins, hrest⟩ :=
          ih { w with gameState.coins := l ++ c.update dt :: post } (c.update dt :: post) rfl hb
        exact ⟨w1, e, by rw [hcoins]; simp, hrest⟩

/-- One call of `updatePipes` never increases the sum of the pipe counter and
the number of unscored pipes, and never decreases the pipe counter. -/
theorem updatePipes_potential (dt : ℚ) (w : World) (b : Bird)
    (hb : w.gameState.bird = some b) :
    ∃ w1 ok, GameLogic.updatePipes dt w = some (w1, ok) ∧
      w1.gameState.scores.pipes + (unscored w1.gameState.pipes : ℤ) ≤
        w.gameState.scores.pipes + (unscored w.gameState.pipes : ℤ) ∧
      w.gameState.scores.pipes ≤ w1.gameState.scores.pipes := by
  obtain ⟨w1, ok, kept, mid, b1, e, hs, hpipes, hf, hsc, _⟩ :=
    updatePipesLoop_spec dt b w.gameState.pipes w [] (by simp) hb
  refine ⟨w1, ok, e, ?_, ?_⟩
  · have h1 := flips_add_unscored dt b kept mid hf
    have h2 : unscored kept ≤ unscored w.gameState.pipes := List.Sublist.countP_le _ hs
    have h3 : w1.gameState.pipes = mid := by simpa using hpipes
    rw [hsc, h3]
    omega
  · rw [hsc]; omega

/-- Over any sequence of `updatePipes` calls the pipe counter grows by no
more than the number of pipes that were unscored at the start. -/
theorem runUpdatePipes_potential (steps : List (ℚ × Bird)) :
    ∀ w : World, ∃ w1, runUpdatePipes steps w = some w1 ∧
      w1.gameState.scores.pipes + (unscored w1.gameState.pipes : ℤ) ≤
        w.gameState.scores.pipes + (unscored w.gameState.pipes : ℤ) ∧
      w.gameState.scores.pipes ≤ w1.gameState.scores.pipes := by
  induction steps with
  | nil => intro w; exact ⟨w, rfl, le_refl _, le_refl _⟩
  | cons step rest ih =>
    intro w
    obtain ⟨w1, ok, e, h1, h2⟩ :=
      updatePipes_potential step.1 { w with gameState.bird := some step.2 } step.2 rfl
    obtain ⟨w2, e2, h3, h4⟩ := ih w1
    refine ⟨w2, ?_, ?_, ?_⟩
    · simp only [runUpdatePipes, e]; exact e2
    · exact le_trans h3 h1
    · exact le_trans h2 h4

/-- C3: with a bird present, `updatePipes(dt)` returns, and the pipes it
leaves are, in order, pipes of the old list (`kept`), each changed as
`PipeStep` allows: no `scored` flag goes from true to false, and a flag goes
from false to true only for a pipe with `bird.x > pipe.x + pipe.width`; the
pipe counter grows by exactly the number of flags flipped.  Hence over every
sequence of calls, whatever the bird does in between, the pipe counter plus
the number of unscored pipes never grows: the counter gains at most 1 for
each pipe that was unscored at the start and nothing for a scored one,
however many calls the bird spends past it. -/
theorem updatePipes_scores_once (w : World) (b : Bird) (hb : w.gameState.bird = some b) :
    (∀ dt : ℚ, ∃ w1 ok kept,
      GameLogic.updatePipes dt w = some (w1, ok) ∧
      kept.Sublist w.gameState.pipes ∧
      List.Forall₂ (PipeStep dt b) kept w1.gameState.pipes ∧
      w1.gameState.scores.pipes =
        w.gameState.scores.pipes + (flips kept w1.gameState.pipes : ℤ)) ∧
    (∀ steps : List (ℚ × Bird), ∃ w1,
      runUpdatePipes steps w = some w1 ∧
      w1.gameState.scores.pipes + (unscored w1.gameState.pipes : ℤ) ≤
        w.gameState.scores.pipes + (unscored w.gameState.pipes : ℤ) ∧
      w.gameState.scores.pipes ≤ w1.gameState.scores.pipes) := by
  refine ⟨?_, fun steps => runUpdatePipes_potential steps w⟩
  intro dt
  obtain ⟨w1, ok, kept, mid, b1, e, hs, hpipes, hf, hsc, _⟩ :=
    updatePipesLoop_spec dt b w.gameState.pipes w [] (by simp) hb
  have h3 : w1.gameState.pipes = mid := by simpa using hpipes
  refine ⟨w1, ok, kept, e, hs, ?_, ?_⟩
  · rw [h3]; exact hf
  · rw [h3]; exact hsc

/-- With the bird's left edge on the screen, a coin that is off-screen does
not collide with the bird. -/
theorem not_checkCollision_of_isOffScreen (b : Bird) (c : Coin) (hx : 0 ≤ b.x)
    (hoff : c.isOffScreen = true) : c.checkCollision b = false := by
  unfold Coin.isOffScreen at hoff
  have hoff' : c.x + c.radius < 0 := by simpa using hoff
  cases hc : c.checkCollision b with
  | false => rfl
  | true =>
    exfalso
    unfold Coin.checkCollision sqrtLt at hc
    simp only [Bool.and_eq_true, decide_eq_true_eq] at hc
    obtain ⟨⟨hr, hlt⟩, _⟩ := hc
    nlinarith [mul_self_nonneg (b.y + b.height / 2 - c.y)]

/-- C4: with a bird present, `updateCoins(dt)` returns; the live list it
leaves is the old list with every coin moved once by `Coin.update`
(`x` becomes `x - speed * dt`) and then filtered, order kept, to the coins that
are neither off-screen nor colliding with the bird; the coin counter has
grown by exactly 10 for each moved coin that is on screen and collides, and
these coins are gone, so that no coin left collides.  With the bird's left
edge on the screen no off-screen coin collides, so the coins counted are all
the colliding coins. -/
theorem updateCoins_spec (dt : ℚ) (w : World) (b : Bird) (hb : w.gameState.bird = some b) :
    ∃ w1, GameLogic.updateCoins dt w = some w1 ∧
      w1.gameState.coins =
        (w.gameState.coins.map (fun c => c.update dt)).filter
          (fun c => !c.isOffScreen && !c.checkCollision b) ∧
      (∀ c : Coin, (c.update dt).x = c.x - c.speed * dt ∧ (c.update dt).y = c.y ∧
        (c.update dt).radius = c.radius ∧ (c.update dt).collected = c.collected) ∧
      w1.gameState.scores.coins = w.gameState.scores.coins +
        10 * ((w.gameState.coins.map (fun c => c.update dt)).countP
          (fun c => !c.isOffScreen && c.checkCollision b) : ℤ) ∧
      (∀ c ∈ w1.gameState.coins, c.checkCollision b = false) ∧
      (0 ≤ b.x →
        (w.gameState.coins.map (fun c => c.update dt)).countP
            (fun c => !c.isOffScreen && c.checkCollision b) =
          (w.gameState.coins.map (fun c => c.update dt)).countP
            (fun c => c.checkCollision b)) := by
  obtain ⟨w1, e, hcoins, hsc, _⟩ :=
    updateCoinsLoop_spec dt b w.gameState.coins w [] (by simp) hb
  have hcoins' : w1.gameState.coins =
      (w.gameState.coins.map (fun c => c.update dt)).filter
        (fun c => !c.isOffScreen && !c.checkCollision b) := by simpa using hcoins
  refine ⟨w1, e, hcoins', fun c => ⟨rfl, rfl, rfl, rfl⟩, hsc, ?_, ?_⟩
  · intro c hc
    rw [hcoins'] at hc
    have := (List.mem_filter.mp hc).2
    simp only [Bool.and_eq_true, Bool.not_eq_true'] at this
    exact this.2
  · intro hx
    apply List.countP_congr
    intro c _
    cases hoff : c.isOffScreen with
    | false => simp
    | true => simp [not_checkCollision_of_isOffScreen b c hx hoff]

/-- Three calls of `updatePipes` on the sample state, evaluated: the pipe the
bird has passed is scored by the first call and not again; the other pipe is
not. -/
theorem sample_pipe_sweeps :
    (runUpdatePipes
        [(1, { x := 200, y := 250, width := 70, height := 70, velocity := 0, gravity := 0.4,
               flapStrength := -6, rotation := 0 }),
         (1, { x := 200, y := 244, width := 70, height := 70, velocity := -6, gravity := 0.4,
               flapStrength := -6, rotation := 0 }),
         (2, { x := 200, y := 240, width := 70, height := 70, velocity := -5, gravity := 0.4,
               flapStrength := -6, rotation := 0 })] sampleWorld).map
      (fun w => (w.gameState.scores.pipes, w.gameState.pipes.map (fun p => (p.x, p.scored)))) =
    some (1, [(88, true), (488, false)]) := by
  simp only [runUpdatePipes, GameLogic.updatePipes, sampleWorld, initialGameState,
    List.length_cons, List.length_nil]
  norm_num [GameLogic.updatePipesLoop, Pipe.update, Pipe.isOffScreen,
    GameLogic.checkPipeCollision, GameLogic.passedTest, GameLogic.updateScore, Bird.getBounds]

/-- C3 on the sample state, whose two pipes are unscored: three calls of
`updatePipes`, the bird flapping in between, leave the pipe counter at most
at 2; evaluated, it is 1, the bird having passed one pipe. -/
theorem updatePipes_scores_once_witness :
    ∃ w1, runUpdatePipes
        [(1, { x := 200, y := 250, width := 70, height := 70, velocity := 0, gravity := 0.4,
               flapStrength := -6, rotation := 0 }),
         (1, { x := 200, y := 244, width := 70, height := 70, velocity := -6, gravity := 0.4,
               flapStrength := -6, rotation := 0 }),
         (2, { x := 200, y := 240, width := 70, height := 70, velocity := -5, gravity := 0.4,
               flapStrength := -6, rotation := 0 })] sampleWorld = some w1 ∧
      w1.gameState.scores.pipes ≤ 2 ∧ w1.gameState.scores.pipes = 1 := by
  obtain ⟨w1, e, h, _⟩ := (updatePipes_scores_once sampleWorld _ rfl).2
    [(1, { x := 200, y := 250, width := 70, height := 70, velocity := 0, gravity := 0.4,
           flapStrength := -6, rotation := 0 }),
     (1, { x := 200, y := 244, width := 70, height := 70, velocity := -6, gravity := 0.4,
           flapStrength := -6, rotation := 0 }),
     (2, { x := 200, y := 240, width := 70, height := 70, velocity := -5, gravity := 0.4,
           flapStrength := -6, rotation := 0 })]
  refine ⟨w1, e, ?_, ?_⟩
  · have h0 : sampleWorld.gameState.scores.pipes = 0 := rfl
    have h2 : unscored sampleWorld.gameState.pipes = 2 := rfl
    rw [h0, h2] at h
    have : (0 : ℤ) ≤ (unscored w1.gameState.pipes : ℤ) := Int.natCast_nonneg _
    omega
  · have hs := sample_pipe_sweeps
    rw [e] at hs
    simp only [Option.map_some', Option.some.injEq, Prod.mk.injEq] at hs
    exact hs.1

/-- C4 on the sample state with `dt = 1`: of the three coins, the first
leaves the screen, the second is collected and the third stays, moved from
`x = 540` to `x = 537`; the coin counter goes from 0 to 10. -/
theorem updateCoins_spec_witness :
    ∃ w1, GameLogic.updateCoins 1 sampleWorld = some w1 ∧
      w1.gameState.coins =
        [{ x := 537, y := 300, radius := 18, collected := false, speed := 3, angle := 0.05 }] ∧
      w1.gameState.scores.coins = 10 := by
  obtain ⟨w1, e, hcoins, _, hsc, _⟩ := updateCoins_spec 1 sampleWorld _ rfl
  refine ⟨w1, e, ?_, ?_⟩
  · rw [hcoins]
    simp only [sampleWorld, List.map_cons, List.map_nil, List.filter_cons, List.filter_nil]
    norm_num [Coin.update, Coin.isOffScreen, Coin.checkCollision, sqrtLt]
  · rw [hsc]
    simp only [sampleWorld, initialGameState, List.map_cons, List.map_nil, List.countP_cons,
      List.countP_nil]
    norm_num [Coin.update, Coin.isOffScreen, Coin.checkCollision, sqrtLt]

/-! ## Scores along the game loop -/

/-- Equal scores make a score step. -/
theorem ScoreStep.of_same {w w1 : World} (h : SameScore w w1) : ScoreStep w w1 := by
  obtain ⟨h1, h2, h3, h4, h5⟩ := h
  unfold ScoreStep ScoreConsistent
  rw [h1, h2, h3, h4, h5]
  exact ⟨id, rfl, rfl, le_refl _, le_refl _⟩

/-- Score steps compose. -/
theorem ScoreStep.trans {w w1 w2 : World} (h : ScoreStep w w1) (h' : ScoreStep w1 w2) :
    ScoreStep w w2 := by
  obtain ⟨a1, a2, a3, a4, a5⟩ := h
  obtain ⟨b1, b2, b3, b4, b5⟩ := h'
  exact ⟨fun hc => b1 (a1 hc), b2.trans a2, b3.trans a3, le_trans a4 b4, le_trans a5 b5⟩

/-- The bird update leaves the scores alone and keeps the bird. -/
theorem updateBird_spec (dt : ℚ) (w : World) (b : Bird) (hb : w.gameState.bird = some b) :
    ∃ w1 b1, updateBird dt w = some w1 ∧ SameScore w w1 ∧ w1.gameState.bird = some b1 := by
  simp only [updateBird, hb]
  exact ⟨_, _, rfl, ⟨rfl, rfl, rfl, rfl, rfl⟩, rfl⟩

/-- The ground test leaves the scores alone and keeps the bird. -/
theorem groundCheck_spec (w : World) (b : Bird) (hb : w.gameState.bird = some b) :
    ∃ w1 b1, groundCheck w = some w1 ∧ SameScore w w1 ∧ w1.gameState.bird = some b1 := by
  simp only [groundCheck, hb]
  split_ifs
  · obtain ⟨_, _, f3, f4, f5, _, _, f8⟩ := startDeathAnimation_frame w
    obtain ⟨b1, hb1, _⟩ := f8 b hb
    exact ⟨_, b1, rfl, ⟨by rw [f3], by rw [f3], by rw [f3], f4, f5⟩, hb1⟩
  · exact ⟨_, b, rfl, ⟨rfl, rfl, rfl, rfl, rfl⟩, hb⟩

/-- The background update leaves the scores and the bird alone. -/
theorem updateBackground_spec (dt : ℚ) (w : World) :
    SameScore w (updateBackground dt w) ∧
    (updateBackground dt w).gameState.bird = w.gameState.bird := by
  unfold updateBackground
  cases w.gameState.background <;> exact ⟨⟨rfl, rfl, rfl, rfl, rfl⟩, rfl⟩

/-- The grass update leaves the scores and the bird alone. -/
theorem updateGrassScroll_spec (dt : ℚ) (w : World) :
    SameScore w (updateGrassScroll dt w) ∧
    (updateGrassScroll dt w).gameState.bird = w.gameState.bird := by
  simp only [updateGrassScroll]
  split_ifs <;> exact ⟨⟨rfl, rfl, rfl, rfl, rfl⟩, rfl⟩

/-- The pipe timer and `spawnPipe` leave the scores and the bird alone. -/
theorem pipeSpawnStep_spec (t : Tick) (deltaTime : ℚ) (w : World) :
    SameScore w (pipeSpawnStep t deltaTime w) ∧
    (pipeSpawnStep t deltaTime w).gameState.bird = w.gameState.bird := by
  simp only [pipeSpawnStep]
  split_ifs <;> exact ⟨⟨rfl, rfl, rfl, rfl, rfl⟩, rfl⟩

/-- The coin timer and `spawnSkyCoin` leave the scores and the bird alone. -/
theorem coinSpawnStep_spec (t : Tick) (deltaTime : ℚ) (w : World) :
    SameScore w (coinSpawnStep t deltaTime w) ∧
    (coinSpawnStep t deltaTime w).gameState.bird = w.gameState.bird := by
  simp only [coinSpawnStep, GameLogic.spawnSkyCoin]
  split_ifs <;> exact ⟨⟨rfl, rfl, rfl, rfl, rfl⟩, rfl⟩

/-- Scheduling the next frame leaves the scores and the bird alone. -/
theorem renderAndContinue_spec (w : World) :
    SameScore w (renderAndContinue w) ∧
    (renderAndContinue w).gameState.bird = w.gameState.bird :=
  ⟨⟨rfl, rfl, rfl, rfl, rfl⟩, rfl⟩

/-- The game-over transition changes the two records (session and all-time
best) but not the score of the run, and leaves the bird alone. -/
theorem finishGameOver_spec (w : World) :
    SameScore w (GameLogic.finishGameOver w) ∧
    (GameLogic.finishGameOver w).gameState.bird = w.gameState.bird := by
  by_cases h : w.gameState.gameOver = true
  · rw [finishGameOver_of_gameOver w h]
    exact ⟨⟨rfl, rfl, rfl, rfl, rfl⟩, rfl⟩
  · simp only [GameLogic.finishGameOver, h, emit, cancelAnimationFrame]
    cases w.animationFrameId <;> simp only [Bool.false_eq_true, if_false] <;> split_ifs <;>
      exact ⟨⟨rfl, rfl, rfl, rfl, rfl⟩, rfl⟩

/-- With a bird, `updatePipes` returns, makes a score step and keeps the bird. -/
theorem updatePipes_scoreStep (dt : ℚ) (w : World) (b : Bird)
    (hb : w.gameState.bird = some b) :
    ∃ r b1, GameLogic.updatePipes dt w = some r ∧ ScoreStep w r.1 ∧
      r.1.gameState.bird = some b1 := by
  obtain ⟨w1, ok, kept, mid, b1, e, _, _, _, hsc, hgh, hb1, _, hc, hcc, _, hcons, _⟩ :=
    updatePipesLoop_spec dt b w.gameState.pipes w [] (by simp) hb
  refine ⟨(w1, ok), b1, e, ⟨hcons, ?_, ?_, ?_, ?_⟩, hb1⟩
  · show w1.gameState.scores.pipes - (w1.pipesScored : ℤ) = _
    rw [hsc, hgh]; push_cast; ring
  · show w1.gameState.scores.coins - 10 * (w1.coinsCollected : ℤ) = _
    rw [hc, hcc]
  · show _ ≤ w1.gameState.scores.pipes
    rw [hsc]; omega
  · show _ ≤ w1.gameState.scores.coins
    rw [hc]

/-- With a bird, `updateCoins` returns, makes a score step and keeps the bird. -/
theorem updateCoins_scoreStep (dt : ℚ) (w : World) (b : Bird)
    (hb : w.gameState.bird = some b) :
    ∃ w1, GameLogic.updateCoins dt w = some w1 ∧ ScoreStep w w1 ∧
      w1.gameState.bird = some b := by
  obtain ⟨w1, e, _, hsc, hgh, _, hb1, _, hps, hpg, hcons, _⟩ :=
    updateCoinsLoop_spec dt b w.gameState.coins w [] (by simp) hb
  refine ⟨w1, e, ⟨hcons, ?_, ?_, ?_, ?_⟩, hb1⟩
  · rw [hps, hpg]
  · rw [hsc, hgh]; push_cast; ring
  · rw [hps]
  · rw [hsc]; omega

/-- With a bird, the normal branch of `gameLoop` returns, makes a score step
and keeps the bird. -/
theorem normalUpdate_spec (t : Tick) (deltaTime dt : ℚ) (w : World) (b : Bird)
    (hb : w.gameState.bird = some b) :
    ∃ w1 b1, normalUpdate t deltaTime dt w = some w1 ∧ ScoreStep w w1 ∧
      w1.gameState.bird = some b1 := by
  obtain ⟨wa, ba, ea, sa, hba⟩ := updateBird_spec dt w b hb
  obtain ⟨wb, bb, eb, sb, hbb⟩ := groundCheck_spec wa ba hba
  obtain ⟨sc, hbc⟩ := updateBackground_spec dt wb
  obtain ⟨sd, hbd⟩ := pipeSpawnStep_spec t deltaTime (updateBackground dt wb)
  obtain ⟨r, be, ee, se, hbe⟩ := updatePipes_scoreStep dt
    (pipeSpawnStep t deltaTime (updateBackground dt wb)) bb (by rw [hbd, hbc, hbb])
  obtain ⟨sf, hbf⟩ := coinSpawnStep_spec t deltaTime r.1
  obtain ⟨wg, eg, sg, hbg⟩ := updateCoins_scoreStep dt (coinSpawnStep t deltaTime r.1) be
    (by rw [hbf, hbe])
  obtain ⟨sh, hbh⟩ := updateGrassScroll_spec dt wg
  refine ⟨updateGrassScroll dt wg, be, ?_, ?_, by rw [hbh, hbg]⟩
  · simp only [normalUpdate, ea, eb, ee, eg]
  · exact (((((((ScoreStep.of_same sa).trans (ScoreStep.of_same sb)).trans
      (ScoreStep.of_same sc)).trans (ScoreStep.of_same sd)).trans se).trans
      (ScoreStep.of_same sf)).trans sg).trans (ScoreStep.of_same sh)

/-- Without a bird the normal branch of `gameLoop` faults. -/
theorem normalUpdate_none (t : Tick) (deltaTime dt : ℚ) (w : World)
    (hb : w.gameState.bird = none) : normalUpdate t deltaTime dt w = none := by
  simp [normalUpdate, updateBird, hb]

/-- The bird block of the death animation leaves the scores alone and keeps
the bird. -/
theorem dyingBirdStep_spec (dt : ℚ) (w : World) :
    SameScore w (dyingBirdStep dt w) ∧ KeepsBird w (dyingBirdStep dt w) := by
  unfold dyingBirdStep
  split
  · exact ⟨⟨rfl, rfl, rfl, rfl, rfl⟩, fun b hb => ⟨b, hb⟩⟩
  · simp only []
    split_ifs
    · exact ⟨⟨rfl, rfl, rfl, rfl, rfl⟩, fun _ _ => ⟨_, rfl⟩⟩
    · exact ⟨⟨rfl, rfl, rfl, rfl, rfl⟩, fun _ _ => ⟨_, rfl⟩⟩

/-- The death-animation branch leaves the scores alone and keeps the bird. -/
theorem dyingUpdate_spec (deltaTime dt : ℚ) (w : World) :
    SameScore w (dyingUpdate deltaTime dt w).1 ∧ KeepsBird w (dyingUpdate deltaTime dt w).1 := by
  obtain ⟨⟨a1, a2, a3, a4, a5⟩, ka⟩ := dyingBirdStep_spec dt
    { w with gameState.deathAnimationTimer := w.gameState.deathAnimationTimer + deltaTime }
  obtain ⟨⟨g1, g2, g3, g4, g5⟩, gb⟩ := updateBackground_spec dt (dyingBirdStep dt
    { w with gameState.deathAnimationTimer := w.gameState.deathAnimationTimer + deltaTime })
  obtain ⟨⟨k1, k2, k3, k4, k5⟩, kb⟩ := updateGrassScroll_spec dt (updateBackground dt
    (dyingBirdStep dt
      { w with gameState.deathAnimationTimer := w.gameState.deathAnimationTimer + deltaTime }))
  obtain ⟨⟨f1, f2, f3, f4, f5⟩, fb⟩ := finishGameOver_spec (updateGrassScroll dt
    (updateBackground dt (dyingBirdStep dt
      { w with gameState.deathAnimationTimer := w.gameState.deathAnimationTimer + deltaTime })))
  simp only [dyingUpdate]
  split_ifs
  · refine ⟨⟨((f1.trans k1).trans g1).trans a1, ((f2.trans k2).trans g2).trans a2,
      ((f3.trans k3).trans g3).trans a3, ((f4.trans k4).trans g4).trans a4,
      ((f5.trans k5).trans g5).trans a5⟩, ?_⟩
    intro b hb
    obtain ⟨b1, hb1⟩ := ka b hb
    exact ⟨b1, by simp only []; rw [fb, kb, gb, hb1]⟩
  · refine ⟨⟨(k1.trans g1).trans a1, (k2.trans g2).trans a2, (k3.trans g3).trans a3,
      (k4.trans g4).trans a4, (k5.trans g5).trans a5⟩, ?_⟩
    intro b hb
    obtain ⟨b1, hb1⟩ := ka b hb
    exact ⟨b1, by simp only []; rw [kb, gb, hb1]⟩

/-- One tick of `gameLoop`, whatever the state: if it returns, it has made a
score step and kept the bird; and with a bird it does return. -/
theorem gameLoop_spec (t : Tick) (w : World) :
    (∀ w1, gameLoop t w = some w1 → ScoreStep w w1 ∧ KeepsBird w w1) ∧
    (∀ b, w.gameState.bird = some b → ∃ w1, gameLoop t w = some w1) := by
  by_cases h1 : (!w.gameState.running && !w.gameState.isDying) = true
  · simp only [gameLoop, h1, if_true]
    refine ⟨?_, fun _ _ => ⟨_, rfl⟩⟩
    intro w1 e
    cases e
    exact ⟨ScoreStep.of_same ⟨rfl, rfl, rfl, rfl, rfl⟩, fun b hb => ⟨b, hb⟩⟩
  · by_cases h2 : (w.gameState.isDying && !w.gameState.gameOver) = true
    · obtain ⟨sd, kd⟩ := dyingUpdate_spec (t.currentTime - w.lastTime)
        (min 32 (t.currentTime - w.lastTime) / 16.67) { w with lastTime := t.currentTime }
      have sd1 : SameScore w (dyingUpdate (t.currentTime - w.lastTime)
          (min 32 (t.currentTime - w.lastTime) / 16.67)
          { w with lastTime := t.currentTime }).1 := sd
      have kd1 : KeepsBird w (dyingUpdate (t.currentTime - w.lastTime)
          (min 32 (t.currentTime - w.lastTime) / 16.67)
          { w with lastTime := t.currentTime }).1 := kd
      by_cases hr : (dyingUpdate (t.currentTime - w.lastTime)
          (min 32 (t.currentTime - w.lastTime) / 16.67)
          { w with lastTime := t.currentTime }).2 = true
      · have e : gameLoop t w = some (dyingUpdate (t.currentTime - w.lastTime)
            (min 32 (t.currentTime - w.lastTime) / 16.67)
            { w with lastTime := t.currentTime }).1 := by
          simp only [gameLoop]
          rw [if_neg h1, if_pos h2, if_pos hr]
        rw [e]
        refine ⟨?_, fun _ _ => ⟨_, rfl⟩⟩
        intro w1 e1
        cases e1
        exact ⟨ScoreStep.of_same sd1, kd1⟩
      · have e : gameLoop t w = some (renderAndContinue (dyingUpdate (t.currentTime - w.lastTime)
            (min 32 (t.currentTime - w.lastTime) / 16.67)
            { w with lastTime := t.currentTime }).1) := by
          simp only [gameLoop]
          rw [if_neg h1, if_pos h2, if_neg hr]
        rw [e]
        refine ⟨?_, fun _ _ => ⟨_, rfl⟩⟩
        intro w1 e1
        cases e1
        obtain ⟨sr, kr⟩ := renderAndContinue_spec
          (dyingUpdate (t.currentTime - w.lastTime)
            (min 32 (t.currentTime - w.lastTime) / 16.67)
            { w with lastTime := t.currentTime }).1
        refine ⟨(ScoreStep.of_same sd1).trans (ScoreStep.of_same sr), ?_⟩
        intro b hb
        obtain ⟨b1, hb1⟩ := kd1 b hb
        exact ⟨b1, by rw [kr, hb1]⟩
    · by_cases h3 : (!w.gameState.paused && !w.gameState.gameOver) = true
      · simp only [gameLoop, h1, h2, h3, if_true]
        cases hbird : w.gameState.bird with
        | none =>
          rw [normalUpdate_none t _ _ { w with lastTime := t.currentTime } hbird]
          simp
        | some b =>
          obtain ⟨w2, b2, e2, s2, hb2⟩ := normalUpdate_spec t (t.currentTime - w.lastTime)
            (min 32 (t.currentTime - w.lastTime) / 16.67) { w with lastTime := t.currentTime }
            b hbird
          have s2a : ScoreStep w w2 := s2
          rw [e2]
          refine ⟨?_, fun _ _ => ⟨_, rfl⟩⟩
          intro w1 e
          cases e
          obtain ⟨sr, kr⟩ := renderAndContinue_spec w2
          exact ⟨s2a.trans (ScoreStep.of_same sr), fun _ _ => ⟨b2, by rw [kr, hb2]⟩⟩
      · simp only [gameLoop, h1, h2, h3]
        refine ⟨?_, fun _ _ => ⟨_, rfl⟩⟩
        intro w1 e
        cases e
        exact ⟨ScoreStep.of_same ⟨rfl, rfl, rfl, rfl, rfl⟩, fun b hb => ⟨b, hb⟩⟩

/-- Any number of ticks: if they all return, they have made a score step;
and with a bird they all return. -/
theorem runTicks_spec (ts : List Tick) :
    ∀ w : World,
      (∀ w1, runTicks ts w = some w1 → ScoreStep w w1) ∧
      (∀ b, w.gameState.bird = some b → ∃ w1, runTicks ts w = some w1) := by
  induction ts with
  | nil =>
    intro w
    refine ⟨?_, fun _ _ => ⟨w, rfl⟩⟩
    intro w1 e
    cases e
    exact ScoreStep.of_same ⟨rfl, rfl, rfl, rfl, rfl⟩
  | cons t ts ih =>
    intro w
    obtain ⟨g1, g2⟩ := gameLoop_spec t w
    refine ⟨?_, ?_⟩
    · intro w1 e
      simp only [runTicks] at e
      cases hg : gameLoop t w with
      | none => rw [hg] at e; cases e
      | some w2 =>
        rw [hg] at e
        exact (g1 w2 hg).1.trans ((ih w2).1 w1 e)
    · intro b hb
      obtain ⟨w2, hg⟩ := g2 b hb
      obtain ⟨b2, hb2⟩ := (g1 w2 hg).2 b hb
      obtain ⟨w3, e3⟩ := (ih w2).2 b2 hb2
      exact ⟨w3, by simp only [runTicks, hg]; exact e3⟩

/-- After `reset` the three run counters are 0, so the score is consistent;
the history counters are untouched. -/
theorem reset_scores (w0 : World) :
    ScoreConsistent (GameLogic.reset w0) ∧
    (GameLogic.reset w0).gameState.scores.overall = 0 ∧
    (GameLogic.reset w0).gameState.scores.pipes = 0 ∧
    (GameLogic.reset w0).gameState.scores.coins = 0 ∧
    (GameLogic.reset w0).pipesScored = w0.pipesScored ∧
    (GameLogic.reset w0).coinsCollected = w0.coinsCollected := by
  simp only [GameLogic.reset, ScoreConsistent]
  cases w0.gameState.bird <;> cases w0.gameState.background <;> simp

/-- One running tick on the sample state, evaluated: the passed pipe is
scored and the coin on the bird collected, so the scores go from 0 to 11, 1
and 10 and each history counter from 0 to 1. -/
theorem sample_tick_counters :
    (gameLoop { currentTime := 1016.67, rPipe := 0.5, rCoin := 0.5, rSky := 0.5 }
      sampleWorld).map (fun w => (w.gameState.scores, w.pipesScored, w.coinsCollected)) =
    some ({ overall := 11, pipes := 1, coins := 10, session := 11, allTime := 0 }, 1, 1) := by
  simp only [gameLoop, sampleWorld, initialGameState, normalUpdate, updateBird, groundCheck,
    GameLogic.updatePipes, GameLogic.updateCoins, List.length_cons, List.length_nil]
  norm_num [GameLogic.updatePipesLoop, GameLogic.updateCoinsLoop, Pipe.update, Pipe.isOffScreen,
    GameLogic.checkPipeCollision, GameLogic.passedTest, GameLogic.updateScore, Bird.getBounds,
    Bird.update, Utils.clamp, Math_PI, updateBackground, Background.update, pipeSpawnStep,
    coinSpawnStep, updateGrassScroll, renderAndContinue, requestAnimationFrame, emit,
    Coin.update, Coin.isOffScreen, Coin.checkCollision, sqrtLt, GameLogic.collect,
    GameLogic.startDeathAnimation]

/-- C5: over any sequence of `gameLoop` ticks, from any state `v`, the pipe
score grows by 1 for each pipe scored and the coin score by 10 for each coin
collected, and `scores.overall = scores.pipes + scores.coins` holds at the end
if it held at the start; so in every state reached from `GameLogic.reset` by
ticks, `scores.overall = scores.pipes + scores.coins =
(pipes scored since the reset) * 1 + (coins collected since the reset) * 10`.
The pipes scored are counted by `pipesScored`, which a call of `updatePipes`
raises by the number of `scored` flags it turns from false to true, and the
coins collected by `coinsCollected`, which a call of `updateCoins` raises by
the number of moved coins that are on screen and collide with the bird. -/
theorem score_counts_pipes_and_coins (v w : World) (ts : List Tick)
    (h : runTicks ts v = some w) :
    (ScoreConsistent v →
      w.gameState.scores.overall = w.gameState.scores.pipes + w.gameState.scores.coins) ∧
    w.gameState.scores.pipes - v.gameState.scores.pipes =
      ((w.pipesScored : ℤ) - (v.pipesScored : ℤ)) * 1 ∧
    w.gameState.scores.coins - v.gameState.scores.coins =
      ((w.coinsCollected : ℤ) - (v.coinsCollected : ℤ)) * 10 ∧
    (∀ w0, v = GameLogic.reset w0 →
      w.gameState.scores.overall = w.gameState.scores.pipes + w.gameState.scores.coins ∧
      w.gameState.scores.pipes = ((w.pipesScored : ℤ) - (w0.pipesScored : ℤ)) * 1 ∧
      w.gameState.scores.coins = ((w.coinsCollected : ℤ) - (w0.coinsCollected : ℤ)) * 10 ∧
      w.gameState.scores.overall =
        ((w.pipesScored : ℤ) - (w0.pipesScored : ℤ)) * 1 +
          ((w.coinsCollected : ℤ) - (w0.coinsCollected : ℤ)) * 10) ∧
    (∀ (dt : ℚ) (u : World) (b : Bird), u.gameState.bird = some b →
      ∃ u1 ok kept, GameLogic.updatePipes dt u = some (u1, ok) ∧
        kept.Sublist u.gameState.pipes ∧
        u1.pipesScored = u.pipesScored + flips kept u1.gameState.pipes ∧
        u1.coinsCollected = u.coinsCollected) ∧
    (∀ (dt : ℚ) (u : World) (b : Bird), u.gameState.bird = some b →
      ∃ u1, GameLogic.updateCoins dt u = some u1 ∧
        u1.coinsCollected = u.coinsCollected +
          (u.gameState.coins.map (fun c => c.update dt)).countP
            (fun c => !c.isOffScreen && c.checkCollision b) ∧
        u1.pipesScored = u.pipesScored) := by
  obtain ⟨s1, s2, s3, _, _⟩ := (runTicks_spec ts v).1 w h
  refine ⟨s1, by linarith, by linarith, ?_, ?_, ?_⟩
  · intro w0 hv
    obtain ⟨r1, _, r2, r3, r4, r5⟩ := reset_scores w0
    rw [hv] at s1 s2 s3
    rw [r2, r4] at s2
    rw [r3, r5] at s3
    have c := s1 r1
    unfold ScoreConsistent at c
    refine ⟨c, by linarith, by linarith, by linarith⟩
  · intro dt u b hb
    obtain ⟨u1, ok, kept, mid, b1, e, hs, hpipes, _, _, hps, _, _, _, hcc, _⟩ :=
      updatePipesLoop_spec dt b u.gameState.pipes u [] (by simp) hb
    have h3 : u1.gameState.pipes = mid := by simpa using hpipes
    exact ⟨u1, ok, kept, e, hs, by rw [h3]; exact hps, hcc⟩
  · intro dt u b hb
    obtain ⟨u1, e, _, _, hcc, _, _, _, _, hps, _⟩ :=
      updateCoinsLoop_spec dt b u.gameState.coins u [] (by simp) hb
    exact ⟨u1, e, hcc, hps⟩

/-- C5 on the sample state, where the scores and both counters are 0: a
running tick scores the pipe the bird has passed and collects the coin on the
bird, and the scores are `11 = 1 + 10 = 1 * 1 + 1 * 10`. -/
theorem score_counts_pipes_and_coins_witness :
    ∃ w, runTicks [{ currentTime := 1016.67, rPipe := 0.5, rCoin := 0.5, rSky := 0.5 }]
        sampleWorld = some w ∧
      w.gameState.scores.overall = 11 ∧ w.gameState.scores.pipes = 1 ∧
      w.gameState.scores.coins = 10 ∧ w.pipesScored = 1 ∧ w.coinsCollected = 1 ∧
      w.gameState.scores.overall = w.gameState.scores.pipes + w.gameState.scores.coins ∧
      w.gameState.scores.pipes - sampleWorld.gameState.scores.pipes =
        ((w.pipesScored : ℤ) - (sampleWorld.pipesScored : ℤ)) * 1 ∧
      w.gameState.scores.coins - sampleWorld.gameState.scores.coins =
        ((w.coinsCollected : ℤ) - (sampleWorld.coinsCollected : ℤ)) * 10 := by
  obtain ⟨w, hw⟩ := (runTicks_spec
    [{ currentTime := 1016.67, rPipe := 0.5, rCoin := 0.5, rSky := 0.5 }] sampleWorld).2 _ rfl
  have hs := sample_tick_counters
  have hg : gameLoop { currentTime := 1016.67, rPipe := 0.5, rCoin := 0.5, rSky := 0.5 }
      sampleWorld = some w := by
    simp only [runTicks] at hw
    split at hw
    · cases hw
    · rename_i w2 e
      cases hw
      exact e
  rw [hg] at hs
  simp only [Option.map_some', Option.some.injEq, Prod.mk.injEq] at hs
  obtain ⟨h1, h2, h3⟩ := hs
  obtain ⟨c1, c2, c3, _⟩ := score_counts_pipes_and_coins sampleWorld w _ hw
  refine ⟨w, hw, ?_, ?_, ?_, h2, h3, c1 rfl, c2, c3⟩
  · rw [h1]
  · rw [h1]
  · rw [h1]

/-- C6: a tick of `gameLoop` in any mode (running, dying, paused, game
over) never lowers `scores.overall`: this holds in every state reached from
`GameLogic.reset` by ticks, and more generally in every state whose aggregate
score is consistent (`overall = pipes + coins`, as it is at every tick
boundary of the game), where with a bird present the tick is also sure to
return.  `GameLogic.reset` sets `scores.overall` back to 0. -/
theorem overall_monotone (t : Tick) (w : World) :
    (∀ w0 ts, runTicks ts (GameLogic.reset w0) = some w →
      ∀ w1, gameLoop t w = some w1 →
        w.gameState.scores.overall ≤ w1.gameState.scores.overall) ∧
    (ScoreConsistent w →
      (∀ w1, gameLoop t w = some w1 →
        w.gameState.scores.overall ≤ w1.gameState.scores.overall) ∧
      (∀ b, w.gameState.bird = some b →
        ∃ w1, gameLoop t w = some w1 ∧
          w.gameState.scores.overall ≤ w1.gameState.scores.overall)) ∧
    (GameLogic.reset w).gameState.scores.overall = 0 := by
  obtain ⟨g1, g2⟩ := gameLoop_spec t w
  have mono : ScoreConsistent w → ∀ w1, gameLoop t w = some w1 →
      w.gameState.scores.overall ≤ w1.gameState.scores.overall := by
    intro hc w1 e
    obtain ⟨⟨s1, _, _, s4, s5⟩, _⟩ := g1 w1 e
    have c1 := s1 hc
    unfold ScoreConsistent at hc c1
    rw [hc, c1]
    exact add_le_add s4 s5
  refine ⟨?_, ?_, (reset_scores w).2.1⟩
  · intro w0 ts h
    exact mono (((runTicks_spec ts (GameLogic.reset w0)).1 w h).1 (reset_scores w0).1)
  · intro hc
    refine ⟨mono hc, ?_⟩
    intro b hb
    obtain ⟨w1, e⟩ := g2 b hb
    exact ⟨w1, e, mono hc w1 e⟩

/-- One running tick on the sample state, evaluated: the passed pipe is
scored and the coin on the bird collected, so the score goes from 0 to 11. -/
theorem sample_tick_scores :
    (gameLoop { currentTime := 1016.67, rPipe := 0.5, rCoin := 0.5, rSky := 0.5 }
      sampleWorld).map (fun w => w.gameState.scores) =
    some { overall := 11, pipes := 1, coins := 10, session := 11, allTime := 0 } := by
  simp only [gameLoop, sampleWorld, initialGameState, normalUpdate, updateBird, groundCheck,
    GameLogic.updatePipes, GameLogic.updateCoins, List.length_cons, List.length_nil]
  norm_num [GameLogic.updatePipesLoop, GameLogic.updateCoinsLoop, Pipe.update, Pipe.isOffScreen,
    GameLogic.checkPipeCollision, GameLogic.passedTest, GameLogic.updateScore, Bird.getBounds,
    Bird.update, Utils.clamp, Math_PI, updateBackground, Background.update, pipeSpawnStep,
    coinSpawnStep, updateGrassScroll, renderAndContinue, requestAnimationFrame, emit,
    Coin.update, Coin.isOffScreen, Coin.checkCollision, sqrtLt, GameLogic.collect,
    GameLogic.startDeathAnimation]

/-- C6 on the sample state: a running tick returns and does not lower the
score, which goes from 0 to 11. -/
theorem overall_monotone_witness :
    ∃ w1, gameLoop { currentTime := 1016.67, rPipe := 0.5, rCoin := 0.5, rSky := 0.5 }
        sampleWorld = some w1 ∧
      sampleWorld.gameState.scores.overall ≤ w1.gameState.scores.overall ∧
      sampleWorld.gameState.scores.overall = 0 ∧ w1.gameState.scores.overall = 11 := by
  obtain ⟨w1, e, h⟩ :=
    ((overall_monotone { currentTime := 1016.67, rPipe := 0.5, rCoin := 0.5, rSky := 0.5 }
      sampleWorld).2.1 rfl).2 _ rfl
  refine ⟨w1, e, h, rfl, ?_⟩
  have hs := sample_tick_scores
  rw [e] at hs
  simp only [Option.map_some', Option.some.injEq] at hs
  rw [hs]

/-! ## The death animation -/

/-- The function `finishGameOver` on a game that is not over, as one record
update: the two flags it shows are `overall > session` (withdrawn when the
all-time record falls too) and `overall > allTime`. -/
theorem finishGameOver_eq (w : World) (h : w.gameState.gameOver = false) :
    GameLogic.finishGameOver w =
      { w with
        gameState.running := false,
        gameState.gameOver := true,
        gameState.isDying := false,
        gameState.scores.session := max w.gameState.scores.session w.gameState.scores.overall,
        gameState.scores.allTime := max w.gameState.scores.allTime w.gameState.scores.overall,
        animationFrameId := none,
        pendingFrames :=
          match w.animationFrameId with
          | some id => w.pendingFrames.filter (fun j => j != id)
          | none => w.pendingFrames,
        effects :=
          Effect.showGameOver
              (decide (w.gameState.scores.overall > w.gameState.scores.session) &&
                !decide (w.gameState.scores.overall > w.gameState.scores.allTime))
              (decide (w.gameState.scores.overall > w.gameState.scores.allTime)) ::
            ((if w.gameState.scores.overall > w.gameState.scores.allTime then
                [Effect.storeHighScore w.gameState.scores.overall] else []) ++ w.effects) } := by
  have hs : max w.gameState.scores.session w.gameState.scores.overall =
      if w.gameState.scores.overall > w.gameState.scores.session then
        w.gameState.scores.overall else w.gameState.scores.session := by
    split_ifs with h1
    · exact max_eq_right (le_of_lt h1)
    · exact max_eq_left (not_lt.mp h1)
  have ha : max w.gameState.scores.allTime w.gameState.scores.overall =
      if w.gameState.scores.overall > w.gameState.scores.allTime then
        w.gameState.scores.overall else w.gameState.scores.allTime := by
    split_ifs with h1
    · exact max_eq_right (le_of_lt h1)
    · exact max_eq_left (not_lt.mp h1)
  rw [hs, ha]
  simp only [GameLogic.finishGameOver, h, emit, cancelAnimationFrame]
  cases w.animationFrameId <;>
    by_cases h1 : w.gameState.scores.overall > w.gameState.scores.session <;>
    by_cases h2 : w.gameState.scores.overall > w.gameState.scores.allTime <;>
    simp [h1, h2]

/-- The background update changes nothing but the background. -/
theorem eraseScenery_updateBackground (dt : ℚ) (w : World) :
    eraseScenery (updateBackground dt w) = eraseScenery w := by
  unfold updateBackground
  cases w.gameState.background <;> rfl

/-- The grass update changes nothing but the grass offset. -/
theorem eraseScenery_updateGrassScroll (dt : ℚ) (w : World) :
    eraseScenery (updateGrassScroll dt w) = eraseScenery w := by
  simp only [updateGrassScroll]
  split_ifs <;> rfl

/-- The bird block of the death animation changes nothing but the bird and
its sprite. -/
theorem eraseBird_dyingBirdStep (dt : ℚ) (w : World) :
    eraseBird (dyingBirdStep dt w) = eraseBird w := by
  unfold dyingBirdStep
  split
  · rfl
  · simp only []
    split_ifs <;> rfl

/-- Up to its final test, the death-animation branch changes nothing but the
death timer, the bird, its sprite, the background and the grass offset. -/
theorem dyingStage_frame (deltaTime dt : ℚ) (w : World) :
    eraseBird (eraseScenery (dyingStage deltaTime dt w)) =
      eraseBird (eraseScenery
        { w with gameState.deathAnimationTimer := w.gameState.deathAnimationTimer + deltaTime }) := by
  unfold dyingStage
  rw [eraseScenery_updateGrassScroll, eraseScenery_updateBackground]
  have h := eraseBird_dyingBirdStep dt
    { w with gameState.deathAnimationTimer := w.gameState.deathAnimationTimer + deltaTime }
  exact congrArg eraseScenery h

/-- The bird at the final test of the death-animation branch is the bird left
by the bird block. -/
theorem dyingStage_bird (deltaTime dt : ℚ) (w : World) :
    (dyingStage deltaTime dt w).gameState.bird =
      (dyingBirdStep dt { w with gameState.deathAnimationTimer :=
        w.gameState.deathAnimationTimer + deltaTime }).gameState.bird := by
  unfold dyingStage
  have h1 := congrArg (fun x : World => x.gameState.bird)
    (eraseScenery_updateGrassScroll dt (updateBackground dt (dyingBirdStep dt
      { w with gameState.deathAnimationTimer := w.gameState.deathAnimationTimer + deltaTime })))
  have h2 := congrArg (fun x : World => x.gameState.bird)
    (eraseScenery_updateBackground dt (dyingBirdStep dt
      { w with gameState.deathAnimationTimer := w.gameState.deathAnimationTimer + deltaTime }))
  exact h1.trans h2

/-- The bird block of the death animation, for a bird `b`: the bird is
updated and, if its bottom edge is then on or below the ground line, pinned
on the ground line with velocity 0. -/
theorem dyingBirdStep_bird (dt : ℚ) (w : World) (b : Bird) (hb : w.gameState.bird = some b) :
    (dyingBirdStep dt w).gameState.bird =
      some (if (b.update dt w.gameState.isDying w.gameState.birdState).1.y +
            (b.update dt w.gameState.isDying w.gameState.birdState).1.height ≥
            w.window.innerHeight - w.gameState.config.groundHeight then
          { (b.update dt w.gameState.isDying w.gameState.birdState).1 with
            y := w.window.innerHeight - w.gameState.config.groundHeight -
              (b.update dt w.gameState.isDying w.gameState.birdState).1.height,
            velocity := 0 }
        else (b.update dt w.gameState.isDying w.gameState.birdState).1) := by
  simp only [dyingBirdStep, hb]
  split_ifs <;> rfl

/-- The death-animation branch of `gameLoop`, entered in the Dying state. -/
theorem gameLoop_dying (t : Tick) (w : World) (hd : Dying w) :
    gameLoop t w =
      if hasHitGround (dyingStage (t.currentTime - w.lastTime)
            (frameDt t.currentTime w.lastTime) { w with lastTime := t.currentTime }) = true ∧
          (dyingStage (t.currentTime - w.lastTime)
            (frameDt t.currentTime w.lastTime)
            { w with lastTime := t.currentTime }).gameState.deathAnimationTimer ≥ 800 then
        some (GameLogic.finishGameOver (dyingStage (t.currentTime - w.lastTime)
          (frameDt t.currentTime w.lastTime) { w with lastTime := t.currentTime }))
      else
        some (renderAndContinue (dyingStage (t.currentTime - w.lastTime)
          (frameDt t.currentTime w.lastTime) { w with lastTime := t.currentTime })) := by
  obtain ⟨h1, h2⟩ := hd
  simp only [gameLoop, h1, h2, dyingUpdate, dyingStage, frameDt]
  split_ifs <;> simp_all

/-- What the death-animation branch leaves alone up to its final test, and
what it does to the death timer. -/
theorem dyingStage_fields (deltaTime dt : ℚ) (w : World) :
    Frozen w (dyingStage deltaTime dt w) ∧
    (dyingStage deltaTime dt w).gameState.deathAnimationTimer =
      w.gameState.deathAnimationTimer + deltaTime ∧
    (dyingStage deltaTime dt w).gameState.isDying = w.gameState.isDying ∧
    (dyingStage deltaTime dt w).gameState.gameOver = w.gameState.gameOver ∧
    (dyingStage deltaTime dt w).gameState.scores = w.gameState.scores ∧
    (dyingStage deltaTime dt w).gameState.config = w.gameState.config ∧
    (dyingStage deltaTime dt w).window = w.window ∧
    (dyingStage deltaTime dt w).effects = w.effects ∧
    (dyingStage deltaTime dt w).lastTime = w.lastTime := by
  have h := dyingStage_frame deltaTime dt w
  refine ⟨⟨?_, ?_, ?_, ?_, ?_, ?_, ?_⟩, ?_, ?_, ?_, ?_, ?_, ?_, ?_, ?_⟩
  · have e := congrArg (fun x : World => x.gameState.pipes) h
    exact e
  · have e := congrArg (fun x : World => x.gameState.coins) h
    exact e
  · have e := congrArg (fun x : World => x.gameState.scores.pipes) h
    exact e
  · have e := congrArg (fun x : World => x.gameState.scores.coins) h
    exact e
  · have e := congrArg (fun x : World => x.gameState.scores.overall) h
    exact e
  · have e := congrArg (fun x : World => x.gameState.timers.pipeSpawn) h
    exact e
  · have e := congrArg (fun x : World => x.gameState.timers.coinSpawn) h
    exact e
  · have e := congrArg (fun x : World => x.gameState.deathAnimationTimer) h
    exact e
  · have e := congrArg (fun x : World => x.gameState.isDying) h
    exact e
  · have e := congrArg (fun x : World => x.gameState.gameOver) h
    exact e
  · have e := congrArg (fun x : World => x.gameState.scores) h
    exact e
  · have e := congrArg (fun x : World => x.gameState.config) h
    exact e
  · have e := congrArg (fun x : World => x.window) h
    exact e
  · have e := congrArg (fun x : World => x.effects) h
    exact e
  · have e := congrArg (fun x : World => x.lastTime) h
    exact e

/-- C11: a tick of `gameLoop` in the Dying state (`isDying` true, `gameOver`
false) returns, and leaves unchanged the list of pipes (positions and scored
flags), the list of coins, `scores.pipes`, `scores.coins`, `scores.overall`
and the two spawn timers: nothing spawns and nothing advances while dying. -/
theorem dying_tick_frozen (t : Tick) (w : World)
    (hd : w.gameState.isDying = true) (hg : w.gameState.gameOver = false) :
    ∃ w1, gameLoop t w = some w1 ∧
      w1.gameState.pipes = w.gameState.pipes ∧
      w1.gameState.coins = w.gameState.coins ∧
      w1.gameState.scores.pipes = w.gameState.scores.pipes ∧
      w1.gameState.scores.coins = w.gameState.scores.coins ∧
      w1.gameState.scores.overall = w.gameState.scores.overall ∧
      w1.gameState.timers.pipeSpawn = w.gameState.timers.pipeSpawn ∧
      w1.gameState.timers.coinSpawn = w.gameState.timers.coinSpawn := by
  obtain ⟨⟨f1, f2, f3, f4, f5, f6, f7⟩, _, _, fg, _⟩ :=
    dyingStage_fields (t.currentTime - w.lastTime) (frameDt t.currentTime w.lastTime)
      { w with lastTime := t.currentTime }
  rw [gameLoop_dying t w ⟨hd, hg⟩]
  split_ifs
  · refine ⟨_, rfl, ?_⟩
    rw [finishGameOver_eq _ (fg.trans hg)]
    exact ⟨f1, f2, f3, f4, f5, f6, f7⟩
  · exact ⟨_, rfl, f1, f2, f3, f4, f5, f6, f7⟩

/-- C11 on a sample dying state: the tick returns with both pipes and all
three coins of the sample state where they were. -/
theorem dying_tick_frozen_witness :
    ∃ w1, gameLoop { currentTime := 1016.67, rPipe := 0.5, rCoin := 0.5, rSky := 0.5 }
        fallingWorld = some w1 ∧
      w1.gameState.pipes = sampleWorld.gameState.pipes ∧
      w1.gameState.coins = sampleWorld.gameState.coins := by
  obtain ⟨w1, e, h1, h2, _⟩ :=
    dying_tick_frozen { currentTime := 1016.67, rPipe := 0.5, rCoin := 0.5, rSky := 0.5 }
      fallingWorld rfl rfl
  exact ⟨w1, e, h1, h2⟩

/-- What `Bird.update` keeps, and the height it leaves the bird at. -/
theorem bird_update_fields (b : Bird) (dt : ℚ) (isDying : Bool) (bs : BirdState) :
    (b.update dt isDying bs).1.height = b.height ∧
    (b.update dt isDying bs).1.gravity = b.gravity ∧
    (b.update dt isDying bs).1.y =
      (if b.y + (b.velocity + b.gravity * dt) * dt < 0 then 0
       else b.y + (b.velocity + b.gravity * dt) * dt) ∧
    (b.update dt isDying bs).1.velocity =
      (if b.y + (b.velocity + b.gravity * dt) * dt < 0 then 0
       else b.velocity + b.gravity * dt) := by
  unfold Bird.update
  by_cases hy : b.y + (b.velocity + b.gravity * dt) * dt < 0
  · cases isDying
    · simp [hy]
    · simp only [if_true]
      split <;> simp [hy]
  · cases isDying
    · simp [hy]
    · simp only [if_true]
      split <;> simp [hy]

/-- A bird resting on the ground is pinned there again by the bird block of
the death animation. -/
theorem dyingBirdStep_resting (dt : ℚ) (w : World) (hr : RestingOnGround w) :
    RestingOnGround (dyingBirdStep dt w) := by
  obtain ⟨b, hb, hy, hv, hg⟩ := hr
  obtain ⟨uh, ug, uy, _⟩ := bird_update_fields b dt w.gameState.isDying w.gameState.birdState
  have hwin : (dyingBirdStep dt w).window = w.window := by
    have e := congrArg (fun x : World => x.window) (eraseBird_dyingBirdStep dt w)
    exact e
  have hcfg : (dyingBirdStep dt w).gameState.config = w.gameState.config := by
    have e := congrArg (fun x : World => x.gameState.config) (eraseBird_dyingBirdStep dt w)
    exact e
  have hcond : (b.update dt w.gameState.isDying w.gameState.birdState).1.y +
      (b.update dt w.gameState.isDying w.gameState.birdState).1.height ≥
      w.window.innerHeight - w.gameState.config.groundHeight := by
    rw [uh, uy, hv]
    split_ifs with hneg
    · have h1 : 0 ≤ b.gravity * dt * dt := by nlinarith [mul_self_nonneg dt]
      nlinarith
    · have h1 : 0 ≤ b.gravity * dt * dt := by nlinarith [mul_self_nonneg dt]
      nlinarith
  unfold RestingOnGround
  refine ⟨{ (b.update dt w.gameState.isDying w.gameState.birdState).1 with
      y := w.window.innerHeight - w.gameState.config.groundHeight -
        (b.update dt w.gameState.isDying w.gameState.birdState).1.height,
      velocity := 0 }, ?_, ?_, rfl, ?_⟩
  · rw [dyingBirdStep_bird dt w b hb, if_pos hcond]
  · rw [hwin, hcfg]; simp
  · simpa [ug] using hg

/-- The death-animation branch keeps a resting bird at rest up to its final
test, where the bird counts as having hit the ground. -/
theorem dyingStage_resting (deltaTime dt : ℚ) (w : World) (hr : RestingOnGround w) :
    RestingOnGround (dyingStage deltaTime dt w) ∧
    hasHitGround (dyingStage deltaTime dt w) = true := by
  have hr0 : RestingOnGround
      { w with gameState.deathAnimationTimer := w.gameState.deathAnimationTimer + deltaTime } := hr
  obtain ⟨b, hb, hy, hv, hg⟩ := dyingBirdStep_resting dt _ hr0
  obtain ⟨_, _, _, _, _, fc, fw, _⟩ := dyingStage_fields deltaTime dt w
  have hwin0 : (dyingBirdStep dt { w with gameState.deathAnimationTimer :=
      w.gameState.deathAnimationTimer + deltaTime }).window = w.window := by
    have e := congrArg (fun x : World => x.window) (eraseBird_dyingBirdStep dt
      { w with gameState.deathAnimationTimer := w.gameState.deathAnimationTimer + deltaTime })
    exact e
  have hcfg0 : (dyingBirdStep dt { w with gameState.deathAnimationTimer :=
      w.gameState.deathAnimationTimer + deltaTime }).gameState.config = w.gameState.config := by
    have e := congrArg (fun x : World => x.gameState.config) (eraseBird_dyingBirdStep dt
      { w with gameState.deathAnimationTimer := w.gameState.deathAnimationTimer + deltaTime })
    exact e
  have hbird := (dyingStage_bird deltaTime dt w).trans hb
  rw [hwin0, hcfg0] at hy
  refine ⟨⟨b, hbird, by rw [fw, fc]; exact hy, hv, hg⟩, ?_⟩
  simp only [hasHitGround, hbird, fw, fc, decide_eq_true_eq]
  linarith

/-- Showing the game-over screen once adds one to the count of screens shown. -/
theorem gameOverShown_finishGameOver (w : World) (h : w.gameState.gameOver = false) :
    gameOverShown (GameLogic.finishGameOver w) = gameOverShown w + 1 := by
  rw [finishGameOver_eq w h]
  unfold gameOverShown
  by_cases h2 : w.gameState.scores.overall > w.gameState.scores.allTime
  · simp [h2, List.countP_cons]
  · simp [h2, List.countP_cons]

/-- Once the game is neither running nor dying, a tick does nothing but clear
`animationFrameId`. -/
theorem gameLoop_stopped (t : Tick) (w : World)
    (h1 : w.gameState.running = false) (h2 : w.gameState.isDying = false) :
    gameLoop t w = some { w with animationFrameId := none } := by
  simp [gameLoop, h1, h2]

/-- Ticks after the game is over change neither the flags nor the number of
game-over screens shown. -/
theorem runTicks_stopped (ts : List Tick) :
    ∀ w : World, w.gameState.running = false → w.gameState.isDying = false →
      ∃ w1, runTicks ts w = some w1 ∧ w1.gameState = w.gameState ∧
        gameOverShown w1 = gameOverShown w := by
  induction ts with
  | nil => intro w _ _; exact ⟨w, rfl, rfl, rfl⟩
  | cons t ts ih =>
    intro w h1 h2
    obtain ⟨w1, e, hgs, hsh⟩ := ih { w with animationFrameId := none } h1 h2
    exact ⟨w1, by simp only [runTicks, gameLoop_stopped t w h1 h2]; exact e, hgs, hsh⟩

/-- Running two lists of ticks one after the other. -/
theorem runTicks_append (ts us : List Tick) :
    ∀ w : World, runTicks (ts ++ us) w = (runTicks ts w).bind (runTicks us) := by
  induction ts with
  | nil => intro w; rfl
  | cons t ts ih =>
    intro w
    simp only [List.cons_append, runTicks]
    cases gameLoop t w with
    | none => rfl
    | some w1 => exact ih w1

/-- One tick of the death animation: the timer advances by the raw elapsed
time; the tick makes the game over when the bird has hit the ground and the
timer has reached 800, and otherwise leaves the game Dying. -/
theorem dying_tick (t : Tick) (w : World) (hd : Dying w) :
    (hasHitGround (dyingStage (t.currentTime - w.lastTime)
          (frameDt t.currentTime w.lastTime) { w with lastTime := t.currentTime }) = true →
      w.gameState.deathAnimationTimer + (t.currentTime - w.lastTime) ≥ 800 →
      ∃ w1, gameLoop t w = some w1 ∧ w1.gameState.gameOver = true ∧
        w1.gameState.running = false ∧ w1.gameState.isDying = false ∧
        gameOverShown w1 = gameOverShown w + 1) ∧
    (hasHitGround (dyingStage (t.currentTime - w.lastTime)
          (frameDt t.currentTime w.lastTime) { w with lastTime := t.currentTime }) = false ∨
        w.gameState.deathAnimationTimer + (t.currentTime - w.lastTime) < 800 →
      ∃ w1, gameLoop t w = some w1 ∧ Dying w1 ∧
        w1.lastTime - w1.gameState.deathAnimationTimer =
          w.lastTime - w.gameState.deathAnimationTimer ∧
        w1.lastTime = t.currentTime ∧
        gameOverShown w1 = gameOverShown w) := by
  obtain ⟨_, ft, fd, fg, _, _, _, fe, fl⟩ := dyingStage_fields (t.currentTime - w.lastTime)
    (frameDt t.currentTime w.lastTime) { w with lastTime := t.currentTime }
  replace ft : (dyingStage (t.currentTime - w.lastTime) (frameDt t.currentTime w.lastTime)
      { w with lastTime := t.currentTime }).gameState.deathAnimationTimer =
      w.gameState.deathAnimationTimer + (t.currentTime - w.lastTime) := ft
  replace fl : (dyingStage (t.currentTime - w.lastTime) (frameDt t.currentTime w.lastTime)
      { w with lastTime := t.currentTime }).lastTime = t.currentTime := fl
  replace fe : (dyingStage (t.currentTime - w.lastTime) (frameDt t.currentTime w.lastTime)
      { w with lastTime := t.currentTime }).effects = w.effects := fe
  have fd1 : (dyingStage (t.currentTime - w.lastTime) (frameDt t.currentTime w.lastTime)
      { w with lastTime := t.currentTime }).gameState.isDying = true := fd.trans hd.1
  have fg1 : (dyingStage (t.currentTime - w.lastTime) (frameDt t.currentTime w.lastTime)
      { w with lastTime := t.currentTime }).gameState.gameOver = false := fg.trans hd.2
  rw [gameLoop_dying t w hd]
  refine ⟨?_, ?_⟩
  · intro hhit hge
    rw [if_pos ⟨hhit, by rw [ft]; exact hge⟩]
    refine ⟨_, rfl, ?_, ?_, ?_, ?_⟩
    · rw [finishGameOver_eq _ fg1]
    · rw [finishGameOver_eq _ fg1]
    · rw [finishGameOver_eq _ fg1]
    · rw [gameOverShown_finishGameOver _ fg1]
      unfold gameOverShown
      rw [fe]
  · intro hno
    rw [if_neg (by
      rw [ft]
      rintro ⟨h1, h2⟩
      rcases hno with h | h
      · rw [h] at h1
        cases h1
      · exact absurd h2 (not_le.mpr h))]
    refine ⟨_, rfl, ⟨fd1, fg1⟩, ?_, fl, ?_⟩
    · show (dyingStage _ _ _).lastTime - (dyingStage _ _ _).gameState.deathAnimationTimer = _
      rw [fl, ft]; ring
    · show gameOverShown (renderAndContinue _) = _
      unfold gameOverShown
      show List.countP _ (dyingStage _ _ _).effects = _
      rw [fe]

/-- While every tick comes less than 800 ms after the start of the death
(`lastTime - deathAnimationTimer`), the game stays in the Dying state,
whatever the bird does. -/
theorem runTicks_dying (ts : List Tick) :
    ∀ w : World, Dying w →
      (∀ s ∈ ts, s.currentTime - (w.lastTime - w.gameState.deathAnimationTimer) < 800) →
      ∃ w1, runTicks ts w = some w1 ∧ Dying w1 ∧
        w1.lastTime - w1.gameState.deathAnimationTimer =
          w.lastTime - w.gameState.deathAnimationTimer ∧
        gameOverShown w1 = gameOverShown w := by
  induction ts with
  | nil => intro w hd _; exact ⟨w, rfl, hd, rfl, rfl⟩
  | cons t ts ih =>
    intro w hd hts
    have ht := hts t (List.mem_cons_self _ _)
    obtain ⟨w1, e, hd1, hc1, _, hs1⟩ := (dying_tick t w hd).2 (Or.inr (by linarith))
    obtain ⟨w2, e2, hd2, hc2, hs2⟩ := ih w1 hd1 (by
      intro s hs
      rw [hc1]
      exact hts s (List.mem_cons_of_mem _ hs))
    exact ⟨w2, by simp only [runTicks, e]; exact e2, hd2, hc2.trans hc1, hs2.trans hs1⟩

/-- The contact tick on `landingWorld`, evaluated: the death starts with the
timer at 0, the bird's bottom edge about 0.74 pixels below the ground line 500
and its velocity set to `-3`. -/
theorem contact_tick :
    (gameLoop { currentTime := 1016, rPipe := 0.5, rCoin := 0.5, rSky := 0.5 }
      landingWorld).map (fun w => (w.gameState.isDying, w.gameState.gameOver,
        w.gameState.running, w.gameState.deathAnimationTimer, w.lastTime,
        w.gameState.bird.map (fun b => (b.y, b.height, b.velocity)),
        w.window.innerHeight, w.gameState.config.groundHeight, gameOverShown w)) =
    some (true, false, true, 0, 1016, some (1196988145 / 2778889, 70, -3), 600, 100, 0) := by
  simp only [gameLoop, landingWorld, sampleWorld, initialGameState, normalUpdate, updateBird,
    groundCheck, GameLogic.updatePipes, GameLogic.updateCoins, List.length_cons, List.length_nil]
  norm_num [GameLogic.updatePipesLoop, GameLogic.updateCoinsLoop, Pipe.update, Pipe.isOffScreen,
    GameLogic.checkPipeCollision, GameLogic.passedTest, GameLogic.updateScore, Bird.getBounds,
    Bird.update, Utils.clamp, Math_PI, updateBackground, Background.update, pipeSpawnStep,
    coinSpawnStep, updateGrassScroll, renderAndContinue, requestAnimationFrame, emit,
    Coin.update, Coin.isOffScreen, Coin.checkCollision, sqrtLt, GameLogic.collect,
    GameLogic.startDeathAnimation, gameOverShown]

/-- The state `contactWorld` is what the contact tick returns. -/
theorem contact_tick_returns :
    gameLoop { currentTime := 1016, rPipe := 0.5, rCoin := 0.5, rSky := 0.5 }
      landingWorld = some contactWorld := by
  obtain ⟨w1, e⟩ := (gameLoop_spec
    { currentTime := 1016, rPipe := 0.5, rCoin := 0.5, rSky := 0.5 } landingWorld).2 _ rfl
  unfold contactWorld
  rw [e]
  rfl

/-- The state at ground contact, read off: Dying, timer 0, time 1016, the
bird's bottom edge about 0.74 pixels below the ground line 500 and its
velocity `-3`. -/
theorem contactWorld_fields :
    Dying contactWorld ∧ contactWorld.gameState.running = true ∧
    contactWorld.gameState.deathAnimationTimer = 0 ∧ contactWorld.lastTime = 1016 ∧
    contactWorld.gameState.bird.map (fun b => (b.y, b.height, b.velocity)) =
      some (1196988145 / 2778889, 70, -3) ∧
    contactWorld.window.innerHeight = 600 ∧
    contactWorld.gameState.config.groundHeight = 100 ∧
    gameOverShown contactWorld = 0 := by
  have h := contact_tick
  rw [contact_tick_returns] at h
  simp only [Option.map_some', Option.some.injEq, Prod.mk.injEq] at h
  obtain ⟨h1, h2, h3, h4, h5, h6, h7, h8, h9⟩ := h
  exact ⟨⟨h1, h2⟩, h3, h4, h5, h6, h7, h8, h9⟩

/-- The contact tick on `landingWorld` followed by one frame 800 ms later,
evaluated: the bird, thrown up at velocity `-3` by the start of the death
animation, has its bottom edge at about 496.5, more than 3 pixels above the
ground line 500, after that frame, and the game is still Dying with the timer
at 800. -/
theorem contact_then_long_frame :
    (runTicks
        [{ currentTime := 1016, rPipe := 0.5, rCoin := 0.5, rSky := 0.5 },
         { currentTime := 1816, rPipe := 0.5, rCoin := 0.5, rSky := 0.5 }]
      landingWorld).map (fun w => (w.gameState.isDying, w.gameState.gameOver,
        w.gameState.deathAnimationTimer,
        w.gameState.bird.map (fun b => (b.y + b.height, b.velocity)), gameOverShown w)) =
    some (true, false, 800, some (1379603175 / 2778889, -3721 / 1667), 0) := by
  simp only [runTicks, gameLoop, landingWorld, sampleWorld, initialGameState,
    normalUpdate, updateBird, groundCheck, GameLogic.updatePipes, GameLogic.updateCoins,
    List.length_cons, List.length_nil]
  norm_num [GameLogic.updatePipesLoop, GameLogic.updateCoinsLoop, Pipe.update, Pipe.isOffScreen,
    GameLogic.checkPipeCollision, GameLogic.passedTest, GameLogic.updateScore, Bird.getBounds,
    Bird.update, Utils.clamp, Math_PI, updateBackground, Background.update, pipeSpawnStep,
    coinSpawnStep, updateGrassScroll, renderAndContinue, requestAnimationFrame, emit,
    Coin.update, Coin.isOffScreen, Coin.checkCollision, sqrtLt, GameLogic.collect,
    GameLogic.startDeathAnimation, dyingUpdate, dyingBirdStep, hasHitGround,
    GameLogic.finishGameOver, gameOverShown]

/-- The contact tick on `landingWorld` followed by the frames `hopTicks`,
evaluated: the bird has come to rest on the ground line 500. -/
theorem contact_then_hop :
    (runTicks ({ currentTime := 1016, rPipe := 0.5, rCoin := 0.5, rSky := 0.5 } :: hopTicks)
      landingWorld).map (fun w => (w.gameState.bird.map (fun b => (b.y, b.height, b.velocity,
        b.gravity)), w.window.innerHeight, w.gameState.config.groundHeight)) =
    some (some (430, 70, 0, 0.4), 600, 100) := by
  simp only [runTicks, hopTicks, gameLoop, landingWorld, sampleWorld, initialGameState,
    normalUpdate, updateBird, groundCheck, GameLogic.updatePipes, GameLogic.updateCoins,
    List.length_cons, List.length_nil]
  norm_num [GameLogic.updatePipesLoop, GameLogic.updateCoinsLoop, Pipe.update, Pipe.isOffScreen,
    GameLogic.checkPipeCollision, GameLogic.passedTest, GameLogic.updateScore, Bird.getBounds,
    Bird.update, Utils.clamp, Math_PI, updateBackground, Background.update, pipeSpawnStep,
    coinSpawnStep, updateGrassScroll, renderAndContinue, requestAnimationFrame, emit,
    Coin.update, Coin.isOffScreen, Coin.checkCollision, sqrtLt, GameLogic.collect,
    GameLogic.startDeathAnimation, dyingUpdate, dyingBirdStep, hasHitGround,
    GameLogic.finishGameOver]

/-- A run that starts with the contact tick on `landingWorld` goes on from
`contactWorld`. -/
theorem runTicks_contact (ts : List Tick) :
    runTicks ({ currentTime := 1016, rPipe := 0.5, rCoin := 0.5, rSky := 0.5 } :: ts)
      landingWorld = runTicks ts contactWorld := by
  simp only [runTicks, contact_tick_returns]

/-- C12 as stated fails: `landingWorld` is a running state whose next tick
(at time 1016) brings the bird's bottom edge onto the ground, less than a
pixel below the ground line 500, so the death starts at ground contact with
the timer at 0; the code throws the bird up at velocity `-3`.  At the first
tick after the contact, exactly 800 ms later, the accumulated time is 800 but
the bird's bottom edge is at about 496.5, above the ground line by more than
a pixel, and the game stays Dying: no transition, no game-over screen. -/
theorem death_delay_hop :
    landingWorld.gameState.running = true ∧ landingWorld.gameState.isDying = false ∧
    gameLoop { currentTime := 1016, rPipe := 0.5, rCoin := 0.5, rSky := 0.5 }
      landingWorld = some contactWorld ∧
    contactWorld.gameState.isDying = true ∧ contactWorld.gameState.gameOver = false ∧
    contactWorld.gameState.deathAnimationTimer = 0 ∧
    (∃ b, contactWorld.gameState.bird = some b ∧ b.velocity = -3 ∧
      contactWorld.window.innerHeight - contactWorld.gameState.config.groundHeight ≤
        b.y + b.height ∧
      b.y + b.height <
        contactWorld.window.innerHeight - contactWorld.gameState.config.groundHeight + 1) ∧
    (1816 : ℚ) - contactWorld.lastTime = 800 ∧
    ∃ w2, gameLoop { currentTime := 1816, rPipe := 0.5, rCoin := 0.5, rSky := 0.5 }
        contactWorld = some w2 ∧
      w2.gameState.deathAnimationTimer = 800 ∧
      w2.gameState.isDying = true ∧ w2.gameState.gameOver = false ∧
      w2.gameState.bird.map (fun b => b.y + b.height) = some (1379603175 / 2778889) ∧
      gameOverShown w2 = 0 := by
  obtain ⟨hd, _, h0, hl, hb, hwin, hcfg, _⟩ := contactWorld_fields
  have h := contact_then_long_frame
  rw [runTicks_contact] at h
  obtain ⟨w2, e2⟩ : ∃ w2, gameLoop
      { currentTime := 1816, rPipe := 0.5, rCoin := 0.5, rSky := 0.5 } contactWorld =
      some w2 := by
    rw [gameLoop_dying _ contactWorld hd]
    split_ifs
    · exact ⟨_, rfl⟩
    · exact ⟨_, rfl⟩
  simp only [runTicks, e2, Option.map_some', Option.some.injEq, Prod.mk.injEq] at h
  obtain ⟨h1, h2, h3, h4, h5⟩ := h
  refine ⟨rfl, rfl, contact_tick_returns, hd.1, hd.2, h0, ?_, ?_, w2, e2, h3, h1, h2, ?_, h5⟩
  · rw [hwin, hcfg]
    cases hbird : contactWorld.gameState.bird with
    | none => rw [hbird] at hb; cases hb
    | some b =>
      rw [hbird] at hb
      simp only [Option.map_some', Option.some.injEq, Prod.mk.injEq] at hb
      refine ⟨b, rfl, hb.2.2, ?_, ?_⟩
      · rw [hb.1, hb.2.1]
        norm_num
      · rw [hb.1, hb.2.1]
        norm_num
  · rw [hl]; norm_num
  · cases hbird : w2.gameState.bird with
    | none => rw [hbird] at h4; cases h4
    | some b =>
      rw [hbird] at h4
      simp only [Option.map_some', Option.some.injEq, Prod.mk.injEq] at h4 ⊢
      exact h4.1

/-- C12, as the code has it: in the Dying state, with the time of the death's start
read as `lastTime - deathAnimationTimer` (the timer is 0 at ground contact),
`gameLoop` keeps the game Dying at every tick that comes less than 800 ms
after that time, whatever the bird does.  The first tick `t` that comes
800 ms or more after it makes the transition to GameOver (`gameOver` true,
`running` and `isDying` false, the game-over screen shown) if its flag
`hasHitGround` is true, which it is whenever the bird rests on the ground
before the tick; the game then stays over whatever ticks follow, the screen
having been shown exactly once.  If the flag is false, the bird being more
than a pixel above the ground line after the tick's bird update, the game
stays Dying at `t`.  At every tick in the Dying state the transition is made
exactly when the flag is true and the timer has reached 800. -/
theorem death_transition (w : World) (hd : Dying w) (ts : List Tick) (t : Tick) (us : List Tick)
    (hts : ∀ s ∈ ts, s.currentTime - (w.lastTime - w.gameState.deathAnimationTimer) < 800)
    (ht : t.currentTime - (w.lastTime - w.gameState.deathAnimationTimer) ≥ 800) :
    (∃ w1, runTicks ts w = some w1 ∧ w1.gameState.isDying = true ∧
      w1.gameState.gameOver = false ∧ gameOverShown w1 = gameOverShown w ∧
      (RestingOnGround w1 → hitsGroundAt t w1 = true) ∧
      (hitsGroundAt t w1 = true →
        (∃ w2, runTicks (ts ++ [t]) w = some w2 ∧ w2.gameState.gameOver = true ∧
          w2.gameState.running = false ∧ w2.gameState.isDying = false ∧
          gameOverShown w2 = gameOverShown w + 1) ∧
        (∃ w3, runTicks (ts ++ t :: us) w = some w3 ∧ w3.gameState.gameOver = true ∧
          w3.gameState.running = false ∧ w3.gameState.isDying = false ∧
          gameOverShown w3 = gameOverShown w + 1)) ∧
      (hitsGroundAt t w1 = false →
        ∃ w2, runTicks (ts ++ [t]) w = some w2 ∧ w2.gameState.isDying = true ∧
          w2.gameState.gameOver = false ∧ gameOverShown w2 = gameOverShown w)) ∧
    (∀ (v : World) (s : Tick), Dying v →
      ∃ v1, gameLoop s v = some v1 ∧
        (v1.gameState.gameOver = true ↔
          (hitsGroundAt s v = true ∧
            v.gameState.deathAnimationTimer + (s.currentTime - v.lastTime) ≥ 800)) ∧
        (v1.gameState.gameOver = true →
          v1.gameState.running = false ∧ v1.gameState.isDying = false ∧
          gameOverShown v1 = gameOverShown v + 1) ∧
        (v1.gameState.gameOver = false →
          v1.gameState.isDying = true ∧ gameOverShown v1 = gameOverShown v)) := by
  refine ⟨?_, ?_⟩
  · obtain ⟨w1, e1, hd1, hc1, hs1⟩ := runTicks_dying ts w hd hts
    refine ⟨w1, e1, hd1.1, hd1.2, hs1, ?_, ?_, ?_⟩
    · intro hr
      have hr0 : RestingOnGround { w1 with lastTime := t.currentTime } := hr
      exact (dyingStage_resting (t.currentTime - w1.lastTime)
        (frameDt t.currentTime w1.lastTime) { w1 with lastTime := t.currentTime } hr0).2
    · intro hhit
      have hge : w1.gameState.deathAnimationTimer + (t.currentTime - w1.lastTime) ≥ 800 := by
        have : w1.gameState.deathAnimationTimer + (t.currentTime - w1.lastTime) =
            t.currentTime - (w1.lastTime - w1.gameState.deathAnimationTimer) := by ring
        rw [this, hc1]
        exact ht
      obtain ⟨w2, e2, g1, g2, g3, g4⟩ := (dying_tick t w1 hd1).1 hhit hge
      obtain ⟨w3, e3, hgs, hsh⟩ := runTicks_stopped us w2 g2 g3
      refine ⟨⟨w2, ?_, g1, g2, g3, by rw [g4, hs1]⟩,
        ⟨w3, ?_, by rw [hgs]; exact g1, by rw [hgs]; exact g2, by rw [hgs]; exact g3,
          by rw [hsh, g4, hs1]⟩⟩
      · rw [runTicks_append, e1]
        simp only [Option.some_bind, runTicks, e2]
      · rw [runTicks_append, e1]
        simp only [Option.some_bind, runTicks, e2]
        exact e3
    · intro hno
      obtain ⟨w2, e2, hd2, _, _, hs2⟩ := (dying_tick t w1 hd1).2 (Or.inl hno)
      refine ⟨w2, ?_, hd2.1, hd2.2, by rw [hs2, hs1]⟩
      rw [runTicks_append, e1]
      simp only [Option.some_bind, runTicks, e2]
  · intro v s hv
    by_cases hc : hitsGroundAt s v = true ∧
        v.gameState.deathAnimationTimer + (s.currentTime - v.lastTime) ≥ 800
    · obtain ⟨v1, e, g1, g2, g3, g4⟩ := (dying_tick s v hv).1 hc.1 hc.2
      refine ⟨v1, e, ⟨fun _ => hc, fun _ => g1⟩, fun _ => ⟨g2, g3, g4⟩, ?_⟩
      intro hf
      rw [g1] at hf
      cases hf
    · have hno : hitsGroundAt s v = false ∨
          v.gameState.deathAnimationTimer + (s.currentTime - v.lastTime) < 800 := by
        by_cases h1 : hitsGroundAt s v = true
        · right
          exact not_le.mp (fun h2 => hc ⟨h1, h2⟩)
        · left
          simpa using h1
      obtain ⟨v1, e, hd1, _, _, hs1⟩ := (dying_tick s v hv).2 hno
      refine ⟨v1, e, ⟨?_, fun h => absurd h hc⟩, ?_, fun _ => ⟨hd1.1, hs1⟩⟩
      · intro h
        rw [hd1.2] at h
        cases h
      · intro h
        rw [hd1.2] at h
        cases h

/-- The amended C12 after the contact of `landingWorld`: over the frames
`hopTicks` (seven ticks 32 ms apart and a tick 799 ms after the contact) the
game stays Dying while the bird hops and comes to rest; the tick 800 ms after
the contact makes the game over; and after one more tick the game-over screen
has still been shown once. -/
theorem death_transition_witness :
    gameLoop { currentTime := 1016, rPipe := 0.5, rCoin := 0.5, rSky := 0.5 }
      landingWorld = some contactWorld ∧
    contactWorld.gameState.deathAnimationTimer = 0 ∧
    (∃ w1, runTicks hopTicks contactWorld = some w1 ∧ w1.gameState.isDying = true ∧
      w1.gameState.gameOver = false ∧ gameOverShown w1 = 0 ∧ RestingOnGround w1) ∧
    (∃ w2, runTicks
        (hopTicks ++ [{ currentTime := 1816, rPipe := 0.5, rCoin := 0.5, rSky := 0.5 }])
        contactWorld = some w2 ∧ w2.gameState.gameOver = true ∧
      w2.gameState.running = false ∧ w2.gameState.isDying = false ∧
      gameOverShown w2 = 1) ∧
    (∃ w3, runTicks
        (hopTicks ++ { currentTime := 1816, rPipe := 0.5, rCoin := 0.5, rSky := 0.5 } ::
          [{ currentTime := 1832, rPipe := 0.5, rCoin := 0.5, rSky := 0.5 }])
        contactWorld = some w3 ∧ w3.gameState.gameOver = true ∧
      w3.gameState.running = false ∧ w3.gameState.isDying = false ∧
      gameOverShown w3 = 1) := by
  obtain ⟨hd, _, h0, hl, _, _, _, hshown⟩ := contactWorld_fields
  obtain ⟨⟨w1, e1, d1, d2, hs1, hrest, hyes, _⟩, _⟩ := death_transition contactWorld hd hopTicks
    { currentTime := 1816, rPipe := 0.5, rCoin := 0.5, rSky := 0.5 }
    [{ currentTime := 1832, rPipe := 0.5, rCoin := 0.5, rSky := 0.5 }]
    (by
      intro s hs
      rw [h0, hl]
      simp only [hopTicks, List.mem_cons, List.mem_singleton, List.not_mem_nil, or_false] at hs
      rcases hs with rfl | rfl | rfl | rfl | rfl | rfl | rfl | rfl <;> norm_num)
    (by rw [h0, hl]; norm_num)
  have hev := contact_then_hop
  rw [runTicks_contact, e1] at hev
  simp only [Option.map_some', Option.some.injEq, Prod.mk.injEq] at hev
  obtain ⟨hb, hwin, hcfg⟩ := hev
  have hr : RestingOnGround w1 := by
    cases hbird : w1.gameState.bird with
    | none => rw [hbird] at hb; cases hb
    | some b =>
      rw [hbird] at hb
      simp only [Option.map_some', Option.some.injEq, Prod.mk.injEq] at hb
      refine ⟨b, hbird, ?_, hb.2.2.1, ?_⟩
      · rw [hb.1, hb.2.1, hwin, hcfg]; norm_num
      · rw [hb.2.2.2]; norm_num
  obtain ⟨⟨w2, e2, a1, a2, a3, a4⟩, ⟨w3, e3, b1, b2, b3, b4⟩⟩ := hyes (hrest hr)
  rw [hshown] at hs1 a4 b4
  exact ⟨contact_tick_returns, h0, ⟨w1, e1, d1, d2, hs1, hr⟩, ⟨w2, e2, a1, a2, a3, a4⟩,
    ⟨w3, e3, b1, b2, b3, b4⟩⟩

/-- A tick in the Dying state that ends with the game over has taken the
`finishGameOver` exit of the death-animation branch: the bird had hit the
ground (within the tolerance) and the timer had reached 800. -/
theorem transition_tick (t : Tick) (w w1 : World) (hd : Dying w)
    (e : gameLoop t w = some w1) (ho : w1.gameState.gameOver = true) :
    hasHitGround (dyingStage (t.currentTime - w.lastTime)
      (frameDt t.currentTime w.lastTime) { w with lastTime := t.currentTime }) = true ∧
    w.gameState.deathAnimationTimer + (t.currentTime - w.lastTime) ≥ 800 ∧
    w1 = GameLogic.finishGameOver (dyingStage (t.currentTime - w.lastTime)
      (frameDt t.currentTime w.lastTime) { w with lastTime := t.currentTime }) := by
  obtain ⟨_, ft, _, fg, _⟩ := dyingStage_fields (t.currentTime - w.lastTime)
    (frameDt t.currentTime w.lastTime) { w with lastTime := t.currentTime }
  replace ft : (dyingStage (t.currentTime - w.lastTime) (frameDt t.currentTime w.lastTime)
      { w with lastTime := t.currentTime }).gameState.deathAnimationTimer =
      w.gameState.deathAnimationTimer + (t.currentTime - w.lastTime) := ft
  have fg1 : (dyingStage (t.currentTime - w.lastTime) (frameDt t.currentTime w.lastTime)
      { w with lastTime := t.currentTime }).gameState.gameOver = false := fg.trans hd.2
  rw [gameLoop_dying t w hd] at e
  split_ifs at e with hc
  · cases e
    exact ⟨hc.1, by rw [← ft]; exact hc.2, rfl⟩
  · cases e
    have : (renderAndContinue (dyingStage (t.currentTime - w.lastTime)
      (frameDt t.currentTime w.lastTime)
      { w with lastTime := t.currentTime })).gameState.gameOver = false := fg1
    rw [this] at ho
    cases ho

/-- C13, as the code has it: when a tick of `gameLoop` takes the game from
Dying to over, there is a bird and either its bottom edge is exactly on the
ground line `innerHeight - groundHeight`, where it is pinned with velocity 0,
or its bottom edge is above the ground line by no more than 1 pixel (the
tolerance of the test `hasHitGround`) and the bird is not pinned. -/
theorem transition_bird_near_ground (t : Tick) (w w1 : World)
    (hd : w.gameState.isDying = true) (hg : w.gameState.gameOver = false)
    (e : gameLoop t w = some w1) (ho : w1.gameState.gameOver = true) :
    ∃ b, w1.gameState.bird = some b ∧
      ((b.y + b.height = w.window.innerHeight - w.gameState.config.groundHeight ∧
          b.velocity = 0) ∨
       (w.window.innerHeight - w.gameState.config.groundHeight - 1 ≤ b.y + b.height ∧
          b.y + b.height < w.window.innerHeight - w.gameState.config.groundHeight)) := by
  obtain ⟨hhit, _, rfl⟩ := transition_tick t w w1 ⟨hd, hg⟩ e ho
  obtain ⟨_, _, _, fg, _, fc, fw, _⟩ := dyingStage_fields (t.currentTime - w.lastTime)
    (frameDt t.currentTime w.lastTime) { w with lastTime := t.currentTime }
  replace fc : (dyingStage (t.currentTime - w.lastTime) (frameDt t.currentTime w.lastTime)
      { w with lastTime := t.currentTime }).gameState.config = w.gameState.config := fc
  replace fw : (dyingStage (t.currentTime - w.lastTime) (frameDt t.currentTime w.lastTime)
      { w with lastTime := t.currentTime }).window = w.window := fw
  have hbird := dyingStage_bird (t.currentTime - w.lastTime)
    (frameDt t.currentTime w.lastTime) { w with lastTime := t.currentTime }
  rw [finishGameOver_eq _ (fg.trans hg)]
  show ∃ b, (dyingStage _ _ _).gameState.bird = some b ∧ _
  cases hb0 : w.gameState.bird with
  | none =>
    have hnone : (dyingStage (t.currentTime - w.lastTime) (frameDt t.currentTime w.lastTime)
        { w with lastTime := t.currentTime }).gameState.bird = none := by
      rw [hbird]
      simp [dyingBirdStep, hb0]
    simp [hasHitGround, hnone] at hhit
  | some b0 =>
    have hstep : (dyingBirdStep (frameDt t.currentTime w.lastTime)
        { { w with lastTime := t.currentTime } with
          gameState.deathAnimationTimer :=
            w.gameState.deathAnimationTimer + (t.currentTime - w.lastTime) }).gameState.bird =
        some (if (b0.update (frameDt t.currentTime w.lastTime) w.gameState.isDying
              w.gameState.birdState).1.y +
            (b0.update (frameDt t.currentTime w.lastTime) w.gameState.isDying
              w.gameState.birdState).1.height ≥
            w.window.innerHeight - w.gameState.config.groundHeight then
          { (b0.update (frameDt t.currentTime w.lastTime) w.gameState.isDying
              w.gameState.birdState).1 with
            y := w.window.innerHeight - w.gameState.config.groundHeight -
              (b0.update (frameDt t.currentTime w.lastTime) w.gameState.isDying
                w.gameState.birdState).1.height,
            velocity := 0 }
        else (b0.update (frameDt t.currentTime w.lastTime) w.gameState.isDying
              w.gameState.birdState).1) :=
      dyingBirdStep_bird _ _ b0 hb0
    have hbird2 := hbird.trans hstep
    simp only [hasHitGround, hbird2, fw, fc, decide_eq_true_eq] at hhit
    refine ⟨_, hbird2, ?_⟩
    split_ifs at hhit ⊢ with hpin
    · left
      exact ⟨by simp, rfl⟩
    · right
      exact ⟨by linarith, not_le.mp hpin⟩

/-- One tick on the sample state `grazingWorld`, evaluated: the bird ends
0.6 pixel above the ground line 500, still falling at velocity 4.4, and the
game is over. -/
theorem grazing_tick :
    (gameLoop { currentTime := 1016.67, rPipe := 0.5, rCoin := 0.5, rSky := 0.5 }
      grazingWorld).map (fun w => (w.gameState.gameOver,
        w.gameState.bird.map (fun b => (b.y + b.height, b.velocity)),
        w.window.innerHeight - w.gameState.config.groundHeight)) =
    some (true, some (499.4, 4.4), 500) := by
  simp only [gameLoop, grazingWorld, sampleWorld, initialGameState, dyingUpdate, dyingBirdStep,
    hasHitGround]
  norm_num [Bird.update, Math_PI, updateBackground, Background.update, updateGrassScroll,
    GameLogic.finishGameOver, emit, cancelAnimationFrame]

/-- One tick on the sample state `fallingWorld`, evaluated: the bird, 10
pixels above the ground line before the tick, is pinned on it, and the game
is over. -/
theorem falling_tick :
    (gameLoop { currentTime := 1016.67, rPipe := 0.5, rCoin := 0.5, rSky := 0.5 }
      fallingWorld).map (fun w => (w.gameState.gameOver,
        w.gameState.bird.map (fun b => (b.y + b.height, b.velocity)),
        w.gameState.deathAnimationTimer)) =
    some (true, some (500, 0), 1016.67) := by
  simp only [gameLoop, fallingWorld, sampleWorld, initialGameState, dyingUpdate, dyingBirdStep,
    hasHitGround]
  norm_num [Bird.update, Math_PI, updateBackground, Background.update, updateGrassScroll,
    GameLogic.finishGameOver, emit, cancelAnimationFrame]

/-- C13 as stated fails: on the sample state `grazingWorld` (Dying, not
over) a tick makes the game over while the bird's bottom edge is at 499.4,
not on the ground line 500, and its velocity is 4.4, not 0. -/
theorem transition_off_ground :
    grazingWorld.gameState.isDying = true ∧ grazingWorld.gameState.gameOver = false ∧
    ∃ w1 b, gameLoop { currentTime := 1016.67, rPipe := 0.5, rCoin := 0.5, rSky := 0.5 }
        grazingWorld = some w1 ∧
      w1.gameState.gameOver = true ∧ w1.gameState.bird = some b ∧
      b.y + b.height ≠ w1.window.innerHeight - w1.gameState.config.groundHeight ∧
      b.velocity ≠ 0 := by
  refine ⟨rfl, rfl, ?_⟩
  have h := grazing_tick
  cases hw : gameLoop { currentTime := 1016.67, rPipe := 0.5, rCoin := 0.5, rSky := 0.5 }
      grazingWorld with
  | none => rw [hw] at h; cases h
  | some w1 =>
    rw [hw] at h
    simp only [Option.map_some', Option.some.injEq, Prod.mk.injEq] at h
    obtain ⟨h1, h2, h3⟩ := h
    cases hb : w1.gameState.bird with
    | none => rw [hb] at h2; cases h2
    | some b =>
      rw [hb] at h2
      simp only [Option.map_some', Option.some.injEq, Prod.mk.injEq] at h2
      refine ⟨w1, b, rfl, h1, hb, ?_, ?_⟩
      · rw [h2.1, h3]; norm_num
      · rw [h2.2]; norm_num

/-- C13, as the code has it, on the sample state `fallingWorld`: the tick
makes the game over and the bird is within a pixel of the ground line 500
(here exactly on it). -/
theorem transition_bird_near_ground_witness :
    ∃ w1 b, gameLoop { currentTime := 1016.67, rPipe := 0.5, rCoin := 0.5, rSky := 0.5 }
        fallingWorld = some w1 ∧ w1.gameState.bird = some b ∧
      ((b.y + b.height =
            fallingWorld.window.innerHeight - fallingWorld.gameState.config.groundHeight ∧
          b.velocity = 0) ∨
       (fallingWorld.window.innerHeight - fallingWorld.gameState.config.groundHeight - 1 ≤
            b.y + b.height ∧
          b.y + b.height <
            fallingWorld.window.innerHeight - fallingWorld.gameState.config.groundHeight)) := by
  have h := falling_tick
  cases hw : gameLoop { currentTime := 1016.67, rPipe := 0.5, rCoin := 0.5, rSky := 0.5 }
      fallingWorld with
  | none => rw [hw] at h; cases h
  | some w1 =>
    rw [hw] at h
    simp only [Option.map_some', Option.some.injEq, Prod.mk.injEq] at h
    obtain ⟨b, hb, hpos⟩ := transition_bird_near_ground _ fallingWorld w1 rfl rfl hw h.1
    exact ⟨w1, b, rfl, hb, hpos⟩

/-- When it starts a death, `startDeathAnimation` puts the game in the Dying
state with the death timer at 0. -/
theorem startDeathAnimation_timer (w : World)
    (h1 : w.gameState.isDying = false) (h2 : w.gameState.gameOver = false) :
    (GameLogic.startDeathAnimation w).gameState.isDying = true ∧
    (GameLogic.startDeathAnimation w).gameState.gameOver = false ∧
    (GameLogic.startDeathAnimation w).gameState.deathAnimationTimer = 0 := by
  simp only [GameLogic.startDeathAnimation, h1, h2, emit]
  cases w.gameState.bird <;> simp [h2]

/-- C14, as the code has it: the death timer is set to 0 when the death
starts (`startDeathAnimation`, at the obstacle or ground collision), every
tick in the Dying state adds the raw elapsed time `currentTime - lastTime` to
it, and a tick that takes the game from Dying to over finds it at 800 or
more: at least 800 ms have passed since the death started.  For a death by
ground collision that is the tick of the ground contact. -/
theorem transition_delay (t : Tick) (w w1 : World)
    (hd : w.gameState.isDying = true) (hg : w.gameState.gameOver = false)
    (e : gameLoop t w = some w1) :
    w1.gameState.deathAnimationTimer =
      w.gameState.deathAnimationTimer + (t.currentTime - w.lastTime) ∧
    (w1.gameState.gameOver = true →
      w.gameState.deathAnimationTimer + (t.currentTime - w.lastTime) ≥ 800) ∧
    (∀ w0 : World, w0.gameState.isDying = false → w0.gameState.gameOver = false →
      (GameLogic.startDeathAnimation w0).gameState.isDying = true ∧
      (GameLogic.startDeathAnimation w0).gameState.gameOver = false ∧
      (GameLogic.startDeathAnimation w0).gameState.deathAnimationTimer = 0) := by
  refine ⟨?_, fun ho => (transition_tick t w w1 ⟨hd, hg⟩ e ho).2.1,
    startDeathAnimation_timer⟩
  obtain ⟨_, ft, _, fg, _⟩ := dyingStage_fields (t.currentTime - w.lastTime)
    (frameDt t.currentTime w.lastTime) { w with lastTime := t.currentTime }
  replace ft : (dyingStage (t.currentTime - w.lastTime) (frameDt t.currentTime w.lastTime)
      { w with lastTime := t.currentTime }).gameState.deathAnimationTimer =
      w.gameState.deathAnimationTimer + (t.currentTime - w.lastTime) := ft
  rw [gameLoop_dying t w ⟨hd, hg⟩] at e
  split_ifs at e
  · cases e
    rw [finishGameOver_eq _ (fg.trans hg)]
    exact ft
  · cases e
    exact ft

/-- C14 as stated fails: in the sample state `fallingWorld` the bird, hit in
mid-air 1000 ms ago, has not touched the ground (its bottom edge is at 490,
the ground line at 500, the tolerance 1); the tick that brings it to the
ground makes the game over at once, 0 ms after the first ground contact. -/
theorem transition_on_first_contact :
    fallingWorld.gameState.isDying = true ∧ fallingWorld.gameState.gameOver = false ∧
    hasHitGround fallingWorld = false ∧
    ∃ w1, gameLoop { currentTime := 1016.67, rPipe := 0.5, rCoin := 0.5, rSky := 0.5 }
        fallingWorld = some w1 ∧
      hasHitGround w1 = true ∧ w1.gameState.gameOver = true := by
  refine ⟨rfl, rfl, ?_, ?_⟩
  · norm_num [hasHitGround, fallingWorld, sampleWorld, initialGameState]
  · have h := falling_tick
    cases hw : gameLoop { currentTime := 1016.67, rPipe := 0.5, rCoin := 0.5, rSky := 0.5 }
        fallingWorld with
    | none => rw [hw] at h; cases h
    | some w1 =>
      rw [hw] at h
      simp only [Option.map_some', Option.some.injEq, Prod.mk.injEq] at h
      refine ⟨w1, rfl, ?_, h.1⟩
      obtain ⟨hhit, _, rfl⟩ := transition_tick _ fallingWorld w1 ⟨rfl, rfl⟩ hw h.1
      rw [finishGameOver_eq _ (by
        have := (dyingStage_fields ((1016.67 : ℚ) - fallingWorld.lastTime)
          (frameDt 1016.67 fallingWorld.lastTime)
          { fallingWorld with lastTime := 1016.67 }).2.2.2.1
        exact this)]
      exact hhit

/-- C14, as the code has it, on the sample state `fallingWorld`: the tick
that makes the game over finds the death timer at 1016.67, above 800. -/
theorem transition_delay_witness :
    ∃ w1, gameLoop { currentTime := 1016.67, rPipe := 0.5, rCoin := 0.5, rSky := 0.5 }
        fallingWorld = some w1 ∧ w1.gameState.gameOver = true ∧
      w1.gameState.deathAnimationTimer =
        fallingWorld.gameState.deathAnimationTimer + (1016.67 - fallingWorld.lastTime) ∧
      fallingWorld.gameState.deathAnimationTimer + (1016.67 - fallingWorld.lastTime) ≥ 800 := by
  have h := falling_tick
  cases hw : gameLoop { currentTime := 1016.67, rPipe := 0.5, rCoin := 0.5, rSky := 0.5 }
      fallingWorld with
  | none => rw [hw] at h; cases h
  | some w1 =>
    rw [hw] at h
    simp only [Option.map_some', Option.some.injEq, Prod.mk.injEq] at h
    obtain ⟨h1, h2, _⟩ := transition_delay _ fallingWorld w1 rfl rfl hw
    exact ⟨w1, rfl, h.1, h1, h2 h.1⟩

/-! ## Records, reset and start -/

/-- C15: on a game that is not yet over, `finishGameOver` shows the game-over
screen once, with flags `isNewHighScore` and `isNewAllTimeHighScore` of which
at most one is true: whenever `overall > allTime` they are false and true,
even if `overall > session` too; otherwise the second is false and the first
tells whether `overall > session`.  It leaves `allTime` at the maximum of the
old `allTime` and `overall`, and stores that value when it has changed. -/
theorem finishGameOver_flags (w : World) (h : w.gameState.gameOver = false) :
    ∃ isNewHighScore isNewAllTimeHighScore stored,
      (GameLogic.finishGameOver w).effects =
        Effect.showGameOver isNewHighScore isNewAllTimeHighScore :: (stored ++ w.effects) ∧
      ¬ (isNewHighScore = true ∧ isNewAllTimeHighScore = true) ∧
      (w.gameState.scores.overall > w.gameState.scores.allTime →
        isNewAllTimeHighScore = true ∧ isNewHighScore = false ∧
        stored = [Effect.storeHighScore w.gameState.scores.overall]) ∧
      (w.gameState.scores.overall ≤ w.gameState.scores.allTime →
        isNewAllTimeHighScore = false ∧ stored = [] ∧
        (isNewHighScore = true ↔ w.gameState.scores.overall > w.gameState.scores.session)) ∧
      (GameLogic.finishGameOver w).gameState.scores.allTime =
        max w.gameState.scores.allTime w.gameState.scores.overall := by
  rw [finishGameOver_eq w h]
  refine ⟨_, _, _, rfl, ?_, ?_, ?_, rfl⟩
  · intro hboth
    simp only [Bool.and_eq_true, Bool.not_eq_true', decide_eq_true_eq, decide_eq_false_iff_not]
      at hboth
    exact hboth.1.2 hboth.2
  · intro hgt
    simp [hgt]
  · intro hle
    have hn : ¬ w.gameState.scores.overall > w.gameState.scores.allTime := not_lt.mpr hle
    simp [hn]

/-- C15 on the sample state with `overall = 12`, `session = 5` and
`allTime = 8`: both records fall, and only the all-time flag is raised. -/
theorem finishGameOver_flags_witness :
    (GameLogic.finishGameOver
        { sampleWorld with
          gameState.scores := { overall := 12, pipes := 2, coins := 10, session := 5,
                                allTime := 8 } }).effects =
      [Effect.showGameOver false true, Effect.storeHighScore 12] ∧
    (GameLogic.finishGameOver
        { sampleWorld with
          gameState.scores := { overall := 12, pipes := 2, coins := 10, session := 5,
                                allTime := 8 } }).gameState.scores.allTime = 12 := by
  obtain ⟨f1, f2, st, he, _, hgt, _, hall⟩ := finishGameOver_flags
    { sampleWorld with
      gameState.scores := { overall := 12, pipes := 2, coins := 10, session := 5,
                            allTime := 8 } } rfl
  obtain ⟨h2, h1, hs⟩ := hgt (by decide)
  refine ⟨?_, ?_⟩
  · rw [he, h1, h2, hs]; rfl
  · rw [hall]; decide

/-- C16: `GameLogic.reset` leaves the lists of pipes and coins empty,
`scores.overall`, `scores.pipes` and `scores.coins` at 0, both spawn timers
at 0, `isDying` and `gameOver` false, the bird (when there is one) at
`(innerWidth / 4, innerHeight / 2)` with velocity 0 and rotation 0, the
background (when there is one) at offset 0 and the grass offset at 0, while
`scores.allTime` is unchanged. -/
theorem reset_spec (w : World) :
    (GameLogic.reset w).gameState.pipes = [] ∧
    (GameLogic.reset w).gameState.coins = [] ∧
    (GameLogic.reset w).gameState.scores.overall = 0 ∧
    (GameLogic.reset w).gameState.scores.pipes = 0 ∧
    (GameLogic.reset w).gameState.scores.coins = 0 ∧
    (GameLogic.reset w).gameState.timers.pipeSpawn = 0 ∧
    (GameLogic.reset w).gameState.timers.coinSpawn = 0 ∧
    (GameLogic.reset w).gameState.isDying = false ∧
    (GameLogic.reset w).gameState.gameOver = false ∧
    (∀ b, w.gameState.bird = some b →
      ∃ b1, (GameLogic.reset w).gameState.bird = some b1 ∧
        b1.x = w.window.innerWidth / 4 ∧ b1.y = w.window.innerHeight / 2 ∧
        b1.velocity = 0 ∧ b1.rotation = 0 ∧ b1.width = b.width ∧ b1.height = b.height) ∧
    (w.gameState.bird = none → (GameLogic.reset w).gameState.bird = none) ∧
    (∀ bg, w.gameState.background = some bg →
      ∃ bg1, (GameLogic.reset w).gameState.background = some bg1 ∧ bg1.x = 0 ∧
        bg1.speed = bg.speed) ∧
    (GameLogic.reset w).gameState.grassOffset = 0 ∧
    (GameLogic.reset w).gameState.scores.allTime = w.gameState.scores.allTime := by
  simp only [GameLogic.reset]
  cases hb : w.gameState.bird <;> cases hbg : w.gameState.background <;>
    simp [Bird.reset, Background.reset]

/-- C17 as stated fails: on the sample state at the end of a run with a
session best of 7, the session best is 7, not 0, after `GameLogic.reset`, and
after `startGame`. -/
theorem reset_keeps_session_sample :
    (GameLogic.reset
        { sampleWorld with
          gameState.scores := { overall := 7, pipes := 7, coins := 0, session := 7,
                                allTime := 7 } }).gameState.scores.session ≠ 0 ∧
    (startGame 5000
        { sampleWorld with
          gameState.scores := { overall := 7, pipes := 7, coins := 0, session := 7,
                                allTime := 7 } }).gameState.scores.session ≠ 0 := by
  refine ⟨?_, ?_⟩
  · show (7 : ℤ) ≠ 0
    decide
  · show (7 : ℤ) ≠ 0
    decide

/-- C17, as the code has it: `GameLogic.reset` does not write
`scores.session`, and neither do `startGame` and `restartGame`, which call
it: the session best is carried from one run to the next. -/
theorem reset_keeps_session (w : World) (now : ℚ) :
    (GameLogic.reset w).gameState.scores.session = w.gameState.scores.session ∧
    (startGame now w).gameState.scores.session = w.gameState.scores.session ∧
    (restartGame now w).gameState.scores.session = w.gameState.scores.session := by
  have hr : ∀ v : World,
      (GameLogic.reset v).gameState.scores.session = v.gameState.scores.session := by
    intro v
    simp only [GameLogic.reset]
    cases v.gameState.bird <;> cases v.gameState.background <;> rfl
  have hs : (startGame now w).gameState.scores.session = w.gameState.scores.session := by
    simp only [startGame]
    split_ifs
    · rfl
    · cases w.animationFrameId with
      | none => exact hr w
      | some id => exact hr _
  exact ⟨hr w, hs, hs⟩

/-! ## The tick of a collision, the time factor -/

/-- One running tick on the sample state `collisionWorld`, evaluated: the
bird hits the pipe, so the game is Dying, and in the same tick the coin timer
has advanced, the coins have moved (one is collected, one has left the
screen) and the coin and aggregate scores have gone from 0 to 10. -/
theorem collision_tick :
    (gameLoop { currentTime := 1016.67, rPipe := 0.5, rCoin := 0.5, rSky := 0.5 }
      collisionWorld).map (fun w => (w.gameState.isDying, w.gameState.timers.coinSpawn,
        w.gameState.coins.map (fun c => c.x), w.gameState.scores.coins,
        w.gameState.scores.overall)) =
    some (true, 16.67, [537], 10, 10) := by
  simp only [gameLoop, collisionWorld, sampleWorld, initialGameState, normalUpdate, updateBird,
    groundCheck, GameLogic.updatePipes, GameLogic.updateCoins, List.length_cons,
    List.length_nil]
  norm_num [GameLogic.updatePipesLoop, GameLogic.updateCoinsLoop, Pipe.update, Pipe.isOffScreen,
    GameLogic.checkPipeCollision, GameLogic.passedTest, GameLogic.updateScore, Bird.getBounds,
    Bird.update, Utils.clamp, Math_PI, updateBackground, Background.update, pipeSpawnStep,
    coinSpawnStep, updateGrassScroll, renderAndContinue, requestAnimationFrame, emit,
    Coin.update, Coin.isOffScreen, Coin.checkCollision, sqrtLt, GameLogic.collect,
    GameLogic.startDeathAnimation]

/-- The loop of `updateCoins` changes nothing but the coins, the scores, the
record of external calls and the count of coins collected. -/
theorem updateCoinsLoop_frame (dt : ℚ) (n : ℕ) :
    ∀ w w1 : World, GameLogic.updateCoinsLoop dt n w = some w1 →
      eraseCoinPlay w1 = eraseCoinPlay w := by
  induction n with
  | zero =>
    intro w w1 e
    simp only [GameLogic.updateCoinsLoop, Option.some.injEq] at e
    rw [e]
  | succ i ih =>
    intro w w1 e
    rw [GameLogic.updateCoinsLoop] at e
    split at e
    · cases e
    · simp only [] at e
      split_ifs at e with hoff
      · exact (ih _ _ e).trans rfl
      · split at e
        · cases e
        · split_ifs at e with hcol
          · refine (ih _ _ e).trans ?_
            rw [updateScore_eq]
            rfl
          · exact (ih _ _ e).trans rfl

/-- The call `GameLogic.updateCoins(dt)` leaves the timers alone. -/
theorem updateCoins_timers (dt : ℚ) (w w1 : World) (e : GameLogic.updateCoins dt w = some w1) :
    w1.gameState.timers = w.gameState.timers := by
  have h := updateCoinsLoop_frame dt _ w w1 e
  have e1 := congrArg (fun x : World => x.gameState.timers) h
  exact e1

/-- The normal branch of `gameLoop` is its first part, ending with
`updatePipes`, followed, whatever `updatePipes` returned, by the coin timer,
`updateCoins` and the grass. -/
theorem normalUpdate_pipesStage (t : Tick) (deltaTime dt : ℚ) (w : World) :
    normalUpdate t deltaTime dt w =
      (pipesStage t deltaTime dt w).bind (fun r =>
        (GameLogic.updateCoins dt (coinSpawnStep t deltaTime r.1)).map (updateGrassScroll dt)) := by
  unfold normalUpdate pipesStage
  cases updateBird dt w with
  | none => rfl
  | some wa =>
    simp only []
    cases groundCheck wa with
    | none => rfl
    | some wb =>
      simp only []
      cases GameLogic.updatePipes dt (pipeSpawnStep t deltaTime (updateBackground dt wb)) with
      | none => rfl
      | some r =>
        simp only [Option.some_bind]
        cases GameLogic.updateCoins dt (coinSpawnStep t deltaTime r.1) <;> rfl

/-- With a bird, the first part of the normal branch returns and leaves a
bird. -/
theorem pipesStage_spec (t : Tick) (deltaTime dt : ℚ) (w : World) (b : Bird)
    (hb : w.gameState.bird = some b) :
    ∃ r bc, pipesStage t deltaTime dt w = some r ∧ r.1.gameState.bird = some bc := by
  obtain ⟨wa, ba, ha, -, hba⟩ := updateBird_spec dt w b hb
  obtain ⟨wb, bb, hbb, -, hbbb⟩ := groundCheck_spec wa ba hba
  have h1 : (pipeSpawnStep t deltaTime (updateBackground dt wb)).gameState.bird = some bb := by
    rw [(pipeSpawnStep_spec t deltaTime _).2, (updateBackground_spec dt wb).2, hbbb]
  obtain ⟨r, bc, hr, -, hbc⟩ := updatePipes_scoreStep dt _ bb h1
  refine ⟨r, bc, ?_, hbc⟩
  unfold pipesStage
  rw [ha]
  simp only []
  rw [hbb]
  exact hr

/-- The tick of `gameLoop` in the Running state: the normal branch, with the
time factor `frameDt`, then render and reschedule. -/
theorem gameLoop_running (t : Tick) (w : World) (hr : w.gameState.running = true)
    (hd : w.gameState.isDying = false) (hp : w.gameState.paused = false)
    (hg : w.gameState.gameOver = false) :
    gameLoop t w =
      (normalUpdate t (t.currentTime - w.lastTime) (frameDt t.currentTime w.lastTime)
        { w with lastTime := t.currentTime }).map renderAndContinue := by
  simp only [gameLoop, hr, hd, hp, hg, frameDt]
  simp only [Bool.not_true, Bool.false_and, Bool.not_false, Bool.and_self, Bool.false_eq_true,
    if_false, if_true]
  cases normalUpdate t (t.currentTime - w.lastTime) (min 32 (t.currentTime - w.lastTime) / 16.67)
    { w with lastTime := t.currentTime } <;> rfl

/-- The coin timer after the coin-timer step: advanced by the frame time, and
back to 0 if it has reached 5000 while fewer than 10 coins are live. -/
theorem coinSpawnStep_timer (t : Tick) (deltaTime : ℚ) (w : World) :
    (coinSpawnStep t deltaTime w).gameState.timers.coinSpawn =
      if w.gameState.timers.coinSpawn + deltaTime ≥ 5000 ∧ w.gameState.coins.length < 10 then 0
      else w.gameState.timers.coinSpawn + deltaTime := by
  simp only [coinSpawnStep, GameLogic.spawnSkyCoin]
  by_cases h1 : w.gameState.timers.coinSpawn + deltaTime ≥ 5000
  · by_cases h2 : w.gameState.coins.length ≥ 10
    · rw [if_pos h1, if_pos h2, if_neg (by omega)]
    · rw [if_pos h1, if_neg h2, if_pos ⟨h1, by omega⟩]
  · rw [if_neg h1, if_neg (fun h => h1 h.1)]

/-- Rendering and rescheduling leave the game state alone. -/
theorem renderAndContinue_gameState (w : World) :
    (renderAndContinue w).gameState = w.gameState := rfl

/-- C18 as stated fails: one running tick on the sample state
`collisionWorld`.  The call of `updatePipes` returns false, a collision, and
leaves the coin timer at 0, the coins at `x = -30, 238, 540` and the coin and
aggregate scores at 0; at the end of the same tick the game is Dying, the coin
timer is 16.67, one coin is left, at `x = 537`, and the coin and aggregate
scores are 10. -/
theorem collision_tick_not_skipped :
    (pipesStage { currentTime := 1016.67, rPipe := 0.5, rCoin := 0.5, rSky := 0.5 }
        (1016.67 - collisionWorld.lastTime) (frameDt 1016.67 collisionWorld.lastTime)
        { collisionWorld with lastTime := 1016.67 }).map
      (fun r => (r.2, r.1.gameState.timers.coinSpawn, r.1.gameState.coins.map (fun c => c.x),
        r.1.gameState.scores.coins, r.1.gameState.scores.overall)) =
      some (false, 0, [-30, 238, 540], 0, 0) ∧
    (gameLoop { currentTime := 1016.67, rPipe := 0.5, rCoin := 0.5, rSky := 0.5 }
      collisionWorld).map (fun w => (w.gameState.isDying, w.gameState.timers.coinSpawn,
        w.gameState.coins.map (fun c => c.x), w.gameState.scores.coins,
        w.gameState.scores.overall)) =
      some (true, 16.67, [537], 10, 10) := by
  refine ⟨?_, collision_tick⟩
  simp only [pipesStage, frameDt, collisionWorld, sampleWorld, initialGameState, updateBird,
    groundCheck, GameLogic.updatePipes, List.length_cons, List.length_nil]
  norm_num [GameLogic.updatePipesLoop, Pipe.update, Pipe.isOffScreen,
    GameLogic.checkPipeCollision, GameLogic.passedTest, GameLogic.updateScore, Bird.getBounds,
    Bird.update, Utils.clamp, Math_PI, updateBackground, Background.update, pipeSpawnStep,
    emit, GameLogic.startDeathAnimation]

/-- C18, as the code has it: the value `updatePipes` returns is not used, so
a running tick goes on after `updatePipes` whether or not it found a
collision.  With `r` the state and the value `updatePipes` returned (false for
a collision) and `bc` the bird then, the tick ends with the coin timer
advanced by the frame time (back to 0 if it has reached 5000 with fewer than
10 coins live), with the coins left by the coin-timer step moved, those off
the screen or touching the bird removed, and with 10 points per coin
collected added to the coin score, and to the aggregate score if that was
the sum of its parts. -/
theorem collision_tick_continues (t : Tick) (w : World) (b : Bird)
    (hb : w.gameState.bird = some b) (hr : w.gameState.running = true)
    (hd : w.gameState.isDying = false) (hp : w.gameState.paused = false)
    (hg : w.gameState.gameOver = false) :
    ∃ r bc w1,
      pipesStage t (t.currentTime - w.lastTime) (frameDt t.currentTime w.lastTime)
        { w with lastTime := t.currentTime } = some r ∧
      r.1.gameState.bird = some bc ∧
      gameLoop t w = some w1 ∧
      w1.gameState.timers.coinSpawn =
        (if r.1.gameState.timers.coinSpawn + (t.currentTime - w.lastTime) ≥ 5000 ∧
            r.1.gameState.coins.length < 10 then 0
         else r.1.gameState.timers.coinSpawn + (t.currentTime - w.lastTime)) ∧
      w1.gameState.coins =
        ((coinSpawnStep t (t.currentTime - w.lastTime) r.1).gameState.coins.map
          (fun c => c.update (frameDt t.currentTime w.lastTime))).filter
          (fun c => !c.isOffScreen && !c.checkCollision bc) ∧
      w1.gameState.scores.coins = r.1.gameState.scores.coins +
        10 * (((coinSpawnStep t (t.currentTime - w.lastTime) r.1).gameState.coins.map
          (fun c => c.update (frameDt t.currentTime w.lastTime))).countP
          (fun c => !c.isOffScreen && c.checkCollision bc) : ℤ) ∧
      (ScoreConsistent r.1 →
        w1.gameState.scores.overall = r.1.gameState.scores.overall +
          10 * (((coinSpawnStep t (t.currentTime - w.lastTime) r.1).gameState.coins.map
            (fun c => c.update (frameDt t.currentTime w.lastTime))).countP
            (fun c => !c.isOffScreen && c.checkCollision bc) : ℤ)) := by
  have hb1 : ({ w with lastTime := t.currentTime } : World).gameState.bird = some b := hb
  obtain ⟨r, bc, hstage, hbc⟩ := pipesStage_spec t (t.currentTime - w.lastTime)
    (frameDt t.currentTime w.lastTime) _ b hb1
  obtain ⟨hsame, hbird⟩ := coinSpawnStep_spec t (t.currentTime - w.lastTime) r.1
  obtain ⟨wd, hloop, hcoins, hsc, -, -, -, -, hpipes, -, hcons, -⟩ :=
    updateCoinsLoop_spec (frameDt t.currentTime w.lastTime) bc
      (coinSpawnStep t (t.currentTime - w.lastTime) r.1).gameState.coins
      (coinSpawnStep t (t.currentTime - w.lastTime) r.1) [] (by simp) (hbird.trans hbc)
  have hupd : GameLogic.updateCoins (frameDt t.currentTime w.lastTime)
      (coinSpawnStep t (t.currentTime - w.lastTime) r.1) = some wd := hloop
  have hgrass := eraseScenery_updateGrassScroll (frameDt t.currentTime w.lastTime) wd
  have htimers := updateCoins_timers _ _ _ hupd
  refine ⟨r, bc, renderAndContinue (updateGrassScroll (frameDt t.currentTime w.lastTime) wd),
    hstage, hbc, ?_, ?_, ?_, ?_, ?_⟩
  · rw [gameLoop_running t w hr hd hp hg, normalUpdate_pipesStage, hstage, Option.some_bind,
      hupd]
    rfl
  · have e := congrArg (fun x : World => x.gameState.timers.coinSpawn) hgrass
    have e1 : (renderAndContinue (updateGrassScroll (frameDt t.currentTime w.lastTime)
        wd)).gameState.timers.coinSpawn = wd.gameState.timers.coinSpawn := e
    rw [e1, htimers, coinSpawnStep_timer]
  · have e := congrArg (fun x : World => x.gameState.coins) hgrass
    have e1 : (renderAndContinue (updateGrassScroll (frameDt t.currentTime w.lastTime)
        wd)).gameState.coins = wd.gameState.coins := e
    rw [e1, hcoins, List.append_nil]
  · have e := congrArg (fun x : World => x.gameState.scores.coins) hgrass
    have e1 : (renderAndContinue (updateGrassScroll (frameDt t.currentTime w.lastTime)
        wd)).gameState.scores.coins = wd.gameState.scores.coins := e
    rw [e1, hsc, hsame.2.2.1]
  · intro hcon
    have e := congrArg (fun x : World => x.gameState.scores.overall) hgrass
    have e1 : (renderAndContinue (updateGrassScroll (frameDt t.currentTime w.lastTime)
        wd)).gameState.scores.overall = wd.gameState.scores.overall := e
    have hc1 : ScoreConsistent (coinSpawnStep t (t.currentTime - w.lastTime) r.1) := by
      unfold ScoreConsistent at hcon ⊢
      rw [hsame.1, hsame.2.1, hsame.2.2.1]
      exact hcon
    have hc2 := hcons hc1
    unfold ScoreConsistent at hc2 hcon
    rw [e1, hc2, hsc, hpipes, hsame.2.1, hsame.2.2.1, hcon]
    ring

/-- C18, witness: the tick of the collision on the sample state
`collisionWorld`. -/
theorem collision_tick_continues_witness :
    ∃ r bc w1,
      pipesStage { currentTime := 1016.67, rPipe := 0.5, rCoin := 0.5, rSky := 0.5 }
        (1016.67 - collisionWorld.lastTime) (frameDt 1016.67 collisionWorld.lastTime)
        { collisionWorld with lastTime := 1016.67 } = some r ∧
      r.1.gameState.bird = some bc ∧
      gameLoop { currentTime := 1016.67, rPipe := 0.5, rCoin := 0.5, rSky := 0.5 }
        collisionWorld = some w1 ∧
      w1.gameState.timers.coinSpawn =
        (if r.1.gameState.timers.coinSpawn + (1016.67 - collisionWorld.lastTime) ≥ 5000 ∧
            r.1.gameState.coins.length < 10 then 0
         else r.1.gameState.timers.coinSpawn + (1016.67 - collisionWorld.lastTime)) := by
  obtain ⟨r, bc, w1, h1, h2, h3, h4, -⟩ :=
    collision_tick_continues { currentTime := 1016.67, rPipe := 0.5, rCoin := 0.5, rSky := 0.5 }
      collisionWorld _ rfl rfl rfl rfl rfl
  exact ⟨r, bc, w1, h1, h2, h3, h4⟩

/-- Every tick of `gameLoop` that goes past the first test integrates with
the time factor `frameDt currentTime lastTime`. -/
theorem gameLoop_frameDt (t : Tick) (w : World) :
    gameLoop t w =
      if !w.gameState.running && !w.gameState.isDying then
        some { w with animationFrameId := none }
      else if w.gameState.isDying && !w.gameState.gameOver then
        (if (dyingUpdate (t.currentTime - w.lastTime) (frameDt t.currentTime w.lastTime)
              { w with lastTime := t.currentTime }).2 then
          some (dyingUpdate (t.currentTime - w.lastTime) (frameDt t.currentTime w.lastTime)
              { w with lastTime := t.currentTime }).1
        else
          some (renderAndContinue
            (dyingUpdate (t.currentTime - w.lastTime) (frameDt t.currentTime w.lastTime)
              { w with lastTime := t.currentTime }).1))
      else if !w.gameState.paused && !w.gameState.gameOver then
        (normalUpdate t (t.currentTime - w.lastTime) (frameDt t.currentTime w.lastTime)
          { w with lastTime := t.currentTime }).map renderAndContinue
      else some (renderAndContinue { w with lastTime := t.currentTime }) := by
  simp only [gameLoop, frameDt]
  split_ifs
  · rfl
  · rfl
  · rfl
  · cases normalUpdate t (t.currentTime - w.lastTime)
      (min 32 (t.currentTime - w.lastTime) / 16.67) { w with lastTime := t.currentTime } <;> rfl
  · rfl

/-- C20 as stated fails: a frame stamped 16.67 ms before `lastTime` has the
time factor -1, and the running tick made with it on the sample state moves
the pipes to the right, from `x = 100, 500` to `x = 103, 503`. -/
theorem frameDt_negative :
    frameDt 983.33 sampleWorld.lastTime = -1 ∧
    ¬ (0 ≤ frameDt 983.33 sampleWorld.lastTime) ∧
    (gameLoop { currentTime := 983.33, rPipe := 0.5, rCoin := 0.5, rSky := 0.5 }
      sampleWorld).map (fun w => w.gameState.pipes.map (fun p => p.x)) = some [103, 503] := by
  refine ⟨?_, ?_, ?_⟩
  · norm_num [frameDt, sampleWorld]
  · norm_num [frameDt, sampleWorld]
  · simp only [gameLoop, sampleWorld, initialGameState, normalUpdate, updateBird,
      groundCheck, GameLogic.updatePipes, GameLogic.updateCoins, List.length_cons,
      List.length_nil]
    norm_num [GameLogic.updatePipesLoop, GameLogic.updateCoinsLoop, Pipe.update,
      Pipe.isOffScreen, GameLogic.checkPipeCollision, GameLogic.passedTest,
      GameLogic.updateScore, Bird.getBounds, Bird.update, Utils.clamp, Math_PI,
      updateBackground, Background.update, pipeSpawnStep, coinSpawnStep, updateGrassScroll,
      renderAndContinue, requestAnimationFrame, emit, Coin.update, Coin.isOffScreen,
      Coin.checkCollision, sqrtLt, GameLogic.collect, GameLogic.startDeathAnimation]

/-- C20, as the code has it: the time factor of every tick is
`frameDt currentTime lastTime`; it never exceeds `32 / 16.67`, the value of a
32 ms frame, which it takes from 32 ms on; and it is non-negative exactly
when the frame is not stamped before `lastTime`: the code clamps from above
only, and below the clamp the factor is the frame time over 16.67. -/
theorem frameDt_bounds (t : Tick) (w : World) :
    (gameLoop t w =
      if !w.gameState.running && !w.gameState.isDying then
        some { w with animationFrameId := none }
      else if w.gameState.isDying && !w.gameState.gameOver then
        (if (dyingUpdate (t.currentTime - w.lastTime) (frameDt t.currentTime w.lastTime)
              { w with lastTime := t.currentTime }).2 then
          some (dyingUpdate (t.currentTime - w.lastTime) (frameDt t.currentTime w.lastTime)
              { w with lastTime := t.currentTime }).1
        else
          some (renderAndContinue
            (dyingUpdate (t.currentTime - w.lastTime) (frameDt t.currentTime w.lastTime)
              { w with lastTime := t.currentTime }).1))
      else if !w.gameState.paused && !w.gameState.gameOver then
        (normalUpdate t (t.currentTime - w.lastTime) (frameDt t.currentTime w.lastTime)
          { w with lastTime := t.currentTime }).map renderAndContinue
      else some (renderAndContinue { w with lastTime := t.currentTime })) ∧
    frameDt t.currentTime w.lastTime ≤ 32 / 16.67 ∧
    (0 ≤ frameDt t.currentTime w.lastTime ↔ w.lastTime ≤ t.currentTime) ∧
    (t.currentTime - w.lastTime ≤ 32 →
      frameDt t.currentTime w.lastTime = (t.currentTime - w.lastTime) / 16.67) ∧
    (32 ≤ t.currentTime - w.lastTime → frameDt t.currentTime w.lastTime = 32 / 16.67) := by
  refine ⟨gameLoop_frameDt t w, ?_, ?_, ?_, ?_⟩
  · unfold frameDt
    have h : min 32 (t.currentTime - w.lastTime) ≤ 32 := min_le_left _ _
    have h2 : (0 : ℚ) ≤ 16.67 := by norm_num
    exact div_le_div_of_nonneg_right h h2
  · unfold frameDt
    have h2 : (0 : ℚ) < 16.67 := by norm_num
    rw [le_div_iff₀ h2, zero_mul, le_min_iff]
    constructor
    · intro h
      linarith [h.2]
    · intro h
      exact ⟨by norm_num, by linarith⟩
  · intro h
    unfold frameDt
    rw [min_eq_right h]
  · intro h
    unfold frameDt
    rw [min_eq_left h]

/-! ## Pipes leaving the screen, spawning -/

/-- After `n` calls of `update(dt)` a pipe has moved left by `n` times
`speed * dt`, and nothing else of it has changed. -/
theorem updateN_eq (dt : ℚ) (n : ℕ) :
    ∀ p : Pipe, Pipe.updateN dt n p = { p with x := p.x - n * (p.speed * dt) } := by
  induction n with
  | zero =>
    intro p
    simp [Pipe.updateN]
  | succ k ih =>
    intro p
    rw [Pipe.updateN, ih]
    simp only [Pipe.update, Nat.cast_succ]
    congr 1
    ring

/-- C21 as stated fails: the pipe spawned at `x = 300` in a window 300 wide,
with speed 3 and width 80, is at `x = 0` after 100 updates with `dt = 1`, and
`isOffScreen` is false there: its right edge is at 80. -/
theorem edge_pipe_on_screen :
    (Pipe.updateN 1 100 (Pipe.new narrowWorld narrowWorld.window.innerWidth 200 200 80)).x = 0 ∧
    (Pipe.updateN 1 100
      (Pipe.new narrowWorld narrowWorld.window.innerWidth 200 200 80)).isOffScreen = false := by
  rw [updateN_eq]
  norm_num [Pipe.new, Pipe.isOffScreen, narrowWorld, sampleWorld, initialGameState]

/-- C21, as the code has it: `n` updates with time factor `dt` move a pipe
left by `n * speed * dt` and change nothing else, so a pipe spawned at
`x = W` with speed 3 is at `x = W - 300` after 100 updates with `dt = 1`.
`isOffScreen` tells whether the right edge `x + width` is left of 0: for
`W = 300` and width 80 the pipe at `x = 0` is still on screen, and it is off
screen exactly from the 127th update on. -/
theorem pipe_updateN_spec (w : World) (y gap : ℚ) :
    (∀ (p : Pipe) (dt : ℚ) (n : ℕ),
      (Pipe.updateN dt n p).x = p.x - n * (p.speed * dt) ∧
      (Pipe.updateN dt n p).width = p.width ∧ (Pipe.updateN dt n p).speed = p.speed ∧
      ((Pipe.updateN dt n p).isOffScreen = true ↔ p.x + p.width < n * (p.speed * dt))) ∧
    (∀ width : ℚ, w.gameState.physics.pipeSpeed = 3 →
      (Pipe.updateN 1 100 (Pipe.new w w.window.innerWidth y gap width)).x =
        w.window.innerWidth - 300) ∧
    (∀ n : ℕ, w.gameState.physics.pipeSpeed = 3 → w.window.innerWidth = 300 →
      ((Pipe.updateN 1 n (Pipe.new w w.window.innerWidth y gap 80)).isOffScreen = true ↔
        127 ≤ n)) := by
  refine ⟨?_, ?_, ?_⟩
  · intro p dt n
    rw [updateN_eq]
    simp only [Pipe.isOffScreen, decide_eq_true_eq]
    refine ⟨trivial, trivial, trivial, ?_⟩
    constructor <;> intro h <;> linarith
  · intro width hs
    rw [updateN_eq]
    simp only [Pipe.new, hs]
    norm_num
  · intro n hs hw
    rw [updateN_eq]
    simp only [Pipe.new, Pipe.isOffScreen, hs, hw, decide_eq_true_eq]
    constructor
    · intro h
      have h1 : (380 : ℚ) < 3 * n := by linarith
      have h2 : (380 : ℚ) < ((3 * n : ℕ) : ℚ) := by push_cast; exact h1
      have h3 : 380 < 3 * n := by exact_mod_cast h2
      omega
    · intro h
      have h1 : ((127 : ℕ) : ℚ) ≤ n := by exact_mod_cast h
      push_cast at h1
      linarith

/-- C22 as stated fails: in a window 300 high (ground 100, gap 200) the draw
0.5 gives a pipe with `topHeight = 0`, below the minimum of 50, and a gap
reaching down to 200, below the line `300 - 100 - 50 = 150`. -/
theorem spawnPipe_low_window :
    (GameLogic.spawnPipe 0.5 0.5 lowWorld).gameState.pipes.map
        (fun p => (p.topHeight, p.topHeight + p.gap)) =
      lowWorld.gameState.pipes.map (fun p => (p.topHeight, p.topHeight + p.gap)) ++
        [(0, 200)] ∧
    ¬ ((50 : ℚ) ≤ 0) ∧
    ¬ ((200 : ℚ) ≤
      lowWorld.window.innerHeight - lowWorld.gameState.config.groundHeight - 50) := by
  refine ⟨?_, by norm_num, ?_⟩
  · simp only [GameLogic.spawnPipe, GameLogic.spawnCoinInPipe, lowWorld, sampleWorld,
      initialGameState]
    norm_num [Pipe.new, Utils.random]
  · norm_num [lowWorld, sampleWorld, initialGameState]

/-- C22, as the code has it: `spawnPipe` appends one pipe at `x = innerWidth`
with the configured gap and width.  For a draw in `[0, 1)`, when the window
leaves room for the gap between the two margins of 50
(`innerHeight - groundHeight - gap ≥ 100`), the pipe has `topHeight ≥ 50` and
`topHeight + gap ≤ innerHeight - groundHeight - 50`; when it does not, every
draw above 0 gives `topHeight < 50`. -/
theorem spawnPipe_fits (rPipe rCoin : ℚ) (w : World) (h0 : 0 ≤ rPipe) (h1 : rPipe < 1) :
    ∃ pipe,
      (GameLogic.spawnPipe rPipe rCoin w).gameState.pipes = w.gameState.pipes ++ [pipe] ∧
      pipe.x = w.window.innerWidth ∧ pipe.gap = w.gameState.config.gap ∧
      pipe.width = w.gameState.config.pipeWidth ∧
      pipe.bottomY = pipe.topHeight + pipe.gap ∧
      (100 ≤ w.window.innerHeight - w.gameState.config.groundHeight - w.gameState.config.gap →
        50 ≤ pipe.topHeight ∧
        pipe.topHeight + pipe.gap ≤
          w.window.innerHeight - w.gameState.config.groundHeight - 50) ∧
      (w.window.innerHeight - w.gameState.config.groundHeight - w.gameState.config.gap < 100 →
        0 < rPipe → pipe.topHeight < 50) := by
  refine ⟨_, rfl, rfl, rfl, rfl, ?_, ?_, ?_⟩
  · simp only [Pipe.new]
    ring
  · intro hroom
    simp only [Pipe.new, Utils.random]
    constructor
    · nlinarith
    · nlinarith
  · intro hroom hpos
    simp only [Pipe.new, Utils.random]
    nlinarith

/-- C22, witness: the sample state (window 600 high, ground 100, gap 200)
and the draw 0.5. -/
theorem spawnPipe_fits_witness :
    ∃ pipe,
      (GameLogic.spawnPipe 0.5 0.5 sampleWorld).gameState.pipes =
        sampleWorld.gameState.pipes ++ [pipe] ∧
      pipe.x = sampleWorld.window.innerWidth := by
  obtain ⟨pipe, h1, h2, -⟩ := spawnPipe_fits 0.5 0.5 sampleWorld (by norm_num) (by norm_num)
  exact ⟨pipe, h1, h2⟩

/-- C23: for a draw in `[0, 1)` and a gap that is not negative, `spawnPipe`
appends exactly one pipe and exactly one coin, however many coins are live;
the coin is at `x = pipe.x + pipeWidth / 2`, its `y` is within `gap / 4` of
the gap centre `topHeight + gap / 2`, hence between the gap's upper edge
`topHeight` and its lower edge `bottomY`; and the pipe timer is back at 0. -/
theorem spawnPipe_coin (rPipe rCoin : ℚ) (w : World) (h0 : 0 ≤ rCoin) (h1 : rCoin < 1)
    (hgap : 0 ≤ w.gameState.config.gap) :
    ∃ pipe coin,
      (GameLogic.spawnPipe rPipe rCoin w).gameState.pipes = w.gameState.pipes ++ [pipe] ∧
      (GameLogic.spawnPipe rPipe rCoin w).gameState.coins = w.gameState.coins ++ [coin] ∧
      (GameLogic.spawnPipe rPipe rCoin w).gameState.timers.pipeSpawn = 0 ∧
      coin.x = pipe.x + w.gameState.config.pipeWidth / 2 ∧
      |coin.y - (pipe.topHeight + pipe.gap / 2)| ≤ pipe.gap / 4 ∧
      pipe.topHeight ≤ coin.y ∧ coin.y ≤ pipe.bottomY ∧
      coin.radius = w.gameState.config.coinRadius ∧ coin.collected = false := by
  refine ⟨_, _, rfl, rfl, rfl, rfl, ?_, ?_, ?_, rfl, rfl⟩
  · simp only [Coin.new, Pipe.new, Utils.random]
    rw [abs_le]
    constructor <;> nlinarith
  · simp only [Coin.new, Pipe.new, Utils.random]
    nlinarith
  · simp only [Coin.new, Pipe.new, Utils.random]
    nlinarith

/-- C23, witness: the sample state, which has three live coins, and the
draws 0.5 and 0.25. -/
theorem spawnPipe_coin_witness :
    ∃ pipe coin,
      (GameLogic.spawnPipe 0.5 0.25 sampleWorld).gameState.pipes =
        sampleWorld.gameState.pipes ++ [pipe] ∧
      (GameLogic.spawnPipe 0.5 0.25 sampleWorld).gameState.coins =
        sampleWorld.gameState.coins ++ [coin] ∧
      pipe.topHeight ≤ coin.y ∧ coin.y ≤ pipe.bottomY := by
  obtain ⟨pipe, coin, h1, h2, -, -, -, h3, h4, -⟩ :=
    spawnPipe_coin 0.5 0.25 sampleWorld (by norm_num) (by norm_num)
      (by norm_num [sampleWorld, initialGameState])
  exact ⟨pipe, coin, h1, h2, h3, h4⟩

/-! ## The sky coin -/

/-- The function `startDeathAnimation` changes nothing but the bird, its
sprite, the death flag and timer and the record of external calls. -/
theorem erasePipePlay_startDeathAnimation (w : World) :
    erasePipePlay (GameLogic.startDeathAnimation w) = erasePipePlay w := by
  simp only [GameLogic.startDeathAnimation]
  split_ifs
  · rfl
  · cases hb : w.gameState.bird <;> simp only [emit, hb] <;> rfl

/-- The loop of `updatePipes` changes nothing but the pipes, the scores, the
bird, its sprite, the death flag and timer, the record of external calls and
the count of pipes scored. -/
theorem updatePipesLoop_frame (dt : ℚ) (n : ℕ) :
    ∀ (w : World) (r : World × Bool), GameLogic.updatePipesLoop dt n w = some r →
      erasePipePlay r.1 = erasePipePlay w := by
  induction n with
  | zero =>
    intro w r e
    simp only [GameLogic.updatePipesLoop, Option.some.injEq] at e
    rw [← e]
  | succ i ih =>
    intro w r e
    rw [GameLogic.updatePipesLoop] at e
    split at e
    · cases e
    · simp only [] at e
      split_ifs at e with hoff
      · exact (ih _ _ e).trans rfl
      · split at e
        · cases e
        · simp only [Option.some.injEq] at e
          rw [← e]
          exact (erasePipePlay_startDeathAnimation _).trans rfl
        · split at e
          · cases e
          · refine (ih _ _ e).trans ?_
            rw [updateScore_eq]
            rfl
          · exact (ih _ _ e).trans rfl

/-- The normal branch of `gameLoop` up to and including `updatePipes` changes
nothing but what `eraseStage` blanks. -/
theorem pipesStage_frame (t : Tick) (deltaTime dt : ℚ) (w : World) (r : World × Bool)
    (e : pipesStage t deltaTime dt w = some r) : eraseStage r.1 = eraseStage w := by
  unfold pipesStage at e
  cases ha : updateBird dt w with
  | none => rw [ha] at e; cases e
  | some wa =>
    rw [ha] at e
    simp only [] at e
    cases hg : groundCheck wa with
    | none => rw [hg] at e; cases e
    | some wb =>
      rw [hg] at e
      simp only [] at e
      have h1 : eraseStage wa = eraseStage w := by
        unfold updateBird at ha
        cases hb : w.gameState.bird with
        | none => rw [hb] at ha; cases ha
        | some b =>
          rw [hb] at ha
          simp only [Option.some.injEq] at ha
          rw [← ha]
          rfl
      have h2 : eraseStage wb = eraseStage wa := by
        unfold groundCheck at hg
        cases hb : wa.gameState.bird with
        | none => rw [hb] at hg; cases hg
        | some b =>
          rw [hb] at hg
          simp only [] at hg
          split_ifs at hg
          · simp only [Option.some.injEq] at hg
            rw [← hg]
            have e1 := congrArg eraseStage (erasePipePlay_startDeathAnimation wa)
            exact e1
          · simp only [Option.some.injEq] at hg
            rw [hg]
      have h3 : eraseStage (updateBackground dt wb) = eraseStage wb := by
        unfold updateBackground
        cases wb.gameState.background <;> rfl
      have h4 : eraseStage (pipeSpawnStep t deltaTime (updateBackground dt wb)) =
          eraseStage (updateBackground dt wb) := by
        simp only [pipeSpawnStep]
        split_ifs <;> rfl
      have h5 : eraseStage r.1 =
          eraseStage (pipeSpawnStep t deltaTime (updateBackground dt wb)) := by
        have e1 := congrArg eraseStage (updatePipesLoop_frame dt _ _ r e)
        exact e1
      rw [h5, h4, h3, h2, h1]

/-- The normal branch up to `updatePipes` leaves the coin timer alone. -/
theorem pipesStage_coinTimer (t : Tick) (deltaTime dt : ℚ) (w : World) (r : World × Bool)
    (e : pipesStage t deltaTime dt w = some r) :
    r.1.gameState.timers.coinSpawn = w.gameState.timers.coinSpawn := by
  have h := congrArg (fun x : World => x.gameState.timers.coinSpawn)
    (pipesStage_frame t deltaTime dt w r e)
  exact h

/-- The coins after the coin-timer step: one more, at the right screen edge,
if the timer has reached 5000 while fewer than 10 coins are live; the same
coins otherwise. -/
theorem coinSpawnStep_coins (t : Tick) (deltaTime : ℚ) (w : World) :
    (coinSpawnStep t deltaTime w).gameState.coins =
      if w.gameState.timers.coinSpawn + deltaTime ≥ 5000 ∧ w.gameState.coins.length < 10 then
        w.gameState.coins ++
          [{ x := w.window.innerWidth,
             y := Utils.random t.rSky 50
               (w.window.innerHeight - w.gameState.config.groundHeight - 100),
             radius := 15, collected := false, speed := w.gameState.physics.pipeSpeed,
             angle := 0 }]
      else w.gameState.coins := by
  simp only [coinSpawnStep, GameLogic.spawnSkyCoin]
  by_cases h1 : w.gameState.timers.coinSpawn + deltaTime ≥ 5000
  · by_cases h2 : w.gameState.coins.length ≥ 10
    · rw [if_pos h1, if_pos h2, if_neg (by omega)]
    · rw [if_pos h1, if_neg h2, if_pos ⟨h1, by omega⟩]
      rfl
  · rw [if_neg h1, if_neg (fun h => h1 h.1)]

/-- A running tick with a bird returns, and it ends with the coin timer as
the coin-timer step, made on the state left by `updatePipes`, has set it. -/
theorem running_tick_coinTimer (t : Tick) (w : World) (b : Bird)
    (hb : w.gameState.bird = some b) (hr : w.gameState.running = true)
    (hd : w.gameState.isDying = false) (hp : w.gameState.paused = false)
    (hg : w.gameState.gameOver = false) :
    ∃ r w1,
      pipesStage t (t.currentTime - w.lastTime) (frameDt t.currentTime w.lastTime)
        { w with lastTime := t.currentTime } = some r ∧
      gameLoop t w = some w1 ∧
      r.1.gameState.timers.coinSpawn = w.gameState.timers.coinSpawn ∧
      w1.gameState.timers.coinSpawn =
        (coinSpawnStep t (t.currentTime - w.lastTime) r.1).gameState.timers.coinSpawn := by
  have hb1 : ({ w with lastTime := t.currentTime } : World).gameState.bird = some b := hb
  obtain ⟨r, bc, hstage, hbc⟩ := pipesStage_spec t (t.currentTime - w.lastTime)
    (frameDt t.currentTime w.lastTime) _ b hb1
  have hbird := (coinSpawnStep_spec t (t.currentTime - w.lastTime) r.1).2
  obtain ⟨wd, hupd, -, hbd⟩ := updateCoins_scoreStep (frameDt t.currentTime w.lastTime)
    (coinSpawnStep t (t.currentTime - w.lastTime) r.1) bc (hbird.trans hbc)
  have htimers := updateCoins_timers _ _ _ hupd
  have hgrass := eraseScenery_updateGrassScroll (frameDt t.currentTime w.lastTime) wd
  refine ⟨r, renderAndContinue (updateGrassScroll (frameDt t.currentTime w.lastTime) wd),
    hstage, ?_, ?_, ?_⟩
  · rw [gameLoop_running t w hr hd hp hg, normalUpdate_pipesStage, hstage, Option.some_bind,
      hupd]
    rfl
  · have h := pipesStage_coinTimer _ _ _ _ r hstage
    exact h
  · have e := congrArg (fun x : World => x.gameState.timers.coinSpawn) hgrass
    have e1 : (renderAndContinue (updateGrassScroll (frameDt t.currentTime w.lastTime)
        wd)).gameState.timers.coinSpawn = wd.gameState.timers.coinSpawn := e
    rw [e1, htimers]

/-- The normal branch up to `updatePipes`, on the sample state `crowdedWorld`,
leaves its ten coins live. -/
theorem crowded_stage :
    (pipesStage { currentTime := 1016.67, rPipe := 0.5, rCoin := 0.5, rSky := 0.5 }
        (1016.67 - crowdedWorld.lastTime) (frameDt 1016.67 crowdedWorld.lastTime)
        { crowdedWorld with lastTime := 1016.67 }).map
      (fun r => r.1.gameState.coins.length) = some 10 := by
  simp only [pipesStage, frameDt, crowdedWorld, sampleWorld, initialGameState, updateBird,
    groundCheck, GameLogic.updatePipes, List.length_cons, List.length_nil]
  norm_num [GameLogic.updatePipesLoop, Pipe.update, Pipe.isOffScreen,
    GameLogic.checkPipeCollision, GameLogic.passedTest, GameLogic.updateScore, Bird.getBounds,
    Bird.update, Utils.clamp, Math_PI, updateBackground, Background.update, pipeSpawnStep,
    emit, GameLogic.startDeathAnimation]

/-- C24 as stated fails: one running tick on the sample state `crowdedWorld`,
which has the coin timer at 4990.  When the coin-timer step is made ten coins
are live; the timer is taken past 5000, to 5006.67, and the tick ends with it
there: it is not reset to 0.  No coin is added. -/
theorem crowded_tick_keeps_timer :
    ∃ r w1,
      pipesStage { currentTime := 1016.67, rPipe := 0.5, rCoin := 0.5, rSky := 0.5 }
        (1016.67 - crowdedWorld.lastTime) (frameDt 1016.67 crowdedWorld.lastTime)
        { crowdedWorld with lastTime := 1016.67 } = some r ∧
      r.1.gameState.coins.length = 10 ∧
      (coinSpawnStep { currentTime := 1016.67, rPipe := 0.5, rCoin := 0.5, rSky := 0.5 }
        (1016.67 - crowdedWorld.lastTime) r.1).gameState.coins = r.1.gameState.coins ∧
      gameLoop { currentTime := 1016.67, rPipe := 0.5, rCoin := 0.5, rSky := 0.5 }
        crowdedWorld = some w1 ∧
      w1.gameState.timers.coinSpawn = 5006.67 ∧ w1.gameState.timers.coinSpawn ≠ 0 := by
  obtain ⟨r, w1, hstage, hloop, htimer, hend⟩ := running_tick_coinTimer
    { currentTime := 1016.67, rPipe := 0.5, rCoin := 0.5, rSky := 0.5 } crowdedWorld _
    rfl rfl rfl rfl rfl
  have hlen : r.1.gameState.coins.length = 10 := by
    have h := crowded_stage
    rw [hstage] at h
    simpa using h
  have ht : r.1.gameState.timers.coinSpawn = 4990 := htimer
  have hval : w1.gameState.timers.coinSpawn = 5006.67 := by
    rw [hend, coinSpawnStep_timer, ht, hlen]
    norm_num [crowdedWorld, sampleWorld]
  refine ⟨r, w1, hstage, hlen, ?_, hloop, hval, ?_⟩
  · rw [coinSpawnStep_coins, hlen]
    simp
  · rw [hval]
    norm_num

/-- C24, as the code has it: on a running tick the coin timer is advanced by
the frame time when `updatePipes` is done.  If it has then reached 5000 and
fewer than 10 coins are live, a coin of radius 15 is added at the right screen
edge and the tick ends with the timer at 0; if it has reached 5000 and 10
coins or more are live, no coin is added and the timer is not reset: the tick
ends with it at its advanced value; below 5000 nothing is added either. -/
theorem sky_coin_timer (t : Tick) (w : World) (b : Bird)
    (hb : w.gameState.bird = some b) (hr : w.gameState.running = true)
    (hd : w.gameState.isDying = false) (hp : w.gameState.paused = false)
    (hg : w.gameState.gameOver = false) :
    ∃ r w1,
      pipesStage t (t.currentTime - w.lastTime) (frameDt t.currentTime w.lastTime)
        { w with lastTime := t.currentTime } = some r ∧
      gameLoop t w = some w1 ∧
      (5000 ≤ w.gameState.timers.coinSpawn + (t.currentTime - w.lastTime) →
        r.1.gameState.coins.length < 10 →
        w1.gameState.timers.coinSpawn = 0 ∧
        (coinSpawnStep t (t.currentTime - w.lastTime) r.1).gameState.coins =
          r.1.gameState.coins ++
            [{ x := w.window.innerWidth,
               y := Utils.random t.rSky 50
                 (w.window.innerHeight - w.gameState.config.groundHeight - 100),
               radius := 15, collected := false, speed := w.gameState.physics.pipeSpeed,
               angle := 0 }]) ∧
      (5000 ≤ w.gameState.timers.coinSpawn + (t.currentTime - w.lastTime) →
        10 ≤ r.1.gameState.coins.length →
        w1.gameState.timers.coinSpawn =
          w.gameState.timers.coinSpawn + (t.currentTime - w.lastTime) ∧
        (coinSpawnStep t (t.currentTime - w.lastTime) r.1).gameState.coins =
          r.1.gameState.coins) ∧
      (w.gameState.timers.coinSpawn + (t.currentTime - w.lastTime) < 5000 →
        w1.gameState.timers.coinSpawn =
          w.gameState.timers.coinSpawn + (t.currentTime - w.lastTime) ∧
        (coinSpawnStep t (t.currentTime - w.lastTime) r.1).gameState.coins =
          r.1.gameState.coins) := by
  obtain ⟨r, w1, hstage, hloop, htimer, hend⟩ := running_tick_coinTimer t w b hb hr hd hp hg
  have hf := pipesStage_frame _ _ _ _ r hstage
  have hw : r.1.window = w.window := by
    have e1 := congrArg (fun x : World => x.window) hf
    exact e1
  have hc : r.1.gameState.config = w.gameState.config := by
    have e1 := congrArg (fun x : World => x.gameState.config) hf
    exact e1
  have hph : r.1.gameState.physics = w.gameState.physics := by
    have e1 := congrArg (fun x : World => x.gameState.physics) hf
    exact e1
  refine ⟨r, w1, hstage, hloop, ?_, ?_, ?_⟩
  · intro h5 hlen
    have h5r : r.1.gameState.timers.coinSpawn + (t.currentTime - w.lastTime) ≥ 5000 := by
      rw [htimer]
      exact h5
    rw [hend, coinSpawnStep_timer, coinSpawnStep_coins, if_pos ⟨h5r, hlen⟩,
      if_pos ⟨h5r, hlen⟩, hw, hc, hph]
    exact ⟨rfl, rfl⟩
  · intro h5 hlen
    have hn : ¬ (r.1.gameState.timers.coinSpawn + (t.currentTime - w.lastTime) ≥ 5000 ∧
        r.1.gameState.coins.length < 10) := fun h => absurd h.2 (by omega)
    rw [hend, coinSpawnStep_timer, coinSpawnStep_coins, if_neg hn, if_neg hn, htimer]
    exact ⟨rfl, rfl⟩
  · intro h5
    have hn : ¬ (r.1.gameState.timers.coinSpawn + (t.currentTime - w.lastTime) ≥ 5000 ∧
        r.1.gameState.coins.length < 10) := by
      rw [htimer]
      exact fun h => absurd h.1 (not_le.mpr h5)
    rw [hend, coinSpawnStep_timer, coinSpawnStep_coins, if_neg hn, if_neg hn, htimer]
    exact ⟨rfl, rfl⟩

/-- C24, witness: the sample state, on which the tick returns. -/
theorem sky_coin_timer_witness :
    ∃ r w1,
      pipesStage { currentTime := 1016.67, rPipe := 0.5, rCoin := 0.5, rSky := 0.5 }
        (1016.67 - sampleWorld.lastTime) (frameDt 1016.67 sampleWorld.lastTime)
        { sampleWorld with lastTime := 1016.67 } = some r ∧
      gameLoop { currentTime := 1016.67, rPipe := 0.5, rCoin := 0.5, rSky := 0.5 }
        sampleWorld = some w1 ∧
      w1.gameState.timers.coinSpawn = 16.67 := by
  obtain ⟨r, w1, h1, h2, -, -, h3⟩ := sky_coin_timer
    { currentTime := 1016.67, rPipe := 0.5, rCoin := 0.5, rSky := 0.5 } sampleWorld _
    rfl rfl rfl rfl rfl
  refine ⟨r, w1, h1, h2, ?_⟩
  have h4 := (h3 (by norm_num [sampleWorld, initialGameState])).1
  rw [h4]
  norm_num [sampleWorld, initialGameState]

/-! ## The collision test and the rectangles of a pipe -/

/-- C28: take a pipe built by the `Pipe` constructor, in a window of height
`H` with ground height `g`, whatever its later position, speed and scored
flag.  For every bird whose bottom edge is below the top of the screen
(`y + height > 0`) and whose top edge is above the ground line (`y < H - g`),
`checkPipeCollision` returns what the rectangle test on the two rectangles of
`Pipe.getBounds` returns.  Outside that condition the two can differ: a bird
wholly above the screen, or one with its top edge on the ground line, over
the pipe, collides for `checkPipeCollision` and not for the rectangle test. -/
theorem checkPipeCollision_rects :
    (∀ (w0 w : World) (b : Bird) (x topHeight gap width x1 speed : ℚ) (scored : Bool),
      w.gameState.bird = some b →
      0 < b.y + b.height →
      b.y < w0.window.innerHeight - w0.gameState.config.groundHeight →
      GameLogic.checkPipeCollision w
          { Pipe.new w0 x topHeight gap width with x := x1, speed := speed, scored := scored } =
        checkPipeCollisionRects w
          { Pipe.new w0 x topHeight gap width with x := x1, speed := speed, scored := scored }) ∧
    (∃ b : Bird, aboveScreenWorld.gameState.bird = some b ∧ b.y + b.height ≤ 0 ∧
      GameLogic.checkPipeCollision aboveScreenWorld (Pipe.new aboveScreenWorld 250 150 200 80) =
        some true ∧
      checkPipeCollisionRects aboveScreenWorld (Pipe.new aboveScreenWorld 250 150 200 80) =
        some false) ∧
    (∃ b : Bird, belowGroundWorld.gameState.bird = some b ∧
      belowGroundWorld.window.innerHeight - belowGroundWorld.gameState.config.groundHeight ≤
        b.y ∧
      GameLogic.checkPipeCollision belowGroundWorld (Pipe.new belowGroundWorld 250 150 200 80) =
        some true ∧
      checkPipeCollisionRects belowGroundWorld (Pipe.new belowGroundWorld 250 150 200 80) =
        some false) := by
  refine ⟨?_, ?_, ?_⟩
  · intro w0 w b x topHeight gap width x1 speed scored hb h1 h2
    simp only [GameLogic.checkPipeCollision, checkPipeCollisionRects, hb, Pipe.new,
      Pipe.getBounds, Bird.getBounds, Utils.checkCollision]
    have e1 : w0.window.innerHeight - w0.gameState.config.groundHeight -
        (w0.window.innerHeight - w0.gameState.config.groundHeight - topHeight - gap) +
        (w0.window.innerHeight - w0.gameState.config.groundHeight -
          (w0.window.innerHeight - w0.gameState.config.groundHeight -
            (w0.window.innerHeight - w0.gameState.config.groundHeight - topHeight - gap))) =
        w0.window.innerHeight - w0.gameState.config.groundHeight := by ring
    by_cases hx : b.x + b.width > x1 ∧ b.x < x1 + width
    · by_cases hy : b.y < topHeight ∨ b.y + b.height >
          w0.window.innerHeight - w0.gameState.config.groundHeight -
            (w0.window.innerHeight - w0.gameState.config.groundHeight - topHeight - gap)
      · rw [if_pos hx, if_pos hy]
        simp only [Option.some.injEq, zero_add, e1]
        rcases hy with hy | hy
        · simp [hx.1, hx.2, hy, h1]
        · simp [hx.1, hx.2, hy, h2]
      · rw [if_pos hx, if_neg hy]
        simp only [Option.some.injEq, zero_add, e1]
        rw [not_or] at hy
        simp [hy.1, hy.2]
    · rw [if_neg hx]
      simp only [Option.some.injEq, zero_add, e1]
      rw [not_and_or] at hx
      rcases hx with hx | hx
      · simp [hx]
      · simp [hx]
  · refine ⟨_, rfl, ?_, ?_, ?_⟩
    · norm_num
    · norm_num [GameLogic.checkPipeCollision, Pipe.new, Bird.getBounds, aboveScreenWorld]
    · norm_num [checkPipeCollisionRects, Utils.checkCollision, Pipe.new, Pipe.getBounds,
        Bird.getBounds, aboveScreenWorld, sampleWorld, initialGameState]
  · refine ⟨_, rfl, ?_, ?_, ?_⟩
    · norm_num [belowGroundWorld, sampleWorld, initialGameState]
    · norm_num [GameLogic.checkPipeCollision, Pipe.new, Bird.getBounds, belowGroundWorld,
        sampleWorld, initialGameState]
    · norm_num [checkPipeCollisionRects, Utils.checkCollision, Pipe.new, Pipe.getBounds,
        Bird.getBounds, belowGroundWorld, sampleWorld, initialGameState]

/-- C28, witness: the bird of the sample state against the pipe of
`collisionWorld`, built in the sample window. -/
theorem checkPipeCollision_rects_witness :
    GameLogic.checkPipeCollision sampleWorld
        { Pipe.new sampleWorld 800 300 200 80 with x := 250, speed := 3, scored := false } =
      checkPipeCollisionRects sampleWorld
        { Pipe.new sampleWorld 800 300 200 80 with x := 250, speed := 3, scored := false } :=
  checkPipeCollision_rects.1 sampleWorld sampleWorld _ 800 300 200 80 250 3 false rfl
    (by norm_num) (by norm_num [sampleWorld, initialGameState])

/-! ## Difficulty -/

/-- The settings found for a key that is not an inherited property name: the
entry of the key if it is `easy`, `normal` or `hard`, the normal entry
otherwise. -/
theorem lookupSettings_of_own (d : String) (h : d ∉ objectPrototypeKeys) :
    ∃ s, lookupSettings d = some s ∧
      (d = "easy" → s = { gravity := 0.3, pipeSpeed := 2, gap := 250, spawnInterval := 2000 }) ∧
      (d = "normal" → s = normalSettings) ∧
      (d = "hard" → s = { gravity := 0.5, pipeSpeed := 4, gap := 180, spawnInterval := 1000 }) ∧
      (d ≠ "easy" → d ≠ "normal" → d ≠ "hard" → s = normalSettings) := by
  by_cases h1 : d = "easy"
  · subst h1
    exact ⟨_, rfl, fun _ => rfl, fun e => absurd e (by decide), fun e => absurd e (by decide),
      fun e => absurd rfl e⟩
  · by_cases h2 : d = "normal"
    · subst h2
      exact ⟨_, rfl, fun e => absurd e (by decide), fun _ => rfl, fun e => absurd e (by decide),
        fun _ e => absurd rfl e⟩
    · by_cases h3 : d = "hard"
      · subst h3
        exact ⟨_, rfl, fun e => absurd e (by decide), fun e => absurd e (by decide),
          fun _ => rfl, fun _ _ e => absurd rfl e⟩
      · refine ⟨normalSettings, ?_, fun e => absurd e h1, fun _ => rfl, fun e => absurd e h3,
          fun _ _ _ => rfl⟩
        have hl : DIFFICULTY_SETTINGS.lookup d = none := by
          simp only [DIFFICULTY_SETTINGS, List.lookup]
          have e1 : (d == "easy") = false := by simpa using h1
          have e2 : (d == "normal") = false := by simpa using h2
          have e3 : (d == "hard") = false := by simpa using h3
          simp only [e1, e2, e3]
        simp only [lookupSettings, hl, if_neg h]

/-- No settings are found for an inherited property name. -/
theorem lookupSettings_of_inherited (d : String) (h : d ∈ objectPrototypeKeys) :
    lookupSettings d = none := by
  simp only [objectPrototypeKeys, List.mem_cons, List.mem_singleton, List.not_mem_nil,
    or_false] at h
  rcases h with h | h | h | h | h | h | h | h | h | h | h | h <;> subst h <;> rfl

/-- C25: `changeDifficulty(d)` records and stores the key `d`.  For a key
that is not the name of a property inherited from `Object.prototype` it then
applies the settings of `d`, or the normal settings (gravity 0.4, pipe speed 3,
gap 200, spawn interval 1500) when `d` is not `easy`, `normal` or `hard`: the
physics, the gap and the pipe interval take them, every live pipe and every
live coin gets the new pipe speed, the bird, if any, the new gravity, and the
background, if any, a third of the new pipe speed.  For an inherited name
(`constructor`, `toString`, ...) the lookup finds the inherited value and
there is no fallback: the settings applied are `undefined`. -/
theorem changeDifficulty_spec (d : String) (w : World) :
    (d ∈ objectPrototypeKeys → changeDifficulty d w = none) ∧
    (d ∉ objectPrototypeKeys →
      ∃ s w1, changeDifficulty d w = some w1 ∧
        (d = "easy" →
          s = { gravity := 0.3, pipeSpeed := 2, gap := 250, spawnInterval := 2000 }) ∧
        (d = "normal" → s = normalSettings) ∧
        (d = "hard" →
          s = { gravity := 0.5, pipeSpeed := 4, gap := 180, spawnInterval := 1000 }) ∧
        (d ≠ "easy" → d ≠ "normal" → d ≠ "hard" → s = normalSettings) ∧
        w1.gameState.difficulty = d ∧
        w1.effects = Effect.storeDifficulty d :: w.effects ∧
        w1.gameState.physics.gravity = s.gravity ∧
        w1.gameState.physics.pipeSpeed = s.pipeSpeed ∧
        w1.gameState.config.gap = s.gap ∧
        w1.gameState.timers.pipeInterval = s.spawnInterval ∧
        w1.gameState.pipes =
          w.gameState.pipes.map (fun p : Pipe => { p with speed := s.pipeSpeed }) ∧
        w1.gameState.coins =
          w.gameState.coins.map (fun c : Coin => { c with speed := s.pipeSpeed }) ∧
        (∀ p ∈ w1.gameState.pipes, p.speed = s.pipeSpeed) ∧
        (∀ c ∈ w1.gameState.coins, c.speed = s.pipeSpeed) ∧
        w1.gameState.bird =
          w.gameState.bird.map (fun b : Bird => { b with gravity := s.gravity }) ∧
        w1.gameState.background =
          w.gameState.background.map
            (fun bg : Background => { bg with speed := s.pipeSpeed / 3 })) := by
  constructor
  · intro h
    simp only [changeDifficulty, lookupSettings_of_inherited d h]
  · intro h
    obtain ⟨s, hs, he, hn, hh, ho⟩ := lookupSettings_of_own d h
    have key : ∃ w1, changeDifficulty d w = some w1 ∧
        w1.gameState.difficulty = d ∧
        w1.effects = Effect.storeDifficulty d :: w.effects ∧
        w1.gameState.physics.gravity = s.gravity ∧
        w1.gameState.physics.pipeSpeed = s.pipeSpeed ∧
        w1.gameState.config.gap = s.gap ∧
        w1.gameState.timers.pipeInterval = s.spawnInterval ∧
        w1.gameState.pipes =
          w.gameState.pipes.map (fun p : Pipe => { p with speed := s.pipeSpeed }) ∧
        w1.gameState.coins =
          w.gameState.coins.map (fun c : Coin => { c with speed := s.pipeSpeed }) ∧
        w1.gameState.bird =
          w.gameState.bird.map (fun b : Bird => { b with gravity := s.gravity }) ∧
        w1.gameState.background =
          w.gameState.background.map
            (fun bg : Background => { bg with speed := s.pipeSpeed / 3 }) := by
      simp only [changeDifficulty, hs, emit]
      cases hb : w.gameState.bird <;> cases hbg : w.gameState.background <;>
        exact ⟨_, rfl, rfl, rfl, rfl, rfl, rfl, rfl, rfl, rfl, by simp [hb], by simp [hbg]⟩
    obtain ⟨w1, h1, h2, h3, h4, h5, h6, h7, h8, h9, h10, h11⟩ := key
    refine ⟨s, w1, h1, he, hn, hh, ho, h2, h3, h4, h5, h6, h7, h8, h9, ?_, ?_, h10, h11⟩
    · intro p hp
      rw [h8, List.mem_map] at hp
      obtain ⟨q, -, rfl⟩ := hp
      rfl
    · intro c hc
      rw [h9, List.mem_map] at hc
      obtain ⟨q, -, rfl⟩ := hc
      rfl

/-- C25 on the sample state: the key `constructor` leaves the settings
`undefined`, and the key `hard` sets the pipe speed, of the state and of
every live pipe and coin, to 4. -/
theorem changeDifficulty_spec_witness :
    changeDifficulty "constructor" sampleWorld = none ∧
    ∃ w1, changeDifficulty "hard" sampleWorld = some w1 ∧
      w1.gameState.physics.pipeSpeed = 4 ∧
      (∀ p ∈ w1.gameState.pipes, p.speed = 4) ∧ (∀ c ∈ w1.gameState.coins, c.speed = 4) := by
  refine ⟨(changeDifficulty_spec "constructor" sampleWorld).1 (by decide), ?_⟩
  obtain ⟨s, w1, h1, -, -, hh, -, -, -, -, h5, -, -, -, -, hp, hc, -⟩ :=
    (changeDifficulty_spec "hard" sampleWorld).2 (by decide)
  have hs := hh rfl
  subst hs
  exact ⟨w1, h1, h5, hp, hc⟩

/-! ## One loop at a time -/

/-- The gameplay updates of the normal branch change nothing but what
`erasePlay` blanks. -/
theorem normalUpdate_frame (t : Tick) (deltaTime dt : ℚ) (w w1 : World)
    (e : normalUpdate t deltaTime dt w = some w1) : erasePlay w1 = erasePlay w := by
  rw [normalUpdate_pipesStage] at e
  cases hs : pipesStage t deltaTime dt w with
  | none => rw [hs] at e; cases e
  | some r =>
    rw [hs, Option.some_bind] at e
    cases hc : GameLogic.updateCoins dt (coinSpawnStep t deltaTime r.1) with
    | none => rw [hc] at e; cases e
    | some wd =>
      rw [hc] at e
      simp only [Option.map_some', Option.some.injEq] at e
      have h1 : erasePlay r.1 = erasePlay w := by
        have e1 := congrArg erasePlay (pipesStage_frame t deltaTime dt w r hs)
        exact e1
      have h2 : erasePlay (coinSpawnStep t deltaTime r.1) = erasePlay r.1 := by
        simp only [coinSpawnStep, GameLogic.spawnSkyCoin]
        split_ifs <;> rfl
      have h3 : erasePlay wd = erasePlay (coinSpawnStep t deltaTime r.1) := by
        have e1 := congrArg erasePlay (updateCoinsLoop_frame dt _ _ wd hc)
        exact e1
      have h4 : erasePlay (updateGrassScroll dt wd) = erasePlay wd := by
        have e1 := congrArg erasePlay (eraseScenery_updateGrassScroll dt wd)
        exact e1
      rw [← e, h4, h3, h2, h1]

/-- What a tick of `gameLoop` does to the scheduler: either it leaves
`animationFrameId` null and registers nothing, or it registers one callback
and records its id. -/
theorem gameLoop_scheduler (t : Tick) (w w1 : World) (e : gameLoop t w = some w1) :
    (w1.animationFrameId = none ∧ ∀ id ∈ w1.pendingFrames, id ∈ w.pendingFrames) ∨
    (w1.animationFrameId = some w.nextFrameId ∧
      w1.pendingFrames = w.nextFrameId :: w.pendingFrames) := by
  by_cases hd : w.gameState.isDying = true ∧ w.gameState.gameOver = false
  · rw [gameLoop_dying t w hd] at e
    have hf := dyingStage_frame (t.currentTime - w.lastTime) (frameDt t.currentTime w.lastTime)
      { w with lastTime := t.currentTime }
    have hp : (dyingStage (t.currentTime - w.lastTime) (frameDt t.currentTime w.lastTime)
        { w with lastTime := t.currentTime }).pendingFrames = w.pendingFrames := by
      have e1 := congrArg (fun x : World => x.pendingFrames) hf
      exact e1
    have hn : (dyingStage (t.currentTime - w.lastTime) (frameDt t.currentTime w.lastTime)
        { w with lastTime := t.currentTime }).nextFrameId = w.nextFrameId := by
      have e1 := congrArg (fun x : World => x.nextFrameId) hf
      exact e1
    have hg : (dyingStage (t.currentTime - w.lastTime) (frameDt t.currentTime w.lastTime)
        { w with lastTime := t.currentTime }).gameState.gameOver = false := by
      have e1 := congrArg (fun x : World => x.gameState.gameOver) hf
      exact e1.trans hd.2
    split_ifs at e
    · left
      simp only [Option.some.injEq] at e
      rw [← e, finishGameOver_eq _ hg]
      refine ⟨rfl, ?_⟩
      intro id hid
      have hid1 : id ∈ (match (dyingStage (t.currentTime - w.lastTime)
            (frameDt t.currentTime w.lastTime)
            { w with lastTime := t.currentTime }).animationFrameId with
          | some id => (dyingStage (t.currentTime - w.lastTime)
              (frameDt t.currentTime w.lastTime)
              { w with lastTime := t.currentTime }).pendingFrames.filter (fun j => j != id)
          | none => (dyingStage (t.currentTime - w.lastTime)
              (frameDt t.currentTime w.lastTime)
              { w with lastTime := t.currentTime }).pendingFrames) := hid
      rw [hp] at hid1
      split at hid1
      · exact (List.mem_filter.mp hid1).1
      · exact hid1
    · right
      simp only [Option.some.injEq] at e
      rw [← e]
      simp only [renderAndContinue, requestAnimationFrame, hn, hp]
      exact ⟨trivial, trivial⟩
  · rw [gameLoop_frameDt] at e
    by_cases h1 : (!w.gameState.running && !w.gameState.isDying) = true
    · rw [if_pos h1] at e
      simp only [Option.some.injEq] at e
      left
      rw [← e]
      exact ⟨rfl, fun id hid => hid⟩
    · have h2 : ¬ (w.gameState.isDying && !w.gameState.gameOver) = true := by
        intro h
        apply hd
        simpa using h
      rw [if_neg h1, if_neg h2] at e
      right
      split_ifs at e
      · cases hn : normalUpdate t (t.currentTime - w.lastTime)
            (frameDt t.currentTime w.lastTime) { w with lastTime := t.currentTime } with
        | none => rw [hn] at e; cases e
        | some w2 =>
          rw [hn] at e
          simp only [Option.map_some', Option.some.injEq] at e
          have hf := normalUpdate_frame _ _ _ _ w2 hn
          have hp : w2.pendingFrames = w.pendingFrames := by
            have e1 := congrArg (fun x : World => x.pendingFrames) hf
            exact e1
          have hnx : w2.nextFrameId = w.nextFrameId := by
            have e1 := congrArg (fun x : World => x.nextFrameId) hf
            exact e1
          rw [← e]
          simp only [renderAndContinue, requestAnimationFrame, hnx, hp]
          exact ⟨trivial, trivial⟩
      · simp only [Option.some.injEq] at e
        rw [← e]
        exact ⟨rfl, rfl⟩

/-- No callback pending: the scheduler invariant holds. -/
theorem singlePending_of_nil (w : World) (h : w.pendingFrames = []) : SinglePending w := by
  unfold SinglePending
  rw [h]
  exact ⟨Nat.zero_le _, fun id hid => absurd hid (List.not_mem_nil id)⟩

/-- One callback pending, and recorded: the scheduler invariant holds. -/
theorem singlePending_of_one (w : World) (n : ℕ) (h : w.pendingFrames = [n])
    (ha : w.animationFrameId = some n) : SinglePending w := by
  unfold SinglePending
  rw [h]
  refine ⟨le_refl _, fun id hid => ?_⟩
  rw [List.mem_singleton] at hid
  rw [hid]
  exact ha

/-- Under the scheduler invariant, cancelling the recorded callback leaves
none pending. -/
theorem SinglePending.filter_eq_nil {w : World} (h : SinglePending w) (id : ℕ)
    (ha : w.animationFrameId = some id) :
    w.pendingFrames.filter (fun j => j != id) = [] := by
  rw [List.filter_eq_nil_iff]
  intro j hj
  have e := h.2 j hj
  rw [ha, Option.some.injEq] at e
  simp [e]

/-- Under the scheduler invariant, nothing is pending when `animationFrameId`
is null. -/
theorem SinglePending.nil_of_none {w : World} (h : SinglePending w)
    (ha : w.animationFrameId = none) : w.pendingFrames = [] := by
  cases hp : w.pendingFrames with
  | nil => rfl
  | cons j l =>
    have e := h.2 j (by rw [hp]; exact List.mem_cons_self j l)
    rw [ha] at e
    cases e

/-- The function `GameLogic.reset` leaves the scheduler alone. -/
theorem reset_scheduler (w : World) :
    (GameLogic.reset w).pendingFrames = w.pendingFrames ∧
    (GameLogic.reset w).nextFrameId = w.nextFrameId ∧
    (GameLogic.reset w).animationFrameId = w.animationFrameId ∧
    (GameLogic.reset w).wasRunning = w.wasRunning := by
  simp only [GameLogic.reset]
  cases w.gameState.bird <;> cases w.gameState.background <;> exact ⟨rfl, rfl, rfl, rfl⟩

/-- The function `startGame` keeps the two invariants of the loop driver. -/
theorem startGame_invariant (now : ℚ) (w : World) (h : SinglePending w) (hb : LiveHasBird w) :
    SinglePending (startGame now w) ∧ LiveHasBird (startGame now w) := by
  by_cases ha : w.gameState.assetsLoaded = true
  · have hp : ∀ v : World, v.pendingFrames = [] →
        SinglePending
          { (requestAnimationFrame v).2 with
            animationFrameId := some (requestAnimationFrame v).1 } := by
      intro v hv
      apply singlePending_of_one _ v.nextFrameId
      · simp only [requestAnimationFrame, hv]
      · rfl
    simp only [startGame, ha, Bool.not_true, Bool.false_eq_true, if_false]
    constructor
    · apply hp
      cases hid : w.animationFrameId with
      | none =>
        simp only []
        exact (reset_scheduler w).1.trans (h.nil_of_none hid)
      | some id =>
        simp only []
        exact (reset_scheduler _).1.trans (h.filter_eq_nil id hid)
    · intro hnone
      simp only [requestAnimationFrame, emit] at hnone
      cases hnone
  · have e : startGame now w = w := by
      simp only [startGame]
      rw [if_pos (by simpa using ha)]
    rw [e]
    exact ⟨h, hb⟩

/-- The function `showStartMenu` keeps the two invariants of the loop
driver. -/
theorem showStartMenu_invariant (w : World) (h : SinglePending w) (hb : LiveHasBird w) :
    SinglePending (showStartMenu w) ∧ LiveHasBird (showStartMenu w) := by
  constructor
  · apply singlePending_of_nil
    simp only [showStartMenu, emit]
    cases hid : w.animationFrameId with
    | none => exact h.nil_of_none hid
    | some id => exact h.filter_eq_nil id hid
  · intro hnone
    have hn : w.gameState.bird = none := by
      simp only [showStartMenu, emit] at hnone
      cases hid : w.animationFrameId <;> rw [hid] at hnone <;> exact hnone
    obtain ⟨-, -, h3, h4⟩ := hb hn
    simp only [showStartMenu, emit]
    cases hid : w.animationFrameId <;> exact ⟨rfl, rfl, h3, h4⟩

/-- The step `if (animationFrameId === null) animationFrameId =
requestAnimationFrame(gameLoop)` keeps the scheduler invariant. -/
theorem requestIfNull_invariant (w : World) (h : SinglePending w) :
    SinglePending
      (match w.animationFrameId with
       | none => { (requestAnimationFrame w).2 with
                   animationFrameId := some (requestAnimationFrame w).1 }
       | some _ => w) := by
  cases hid : w.animationFrameId with
  | none =>
    apply singlePending_of_one _ w.nextFrameId
    · simp only [requestAnimationFrame, h.nil_of_none hid]
    · rfl
  | some id => exact h

/-- The function `togglePause` keeps the two invariants of the loop driver. -/
theorem togglePause_invariant (now : ℚ) (w : World) (h : SinglePending w)
    (hb : LiveHasBird w) :
    SinglePending (togglePause now w) ∧ LiveHasBird (togglePause now w) := by
  by_cases hg : (w.gameState.gameOver || (!w.gameState.running && !w.gameState.paused)) = true
  · have e : togglePause now w = w := by
      simp only [togglePause]
      rw [if_pos hg]
    rw [e]
    exact ⟨h, hb⟩
  · have hbird : ∃ b, w.gameState.bird = some b := by
      cases hbd : w.gameState.bird with
      | some b => exact ⟨b, rfl⟩
      | none =>
        obtain ⟨h1, h2, -, -⟩ := hb hbd
        exact absurd (by simp [h1, h2]) hg
    obtain ⟨b, hbd⟩ := hbird
    cases hp : w.gameState.paused with
    | false =>
      have e : togglePause now w =
          emit Effect.pauseMusic
            { w with gameState.paused := true, gameState.running := false } := by
        simp only [togglePause]
        rw [if_neg hg]
        simp only [hp, Bool.not_false, if_true]
      rw [e]
      exact ⟨h, fun hn => absurd (hbd.symm.trans hn) (by simp)⟩
    | true =>
      have h1 : SinglePending
          { w with gameState.paused := false, gameState.running := true,
                   effects := Effect.playMusic :: w.effects, lastTime := now } := h
      have h2 := requestIfNull_invariant _ h1
      have e : togglePause now w =
          (match w.animationFrameId with
           | none =>
             { (requestAnimationFrame
                 { w with gameState.paused := false, gameState.running := true,
                          effects := Effect.playMusic :: w.effects, lastTime := now }).2 with
               animationFrameId := some (requestAnimationFrame
                 { w with gameState.paused := false, gameState.running := true,
                          effects := Effect.playMusic :: w.effects, lastTime := now }).1 }
           | some _ =>
             { w with gameState.paused := false, gameState.running := true,
                      effects := Effect.playMusic :: w.effects, lastTime := now }) := by
        simp only [togglePause]
        rw [if_neg hg]
        simp only [hp, Bool.not_true, Bool.false_eq_true, if_false, emit]
      rw [e]
      refine ⟨h2, ?_⟩
      intro hn
      exfalso
      cases hid : w.animationFrameId <;> rw [hid] at hn <;>
        exact absurd (hbd.symm.trans hn) (by simp)

/-- The function `showSettingsMenu` keeps the two invariants of the loop
driver. -/
theorem showSettingsMenu_invariant (w : World) (h : SinglePending w) (hb : LiveHasBird w) :
    SinglePending (showSettingsMenu w) ∧ LiveHasBird (showSettingsMenu w) := by
  refine ⟨h, ?_⟩
  intro hn
  obtain ⟨h1, h2, h3, -⟩ := hb hn
  exact ⟨rfl, h2, h3, h1⟩

/-- The function `hideSettingsMenu` keeps the two invariants of the loop
driver. -/
theorem hideSettingsMenu_invariant (now : ℚ) (w : World) (h : SinglePending w)
    (hb : LiveHasBird w) :
    SinglePending (hideSettingsMenu now w) ∧ LiveHasBird (hideSettingsMenu now w) := by
  by_cases hc : (w.wasRunning && !w.gameState.gameOver) = true
  · have hbird : ∃ b, w.gameState.bird = some b := by
      cases hbd : w.gameState.bird with
      | some b => exact ⟨b, rfl⟩
      | none =>
        obtain ⟨-, -, -, h4⟩ := hb hbd
        rw [h4] at hc
        cases hc
    obtain ⟨b, hbd⟩ := hbird
    have h1 : SinglePending
        { w with gameState.running := true,
                 effects := Effect.playMusic :: w.effects, lastTime := now } := h
    have h2 := requestIfNull_invariant _ h1
    have e : hideSettingsMenu now w =
        (match w.animationFrameId with
         | none =>
           { (requestAnimationFrame
               { w with gameState.running := true,
                        effects := Effect.playMusic :: w.effects, lastTime := now }).2 with
             animationFrameId := some (requestAnimationFrame
               { w with gameState.running := true,
                        effects := Effect.playMusic :: w.effects, lastTime := now }).1 }
         | some _ =>
           { w with gameState.running := true,
                    effects := Effect.playMusic :: w.effects, lastTime := now }) := by
      simp only [hideSettingsMenu]
      rw [if_pos hc]
      simp only [emit]
    rw [e]
    refine ⟨h2, ?_⟩
    intro hn
    exfalso
    cases hid : w.animationFrameId <;> rw [hid] at hn <;>
      exact absurd (hbd.symm.trans hn) (by simp)
  · have e : hideSettingsMenu now w = w := by
      simp only [hideSettingsMenu]
      rw [if_neg hc]
    rw [e]
    exact ⟨h, hb⟩

/-- A frame of the scheduler returns and keeps the two invariants of the loop
driver. -/
theorem runFrame_invariant (t : Tick) (w : World) (h : SinglePending w) (hb : LiveHasBird w) :
    ∃ w1, runFrame t w = some w1 ∧ SinglePending w1 ∧ LiveHasBird w1 := by
  cases hl : w.pendingFrames.getLast? with
  | none =>
    refine ⟨w, ?_, h, hb⟩
    simp only [runFrame, hl]
  | some j =>
    have e : runFrame t w = gameLoop t { w with pendingFrames := w.pendingFrames.dropLast } := by
      simp only [runFrame, hl]
    have hdrop : w.pendingFrames.dropLast = [] := by
      have hlen := h.1
      cases hp : w.pendingFrames with
      | nil => rfl
      | cons a l =>
        cases l with
        | nil => rfl
        | cons b l2 =>
          rw [hp] at hlen
          simp only [List.length_cons] at hlen
          omega
    rw [e, hdrop]
    cases hbd : w.gameState.bird with
    | none =>
      obtain ⟨h1, h2, h3, h4⟩ := hb hbd
      refine ⟨{ w with pendingFrames := [], animationFrameId := none }, ?_, ?_, ?_⟩
      · simp only [gameLoop, h1, h3, Bool.not_false, Bool.and_self, if_true]
      · exact singlePending_of_nil _ rfl
      · exact fun _ => ⟨h1, h2, h3, h4⟩
    | some b =>
      obtain ⟨g1, g2⟩ := gameLoop_spec t { w with pendingFrames := [] }
      obtain ⟨w1, hw1⟩ := g2 b hbd
      obtain ⟨-, hk⟩ := g1 w1 hw1
      obtain ⟨b1, hb1⟩ := hk b hbd
      refine ⟨w1, hw1, ?_, fun hn => absurd (hb1.symm.trans hn) (by simp)⟩
      rcases gameLoop_scheduler t _ w1 hw1 with ⟨-, hs⟩ | ⟨hs1, hs2⟩
      · apply singlePending_of_nil
        rw [List.eq_nil_iff_forall_not_mem]
        intro id hid
        exact absurd (hs id hid) (List.not_mem_nil id)
      · exact singlePending_of_one _ _ hs2 hs1

/-- Every control event returns and keeps the two invariants of the loop
driver. -/
theorem control_invariant (c : Control) (w : World) (h : SinglePending w)
    (hb : LiveHasBird w) :
    ∃ w1, c.apply w = some w1 ∧ SinglePending w1 ∧ LiveHasBird w1 := by
  cases c with
  | startGame now => exact ⟨_, rfl, startGame_invariant now w h hb⟩
  | showStartMenu => exact ⟨_, rfl, showStartMenu_invariant w h hb⟩
  | togglePause now => exact ⟨_, rfl, togglePause_invariant now w h hb⟩
  | showSettingsMenu => exact ⟨_, rfl, showSettingsMenu_invariant w h hb⟩
  | hideSettingsMenu now => exact ⟨_, rfl, hideSettingsMenu_invariant now w h hb⟩
  | frame t => exact runFrame_invariant t w h hb

/-- C26: take a state in which at most one `gameLoop` callback is pending,
the one recorded in `animationFrameId`, and in which the game is live
(running, paused, dying or marked as running behind the settings menu) only
if there is a bird; the state in which the page is loaded is one.  Then every
sequence of calls of `startGame`, `showStartMenu`, `togglePause`,
`showSettingsMenu` and `hideSettingsMenu` and of frames of the scheduler runs
without a fault and ends in a state in which again at most one `gameLoop`
callback is pending, the one recorded in `animationFrameId`; so none is
pending when `animationFrameId` is null. -/
theorem single_loop (cs : List Control) (w0 : World) (h0 : SinglePending w0)
    (hb0 : LiveHasBird w0) :
    ∃ w, runControls cs w0 = some w ∧
      w.pendingFrames.length ≤ 1 ∧
      (∀ id ∈ w.pendingFrames, w.animationFrameId = some id) ∧
      (w.animationFrameId = none → w.pendingFrames = []) := by
  have key : ∀ (cs : List Control) (w0 : World), SinglePending w0 → LiveHasBird w0 →
      ∃ w, runControls cs w0 = some w ∧ SinglePending w := by
    intro cs
    induction cs with
    | nil =>
      intro w0 h0 _
      exact ⟨w0, rfl, h0⟩
    | cons c cs ih =>
      intro w0 h0 hb0
      obtain ⟨w1, e1, h1, hb1⟩ := control_invariant c w0 h0 hb0
      obtain ⟨w, e, h⟩ := ih w1 h1 hb1
      refine ⟨w, ?_, h⟩
      simp only [runControls, e1]
      exact e
  obtain ⟨w, e, h⟩ := key cs w0 h0 hb0
  exact ⟨w, e, h.1, h.2, h.nil_of_none⟩

/-- The sample run of control events, evaluated: it ends with the one
callback 4 pending and recorded. -/
theorem sample_controls_run :
    (runControls
        [Control.startGame 0,
         Control.frame { currentTime := 16, rPipe := 0.5, rCoin := 0.5, rSky := 0.5 },
         Control.togglePause 20, Control.togglePause 25,
         Control.frame { currentTime := 32, rPipe := 0.5, rCoin := 0.5, rSky := 0.5 },
         Control.startGame 40, Control.showSettingsMenu, Control.hideSettingsMenu 45,
         Control.frame { currentTime := 48, rPipe := 0.5, rCoin := 0.5, rSky := 0.5 }]
        loadedWorld).map (fun w => (w.pendingFrames, w.animationFrameId)) =
      some ([4], some 4) := by
  simp only [runControls, Control.apply, startGame, showSettingsMenu, hideSettingsMenu,
    togglePause, runFrame, loadedWorld, initialWorld, initialGameState, GameLogic.reset,
    requestAnimationFrame, cancelAnimationFrame, emit, Bird.new, Bird.reset, Background.reset]
  norm_num [gameLoop, normalUpdate, updateBird, groundCheck, GameLogic.updatePipes,
    GameLogic.updateCoins, GameLogic.updatePipesLoop, GameLogic.updateCoinsLoop,
    Bird.update, Utils.clamp, Math_PI, updateBackground, Background.update, pipeSpawnStep,
    coinSpawnStep, updateGrassScroll, renderAndContinue, requestAnimationFrame, emit,
    cancelAnimationFrame, GameLogic.reset, Bird.reset, Background.reset, Bird.new]

/-- C26, witness: from the state in which the page is loaded, a game is
started, runs a frame, is paused and resumed within one frame, runs a frame,
is started again over the pending callback, and goes behind the settings menu
and back; the callback 4 is then pending, and recorded. -/
theorem single_loop_witness :
    ∃ w, runControls
        [Control.startGame 0,
         Control.frame { currentTime := 16, rPipe := 0.5, rCoin := 0.5, rSky := 0.5 },
         Control.togglePause 20, Control.togglePause 25,
         Control.frame { currentTime := 32, rPipe := 0.5, rCoin := 0.5, rSky := 0.5 },
         Control.startGame 40, Control.showSettingsMenu, Control.hideSettingsMenu 45,
         Control.frame { currentTime := 48, rPipe := 0.5, rCoin := 0.5, rSky := 0.5 }]
        loadedWorld = some w ∧
      w.pendingFrames = [4] ∧ w.animationFrameId = some 4 ∧
      w.pendingFrames.length ≤ 1 ∧
      (∀ id ∈ w.pendingFrames, w.animationFrameId = some id) := by
  obtain ⟨w, h1, h2, h3, -⟩ := single_loop
    [Control.startGame 0,
     Control.frame { currentTime := 16, rPipe := 0.5, rCoin := 0.5, rSky := 0.5 },
     Control.togglePause 20, Control.togglePause 25,
     Control.frame { currentTime := 32, rPipe := 0.5, rCoin := 0.5, rSky := 0.5 },
     Control.startGame 40, Control.showSettingsMenu, Control.hideSettingsMenu 45,
     Control.frame { currentTime := 48, rPipe := 0.5, rCoin := 0.5, rSky := 0.5 }]
    loadedWorld (singlePending_of_nil _ rfl) (fun _ => ⟨rfl, rfl, rfl, rfl⟩)
  have h := sample_controls_run
  rw [h1] at h
  simp only [Option.map_some', Option.some.injEq, Prod.mk.injEq] at h
  exact ⟨w, h1, h.1, h.2, h2, h3⟩

/-! ## A tick without a bird -/

/-- The handler `handleFlap` keeps the two invariants of the loop driver. -/
theorem handleFlap_invariant (w w1 : World) (e : handleFlap w = some w1)
    (h : SinglePending w) (hb : LiveHasBird w) : SinglePending w1 ∧ LiveHasBird w1 := by
  unfold handleFlap at e
  split_ifs at e with hc
  · unfold Bird.flap at e
    cases hbird : w.gameState.bird with
    | none => rw [hbird] at e; cases e
    | some b =>
      rw [hbird] at e
      simp only [] at e
      split_ifs at e
      · cases e
        exact ⟨h, hb⟩
      · cases e
        refine ⟨h, ?_⟩
        intro hnone
        cases hnone
  · cases e
    exact ⟨h, hb⟩

/-- The function `changeDifficulty` keeps the two invariants of the loop
driver. -/
theorem changeDifficulty_invariant (difficulty : String) (w w1 : World)
    (e : changeDifficulty difficulty w = some w1)
    (h : SinglePending w) (hb : LiveHasBird w) : SinglePending w1 ∧ LiveHasBird w1 := by
  unfold changeDifficulty at e
  simp only [emit] at e
  cases hs : lookupSettings difficulty with
  | none => rw [hs] at e; cases e
  | some settings =>
    rw [hs] at e
    simp only [] at e
    cases hbird : w.gameState.bird with
    | none =>
      rw [hbird] at e
      simp only [] at e
      cases hbg : w.gameState.background with
      | none =>
        rw [hbg] at e
        cases e
        exact ⟨h, fun _ => hb hbird⟩
      | some bg =>
        rw [hbg] at e
        cases e
        exact ⟨h, fun _ => hb hbird⟩
    | some b =>
      rw [hbird] at e
      simp only [] at e
      cases hbg : w.gameState.background with
      | none =>
        rw [hbg] at e
        cases e
        exact ⟨h, fun hnone => by cases hnone⟩
      | some bg =>
        rw [hbg] at e
        cases e
        exact ⟨h, fun hnone => by cases hnone⟩

/-- The function `resetAllTimeHighScore` keeps the two invariants of the loop
driver. -/
theorem resetAllTimeHighScore_invariant (confirmed : Bool) (w : World)
    (h : SinglePending w) (hb : LiveHasBird w) :
    SinglePending (resetAllTimeHighScore confirmed w) ∧
    LiveHasBird (resetAllTimeHighScore confirmed w) := by
  cases confirmed
  · exact ⟨h, hb⟩
  · exact ⟨h, hb⟩

/-- The handler of the window's `resize` event keeps the two invariants of
the loop driver. -/
theorem resize_invariant (window : Window) (w : World)
    (h : SinglePending w) (hb : LiveHasBird w) :
    SinglePending (CanvasManager.resize window w) ∧
    LiveHasBird (CanvasManager.resize window w) := by
  cases hbird : w.gameState.bird with
  | none =>
    simp only [CanvasManager.resize, hbird]
    exact ⟨h, fun _ => hb hbird⟩
  | some b =>
    simp only [CanvasManager.resize, hbird]
    exact ⟨h, fun hnone => by cases hnone⟩

/-- Every event that returns keeps the two invariants of the loop driver. -/
theorem event_invariant (ev : Event) (w w1 : World) (e : ev.apply w = some w1)
    (h : SinglePending w) (hb : LiveHasBird w) : SinglePending w1 ∧ LiveHasBird w1 := by
  cases ev with
  | control c =>
    obtain ⟨w2, e2, h2, hb2⟩ := control_invariant c w h hb
    have e3 : c.apply w = some w1 := e
    rw [e2] at e3
    cases e3
    exact ⟨h2, hb2⟩
  | flap => exact handleFlap_invariant w w1 e h hb
  | restartGame now =>
    cases e
    exact startGame_invariant now w h hb
  | changeDifficulty difficulty => exact changeDifficulty_invariant difficulty w w1 e h hb
  | resetAllTimeHighScore confirmed =>
    cases e
    exact resetAllTimeHighScore_invariant confirmed w h hb
  | resize window =>
    cases e
    exact resize_invariant window w h hb

/-- Every run of events that returns keeps the two invariants of the loop
driver. -/
theorem runEvents_invariant (es : List Event) :
    ∀ w0 w : World, runEvents es w0 = some w → SinglePending w0 → LiveHasBird w0 →
      SinglePending w ∧ LiveHasBird w := by
  induction es with
  | nil =>
    intro w0 w e h hb
    cases e
    exact ⟨h, hb⟩
  | cons ev es ih =>
    intro w0 w e h hb
    simp only [runEvents] at e
    cases hev : ev.apply w0 with
    | none => rw [hev] at e; cases e
    | some w1 =>
      rw [hev] at e
      obtain ⟨h1, hb1⟩ := event_invariant ev w0 w1 hev h hb
      exact ih w1 w e h1 hb1

/-- The entry of the table of difficulties read for `"hard"`. -/
theorem lookupSettings_hard :
    lookupSettings "hard" =
      some { gravity := 0.5, pipeSpeed := 4, gap := 180, spawnInterval := 1000 } := rfl

/-- The sample run `menuEvents` from the loaded page, evaluated: it returns,
and there is still no bird. -/
theorem menu_run :
    (runEvents menuEvents loadedWorld).map (fun w => (w.gameState.bird,
      w.gameState.difficulty, w.gameState.physics.gravity)) = some (none, "hard", 0.5) := by
  simp only [runEvents, menuEvents, Event.apply, Control.apply, loadedWorld, initialWorld,
    initialGameState, showSettingsMenu, hideSettingsMenu, togglePause, handleFlap,
    changeDifficulty, lookupSettings_hard, resetAllTimeHighScore, CanvasManager.resize,
    runFrame, emit]
  norm_num

/-- C19: in every state that a run of events (calls of the control functions,
frames of the scheduler, flap inputs, restarts, changes of difficulty, resets
of the records, resizes of the window) reaches from a state in which the game
is live only with a bird, as the loaded page is, an absent bird
(`gameState.bird` null) means that the game is neither running nor dying, and
a tick of `gameLoop` then does not fault and makes no gameplay update: it
returns the state as it is, the bird, the pipes, the coins, the timers and the
scores included, with only `animationFrameId` cleared; the same holds of a
frame of the scheduler.  So no run enters the Running branch without a bird;
and in the Dying branch, whose bird block is guarded by
`if (gameState.bird)`, a tick without a bird does not fault either, in any
state, and leaves the pipes, the coins, the scores and the spawn timers as
they are. -/
theorem no_bird_tick (es : List Event) (w0 w : World) (t : Tick)
    (h0 : SinglePending w0) (hl0 : LiveHasBird w0) (hrun : runEvents es w0 = some w)
    (hb : w.gameState.bird = none) :
    w.gameState.running = false ∧ w.gameState.isDying = false ∧
    gameLoop t w = some { w with animationFrameId := none } ∧
    (∃ w1, gameLoop t w = some w1 ∧ w1.gameState = w.gameState ∧ w1.effects = w.effects ∧
      w1.lastTime = w.lastTime) ∧
    (∃ w1, runFrame t w = some w1 ∧ w1.gameState = w.gameState ∧ w1.effects = w.effects ∧
      w1.lastTime = w.lastTime) ∧
    (∀ v : World, v.gameState.bird = none → v.gameState.isDying = true →
      v.gameState.gameOver = false →
      ∃ v1, gameLoop t v = some v1 ∧ v1.gameState.bird = none ∧ Frozen v v1) := by
  obtain ⟨hs, hl⟩ := runEvents_invariant es w0 w hrun h0 hl0
  obtain ⟨h1, _, h3, _⟩ := hl hb
  have hg : gameLoop t w = some { w with animationFrameId := none } :=
    gameLoop_stopped t w h1 h3
  refine ⟨h1, h3, hg, ⟨_, hg, rfl, rfl, rfl⟩, ?_, ?_⟩
  · cases hp : w.pendingFrames.getLast? with
    | none =>
      refine ⟨w, ?_, rfl, rfl, rfl⟩
      simp only [runFrame, hp]
    | some j =>
      refine ⟨{ w with pendingFrames := w.pendingFrames.dropLast, animationFrameId := none },
        ?_, rfl, rfl, rfl⟩
      simp only [runFrame, hp]
      exact gameLoop_stopped t { w with pendingFrames := w.pendingFrames.dropLast } h1 h3
  · intro v hvb hd hgo
    have hbird : (dyingStage (t.currentTime - v.lastTime) (frameDt t.currentTime v.lastTime)
        { v with lastTime := t.currentTime }).gameState.bird = none := by
      rw [dyingStage_bird]
      simp only [dyingBirdStep, hvb]
    have hhit : hasHitGround (dyingStage (t.currentTime - v.lastTime)
        (frameDt t.currentTime v.lastTime) { v with lastTime := t.currentTime }) = false := by
      simp only [hasHitGround, hbird]
    obtain ⟨hfrozen, -⟩ := dyingStage_fields (t.currentTime - v.lastTime)
      (frameDt t.currentTime v.lastTime) { v with lastTime := t.currentTime }
    refine ⟨renderAndContinue (dyingStage (t.currentTime - v.lastTime)
      (frameDt t.currentTime v.lastTime) { v with lastTime := t.currentTime }), ?_, hbird,
      hfrozen⟩
    rw [gameLoop_dying t v ⟨hd, hgo⟩, hhit]
    simp only [Bool.false_eq_true, false_and, if_false]

/-- C19 on the sample run `menuEvents` from the loaded page: the run returns
a state without a bird, and a tick in that state returns it with only
`animationFrameId` cleared. -/
theorem no_bird_tick_witness :
    ∃ w, runEvents menuEvents loadedWorld = some w ∧ w.gameState.bird = none ∧
      w.gameState.running = false ∧ w.gameState.isDying = false ∧
      gameLoop { currentTime := 32, rPipe := 0.5, rCoin := 0.5, rSky := 0.5 } w =
        some { w with animationFrameId := none } := by
  have h := menu_run
  cases hr : runEvents menuEvents loadedWorld with
  | none => rw [hr] at h; cases h
  | some w =>
    rw [hr] at h
    simp only [Option.map_some', Option.some.injEq, Prod.mk.injEq] at h
    obtain ⟨g1, g2, g3, _⟩ := no_bird_tick menuEvents loadedWorld w
      { currentTime := 32, rPipe := 0.5, rCoin := 0.5, rSky := 0.5 }
      (singlePending_of_nil _ rfl) (fun _ => ⟨rfl, rfl, rfl, rfl⟩) hr h.1
    exact ⟨w, rfl, h.1, g1, g2, g3⟩

/-! ## The session best is never announced -/

/-- The condition `RecordOk` reads the scores only. -/
theorem RecordOk.of_scores {w w1 : World} (h : RecordOk w)
    (e : w1.gameState.scores = w.gameState.scores) : RecordOk w1 := by
  unfold RecordOk at h ⊢
  rw [e]
  exact h

/-- After `updateScore` the session best is not below the score. -/
theorem recordOk_updateScore (w : World) (h : 0 ≤ w.gameState.scores.session) :
    RecordOk (GameLogic.updateScore w) := by
  rw [updateScore_eq]
  exact ⟨Or.inl (le_max_right _ _), le_trans h (le_max_left _ _)⟩

/-- After `finishGameOver` the session best is not below the score, if that
was so before or the game was not over. -/
theorem recordOk_finishGameOver (w : World) (h : RecordOk w) :
    RecordOk (GameLogic.finishGameOver w) := by
  cases hg : w.gameState.gameOver with
  | true =>
    have e : GameLogic.finishGameOver w = w := by
      simp only [GameLogic.finishGameOver, hg, if_true]
    rw [e]
    exact h
  | false =>
    rw [finishGameOver_eq w hg]
    exact ⟨Or.inl (le_max_right _ _), le_trans h.2 (le_max_left _ _)⟩

/-- The function `GameLogic.reset` sets the score to 0 and leaves the two
records alone. -/
theorem recordOk_reset (w : World) (h : RecordOk w) : RecordOk (GameLogic.reset w) := by
  have e : (GameLogic.reset w).gameState.scores.overall = 0 ∧
      (GameLogic.reset w).gameState.scores.session = w.gameState.scores.session := by
    simp only [GameLogic.reset]
    cases w.gameState.bird <;> cases w.gameState.background <;> exact ⟨rfl, rfl⟩
  unfold RecordOk
  rw [e.1, e.2]
  exact ⟨Or.inl h.2, h.2⟩

/-- The function `startGame` resets the score, or does nothing. -/
theorem recordOk_startGame (now : ℚ) (w : World) (h : RecordOk w) :
    RecordOk (startGame now w) := by
  simp only [startGame]
  split_ifs
  · exact h
  · cases w.animationFrameId with
    | none =>
      have h1 := recordOk_reset w h
      exact h1
    | some id =>
      have h0 : RecordOk { cancelAnimationFrame id w with animationFrameId := none } := h
      have h1 := recordOk_reset _ h0
      exact h1

/-- The function `resetAllTimeHighScore` zeroes both records together. -/
theorem recordOk_resetAllTimeHighScore (confirmed : Bool) (w : World) (h : RecordOk w) :
    RecordOk (resetAllTimeHighScore confirmed w) := by
  cases confirmed with
  | false => exact h
  | true =>
    refine ⟨?_, le_refl _⟩
    by_cases h0 : w.gameState.scores.overall ≤ 0
    · left
      exact h0
    · right
      exact not_le.mp h0

/-- The loop of `updatePipes` keeps `RecordOk`. -/
theorem updatePipesLoop_recordOk (dt : ℚ) (n : ℕ) :
    ∀ (w : World) (r : World × Bool), GameLogic.updatePipesLoop dt n w = some r →
      RecordOk w → RecordOk r.1 := by
  induction n with
  | zero =>
    intro w r e h
    simp only [GameLogic.updatePipesLoop, Option.some.injEq] at e
    rw [← e]
    exact h
  | succ i ih =>
    intro w r e h
    rw [GameLogic.updatePipesLoop] at e
    split at e
    · cases e
    · simp only [] at e
      split_ifs at e with hoff
      · have h1 := ih _ _ e
        exact h1 h
      · split at e
        · cases e
        · simp only [Option.some.injEq] at e
          rw [← e]
          exact RecordOk.of_scores h (startDeathAnimation_frame _).2.2.1
        · split at e
          · cases e
          · have h1 := ih _ _ e
            apply h1
            apply recordOk_updateScore
            exact h.2
          · have h1 := ih _ _ e
            exact h1 h

/-- The loop of `updateCoins` keeps `RecordOk`. -/
theorem updateCoinsLoop_recordOk (dt : ℚ) (n : ℕ) :
    ∀ w w1 : World, GameLogic.updateCoinsLoop dt n w = some w1 →
      RecordOk w → RecordOk w1 := by
  induction n with
  | zero =>
    intro w w1 e h
    simp only [GameLogic.updateCoinsLoop, Option.some.injEq] at e
    rw [← e]
    exact h
  | succ i ih =>
    intro w w1 e h
    rw [GameLogic.updateCoinsLoop] at e
    split at e
    · cases e
    · simp only [] at e
      split_ifs at e with hoff
      · have h1 := ih _ _ e
        exact h1 h
      · split at e
        · cases e
        · split_ifs at e with hcol
          · have h1 := ih _ _ e
            apply h1
            rw [updateScore_eq]
            exact ⟨Or.inl (le_max_right _ _), le_trans h.2 (le_max_left _ _)⟩
          · have h1 := ih _ _ e
            exact h1 h

/-- The normal branch of `gameLoop` keeps `RecordOk`. -/
theorem normalUpdate_recordOk (t : Tick) (deltaTime dt : ℚ) (w w1 : World)
    (e : normalUpdate t deltaTime dt w = some w1) (h : RecordOk w) : RecordOk w1 := by
  unfold normalUpdate at e
  cases ha : updateBird dt w with
  | none => rw [ha] at e; cases e
  | some wa =>
    rw [ha] at e
    simp only [] at e
    have h1 : RecordOk wa := by
      unfold updateBird at ha
      cases hb : w.gameState.bird with
      | none => rw [hb] at ha; cases ha
      | some b =>
        rw [hb] at ha
        simp only [Option.some.injEq] at ha
        rw [← ha]
        exact h
    cases hg : groundCheck wa with
    | none => rw [hg] at e; cases e
    | some wb =>
      rw [hg] at e
      simp only [] at e
      have h2 : RecordOk wb := by
        unfold groundCheck at hg
        cases hb : wa.gameState.bird with
        | none => rw [hb] at hg; cases hg
        | some b =>
          rw [hb] at hg
          simp only [] at hg
          split_ifs at hg
          · simp only [Option.some.injEq] at hg
            rw [← hg]
            exact RecordOk.of_scores h1 (startDeathAnimation_frame wa).2.2.1
          · simp only [Option.some.injEq] at hg
            rw [← hg]
            exact h1
      have h3 : RecordOk (pipeSpawnStep t deltaTime (updateBackground dt wb)) := by
        apply RecordOk.of_scores h2
        have e1 : (updateBackground dt wb).gameState.scores = wb.gameState.scores := by
          have e2 := congrArg (fun x : World => x.gameState.scores)
            (eraseScenery_updateBackground dt wb)
          exact e2
        rw [← e1]
        simp only [pipeSpawnStep]
        split_ifs <;> rfl
      cases hp : GameLogic.updatePipes dt (pipeSpawnStep t deltaTime (updateBackground dt wb)) with
      | none => rw [hp] at e; cases e
      | some r =>
        rw [hp] at e
        simp only [] at e
        have h4 : RecordOk r.1 := updatePipesLoop_recordOk dt _ _ r hp h3
        have h5 : RecordOk (coinSpawnStep t deltaTime r.1) := by
          apply RecordOk.of_scores h4
          simp only [coinSpawnStep, GameLogic.spawnSkyCoin]
          split_ifs <;> rfl
        cases hc : GameLogic.updateCoins dt (coinSpawnStep t deltaTime r.1) with
        | none => rw [hc] at e; cases e
        | some wd =>
          rw [hc] at e
          simp only [Option.some.injEq] at e
          have h6 : RecordOk wd := updateCoinsLoop_recordOk dt _ _ wd hc h5
          rw [← e]
          apply RecordOk.of_scores h6
          have e2 := congrArg (fun x : World => x.gameState.scores)
            (eraseScenery_updateGrassScroll dt wd)
          exact e2

/-- A tick of `gameLoop` keeps `RecordOk`. -/
theorem gameLoop_recordOk (t : Tick) (w w1 : World) (e : gameLoop t w = some w1)
    (h : RecordOk w) : RecordOk w1 := by
  by_cases hd : w.gameState.isDying = true ∧ w.gameState.gameOver = false
  · rw [gameLoop_dying t w hd] at e
    have hs := (dyingStage_fields (t.currentTime - w.lastTime)
      (frameDt t.currentTime w.lastTime) { w with lastTime := t.currentTime }).2.2.2.2.1
    have h1 : RecordOk (dyingStage (t.currentTime - w.lastTime)
        (frameDt t.currentTime w.lastTime) { w with lastTime := t.currentTime }) :=
      RecordOk.of_scores h hs
    split_ifs at e
    · simp only [Option.some.injEq] at e
      rw [← e]
      exact recordOk_finishGameOver _ h1
    · simp only [Option.some.injEq] at e
      rw [← e]
      exact h1
  · rw [gameLoop_frameDt] at e
    by_cases h1 : (!w.gameState.running && !w.gameState.isDying) = true
    · rw [if_pos h1] at e
      simp only [Option.some.injEq] at e
      rw [← e]
      exact h
    · have h2 : ¬ (w.gameState.isDying && !w.gameState.gameOver) = true := by
        intro hh
        apply hd
        simpa using hh
      rw [if_neg h1, if_neg h2] at e
      split_ifs at e
      · cases hn : normalUpdate t (t.currentTime - w.lastTime)
            (frameDt t.currentTime w.lastTime) { w with lastTime := t.currentTime } with
        | none => rw [hn] at e; cases e
        | some w2 =>
          rw [hn] at e
          simp only [Option.map_some', Option.some.injEq] at e
          have h3 : RecordOk w2 := normalUpdate_recordOk _ _ _ _ w2 hn h
          rw [← e]
          exact h3
      · simp only [Option.some.injEq] at e
        rw [← e]
        exact h

/-- Every score operation keeps `RecordOk`. -/
theorem scoreOp_recordOk (op : ScoreOp) (w w1 : World) (e : op.apply w = some w1)
    (h : RecordOk w) : RecordOk w1 := by
  cases op with
  | tick t => exact gameLoop_recordOk t w w1 e h
  | updateScore =>
    simp only [ScoreOp.apply, Option.some.injEq] at e
    rw [← e]
    exact recordOk_updateScore w h.2
  | reset =>
    simp only [ScoreOp.apply, Option.some.injEq] at e
    rw [← e]
    exact recordOk_reset w h
  | finishGameOver =>
    simp only [ScoreOp.apply, Option.some.injEq] at e
    rw [← e]
    exact recordOk_finishGameOver w h
  | resetAllTimeHighScore confirmed =>
    simp only [ScoreOp.apply, Option.some.injEq] at e
    rw [← e]
    exact recordOk_resetAllTimeHighScore confirmed w h
  | startGame now =>
    simp only [ScoreOp.apply, Option.some.injEq] at e
    rw [← e]
    exact recordOk_startGame now w h
  | flap =>
    simp only [ScoreOp.apply, Bird.flap] at e
    cases hb : w.gameState.bird with
    | none => rw [hb] at e; cases e
    | some b =>
      rw [hb] at e
      simp only [] at e
      split_ifs at e
      · simp only [Option.some.injEq] at e
        rw [← e]
        exact h
      · simp only [Option.some.injEq] at e
        rw [← e]
        exact h

/-- Any run of score operations keeps `RecordOk`. -/
theorem runScoreOps_recordOk (ops : List ScoreOp) :
    ∀ w w1 : World, runScoreOps ops w = some w1 → RecordOk w → RecordOk w1 := by
  induction ops with
  | nil =>
    intro w w1 e h
    simp only [runScoreOps, Option.some.injEq] at e
    rw [← e]
    exact h
  | cons op ops ih =>
    intro w w1 e h
    simp only [runScoreOps] at e
    cases ho : op.apply w with
    | none => rw [ho] at e; cases e
    | some w2 =>
      rw [ho] at e
      exact ih w2 w1 e (scoreOp_recordOk op w w2 ho h)

/-- C27: take a state in which the session best is not negative and is
below the score only if the all-time best is below it too, as when all scores
are 0.  In every state reached from it by ticks of `gameLoop` and calls of
`updateScore`, `GameLogic.reset`, `finishGameOver` and
`resetAllTimeHighScore` (and of `startGame` and flaps), either
`session ≥ overall` or `allTime < overall`; so, called there on a game that
is not over, `finishGameOver` passes `isNewHighScore = false` to the
game-over screen. -/
theorem session_best_never_announced (ops : List ScoreOp) (w0 w : World)
    (h0 : w0.gameState.scores.session ≥ w0.gameState.scores.overall ∨
      w0.gameState.scores.allTime < w0.gameState.scores.overall)
    (hs : 0 ≤ w0.gameState.scores.session)
    (hrun : runScoreOps ops w0 = some w) :
    (w.gameState.scores.session ≥ w.gameState.scores.overall ∨
      w.gameState.scores.allTime < w.gameState.scores.overall) ∧
    (w.gameState.gameOver = false →
      ∃ isNewAllTimeHighScore stored,
        (GameLogic.finishGameOver w).effects =
          Effect.showGameOver false isNewAllTimeHighScore :: (stored ++ w.effects)) := by
  have h := runScoreOps_recordOk ops w0 w hrun ⟨h0, hs⟩
  refine ⟨h.1, ?_⟩
  intro hg
  have hflag : (decide (w.gameState.scores.overall > w.gameState.scores.session) &&
      !decide (w.gameState.scores.overall > w.gameState.scores.allTime)) = false := by
    rcases h.1 with h1 | h1
    · have hn : ¬ w.gameState.scores.overall > w.gameState.scores.session := not_lt.mpr h1
      simp [hn]
    · simp [h1]
  refine ⟨decide (w.gameState.scores.overall > w.gameState.scores.allTime),
    if w.gameState.scores.overall > w.gameState.scores.allTime then
      [Effect.storeHighScore w.gameState.scores.overall] else [], ?_⟩
  rw [finishGameOver_eq w hg]
  simp only [hflag]

/-- One running tick on the sample state, evaluated: the score goes from 0
to 11, and so does the session best; the game is not over. -/
theorem sample_tick_record :
    (gameLoop { currentTime := 1016.67, rPipe := 0.5, rCoin := 0.5, rSky := 0.5 }
      sampleWorld).map (fun w => (w.gameState.scores, w.gameState.gameOver)) =
    some ({ overall := 11, pipes := 1, coins := 10, session := 11, allTime := 0 }, false) := by
  simp only [gameLoop, sampleWorld, initialGameState, normalUpdate, updateBird, groundCheck,
    GameLogic.updatePipes, GameLogic.updateCoins, List.length_cons, List.length_nil]
  norm_num [GameLogic.updatePipesLoop, GameLogic.updateCoinsLoop, Pipe.update, Pipe.isOffScreen,
    GameLogic.checkPipeCollision, GameLogic.passedTest, GameLogic.updateScore, Bird.getBounds,
    Bird.update, Utils.clamp, Math_PI, updateBackground, Background.update, pipeSpawnStep,
    coinSpawnStep, updateGrassScroll, renderAndContinue, requestAnimationFrame, emit,
    Coin.update, Coin.isOffScreen, Coin.checkCollision, sqrtLt, GameLogic.collect,
    GameLogic.startDeathAnimation]

/-- C27, witness: on the sample state, where all scores are 0, a tick takes
the score and the session best to 11; then both records are reset.  The
session best, 0, is now below the score, and so is the all-time best: a game
over here announces an all-time record and no session record. -/
theorem session_best_never_announced_witness :
    ∃ w, runScoreOps
        [ScoreOp.tick { currentTime := 1016.67, rPipe := 0.5, rCoin := 0.5, rSky := 0.5 },
         ScoreOp.resetAllTimeHighScore true] sampleWorld = some w ∧
      w.gameState.scores =
        { overall := 11, pipes := 1, coins := 10, session := 0, allTime := 0 } ∧
      (w.gameState.scores.session ≥ w.gameState.scores.overall ∨
        w.gameState.scores.allTime < w.gameState.scores.overall) ∧
      ∃ isNewAllTimeHighScore stored,
        (GameLogic.finishGameOver w).effects =
          Effect.showGameOver false isNewAllTimeHighScore :: (stored ++ w.effects) := by
  obtain ⟨w1, hw1⟩ := (gameLoop_spec
    { currentTime := 1016.67, rPipe := 0.5, rCoin := 0.5, rSky := 0.5 } sampleWorld).2 _ rfl
  have hrec := sample_tick_record
  rw [hw1] at hrec
  simp only [Option.map_some', Option.some.injEq, Prod.mk.injEq] at hrec
  have hrun : runScoreOps
      [ScoreOp.tick { currentTime := 1016.67, rPipe := 0.5, rCoin := 0.5, rSky := 0.5 },
       ScoreOp.resetAllTimeHighScore true] sampleWorld =
      some (resetAllTimeHighScore true w1) := by
    simp only [runScoreOps, ScoreOp.apply, hw1]
  obtain ⟨h1, h2⟩ := session_best_never_announced _ sampleWorld _ (Or.inl (le_refl _))
    (le_refl _) hrun
  refine ⟨_, hrun, ?_, h1, h2 hrec.2⟩
  simp only [resetAllTimeHighScore, emit, if_true, hrec.1]

end Flappy
